import Mathlib

/-! PBS reservation routines of `src/pbs.cpp`.

A shallow embedding of the path-based-signalling support routines
(`GetReservedTrackbits`, `SetRailStationPlatformReservation`,
`TryReserveRailTrack`, `UnreserveRailTrack`, `FollowReservation`,
`FollowTrainReservation`, `GetTrainForReservation`, `CheckWaitingPosition`)
over an explicit model of the tile store, of the positions of
`src/pathfinder/pathfinder_type.h`, and of the widget routines of
`src/widget.cpp` (`ScrollbarClickHandler`, `ResizeButtons`, the horizontal and
vertical containers of nested widgets), followed by theorems about them.

Conventions used throughout:

* the global tile array and the few globals the routines touch are bundled
  in `State`; every mutating routine takes a `State` and returns the new one;
* a failing `assert` makes a routine return `none`;
* loops whose termination is not evident from the code take a `fuel`
  argument and return `none` when it runs out;
* helpers that live in headers outside `src/pbs.cpp` are either fields of the
  model (plain map accessors) or are marked `Modelled from the spec:`;
* machine integers are `Nat` and `Int` with the conversions `toByte`,
  `toInt16`, `toUint16`, `toUint` and `toInt32` written out where the code
  stores a value in a narrower type or computes with 32 bit numbers.
-/

namespace PBS

/-! ## Tracks, track bits and directions -/

/-- The six tracks of a tile (`enum Track`). -/
inductive Track
  | TRACK_X | TRACK_Y | TRACK_UPPER | TRACK_LOWER | TRACK_LEFT | TRACK_RIGHT
  deriving DecidableEq, Repr, Fintype

/-- A set of tracks as a bit mask (`enum TrackBits`); only the six track bits
    (`TRACK_BIT_MASK = 0x3F`) are kept. -/
abbrev TrackBits := Fin 64

def TRACK_BIT_NONE : TrackBits := 0
def TRACK_BIT_X : TrackBits := 1
def TRACK_BIT_Y : TrackBits := 2
def TRACK_BIT_UPPER : TrackBits := 4
def TRACK_BIT_LOWER : TrackBits := 8
def TRACK_BIT_LEFT : TrackBits := 16
def TRACK_BIT_RIGHT : TrackBits := 32
def TRACK_BIT_HORZ : TrackBits := 12
def TRACK_BIT_VERT : TrackBits := 48
def TRACK_BIT_MASK : TrackBits := 63

/-- Modelled from the spec: `TrackToTrackBits` of `track_func.h` (not among the
    sources), the bit `1 << track` of a track. -/
def TrackToTrackBits : Track → TrackBits
  | .TRACK_X => TRACK_BIT_X
  | .TRACK_Y => TRACK_BIT_Y
  | .TRACK_UPPER => TRACK_BIT_UPPER
  | .TRACK_LOWER => TRACK_BIT_LOWER
  | .TRACK_LEFT => TRACK_BIT_LEFT
  | .TRACK_RIGHT => TRACK_BIT_RIGHT

/-- The test `HasBit(bits, track)`. -/
def HasTrackBit (bits : TrackBits) (t : Track) : Bool :=
  (bits &&& TrackToTrackBits t) != TRACK_BIT_NONE

/-- The helper `KillFirstBit(x) = x & (x - 1)`: clears the lowest set bit. -/
def KillFirstBit (x : TrackBits) : TrackBits := x &&& (x - 1)

/-- Modelled from the spec: `TracksOverlap` of `track_func.h` (not among the
    sources). The spec speaks of tracks "overlapping on the same tile" and the
    source comment of a track that "didn't cross any other reserved tracks":
    no track or a single track never overlaps; two or more tracks overlap
    unless they are the two parallel tracks upper/lower or left/right. -/
def TracksOverlap (bits : TrackBits) : Bool :=
  if bits == TRACK_BIT_NONE || KillFirstBit bits == TRACK_BIT_NONE then false
  else bits != TRACK_BIT_HORZ && bits != TRACK_BIT_VERT

/-- Modelled from the spec: `TrackOverlapsTracks` of `track_func.h` (not among
    the sources): a track overlaps a set of tracks when it is in the set or
    when adding it makes the set overlap. -/
def TrackOverlapsTracks (tracks : TrackBits) (track : Track) : Bool :=
  if HasTrackBit tracks track then true
  else TracksOverlap (tracks ||| TrackToTrackBits track)

/-- Two tracks cross each other on a tile: they are different and are not
    one of the two parallel pairs. -/
def TracksCross (a b : Track) : Bool :=
  a != b && TracksOverlap (TrackToTrackBits a ||| TrackToTrackBits b)

/-- The two axes (`enum Axis`). -/
inductive Axis
  | AXIS_X | AXIS_Y
  deriving DecidableEq, Repr, Fintype

/-- The four diagonal directions (`enum DiagDirection`). -/
inductive DiagDirection
  | DIAGDIR_NE | DIAGDIR_SE | DIAGDIR_SW | DIAGDIR_NW
  deriving DecidableEq, Repr, Fintype

def DiagDirToAxis : DiagDirection → Axis
  | .DIAGDIR_NE => .AXIS_X
  | .DIAGDIR_SE => .AXIS_Y
  | .DIAGDIR_SW => .AXIS_X
  | .DIAGDIR_NW => .AXIS_Y

def AxisToTrackBits : Axis → TrackBits
  | .AXIS_X => TRACK_BIT_X
  | .AXIS_Y => TRACK_BIT_Y

def DiagDirToDiagTrackBits (d : DiagDirection) : TrackBits :=
  AxisToTrackBits (DiagDirToAxis d)

/-- The directed tracks (`enum Trackdir`); `INVALID_TRACKDIR` also stands for
    the two unused values 6 and 7. -/
inductive Trackdir
  | TRACKDIR_X_NE | TRACKDIR_Y_SE | TRACKDIR_UPPER_E | TRACKDIR_LOWER_E | TRACKDIR_LEFT_S
  | TRACKDIR_RIGHT_S | TRACKDIR_X_SW | TRACKDIR_Y_NW | TRACKDIR_UPPER_W | TRACKDIR_LOWER_W
  | TRACKDIR_LEFT_N | TRACKDIR_RIGHT_N | INVALID_TRACKDIR
  deriving DecidableEq, Repr, Fintype

/-- The numeric value of a trackdir (`INVALID_TRACKDIR = 0xFF`). -/
def TrackdirValue : Trackdir → Nat
  | .TRACKDIR_X_NE => 0 | .TRACKDIR_Y_SE => 1 | .TRACKDIR_UPPER_E => 2 | .TRACKDIR_LOWER_E => 3
  | .TRACKDIR_LEFT_S => 4 | .TRACKDIR_RIGHT_S => 5 | .TRACKDIR_X_SW => 8 | .TRACKDIR_Y_NW => 9
  | .TRACKDIR_UPPER_W => 10 | .TRACKDIR_LOWER_W => 11 | .TRACKDIR_LEFT_N => 12
  | .TRACKDIR_RIGHT_N => 13 | .INVALID_TRACKDIR => 255

/-- The trackdir with a numeric value. -/
def TrackdirOfValue : Nat → Trackdir
  | 0 => .TRACKDIR_X_NE | 1 => .TRACKDIR_Y_SE | 2 => .TRACKDIR_UPPER_E | 3 => .TRACKDIR_LOWER_E
  | 4 => .TRACKDIR_LEFT_S | 5 => .TRACKDIR_RIGHT_S | 8 => .TRACKDIR_X_SW | 9 => .TRACKDIR_Y_NW
  | 10 => .TRACKDIR_UPPER_W | 11 => .TRACKDIR_LOWER_W | 12 => .TRACKDIR_LEFT_N
  | 13 => .TRACKDIR_RIGHT_N | _ => .INVALID_TRACKDIR

/-- The track of a trackdir (`TrackdirToTrack`, value `& 7`); none for
    `INVALID_TRACKDIR`. -/
def TrackdirToTrack : Trackdir → Option Track
  | .TRACKDIR_X_NE | .TRACKDIR_X_SW => some .TRACK_X
  | .TRACKDIR_Y_SE | .TRACKDIR_Y_NW => some .TRACK_Y
  | .TRACKDIR_UPPER_E | .TRACKDIR_UPPER_W => some .TRACK_UPPER
  | .TRACKDIR_LOWER_E | .TRACKDIR_LOWER_W => some .TRACK_LOWER
  | .TRACKDIR_LEFT_S | .TRACKDIR_LEFT_N => some .TRACK_LEFT
  | .TRACKDIR_RIGHT_S | .TRACKDIR_RIGHT_N => some .TRACK_RIGHT
  | .INVALID_TRACKDIR => none

/-- The opposite direction on the same track (`ReverseTrackdir`, value `^ 8`). -/
def ReverseTrackdir : Trackdir → Trackdir
  | .TRACKDIR_X_NE => .TRACKDIR_X_SW | .TRACKDIR_X_SW => .TRACKDIR_X_NE
  | .TRACKDIR_Y_SE => .TRACKDIR_Y_NW | .TRACKDIR_Y_NW => .TRACKDIR_Y_SE
  | .TRACKDIR_UPPER_E => .TRACKDIR_UPPER_W | .TRACKDIR_UPPER_W => .TRACKDIR_UPPER_E
  | .TRACKDIR_LOWER_E => .TRACKDIR_LOWER_W | .TRACKDIR_LOWER_W => .TRACKDIR_LOWER_E
  | .TRACKDIR_LEFT_S => .TRACKDIR_LEFT_N | .TRACKDIR_LEFT_N => .TRACKDIR_LEFT_S
  | .TRACKDIR_RIGHT_S => .TRACKDIR_RIGHT_N | .TRACKDIR_RIGHT_N => .TRACKDIR_RIGHT_S
  | .INVALID_TRACKDIR => .INVALID_TRACKDIR

/-- A set of trackdirs as a bit mask (`enum TrackdirBits`, 16 bits). -/
abbrev TrackdirBits := Nat

def TRACKDIR_BIT_NONE : TrackdirBits := 0

/-- The bit `1 << trackdir` (`TrackdirToTrackdirBits`). -/
def TrackdirToTrackdirBits (td : Trackdir) : TrackdirBits := 2 ^ TrackdirValue td % 65536

/-- Both directions of every track of a set (`TrackBitsToTrackdirBits`,
    `bits * 0x101`). -/
def TrackBitsToTrackdirBits (bits : TrackBits) : TrackdirBits := bits.val * 257

/-- The helper `KillFirstBit` on trackdir bits. -/
def KillFirstTrackdirBit (x : TrackdirBits) : TrackdirBits := x &&& (x - 1)

/-- The position of the lowest set bit among the 16 bits of a mask. -/
def FindFirstBit (x : TrackdirBits) : Nat :=
  ((List.range 16).find? fun i => x.testBit i).getD 0

/-- The first trackdir of a set (`FindFirstTrackdir`), `INVALID_TRACKDIR` for
    the empty set. -/
def FindFirstTrackdir (trackdirs : TrackdirBits) : Trackdir :=
  if trackdirs != TRACKDIR_BIT_NONE then TrackdirOfValue (FindFirstBit trackdirs)
  else .INVALID_TRACKDIR

/-- The signal kinds (`enum SignalType`). -/
inductive SignalType
  | SIGTYPE_NORMAL | SIGTYPE_ENTRY | SIGTYPE_EXIT | SIGTYPE_COMBO | SIGTYPE_PBS
  | SIGTYPE_PBS_ONEWAY
  deriving DecidableEq, Repr, Fintype

def IsPbsSignal (t : SignalType) : Bool := t == .SIGTYPE_PBS || t == .SIGTYPE_PBS_ONEWAY

/-! ## The tile store -/

/-- The tile classes the routines dispatch on (`enum TileType`). -/
inductive TileType
  | TT_GROUND | TT_OBJECT | TT_WATER | TT_RAILWAY | TT_ROAD | TT_MISC | TT_STATION
  | TT_HOUSE | TT_INDUSTRY
  deriving DecidableEq, Repr

/-- The subtypes of a `TT_MISC` tile (`enum TileSubtype`). -/
inductive TileSubtype
  | TT_MISC_CROSSING | TT_MISC_AQUEDUCT | TT_MISC_TUNNEL | TT_MISC_DEPOT
  deriving DecidableEq, Repr

inductive TransportType
  | TRANSPORT_RAIL | TRANSPORT_ROAD | TRANSPORT_WATER | TRANSPORT_AIR
  deriving DecidableEq, Repr

inductive StationType
  | STATION_RAIL | STATION_AIRPORT | STATION_TRUCK | STATION_BUS | STATION_OILRIG
  | STATION_DOCK | STATION_BUOY | STATION_WAYPOINT
  deriving DecidableEq, Repr

/-- Index of a tile in the map array (`TileIndex`, a 32 bit unsigned). -/
abbrev TileIndex := Nat

/-- Signed difference of two tile indices (`TileIndexDiff`). -/
abbrev TileIndexDiff := Int

/-- The contents of one map cell, one field per map accessor the routines
    use. The accessors of a tile class are only consulted by the code after the
    class has been checked. -/
structure Tile where
  /-- Read by `GetTileType`. -/
  type : TileType
  /-- Read by `GetTileSubtype`. -/
  subtype : TileSubtype
  /-- Read by `GetTileRailwayStatus`: the tracks the tile carries. The function
      is not among the sources and is taken as given data. -/
  railway_status : TrackBits
  /-- Read by `GetRailReservationTrackBits` (railway tiles). -/
  rail_reservation : TrackBits
  /-- Read by `GetCrossingRailAxis`. -/
  crossing_axis : Axis
  /-- Read by `HasCrossingReservation`. -/
  crossing_reserved : Bool
  /-- Read by `IsCrossingBarred`. -/
  crossing_barred : Bool
  /-- Read by `GetTunnelTransportType`. -/
  tunnel_transport : TransportType
  /-- Read by `GetTunnelBridgeDirection`. -/
  tunnel_dir : DiagDirection
  /-- Read by `HasTunnelHeadReservation`. -/
  tunnel_head_reserved : Bool
  /-- Read by `IsRailDepot`. -/
  depot_is_rail : Bool
  /-- Read by `GetGroundDepotDirection`. -/
  depot_dir : DiagDirection
  /-- Read by `HasDepotReservation`. -/
  depot_reserved : Bool
  /-- Read by `GetStationType`. -/
  station_type : StationType
  /-- Read by `GetRailStationAxis`. -/
  station_axis : Axis
  /-- Read by `HasStationReservation`. -/
  station_reserved : Bool
  deriving DecidableEq, Repr

/-- The reservation part of a map cell: the rail reservation bits and the four
    single reservation flags. -/
structure Reservation where
  rail : TrackBits
  crossing : Bool
  tunnel_head : Bool
  depot : Bool
  station : Bool
  deriving DecidableEq, Repr

def Tile.reservation (c : Tile) : Reservation :=
  ⟨c.rail_reservation, c.crossing_reserved, c.tunnel_head_reserved, c.depot_reserved,
    c.station_reserved⟩

abbrev Owner := Nat
abbrev RailType := Nat
abbrev RailTypes := Nat
abbrev VehicleID := Nat

/-- The part of the game state the routines read and write. -/
structure State where
  /-- The map array `_m`. -/
  tiles : TileIndex → Tile
  /-- The value of `MapSizeX()`. -/
  map_size_x : Nat
  /-- The setting `_settings_client.gui.show_track_reservation`. -/
  show_track_reservation : Bool
  /-- Whether a train is on or approaching a level crossing, as
      `UpdateLevelCrossing` finds out from the vehicle pool. -/
  train_near_crossing : TileIndex → Bool
  /-- Whether two rail station tiles belong to the same station and have
      compatible rail types, as `IsCompatibleTrainStationTile` finds out from the
      station and rail type tables (not among the sources). -/
  same_platform : TileIndex → TileIndex → Bool
  /-- Read by `HasSignalOnTrackdir(tile, trackdir)`. -/
  signal_on_trackdir : TileIndex → Trackdir → Bool
  /-- Read by `GetSignalType(tile, track)`. -/
  signal_type : TileIndex → Track → SignalType
  /-- The reservation of the middle part of the tunnel or bridge that starts at
      a tile (`HasTunnelMiddleReservation`, `HasBridgeMiddleReservation`). -/
  wormhole_reserved : TileIndex → Bool
  /-- Read by `GetOtherTunnelBridgeEnd(tile)`. -/
  other_tunnel_bridge_end : TileIndex → TileIndex
  /-- Read by `GetTileOwner(tile)`. -/
  tile_owner : TileIndex → Owner
  /-- Read by `GetRailType(tile, track)`. -/
  rail_type : TileIndex → Track → RailType
  /-- The member `compatible_railtypes` of `GetRailTypeInfo(railtype)`. -/
  compatible_railtypes : RailType → RailTypes
  /-- The tiles handed to `MarkTileDirtyByTile`, most recent first. -/
  dirty : List TileIndex
  /-- The tiles handed to `TriggerStationRandomisation`, most recent first. -/
  station_triggers : List TileIndex

/-! ## Map accessors -/

def GetTileType (s : State) (t : TileIndex) : TileType := (s.tiles t).type
def GetTileSubtype (s : State) (t : TileIndex) : TileSubtype := (s.tiles t).subtype
def GetTileRailwayStatus (s : State) (t : TileIndex) : TrackBits := (s.tiles t).railway_status
def GetRailReservationTrackBits (s : State) (t : TileIndex) : TrackBits :=
  (s.tiles t).rail_reservation
def HasCrossingReservation (s : State) (t : TileIndex) : Bool := (s.tiles t).crossing_reserved
def IsCrossingBarred (s : State) (t : TileIndex) : Bool := (s.tiles t).crossing_barred
def GetCrossingRailBits (s : State) (t : TileIndex) : TrackBits :=
  AxisToTrackBits (s.tiles t).crossing_axis
def GetTunnelTransportType (s : State) (t : TileIndex) : TransportType :=
  (s.tiles t).tunnel_transport
def GetTunnelBridgeDirection (s : State) (t : TileIndex) : DiagDirection := (s.tiles t).tunnel_dir
def HasTunnelHeadReservation (s : State) (t : TileIndex) : Bool :=
  (s.tiles t).tunnel_head_reserved
def IsRailDepot (s : State) (t : TileIndex) : Bool := (s.tiles t).depot_is_rail
def GetGroundDepotDirection (s : State) (t : TileIndex) : DiagDirection := (s.tiles t).depot_dir
def HasDepotReservation (s : State) (t : TileIndex) : Bool := (s.tiles t).depot_reserved
def GetStationType (s : State) (t : TileIndex) : StationType := (s.tiles t).station_type
def GetRailStationAxis (s : State) (t : TileIndex) : Axis := (s.tiles t).station_axis
def HasStationReservation (s : State) (t : TileIndex) : Bool := (s.tiles t).station_reserved

def IsRailStation (s : State) (t : TileIndex) : Bool := GetStationType s t == .STATION_RAIL
def IsRailWaypoint (s : State) (t : TileIndex) : Bool := GetStationType s t == .STATION_WAYPOINT
def HasStationRail (s : State) (t : TileIndex) : Bool := IsRailStation s t || IsRailWaypoint s t
def IsStationTile (s : State) (t : TileIndex) : Bool := GetTileType s t == .TT_STATION
def IsRailStationTile (s : State) (t : TileIndex) : Bool := IsStationTile s t && IsRailStation s t
def IsDepotTile (s : State) (t : TileIndex) : Bool :=
  GetTileType s t == .TT_MISC && GetTileSubtype s t == .TT_MISC_DEPOT
def IsRailDepotTile (s : State) (t : TileIndex) : Bool := IsDepotTile s t && IsRailDepot s t

/-- Modelled from the spec: the per-class reservation readers of the map
    headers (not among the sources). A single reservation flag stands for the
    one track of the tile. -/
def GetCrossingReservationTrackBits (s : State) (t : TileIndex) : TrackBits :=
  if HasCrossingReservation s t then GetCrossingRailBits s t else TRACK_BIT_NONE

def GetTunnelReservationTrackBits (s : State) (t : TileIndex) : TrackBits :=
  if HasTunnelHeadReservation s t then DiagDirToDiagTrackBits (GetTunnelBridgeDirection s t)
  else TRACK_BIT_NONE

def GetDepotReservationTrackBits (s : State) (t : TileIndex) : TrackBits :=
  if HasDepotReservation s t then DiagDirToDiagTrackBits (GetGroundDepotDirection s t)
  else TRACK_BIT_NONE

def GetStationReservationTrackBits (s : State) (t : TileIndex) : TrackBits :=
  if HasStationReservation s t then AxisToTrackBits (GetRailStationAxis s t) else TRACK_BIT_NONE

/-! ## Map writers -/

def State.setTile (s : State) (t : TileIndex) (f : Tile → Tile) : State :=
  { s with tiles := Function.update s.tiles t (f (s.tiles t)) }

def MarkTileDirtyByTile (s : State) (t : TileIndex) : State := { s with dirty := t :: s.dirty }

def TriggerStationRandomisation (s : State) (t : TileIndex) : State :=
  { s with station_triggers := t :: s.station_triggers }

def SetTrackReservation (s : State) (t : TileIndex) (b : TrackBits) : State :=
  s.setTile t fun c => { c with rail_reservation := b }

def SetCrossingReservation (s : State) (t : TileIndex) (b : Bool) : State :=
  s.setTile t fun c => { c with crossing_reserved := b }

def SetCrossingBarred (s : State) (t : TileIndex) (b : Bool) : State :=
  s.setTile t fun c => { c with crossing_barred := b }

def SetTunnelHeadReservation (s : State) (t : TileIndex) (b : Bool) : State :=
  s.setTile t fun c => { c with tunnel_head_reserved := b }

def SetDepotReservation (s : State) (t : TileIndex) (b : Bool) : State :=
  s.setTile t fun c => { c with depot_reserved := b }

def SetRailStationReservation (s : State) (t : TileIndex) (b : Bool) : State :=
  s.setTile t fun c => { c with station_reserved := b }

/-- Modelled from the spec: `BarCrossing` (not among the sources), "reserving
    also raises the crossing barrier". -/
def BarCrossing (s : State) (t : TileIndex) : State := SetCrossingBarred s t true

/-- Modelled from the spec: `UpdateLevelCrossing` (not among the sources),
    "unreserving re-evaluates whether the barrier should lower": the barrier
    stays down while the crossing is reserved or a train is on or near it. -/
def UpdateLevelCrossing (s : State) (t : TileIndex) : State :=
  let new_state := s.train_near_crossing t || HasCrossingReservation s t
  if new_state != IsCrossingBarred s t then
    MarkTileDirtyByTile (SetCrossingBarred s t new_state) t
  else s

/-- Modelled from the spec: `TryReserveTrack` of the rail map header (not among
    the sources), "plain rail: delegate to the per-track bit": the track is
    claimed iff it is free and the enlarged reservation does not overlap; the
    map is left alone on failure. -/
def TryReserveTrack (s : State) (tile : TileIndex) (t : Track) : Bool × State :=
  let bits := TrackToTrackBits t
  let res := GetRailReservationTrackBits s tile
  if (res &&& bits) != TRACK_BIT_NONE then (false, s)
  else
    let res := res ||| bits
    if TracksOverlap res then (false, s)
    else (true, SetTrackReservation s tile res)

/-- Modelled from the spec: `UnreserveTrack` of the rail map header (not among
    the sources): clears the bit of the track in the rail reservation. -/
def UnreserveTrack (s : State) (tile : TileIndex) (t : Track) : State :=
  let res := GetRailReservationTrackBits s tile
  SetTrackReservation s tile (res &&& (TRACK_BIT_MASK ^^^ TrackToTrackBits t))

/-! ## `GetReservedTrackbits`, `TryReserveRailTrack`, `UnreserveRailTrack` -/

/-- Get the reserved trackbits for any tile, regardless of type
    (`pbs.cpp`, lines 25-53). -/
def GetReservedTrackbits (s : State) (t : TileIndex) : TrackBits :=
  match GetTileType s t with
  | .TT_RAILWAY => GetRailReservationTrackBits s t
  | .TT_MISC =>
    match GetTileSubtype s t with
    | .TT_MISC_CROSSING => GetCrossingReservationTrackBits s t
    | .TT_MISC_TUNNEL =>
      if GetTunnelTransportType s t == .TRANSPORT_RAIL then GetTunnelReservationTrackBits s t
      else TRACK_BIT_NONE
    | .TT_MISC_DEPOT =>
      if IsRailDepot s t then GetDepotReservationTrackBits s t else TRACK_BIT_NONE
    | _ => TRACK_BIT_NONE
  | .TT_STATION =>
    if HasStationRail s t then GetStationReservationTrackBits s t else TRACK_BIT_NONE
  | _ => TRACK_BIT_NONE

/-- The asserted precondition of `TryReserveRailTrack` and `UnreserveRailTrack`:
    the tile carries the track. -/
def CarriesTrack (s : State) (tile : TileIndex) (t : Track) : Bool :=
  (GetTileRailwayStatus s tile &&& TrackToTrackBits t) != TRACK_BIT_NONE

/-- Try to reserve a specific track on a tile (`pbs.cpp`, lines 98-152).
    The result is `none` when the assertion fails, else the returned flag and
    the new state. -/
def TryReserveRailTrack (s : State) (tile : TileIndex) (t : Track) (trigger_stations : Bool) :
    Option (Bool × State) :=
  if !CarriesTrack s tile t then none
  else
    let s := if s.show_track_reservation then MarkTileDirtyByTile s tile else s
    match GetTileType s tile with
    | .TT_RAILWAY => some (TryReserveTrack s tile t)
    | .TT_MISC =>
      match GetTileSubtype s tile with
      | .TT_MISC_CROSSING =>
        if HasCrossingReservation s tile then some (false, s)
        else
          let s := SetCrossingReservation s tile true
          let s := BarCrossing s tile
          let s := MarkTileDirtyByTile s tile
          some (true, s)
      | .TT_MISC_TUNNEL =>
        if GetTunnelTransportType s tile == .TRANSPORT_RAIL && !HasTunnelHeadReservation s tile then
          some (true, SetTunnelHeadReservation s tile true)
        else some (false, s)
      | .TT_MISC_DEPOT =>
        if IsRailDepotTile s tile && !HasDepotReservation s tile then
          let s := SetDepotReservation s tile true
          let s := MarkTileDirtyByTile s tile
          some (true, s)
        else some (false, s)
      | _ => some (false, s)
    | .TT_STATION =>
      if HasStationRail s tile && !HasStationReservation s tile then
        let s := SetRailStationReservation s tile true
        let s := if trigger_stations && IsRailStation s tile then TriggerStationRandomisation s tile
                 else s
        let s := MarkTileDirtyByTile s tile
        some (true, s)
      else some (false, s)
    | _ => some (false, s)

/-- Lift the reservation of a specific track on a tile (`pbs.cpp`,
    lines 159-205); `none` when the assertion fails. -/
def UnreserveRailTrack (s : State) (tile : TileIndex) (t : Track) : Option State :=
  if !CarriesTrack s tile t then none
  else
    let s := if s.show_track_reservation then MarkTileDirtyByTile s tile else s
    match GetTileType s tile with
    | .TT_RAILWAY => some (UnreserveTrack s tile t)
    | .TT_MISC =>
      match GetTileSubtype s tile with
      | .TT_MISC_CROSSING =>
        let s := SetCrossingReservation s tile false
        some (UpdateLevelCrossing s tile)
      | .TT_MISC_TUNNEL =>
        if GetTunnelTransportType s tile == .TRANSPORT_RAIL then
          some (SetTunnelHeadReservation s tile false)
        else some s
      | .TT_MISC_DEPOT =>
        if IsRailDepot s tile then
          let s := SetDepotReservation s tile false
          some (MarkTileDirtyByTile s tile)
        else some s
      | _ => some s
    | .TT_STATION =>
      if HasStationRail s tile then
        let s := SetRailStationReservation s tile false
        some (MarkTileDirtyByTile s tile)
      else some s
    | _ => some s

/-! ## `SetRailStationPlatformReservation` -/

/-- Modelled from the spec: `TileOffsByDiagDir` (not among the sources), the
    "fixed offset" between a tile and its neighbour in a direction: one tile
    along x is 1, one tile along y is `MapSizeX()`. -/
def TileOffsByDiagDir (s : State) : DiagDirection → TileIndexDiff
  | .DIAGDIR_NE => -1
  | .DIAGDIR_SE => (s.map_size_x : Int)
  | .DIAGDIR_SW => 1
  | .DIAGDIR_NW => -(s.map_size_x : Int)

/-- The sum `TILE_ADD(tile, diff)` in 32 bit unsigned arithmetic. -/
def TILE_ADD (tile : TileIndex) (diff : TileIndexDiff) : TileIndex :=
  (((tile : Int) + diff) % 4294967296).toNat

/-- Modelled from the spec: `IsCompatibleTrainStationTile` (not among the
    sources). A tile continues the platform of `station_tile` unless it is "not
    a tile at all" of a rail station, of a "different orientation", or of a
    "different station" or incompatible rail type. -/
def IsCompatibleTrainStationTile (s : State) (test_tile station_tile : TileIndex) : Bool :=
  IsRailStationTile s test_tile &&
    GetRailStationAxis s test_tile == GetRailStationAxis s station_tile &&
    s.same_platform test_tile station_tile

/-- The `do ... while` loop of `SetRailStationPlatformReservation`
    (`pbs.cpp`, lines 70-74); `none` when the fuel runs out. -/
def SetRailStationPlatformReservation.loop (start : TileIndex) (diff : TileIndexDiff) (b : Bool) :
    Nat → State → TileIndex → Option State
  | 0, _, _ => none
  | fuel + 1, s, tile =>
    let s := SetRailStationReservation s tile b
    let s := MarkTileDirtyByTile s tile
    let tile := TILE_ADD tile diff
    if IsCompatibleTrainStationTile s tile start then
      SetRailStationPlatformReservation.loop start diff b fuel s tile
    else some s

/-- Set the reservation for a complete station platform (`pbs.cpp`,
    lines 62-75); `none` when an assertion fails or the fuel runs out. -/
def SetRailStationPlatformReservation (fuel : Nat) (s : State) (start : TileIndex)
    (dir : DiagDirection) (b : Bool) : Option State :=
  if !IsRailStationTile s start then none
  else if GetRailStationAxis s start != DiagDirToAxis dir then none
  else SetRailStationPlatformReservation.loop start (TileOffsByDiagDir s dir) b fuel s start

/-- The tile `start + k * diff` of a platform run. -/
def platformTile (start : TileIndex) (diff : TileIndexDiff) (k : Nat) : TileIndex :=
  TILE_ADD start ((k : Int) * diff)

/-- The number of compatible contiguous platform tiles counted from `tile` in
    steps of `diff`, looking at no more than `fuel` tiles. -/
def platformRunLength (s : State) (start : TileIndex) (diff : TileIndexDiff) :
    Nat → TileIndex → Nat
  | 0, _ => 0
  | fuel + 1, tile =>
    if IsCompatibleTrainStationTile s tile start then
      1 + platformRunLength s start diff fuel (TILE_ADD tile diff)
    else 0

/-! ## Path positions -/

/-- The tile index that stands for "no tile" (`INVALID_TILE`). -/
def INVALID_TILE : TileIndex := 4294967295

/-- Modelled from the spec: `RailPathPos` (the position header is not among the
    sources): "either `(tile, direction)` on ordinary track, or
    `(wormhole-id, direction)`"; `wormhole` is `INVALID_TILE` outside of
    tunnels and bridges. -/
structure RailPathPos where
  tile : TileIndex
  td : Trackdir
  wormhole : TileIndex
  deriving DecidableEq, Repr

/-- The default constructed position `RailPathPos()`. -/
def RailPathPos.invalid : RailPathPos :=
  { tile := INVALID_TILE, td := .INVALID_TRACKDIR, wormhole := INVALID_TILE }

/-- The position `RailPathPos(tile, td)` on ordinary track. -/
def RailPathPos.onTile (tile : TileIndex) (td : Trackdir) : RailPathPos :=
  { tile := tile, td := td, wormhole := INVALID_TILE }

def RailPathPos.in_wormhole (p : RailPathPos) : Bool := p.wormhole != INVALID_TILE

def RailPathPos.is_valid_tile (p : RailPathPos) : Bool := p.tile != INVALID_TILE

/-- A "new" position of the track follower: a position together with the set
    of trackdirs that can be taken on it. -/
structure RailPathNewPos extends RailPathPos where
  trackdirs : TrackdirBits
  deriving DecidableEq, Repr

/-- Set the trackdirs of a new position; `td` is the trackdir when exactly one
    is set and `INVALID_TRACKDIR` otherwise (`PFNewPos::SetTrackdir`,
    `pathfinder_type.h`, lines 111-114). -/
def RailPathNewPos.set_trackdirs (p : RailPathNewPos) (trackdirs : TrackdirBits) :
    RailPathNewPos :=
  { p with
    trackdirs := trackdirs
    td := if KillFirstTrackdirBit trackdirs == TRACKDIR_BIT_NONE then FindFirstTrackdir trackdirs
          else .INVALID_TRACKDIR }

def HasSignalOnTrackdir (s : State) (tile : TileIndex) (td : Trackdir) : Bool :=
  s.signal_on_trackdir tile td

def GetSignalType (s : State) (tile : TileIndex) (t : Track) : SignalType := s.signal_type tile t

/-- Modelled from the spec: `has_signal_along`, signal "presence per direction",
    here along the direction of travel; never inside a wormhole. -/
def RailPathPos.has_signal_along (s : State) (p : RailPathPos) : Bool :=
  !p.in_wormhole && HasSignalOnTrackdir s p.tile p.td

/-- Modelled from the spec: `has_signal_against`, a signal present against the
    direction of travel. -/
def RailPathPos.has_signal_against (s : State) (p : RailPathPos) : Bool :=
  !p.in_wormhole && HasSignalOnTrackdir s p.tile (ReverseTrackdir p.td)

/-- Modelled from the spec: `get_signal_type`, the kind of the signal on the
    track of the position (`SIGTYPE_NORMAL` when the trackdir is invalid). -/
def RailPathPos.get_signal_type (s : State) (p : RailPathPos) : SignalType :=
  match TrackdirToTrack p.td with
  | some t => GetSignalType s p.tile t
  | none => .SIGTYPE_NORMAL

/-- Modelled from the spec: `has_blocking_signal`, "a one-way signal facing
    against the direction of travel": a signal against, none along, and of a
    kind other than the two-way PBS signal. -/
def RailPathPos.has_blocking_signal (s : State) (p : RailPathPos) : Bool :=
  p.has_signal_against s && !p.has_signal_along s && p.get_signal_type s != .SIGTYPE_PBS

/-- The test `HasReservedTrack(tile, track)`. -/
def HasReservedTrack (s : State) (tile : TileIndex) (t : Track) : Bool :=
  HasTrackBit (GetReservedTrackbits s tile) t

/-- Modelled from the spec: `HasReservedPos`, "a position is reserved iff the
    oracle reports the corresponding track/wormhole bit set". -/
def HasReservedPos (s : State) (p : RailPathPos) : Bool :=
  if p.in_wormhole then s.wormhole_reserved p.wormhole
  else
    match TrackdirToTrack p.td with
    | some t => HasReservedTrack s p.tile t
    | none => false

/-! ## Vehicles -/

/-- The kinds of vehicles (`enum VehicleType`). -/
inductive VehicleType
  | VEH_TRAIN | VEH_ROAD | VEH_SHIP | VEH_AIRCRAFT | VEH_EFFECT | VEH_DISASTER
  deriving DecidableEq, Repr

/-- The value of the member `trackdir` of a train: a trackdir on a tile, or the
    special value `TRACKDIR_WORMHOLE` of a train inside a tunnel or on a
    bridge. -/
inductive TrainTrackdir
  | onTrack (td : Trackdir)
  | TRACKDIR_WORMHOLE
  deriving DecidableEq, Repr

/-- The track of a train for `TrackdirToTrack(t->trackdir)`; the special value
    `TRACKDIR_WORMHOLE` is none of the six tracks of a tile. -/
def TrainTrackdir.toTrack : TrainTrackdir → Option Track
  | .onTrack td => TrackdirToTrack td
  | .TRACKDIR_WORMHOLE => none

/-- The members of `Vehicle` and `Train` that `pbs.cpp` reads. -/
structure Vehicle where
  index : VehicleID
  type : VehicleType
  /-- The bit `VS_CRASHED` of `vehstatus`. -/
  crashed : Bool
  tile : TileIndex
  trackdir : TrainTrackdir
  owner : Owner
  railtype : RailType
  /-- The index of the vehicle `First()` returns, the head of the chain. -/
  first : VehicleID
  /-- The value of `IsFrontEngine()`. -/
  front_engine : Bool
  /-- The value of `GetPos()`. -/
  pos : RailPathPos
  deriving DecidableEq, Repr

/-- The vehicle pool as far as `pbs.cpp` reads it. -/
structure Vehicles where
  /-- The vehicles a `VehicleTileIterator` over a tile yields, in its order. -/
  on_tile : TileIndex → List Vehicle
  /-- The vehicle of the pool with a given index. -/
  get : VehicleID → Vehicle

/-- The head of the chain of a vehicle (`First()`). -/
def Vehicle.First (V : Vehicles) (v : Vehicle) : Vehicle := V.get v.first

/-! ## The track follower -/

/-- The flags of the track follower (`m_flag`). -/
inductive TrackFollowerFlag
  | TF_NONE | TF_STATION | TF_TUNNEL | TF_BRIDGE
  deriving DecidableEq, Repr

/-- The members of `CFollowTrackRail` that `pbs.cpp` touches. -/
structure CFollowTrackRail where
  m_veh_owner : Owner
  m_allow_90deg : Bool
  m_railtypes : RailTypes
  m_old : RailPathPos
  m_new : RailPathNewPos
  m_exitdir : DiagDirection
  m_flag : TrackFollowerFlag
  m_tiles_skipped : Int

/-- The operations of `CFollowTrackRail` (`pathfinder/follow_track.hpp`, not
    among the sources) that `pbs.cpp` calls; they are parameters of the
    routines below. `FollowNext` and `Follow` give the follower after the step
    when the step returned `true` and `none` when it returned `false`. -/
structure TrackFollower where
  construct : Owner → Bool → RailTypes → CFollowTrackRail
  /-- The constructor `CFollowTrackRail(v, allow_90deg, railtype)` from a
      train. -/
  constructFor : Vehicle → Bool → RailType → CFollowTrackRail
  SetPos : CFollowTrackRail → RailPathPos → CFollowTrackRail
  FollowNext : State → CFollowTrackRail → Option CFollowTrackRail
  Follow : State → CFollowTrackRail → RailPathPos → Option CFollowTrackRail

/-! ## `FollowReservation` -/

/-- What one pass through the body of the `while` loop of `FollowReservation`
    ends in: a `break`, or the next iteration. -/
inductive LoopControl
  | stop (cur start : RailPathPos)
  | next (ft : CFollowTrackRail) (cur start : RailPathPos)

/-- The inner loop over the skipped station tiles (`pbs.cpp`, lines 232-238):
    the position of the first skipped tile, walking back, that has a station
    reservation. -/
def FollowReservation.skipped (s : State) (diff : TileIndexDiff) :
    Nat → RailPathNewPos → Option RailPathPos
  | 0, _ => none
  | n + 1, m_new =>
    let m_new := { m_new with tile := TILE_ADD m_new.tile (-diff) }
    if HasStationReservation s m_new.tile then some m_new.toRailPathPos
    else FollowReservation.skipped s diff n m_new

/-- The second half of the loop body (`pbs.cpp`, lines 242-261), entered when
    the new position of the follower is reserved. -/
def FollowReservation.advance (s : State) (ignore_oneway : Bool) (ft : CFollowTrackRail)
    (cur start : RailPathPos) : LoopControl :=
  if !ignore_oneway && ft.m_new.has_blocking_signal s then .stop cur start
  else
    let cur := ft.m_new.toRailPathPos
    if !start.is_valid_tile then
      let start := cur
      if !cur.in_wormhole && IsRailDepotTile s cur.tile then .stop cur start
      else if cur.has_signal_along s && !IsPbsSignal (cur.get_signal_type s) then .stop cur start
      else .next ft cur start
    else if cur == start then .stop cur start
    else if !cur.in_wormhole && IsRailDepotTile s cur.tile then .stop cur start
    else if cur.has_signal_along s && !IsPbsSignal (cur.get_signal_type s) then .stop cur start
    else .next ft cur start

/-- The body of the `while` loop of `FollowReservation` (`pbs.cpp`,
    lines 220-261), run after `ft.FollowNext()` returned `true`. -/
def FollowReservation.body (s : State) (ignore_oneway : Bool) (ft : CFollowTrackRail)
    (cur start : RailPathPos) : LoopControl :=
  if ft.m_new.in_wormhole then
    if !HasReservedPos s ft.m_new.toRailPathPos then .stop cur start
    else FollowReservation.advance s ignore_oneway ft cur start
  else if ft.m_flag != .TF_STATION then
    let trackdirs := ft.m_new.trackdirs &&&
      TrackBitsToTrackdirBits (GetReservedTrackbits s ft.m_new.tile)
    if trackdirs == TRACKDIR_BIT_NONE then .stop cur start
    else
      let ft := { ft with m_new := ft.m_new.set_trackdirs trackdirs }
      FollowReservation.advance s ignore_oneway ft cur start
  else if !HasStationReservation s ft.m_new.tile then
    let diff := TileOffsByDiagDir s ft.m_exitdir
    match FollowReservation.skipped s diff ft.m_tiles_skipped.toNat ft.m_new with
    | some found => .stop found start
    | none => .stop cur start
  else FollowReservation.advance s ignore_oneway ft cur start

/-- The `while` loop of `FollowReservation` (`pbs.cpp`, lines 219-262): the
    final values of `cur` and `start`, or `none` when the fuel runs out. -/
def FollowReservation.loop (F : TrackFollower) (s : State) (ignore_oneway : Bool) :
    Nat → CFollowTrackRail → RailPathPos → RailPathPos → Option (RailPathPos × RailPathPos)
  | 0, _, _, _ => none
  | fuel + 1, ft, cur, start =>
    match F.FollowNext s ft with
    | none => some (cur, start)
    | some ft =>
      match FollowReservation.body s ignore_oneway ft cur start with
      | .stop cur start => some (cur, start)
      | .next ft cur start => FollowReservation.loop F s ignore_oneway fuel ft cur start

/-- Follow a reservation starting from a specific tile to the end
    (`pbs.cpp`, lines 209-267). The result is the position written back to
    `*pos` and the returned flag; `none` when the assertion fails or the fuel
    runs out. -/
def FollowReservation (F : TrackFollower) (fuel : Nat) (s : State) (o : Owner) (rts : RailTypes)
    (pos : RailPathPos) (ignore_oneway : Bool) : Option (RailPathPos × Bool) :=
  if !HasReservedPos s pos then none
  else
    let ft := F.SetPos (F.construct o true rts) pos
    match FollowReservation.loop F s ignore_oneway fuel ft pos RailPathPos.invalid with
    | none => none
    | some (cur, start) => some (cur, start.is_valid_tile)

/-- The follower after a step onto a reserved new position, as the first half
    of the loop body of `FollowReservation` leaves it (inside a wormhole the
    position must be reserved; on ordinary track the reachable trackdirs are cut
    down to the reserved ones; a station tile must be flagged reserved), and
    `none` when the new position is not reserved. -/
def FollowReservation.reservedNew (s : State) (g : CFollowTrackRail) : Option CFollowTrackRail :=
  if g.m_new.in_wormhole then
    if HasReservedPos s g.m_new.toRailPathPos then some g else none
  else if g.m_flag != .TF_STATION then
    let trackdirs := g.m_new.trackdirs &&&
      TrackBitsToTrackdirBits (GetReservedTrackbits s g.m_new.tile)
    if trackdirs == TRACKDIR_BIT_NONE then none
    else some { g with m_new := g.m_new.set_trackdirs trackdirs }
  else if HasStationReservation s g.m_new.tile then some g
  else none

/-- The follower `ft'` and position `p'` reached from the follower `ft` by one
    step of the track follower onto a reserved position. -/
def FollowReservation.reservedStep (F : TrackFollower) (s : State) (ft ft' : CFollowTrackRail)
    (p' : RailPathPos) : Prop :=
  ∃ g, F.FollowNext s ft = some g ∧ FollowReservation.reservedNew s g = some ft' ∧
    ft'.m_new.toRailPathPos = p'

/-- The value of `start` at the top of the loop when the follower stands on
    the position number `i` of a walk `p`. -/
def FollowReservation.startAt (p : Nat → RailPathPos) (i : Nat) : RailPathPos :=
  if i = 0 then RailPathPos.invalid else p 1

/-- The tile classes that have rail reservation bits: railway, crossing, rail
    tunnel head, rail depot, station with rail (the classes for which
    `GetReservedTrackbits` consults the map). -/
def HasRailReservationBits (s : State) (t : TileIndex) : Bool :=
  match GetTileType s t with
  | .TT_RAILWAY => true
  | .TT_MISC =>
    match GetTileSubtype s t with
    | .TT_MISC_CROSSING => true
    | .TT_MISC_TUNNEL => GetTunnelTransportType s t == .TRANSPORT_RAIL
    | .TT_MISC_DEPOT => IsRailDepot s t
    | _ => false
  | .TT_STATION => HasStationRail s t
  | _ => false

/-- The single reservation flag of a crossing, tunnel head, depot or station
    tile (`false` for every other tile). -/
def SingleReservationFlag (s : State) (t : TileIndex) : Bool :=
  match GetTileType s t with
  | .TT_MISC =>
    match GetTileSubtype s t with
    | .TT_MISC_CROSSING => HasCrossingReservation s t
    | .TT_MISC_TUNNEL => HasTunnelHeadReservation s t
    | .TT_MISC_DEPOT => HasDepotReservation s t
    | _ => false
  | .TT_STATION => HasStationReservation s t
  | _ => false

/-- The track bits the single reservation flag of a tile stands for. -/
def FlagTrackBits (s : State) (t : TileIndex) : TrackBits :=
  match GetTileType s t with
  | .TT_MISC =>
    match GetTileSubtype s t with
    | .TT_MISC_CROSSING => GetCrossingRailBits s t
    | .TT_MISC_TUNNEL => DiagDirToDiagTrackBits (GetTunnelBridgeDirection s t)
    | .TT_MISC_DEPOT => DiagDirToDiagTrackBits (GetGroundDepotDirection s t)
    | _ => TRACK_BIT_NONE
  | .TT_STATION => AxisToTrackBits (GetRailStationAxis s t)
  | _ => TRACK_BIT_NONE

/-- Well-formedness of the railway status of a tile with a single reservation
    flag: it reports no track but the one the flag stands for. -/
def StatusWithinFlagTrack (s : State) (t : TileIndex) : Prop :=
  GetTileType s t ≠ .TT_RAILWAY →
    GetTileRailwayStatus s t &&& FlagTrackBits s t = GetTileRailwayStatus s t

/-- The map cell of a tile after a successful `TryReserveRailTrack` of track
    `t` (a reading aid for the theorems, not a routine of the source). -/
def Tile.reserved (c : Tile) (t : Track) : Tile :=
  match c.type with
  | .TT_RAILWAY => { c with rail_reservation := c.rail_reservation ||| TrackToTrackBits t }
  | .TT_MISC =>
    match c.subtype with
    | .TT_MISC_CROSSING => { c with crossing_reserved := true, crossing_barred := true }
    | .TT_MISC_TUNNEL => { c with tunnel_head_reserved := true }
    | .TT_MISC_DEPOT => { c with depot_reserved := true }
    | _ => c
  | .TT_STATION => { c with station_reserved := true }
  | _ => c

/-- The map cell of a tile after `UnreserveRailTrack` of track `t`, where
    `near` tells whether a train is on or near the crossing (a reading aid for
    the theorems, not a routine of the source). -/
def Tile.unreserved (c : Tile) (t : Track) (near : Bool) : Tile :=
  match c.type with
  | .TT_RAILWAY =>
    { c with rail_reservation := c.rail_reservation &&& (TRACK_BIT_MASK ^^^ TrackToTrackBits t) }
  | .TT_MISC =>
    match c.subtype with
    | .TT_MISC_CROSSING => { c with crossing_reserved := false, crossing_barred := near }
    | .TT_MISC_TUNNEL =>
      if c.tunnel_transport == .TRANSPORT_RAIL then { c with tunnel_head_reserved := false } else c
    | .TT_MISC_DEPOT => if c.depot_is_rail then { c with depot_reserved := false } else c
    | _ => c
  | .TT_STATION =>
    if c.station_type == .STATION_RAIL || c.station_type == .STATION_WAYPOINT then
      { c with station_reserved := false }
    else c
  | _ => c

/-- The reserved track bits of a map cell: `GetReservedTrackbits` read off the
    cell (a reading aid for the theorems, not a routine of the source). -/
def Tile.reservedTrackbits (c : Tile) : TrackBits :=
  match c.type with
  | .TT_RAILWAY => c.rail_reservation
  | .TT_MISC =>
    match c.subtype with
    | .TT_MISC_CROSSING => if c.crossing_reserved then AxisToTrackBits c.crossing_axis else TRACK_BIT_NONE
    | .TT_MISC_TUNNEL =>
      if c.tunnel_transport == .TRANSPORT_RAIL then
        if c.tunnel_head_reserved then DiagDirToDiagTrackBits c.tunnel_dir else TRACK_BIT_NONE
      else TRACK_BIT_NONE
    | .TT_MISC_DEPOT =>
      if c.depot_is_rail then
        if c.depot_reserved then DiagDirToDiagTrackBits c.depot_dir else TRACK_BIT_NONE
      else TRACK_BIT_NONE
    | _ => TRACK_BIT_NONE
  | .TT_STATION =>
    if c.station_type == .STATION_RAIL || c.station_type == .STATION_WAYPOINT then
      if c.station_reserved then AxisToTrackBits c.station_axis else TRACK_BIT_NONE
    else TRACK_BIT_NONE
  | _ => TRACK_BIT_NONE

/-- Whether a map cell is of a class with rail reservation bits:
    `HasRailReservationBits` read off the cell. -/
def Tile.hasRailReservationBits (c : Tile) : Bool :=
  match c.type with
  | .TT_RAILWAY => true
  | .TT_MISC =>
    match c.subtype with
    | .TT_MISC_CROSSING => true
    | .TT_MISC_TUNNEL => c.tunnel_transport == .TRANSPORT_RAIL
    | .TT_MISC_DEPOT => c.depot_is_rail
    | _ => false
  | .TT_STATION => c.station_type == .STATION_RAIL || c.station_type == .STATION_WAYPOINT
  | _ => false

/-! ## Finding the train at the end of a path -/

/-- The trackdir of a track in its first direction (`TrackToTrackdir`). -/
def TrackToTrackdir : Track → Trackdir
  | .TRACK_X => .TRACKDIR_X_NE
  | .TRACK_Y => .TRACKDIR_Y_SE
  | .TRACK_UPPER => .TRACKDIR_UPPER_E
  | .TRACK_LOWER => .TRACKDIR_LOWER_E
  | .TRACK_LEFT => .TRACKDIR_LEFT_S
  | .TRACK_RIGHT => .TRACKDIR_RIGHT_S

/-- The side of the tile a trackdir leaves through (`TrackdirToExitdir`). -/
def TrackdirToExitdir : Trackdir → Option DiagDirection
  | .TRACKDIR_X_NE => some .DIAGDIR_NE
  | .TRACKDIR_Y_SE => some .DIAGDIR_SE
  | .TRACKDIR_UPPER_E => some .DIAGDIR_NE
  | .TRACKDIR_LOWER_E => some .DIAGDIR_SE
  | .TRACKDIR_LEFT_S => some .DIAGDIR_SW
  | .TRACKDIR_RIGHT_S => some .DIAGDIR_SE
  | .TRACKDIR_X_SW => some .DIAGDIR_SW
  | .TRACKDIR_Y_NW => some .DIAGDIR_NW
  | .TRACKDIR_UPPER_W => some .DIAGDIR_NW
  | .TRACKDIR_LOWER_W => some .DIAGDIR_SW
  | .TRACKDIR_LEFT_N => some .DIAGDIR_NW
  | .TRACKDIR_RIGHT_N => some .DIAGDIR_NE
  | .INVALID_TRACKDIR => none

/-- The diagonal trackdir that runs towards a side (`DiagDirToDiagTrackdir`). -/
def DiagDirToDiagTrackdir : DiagDirection → Trackdir
  | .DIAGDIR_NE => .TRACKDIR_X_NE
  | .DIAGDIR_SE => .TRACKDIR_Y_SE
  | .DIAGDIR_SW => .TRACKDIR_X_SW
  | .DIAGDIR_NW => .TRACKDIR_Y_NW

/-- The opposite side (`ReverseDiagDir`). -/
def ReverseDiagDir : DiagDirection → DiagDirection
  | .DIAGDIR_NE => .DIAGDIR_SW
  | .DIAGDIR_SE => .DIAGDIR_NW
  | .DIAGDIR_SW => .DIAGDIR_NE
  | .DIAGDIR_NW => .DIAGDIR_SE

def GetOtherTunnelBridgeEnd (s : State) (t : TileIndex) : TileIndex := s.other_tunnel_bridge_end t

def GetTileOwner (s : State) (t : TileIndex) : Owner := s.tile_owner t

def GetRailType (s : State) (t : TileIndex) (track : Track) : RailType := s.rail_type t track

/-- The rail types compatible with one:
    `GetRailTypeInfo(railtype)->compatible_railtypes`. -/
def GetCompatibleRailTypes (s : State) (rt : RailType) : RailTypes := s.compatible_railtypes rt

/-- The loop over the vehicles of a tile that `FindTrainOnTrack` and
    `FindTrainInWormhole` share (`pbs.cpp`, lines 275-284 and 295-304); the two
    differ only in the test `wanted` of the trackdir of the train. `best` is
    the head with the lowest index found so far. -/
def FindTrain.scan (V : Vehicles) (wanted : TrainTrackdir → Bool) :
    List Vehicle → Option Vehicle → Option Vehicle
  | [], best => best
  | v :: rest, best =>
    if v.type != .VEH_TRAIN || v.crashed then FindTrain.scan V wanted rest best
    else if !wanted v.trackdir then FindTrain.scan V wanted rest best
    else
      let t := v.First V
      match best with
      | none => FindTrain.scan V wanted rest (some t)
      | some b =>
        if t.index < b.index then FindTrain.scan V wanted rest (some t)
        else FindTrain.scan V wanted rest (some b)

/-- Find a train on a specific tile track (`pbs.cpp`, lines 270-287). -/
def FindTrainOnTrack (V : Vehicles) (tile : TileIndex) (track : Track) : Option Vehicle :=
  FindTrain.scan V (fun td => td.toTrack == some track) (V.on_tile tile) none

/-- Find a train in a wormhole (`pbs.cpp`, lines 290-307). -/
def FindTrainInWormhole (V : Vehicles) (tile : TileIndex) : Option Vehicle :=
  FindTrain.scan V (fun td => td == .TRACKDIR_WORMHOLE) (V.on_tile tile) none

/-- The loop of `FindTrainOnPathEnd` over the tiles of the platform
    (`pbs.cpp`, lines 322-325); `none` when the fuel runs out. -/
def FindTrainOnPathEnd.platform (V : Vehicles) (s : State) (start : TileIndex) (track : Track)
    (diff : TileIndexDiff) : Nat → TileIndex → Option (Option Vehicle)
  | 0, _ => none
  | fuel + 1, tile =>
    if IsCompatibleTrainStationTile s tile start then
      match FindTrainOnTrack V tile track with
      | some t => some (some t)
      | none => FindTrainOnPathEnd.platform V s start track diff fuel (TILE_ADD tile diff)
    else some none

/-- Find a train on a reserved path end (`pbs.cpp`, lines 310-331). The result
    is `none` when the fuel runs out or when the position is on a tile but has
    no valid trackdir, and otherwise the train found, if any. -/
def FindTrainOnPathEnd (V : Vehicles) (fuel : Nat) (s : State) (pos : RailPathPos) :
    Option (Option Vehicle) :=
  if pos.in_wormhole then
    match FindTrainInWormhole V pos.wormhole with
    | some t => some (some t)
    | none => some (FindTrainInWormhole V (GetOtherTunnelBridgeEnd s pos.wormhole))
  else
    match TrackdirToTrack pos.td, TrackdirToExitdir (ReverseTrackdir pos.td) with
    | some track, some exitdir =>
      match FindTrainOnTrack V pos.tile track with
      | some t => some (some t)
      | none =>
        if IsRailStationTile s pos.tile then
          let diff := TileOffsByDiagDir s exitdir
          FindTrainOnPathEnd.platform V s pos.tile track diff fuel (TILE_ADD pos.tile diff)
        else some none
    | _, _ => none

/-! ## `FollowTrainReservation` -/

/-- Follow a train reservation to the last tile (`pbs.cpp`, lines 341-364).
    The result is the position written to `*pos` and the returned flag; `none`
    when an assertion fails or the fuel runs out. -/
def FollowTrainReservation (F : TrackFollower) (V : Vehicles) (fuel : Nat) (s : State)
    (v : Vehicle) (check : Bool) : Option (RailPathPos × Bool) :=
  if v.type != .VEH_TRAIN then none
  else
    let res := v.pos
    if HasReservedPos s res then
      match FollowReservation F fuel s v.owner (GetCompatibleRailTypes s v.railtype) res false with
      | none => none
      | some (res, ext) =>
        if !HasReservedPos s res then none
        else if ext && check then
          match FindTrainOnPathEnd V fuel s res with
          | none => none
          | some none => some (res, check)
          | some (some t) =>
            if (t.First V).index != v.index then some (res, false) else some (res, check)
        else some (res, check)
    else some (res, check)

/-! ## `GetTrainForReservation` -/

/-- The test of `GetTrainForReservation` for a one-way signal that is not a
    PBS signal, which makes it leave out a direction (`pbs.cpp`,
    lines 383-384). -/
def GetTrainForReservation.skips (s : State) (tile : TileIndex) (trackdir : Trackdir) : Bool :=
  HasSignalOnTrackdir s tile trackdir && !HasSignalOnTrackdir s tile (ReverseTrackdir trackdir) &&
    !IsPbsSignal ((RailPathPos.onTile tile trackdir).get_signal_type s)

/-- The train `GetTrainForReservation` finds in one direction, the train at the
    end of the reservation followed from the tile (`pbs.cpp`, lines 386-390);
    `none` when an assertion fails or the fuel runs out. -/
def GetTrainForReservation.probe (F : TrackFollower) (V : Vehicles) (fuel : Nat) (s : State)
    (tile : TileIndex) (rts : RailTypes) (trackdir : Trackdir) : Option (Option Vehicle) :=
  match FollowReservation F fuel s (GetTileOwner s tile) rts (RailPathPos.onTile tile trackdir)
      true with
  | none => none
  | some (pos, _) => FindTrainOnPathEnd V fuel s pos

/-- What `GetTrainForReservation` does with a train found (`pbs.cpp`,
    lines 391-402). `release` stands for `FreeTrainTrackReservation`
    (`train_cmd.cpp`, not among the sources). -/
def GetTrainForReservation.found (release : State → Vehicle → State) (s : State) (free : Bool)
    (t : Vehicle) : Option (Option Vehicle × State × List Vehicle) :=
  if !t.front_engine then none
  else if IsRailDepotTile s t.tile &&
      t.trackdir != .onTrack (DiagDirToDiagTrackdir (GetGroundDepotDirection s t.tile)) then
    some (none, s, [])
  else if free then some (some t, release s t, [t])
  else some (some t, s, [])

/-- One pass through the loop of `GetTrainForReservation` (`pbs.cpp`,
    lines 381-403) for the direction `trackdir`; `rest` is what the rest of the
    routine gives when this pass goes on to it. The result is the train
    returned, the state left behind and the trains `FreeTrainTrackReservation`
    was called for; `none` when an assertion fails or the fuel runs out. -/
def GetTrainForReservation.pass (F : TrackFollower) (V : Vehicles)
    (release : State → Vehicle → State) (fuel : Nat) (s : State) (tile : TileIndex)
    (rts : RailTypes) (free : Bool) (trackdir : Trackdir)
    (rest : Option (Option Vehicle × State × List Vehicle)) :
    Option (Option Vehicle × State × List Vehicle) :=
  if GetTrainForReservation.skips s tile trackdir then rest
  else
    match GetTrainForReservation.probe F V fuel s tile rts trackdir with
    | none => none
    | some none => rest
    | some (some t) => GetTrainForReservation.found release s free t

/-- Find the train which has reserved a specific path (`pbs.cpp`,
    lines 374-407): the two passes of the loop, for the trackdir of the track
    and for its reverse, and the final `return NULL`. -/
def GetTrainForReservation (F : TrackFollower) (V : Vehicles)
    (release : State → Vehicle → State) (fuel : Nat) (s : State) (tile : TileIndex)
    (track : Track) (free : Bool) : Option (Option Vehicle × State × List Vehicle) :=
  if !HasReservedTrack s tile track then none
  else
    let trackdir := TrackToTrackdir track
    let rts := GetCompatibleRailTypes s (GetRailType s tile track)
    GetTrainForReservation.pass F V release fuel s tile rts free trackdir
      (GetTrainForReservation.pass F V release fuel s tile rts free (ReverseTrackdir trackdir)
        (some (none, s, [])))

/-! ## `CheckWaitingPosition` -/

/-- The state of a waiting position (`enum PBSPositionState`). -/
inductive PBSPositionState
  | PBS_UNSAFE | PBS_BUSY | PBS_FREE
  deriving DecidableEq, Repr

/-- What `CheckWaitingPosition` is asked to check
    (`enum PBSCheckingBehaviour`). -/
inductive PBSCheckingBehaviour
  | PBS_CHECK_FULL | PBS_CHECK_SAFE | PBS_CHECK_FREE | PBS_CHECK_SAFE_FREE
  deriving DecidableEq, Repr

/-- Why `CheckWaitingPosition` gives no result: the position is on a tile
    without a valid trackdir, or one of its assertions fails. -/
inductive CheckFailure
  | invalid_trackdir
  | assert_not_empty
  | assert_free_or_full
  | assert_single
  | assert_has_signals
  | assert_pbs_signal
  | assert_state_free
  deriving DecidableEq, Repr

/-- Modelled from the spec: `is_empty` of a new position, "reaching the end of
    track with no next position": no trackdir can be taken on the tile. -/
def RailPathNewPos.is_empty (p : RailPathNewPos) : Bool :=
  !p.in_wormhole && p.trackdirs == TRACKDIR_BIT_NONE

/-- The test `is_single` of a new position, "a *single* unambiguous
    direction": the trackdir is set (`PFNewPos::IsTrackdirSet`,
    `pathfinder_type.h`, line 116). -/
def RailPathNewPos.is_single (p : RailPathNewPos) : Bool := p.td != .INVALID_TRACKDIR

/-- Modelled from the spec: `has_signals`, a signal in either direction on the
    track of the position. -/
def RailPathPos.has_signals (s : State) (p : RailPathPos) : Bool :=
  p.has_signal_along s || p.has_signal_against s

/-- How the first part of `CheckWaitingPosition` ends: with a `return`, or
    with the provisional value of `state`. -/
inductive WaitingPositionStep
  | returned (r : PBSPositionState)
  | provisional (state : PBSPositionState)
  | invalid
  deriving DecidableEq, Repr

/-- The analysis of the position itself (`pbs.cpp`, lines 430-456). -/
def CheckWaitingPosition.current (s : State) (pos : RailPathPos) (cb : PBSCheckingBehaviour) :
    WaitingPositionStep :=
  if pos.in_wormhole then
    if cb != .PBS_CHECK_SAFE && HasReservedPos s pos then
      if cb != .PBS_CHECK_FULL then .returned .PBS_BUSY else .provisional .PBS_BUSY
    else .provisional .PBS_FREE
  else if IsRailDepotTile s pos.tile &&
      pos.td == DiagDirToDiagTrackdir (ReverseDiagDir (GetGroundDepotDirection s pos.tile)) then
    .returned (if HasDepotReservation s pos.tile then .PBS_BUSY else .PBS_FREE)
  else
    match TrackdirToTrack pos.td with
    | none => .invalid
    | some track =>
      if pos.has_signal_along s && !IsPbsSignal (pos.get_signal_type s) then
        if cb == .PBS_CHECK_SAFE then .returned .PBS_FREE
        else .returned (if HasReservedTrack s pos.tile track then .PBS_BUSY else .PBS_FREE)
      else if cb != .PBS_CHECK_SAFE &&
          TrackOverlapsTracks (GetReservedTrackbits s pos.tile) track then
        if cb != .PBS_CHECK_FULL then .returned .PBS_BUSY else .provisional .PBS_BUSY
      else .provisional .PBS_FREE

/-- The last two statements of `CheckWaitingPosition` (`pbs.cpp`,
    lines 492-494). -/
def CheckWaitingPosition.final (s : State) (state : PBSPositionState) (m_new : RailPathNewPos) :
    Except CheckFailure PBSPositionState :=
  if state != .PBS_FREE then .error .assert_state_free
  else .ok (if HasReservedPos s m_new.toRailPathPos then .PBS_BUSY else .PBS_FREE)

/-- The analysis of the next position (`pbs.cpp`, lines 464-494), after the
    track follower has found one. -/
def CheckWaitingPosition.ahead (s : State) (pos : RailPathPos) (cb : PBSCheckingBehaviour)
    (state : PBSPositionState) (m_new : RailPathNewPos) :
    Except CheckFailure PBSPositionState :=
  if m_new.is_empty then .error .assert_not_empty
  else if !(state == .PBS_FREE || cb == .PBS_CHECK_FULL) then .error .assert_free_or_full
  else if cb != .PBS_CHECK_FREE then
    if !m_new.is_single then .ok .PBS_UNSAFE
    else if (if m_new.has_signal_along s then !IsPbsSignal (m_new.get_signal_type s)
        else if m_new.has_signal_against s then m_new.get_signal_type s != .SIGTYPE_PBS_ONEWAY
        else true) then .ok .PBS_UNSAFE
    else if cb == .PBS_CHECK_SAFE then .ok .PBS_FREE
    else if state != .PBS_FREE then .ok .PBS_BUSY
    else CheckWaitingPosition.final s state m_new
  else if !IsStationTile s pos.tile then
    if !m_new.is_single then .error .assert_single
    else if !m_new.has_signals s then .error .assert_has_signals
    else if !IsPbsSignal (m_new.get_signal_type s) then .error .assert_pbs_signal
    else CheckWaitingPosition.final s state m_new
  else CheckWaitingPosition.final s state m_new

/-- Analyse a waiting position, to check if it is safe and/or if it is free
    (`pbs.cpp`, lines 428-495). -/
def CheckWaitingPosition (F : TrackFollower) (s : State) (v : Vehicle) (pos : RailPathPos)
    (forbid_90deg : Bool) (cb : PBSCheckingBehaviour) : Except CheckFailure PBSPositionState :=
  match CheckWaitingPosition.current s pos cb with
  | .invalid => .error .invalid_trackdir
  | .returned r => .ok r
  | .provisional state =>
    let ft := F.constructFor v (!forbid_90deg) v.railtype
    match F.Follow s ft pos with
    | none => .ok state
    | some ft => CheckWaitingPosition.ahead s pos cb state ft.m_new

/-! ## Example maps -/

/-- A bare ground tile without any rail. -/
def groundTile : Tile :=
  { type := .TT_GROUND, subtype := .TT_MISC_CROSSING, railway_status := TRACK_BIT_NONE,
    rail_reservation := TRACK_BIT_NONE, crossing_axis := .AXIS_X, crossing_reserved := false,
    crossing_barred := false, tunnel_transport := .TRANSPORT_ROAD, tunnel_dir := .DIAGDIR_NE,
    tunnel_head_reserved := false, depot_is_rail := false, depot_dir := .DIAGDIR_NE,
    depot_reserved := false, station_type := .STATION_BUS, station_axis := .AXIS_X,
    station_reserved := false }

/-- A map of ground tiles with the cell `c` at tile 5. -/
def mapWith (c : Tile) : State :=
  { tiles := fun i => if i = 5 then c else groundTile
    map_size_x := 8
    show_track_reservation := true
    train_near_crossing := fun _ => false
    same_platform := fun _ _ => true
    signal_on_trackdir := fun _ _ => false
    signal_type := fun _ _ => .SIGTYPE_NORMAL
    wormhole_reserved := fun _ => false
    other_tunnel_bridge_end := fun t => t
    tile_owner := fun _ => 0
    rail_type := fun _ _ => 0
    compatible_railtypes := fun _ => 0
    dirty := []
    station_triggers := [] }

/-- A junction carrying all six tracks, the upper track reserved. -/
def junctionTile : Tile :=
  { groundTile with type := .TT_RAILWAY, railway_status := TRACK_BIT_MASK,
                    rail_reservation := TRACK_BIT_UPPER }

/-- A junction carrying all six tracks, nothing reserved. -/
def freeJunctionTile : Tile :=
  { groundTile with type := .TT_RAILWAY, railway_status := TRACK_BIT_MASK }

/-- A level crossing with rail along the x axis, not reserved. -/
def crossingTile : Tile :=
  { groundTile with type := .TT_MISC, subtype := .TT_MISC_CROSSING,
                    railway_status := TRACK_BIT_X, crossing_axis := .AXIS_X }

/-- A ground tile whose railway status nevertheless reports the x track. -/
def oddGroundTile : Tile := { groundTile with railway_status := TRACK_BIT_X }

/-- The state a routine returned, or `s` when it returned nothing. -/
def stateOr (s : State) (r : Option (Bool × State)) : State :=
  match r with
  | some (_, s') => s'
  | none => s

/-- Two states that differ at most in station reservation flags and in the
    redraw list. -/
def SameButStationReservation (s s' : State) : Prop :=
  s'.map_size_x = s.map_size_x ∧ s'.same_platform = s.same_platform ∧
    s'.show_track_reservation = s.show_track_reservation ∧
    s'.train_near_crossing = s.train_near_crossing ∧
    s'.station_triggers = s.station_triggers ∧
    ∀ u, { s'.tiles u with station_reserved := false } =
      { s.tiles u with station_reserved := false }

/-- A rail station tile of a platform along the x axis. -/
def platformStationTile : Tile :=
  { groundTile with type := .TT_STATION, station_type := .STATION_RAIL, station_axis := .AXIS_X,
                    railway_status := TRACK_BIT_X }

/-- A map with a platform of the three tiles 10, 11, 12 along the x axis. -/
def platformMap : State :=
  { mapWith groundTile with
    tiles := fun i => if i = 10 ∨ i = 11 ∨ i = 12 then platformStationTile else groundTile }

/-- A plain rail tile with the x track, reserved. -/
def reservedXTile : Tile :=
  { groundTile with type := .TT_RAILWAY, railway_status := TRACK_BIT_X,
                    rail_reservation := TRACK_BIT_X }

/-- A straight reserved line over the tiles 1 to 5 (A = 1, B = 2, C = 3, D = 4)
    with an ordinary block signal along the direction of travel on tile 4. -/
def lineMap : State :=
  { mapWith groundTile with
    tiles := fun i => if 1 ≤ i ∧ i ≤ 5 then reservedXTile else groundTile
    signal_on_trackdir := fun t td => t == 4 && td == .TRACKDIR_X_SW
    signal_type := fun _ _ => .SIGTYPE_NORMAL }

/-- The follower state standing on a tile in a direction. -/
def followerAt (o : Owner) (allow_90deg : Bool) (rts : RailTypes) (old : RailPathPos)
    (tile : TileIndex) (td : Trackdir) (exitdir : DiagDirection) : CFollowTrackRail :=
  { m_veh_owner := o, m_allow_90deg := allow_90deg, m_railtypes := rts, m_old := old,
    m_new := { tile := tile, td := td, wormhole := INVALID_TILE,
               trackdirs := TrackdirToTrackdirBits td },
    m_exitdir := exitdir, m_flag := .TF_NONE, m_tiles_skipped := 0 }

/-- A track follower for straight track along the x axis: it steps to the next
    tile in direction south-west when that tile is a rail tile with an x
    track. -/
def lineFollower : TrackFollower :=
  { construct := fun o a rts =>
      followerAt o a rts RailPathPos.invalid INVALID_TILE .INVALID_TRACKDIR .DIAGDIR_NE
    constructFor := fun v a rt =>
      followerAt v.owner a rt RailPathPos.invalid INVALID_TILE .INVALID_TRACKDIR .DIAGDIR_NE
    SetPos := fun ft pos =>
      { ft with m_new := { pos with trackdirs := TrackdirToTrackdirBits pos.td } }
    FollowNext := fun s ft =>
      let t := ft.m_new.tile + 1
      if GetTileType s t == .TT_RAILWAY && HasTrackBit (GetTileRailwayStatus s t) .TRACK_X then
        some (followerAt ft.m_veh_owner ft.m_allow_90deg ft.m_railtypes ft.m_new.toRailPathPos
          t .TRACKDIR_X_SW .DIAGDIR_SW)
      else none
    Follow := fun _ _ _ => none }

/-- A rail tile with the given tracks, all of them reserved. -/
def reservedTile (bits : TrackBits) : Tile :=
  { groundTile with type := .TT_RAILWAY, railway_status := bits, rail_reservation := bits }

/-- A reserved circle of track around the common corner of the tiles 9 (north),
    17 (east), 18 (south) and 10 (west) of a map eight tiles wide. -/
def ringMap : State :=
  { mapWith groundTile with
    tiles := fun i =>
      if i = 9 then reservedTile TRACK_BIT_LOWER
      else if i = 17 then reservedTile TRACK_BIT_LEFT
      else if i = 18 then reservedTile TRACK_BIT_UPPER
      else if i = 10 then reservedTile TRACK_BIT_RIGHT
      else groundTile }

/-- A track follower for the circle of `ringMap`, clockwise. -/
def ringFollower : TrackFollower :=
  { construct := fun o a rts =>
      followerAt o a rts RailPathPos.invalid INVALID_TILE .INVALID_TRACKDIR .DIAGDIR_NE
    constructFor := fun v a rt =>
      followerAt v.owner a rt RailPathPos.invalid INVALID_TILE .INVALID_TRACKDIR .DIAGDIR_NE
    SetPos := fun ft pos =>
      { ft with m_new := { pos with trackdirs := TrackdirToTrackdirBits pos.td } }
    FollowNext := fun _ ft =>
      let old := ft.m_new.toRailPathPos
      if old.tile = 9 then
        some (followerAt ft.m_veh_owner ft.m_allow_90deg ft.m_railtypes old 17 .TRACKDIR_LEFT_S
          .DIAGDIR_SE)
      else if old.tile = 17 then
        some (followerAt ft.m_veh_owner ft.m_allow_90deg ft.m_railtypes old 18 .TRACKDIR_UPPER_W
          .DIAGDIR_SW)
      else if old.tile = 18 then
        some (followerAt ft.m_veh_owner ft.m_allow_90deg ft.m_railtypes old 10 .TRACKDIR_RIGHT_N
          .DIAGDIR_NW)
      else if old.tile = 10 then
        some (followerAt ft.m_veh_owner ft.m_allow_90deg ft.m_railtypes old 9 .TRACKDIR_LOWER_E
          .DIAGDIR_NE)
      else none
    Follow := fun _ _ _ => none }

/-- The follower states of a walk along a reservation: the state after `i`
    steps from `ft0`, each step followed by the cut down to the reserved
    trackdirs. -/
def walkFollower (F : TrackFollower) (s : State) (ft0 : CFollowTrackRail) : Nat → CFollowTrackRail
  | 0 => ft0
  | i + 1 =>
    match F.FollowNext s (walkFollower F s ft0 i) with
    | some g => (FollowReservation.reservedNew s g).getD g
    | none => walkFollower F s ft0 i

/-- The positions of a walk along a reservation from the position `p0`. -/
def walkPos (F : TrackFollower) (s : State) (o : Owner) (rts : RailTypes) (p0 : RailPathPos)
    (i : Nat) : RailPathPos :=
  if i = 0 then p0
  else (walkFollower F s (F.SetPos (F.construct o true rts) p0) i).m_new.toRailPathPos

/-- The walk of `FollowReservation` terminates: some amount of fuel makes the
    routine return. -/
def FollowReservation.Terminates (F : TrackFollower) (s : State) (o : Owner) (rts : RailTypes)
    (pos : RailPathPos) (ignore_oneway : Bool) : Prop :=
  ∃ fuel, (FollowReservation F fuel s o rts pos ignore_oneway).isSome = true

/-- The first `n` steps of the walk from `p0` are steps of the track follower
    onto reserved positions. -/
def FollowReservation.walks (F : TrackFollower) (s : State) (o : Owner) (rts : RailTypes)
    (p0 : RailPathPos) (n : Nat) : Prop :=
  ∀ i, i < n →
    FollowReservation.reservedStep F s
      (walkFollower F s (F.SetPos (F.construct o true rts) p0) i)
      (walkFollower F s (F.SetPos (F.construct o true rts) p0) (i + 1))
      (walkPos F s o rts p0 (i + 1))

/-- The circle of `ringMap` with a spur: tile 11 carries a reserved x track that
    leads over an x track of tile 10 into the circle at tile 9. On tile 10 both
    the x track of the spur and the right track of the circle are reserved. -/
def lassoMap : State :=
  { mapWith groundTile with
    tiles := fun i =>
      if i = 9 then reservedTile TRACK_BIT_LOWER
      else if i = 17 then reservedTile TRACK_BIT_LEFT
      else if i = 18 then reservedTile TRACK_BIT_UPPER
      else if i = 10 then reservedTile (TRACK_BIT_X ||| TRACK_BIT_RIGHT)
      else if i = 11 then reservedTile TRACK_BIT_X
      else groundTile }

/-- A track follower for `lassoMap`: north-east along the spur, then clockwise
    around the circle. -/
def lassoFollower : TrackFollower :=
  { construct := fun o a rts =>
      followerAt o a rts RailPathPos.invalid INVALID_TILE .INVALID_TRACKDIR .DIAGDIR_NE
    constructFor := fun v a rt =>
      followerAt v.owner a rt RailPathPos.invalid INVALID_TILE .INVALID_TRACKDIR .DIAGDIR_NE
    SetPos := fun ft pos =>
      { ft with m_new := { pos with trackdirs := TrackdirToTrackdirBits pos.td } }
    FollowNext := fun _ ft =>
      let old := ft.m_new.toRailPathPos
      if old.tile = 11 ∧ old.td = .TRACKDIR_X_NE then
        some (followerAt ft.m_veh_owner ft.m_allow_90deg ft.m_railtypes old 10 .TRACKDIR_X_NE
          .DIAGDIR_NE)
      else if old.tile = 10 then
        some (followerAt ft.m_veh_owner ft.m_allow_90deg ft.m_railtypes old 9 .TRACKDIR_LOWER_E
          .DIAGDIR_NE)
      else if old.tile = 9 then
        some (followerAt ft.m_veh_owner ft.m_allow_90deg ft.m_railtypes old 17 .TRACKDIR_LEFT_S
          .DIAGDIR_SE)
      else if old.tile = 17 then
        some (followerAt ft.m_veh_owner ft.m_allow_90deg ft.m_railtypes old 18 .TRACKDIR_UPPER_W
          .DIAGDIR_SW)
      else if old.tile = 18 then
        some (followerAt ft.m_veh_owner ft.m_allow_90deg ft.m_railtypes old 10 .TRACKDIR_RIGHT_N
          .DIAGDIR_NW)
      else none
    Follow := fun _ _ _ => none }

/-- The follower of `lassoFollower` standing on `tile` after coming from
    `old`. -/
def lassoAt (old : RailPathPos) (tile : TileIndex) (td : Trackdir) (exitdir : DiagDirection) :
    CFollowTrackRail :=
  followerAt 0 true 0 old tile td exitdir

/-- The value of `cur` that a pass through the loop body leaves behind. -/
def LoopControl.cur : LoopControl → RailPathPos
  | .stop cur _ => cur
  | .next _ cur _ => cur

/-- A rail station tile of a platform along the x axis, flagged reserved. -/
def reservedStationTile : Tile := { platformStationTile with station_reserved := true }

/-- A train position on the reserved rail tile 9 in front of a platform of the
    four tiles 10 to 13 along the x axis, of which only the first two, 10 and
    11, are flagged reserved: the reservation ends inside the station. -/
def stationEndMap : State :=
  { mapWith groundTile with
    tiles := fun i =>
      if i = 9 then reservedXTile
      else if i = 10 ∨ i = 11 then reservedStationTile
      else if i = 12 ∨ i = 13 then platformStationTile
      else groundTile }

/-- A track follower for straight track along the x axis, going south-west,
    that knows platforms: a step onto a rail station tile goes on to the last
    tile of the platform and counts the tiles skipped. -/
def platformFollower : TrackFollower :=
  { construct := fun o a rts =>
      followerAt o a rts RailPathPos.invalid INVALID_TILE .INVALID_TRACKDIR .DIAGDIR_NE
    constructFor := fun v a rt =>
      followerAt v.owner a rt RailPathPos.invalid INVALID_TILE .INVALID_TRACKDIR .DIAGDIR_NE
    SetPos := fun ft pos =>
      { ft with m_new := { pos with trackdirs := TrackdirToTrackdirBits pos.td } }
    FollowNext := fun s ft =>
      let t := ft.m_new.tile + 1
      if IsRailStationTile s t then
        let length := platformRunLength s t 1 64 t
        some { followerAt ft.m_veh_owner ft.m_allow_90deg ft.m_railtypes ft.m_new.toRailPathPos
                (t + (length - 1)) .TRACKDIR_X_SW .DIAGDIR_SW with
               m_flag := .TF_STATION, m_tiles_skipped := ((length - 1 : Nat) : Int) }
      else if GetTileType s t == .TT_RAILWAY && HasTrackBit (GetTileRailwayStatus s t) .TRACK_X then
        some (followerAt ft.m_veh_owner ft.m_allow_90deg ft.m_railtypes ft.m_new.toRailPathPos
          t .TRACKDIR_X_SW .DIAGDIR_SW)
      else none
    Follow := fun _ _ _ => none }

/-- The straight reserved line of `lineMap` with, instead of its signal, an
    ordinary one-way block signal on tile 4 that faces against the direction of
    travel south-west. -/
def blockedLineMap : State :=
  { lineMap with signal_on_trackdir := fun t td => t == 4 && td == .TRACKDIR_X_NE }

/-- A vehicle the loop of `FindTrainOnTrack` and `FindTrainInWormhole` does not
    skip: a train that has not crashed and whose trackdir passes the test. -/
def Vehicle.isTrainOn (wanted : TrainTrackdir → Bool) (v : Vehicle) : Bool :=
  v.type == .VEH_TRAIN && !v.crashed && wanted v.trackdir

/-- A train vehicle, not crashed, on the given track of its tile. -/
def Vehicle.isTrainOnTrack (track : Track) (v : Vehicle) : Bool :=
  v.isTrainOn (fun td => td.toTrack == some track)

/-- A train vehicle, not crashed, inside a wormhole. -/
def Vehicle.isTrainInWormhole (v : Vehicle) : Bool :=
  v.isTrainOn (fun td => td == .TRACKDIR_WORMHOLE)

/-- The head kept by the loop of `FindTrainOnTrack` after it has looked at the
    head `t`. -/
def FindTrain.better (t : Vehicle) : Option Vehicle → Vehicle
  | none => t
  | some b => if t.index < b.index then t else b

/-- A train vehicle on a tile, heading a chain or part of the chain of
    `first`. -/
def trainUnit (index first : VehicleID) (tile : TileIndex) (trackdir : TrainTrackdir) : Vehicle :=
  { index := index, type := .VEH_TRAIN, crashed := false, tile := tile, trackdir := trackdir,
    owner := 0, railtype := 0, first := first, front_engine := index == first,
    pos := match trackdir with
      | .onTrack td => RailPathPos.onTile tile td
      | .TRACKDIR_WORMHOLE => { tile := INVALID_TILE, td := .INVALID_TRACKDIR, wormhole := tile } }

/-- A pool with the two trains 3 (with the wagon 4) and 7 on the x track of
    tile 5, the wagon and train 7 being what the tile iterator yields, and a
    road vehicle 1 on the same tile. -/
def twoTrainsPool : Vehicles :=
  { on_tile := fun t =>
      if t = 5 then
        [{ trainUnit 1 1 5 (.onTrack .TRACKDIR_X_NE) with type := .VEH_ROAD },
          trainUnit 7 7 5 (.onTrack .TRACKDIR_X_SW), trainUnit 4 3 5 (.onTrack .TRACKDIR_X_SW)]
      else []
    get := fun i =>
      if i = 4 then trainUnit 4 3 5 (.onTrack .TRACKDIR_X_SW)
      else trainUnit i i 5 (.onTrack .TRACKDIR_X_SW) }

/-- The tiles `FindTrainOnPathEnd` looks at, in its order: for a position in a
    wormhole the wormhole end and then the other end; otherwise the tile of the
    position and then the tiles behind it, against the direction of travel. -/
def FindTrainOnPathEnd.location (s : State) (pos : RailPathPos) (k : Nat) : TileIndex :=
  if pos.in_wormhole then
    if k = 0 then pos.wormhole else GetOtherTunnelBridgeEnd s pos.wormhole
  else
    match TrackdirToExitdir (ReverseTrackdir pos.td) with
    | some exitdir => (fun t => TILE_ADD t (TileOffsByDiagDir s exitdir))^[k] pos.tile
    | none => pos.tile

/-- The vehicles `FindTrainOnPathEnd` is looking for at a position: trains
    that have not crashed, inside a wormhole or on the track of the
    position. -/
def FindTrainOnPathEnd.qualifies (pos : RailPathPos) (v : Vehicle) : Bool :=
  if pos.in_wormhole then v.isTrainInWormhole
  else
    match TrackdirToTrack pos.td with
    | some track => v.isTrainOnTrack track
    | none => false

/-- Train 7 on the first tile of the platform of `platformMap` and train 3 on
    the tile behind it. -/
def platformPool : Vehicles :=
  { on_tile := fun t =>
      if t = 10 then [trainUnit 7 7 10 (.onTrack .TRACKDIR_X_NE)]
      else if t = 11 then [trainUnit 3 3 11 (.onTrack .TRACKDIR_X_NE)]
      else []
    get := fun i => trainUnit i i (if i = 3 then 11 else 10) (.onTrack .TRACKDIR_X_NE) }

/-- Train 1 on tile 9, in front of the platform of `stationEndMap`, and train 2
    on tile 11 of the platform. -/
def stationPool : Vehicles :=
  { on_tile := fun t =>
      if t = 9 then [trainUnit 1 1 9 (.onTrack .TRACKDIR_X_SW)]
      else if t = 11 then [trainUnit 2 2 11 (.onTrack .TRACKDIR_X_SW)]
      else []
    get := fun i => trainUnit i i (if i = 1 then 9 else 11) (.onTrack .TRACKDIR_X_SW) }

/-- A step of a track follower for straight track along the x axis, in both
    directions: to the next tile when that is a rail tile with an x track or a
    rail depot that opens towards the tile left; a depot is left only through
    its opening. -/
def axisStep (s : State) (ft : CFollowTrackRail) : Option CFollowTrackRail :=
  let old := ft.m_new.toRailPathPos
  if old.td == .TRACKDIR_X_SW || old.td == .TRACKDIR_X_NE then
    match TrackdirToExitdir old.td with
    | some exitdir =>
      if IsRailDepotTile s old.tile && GetGroundDepotDirection s old.tile != exitdir then none
      else
        let t := TILE_ADD old.tile (TileOffsByDiagDir s exitdir)
        if (GetTileType s t == .TT_RAILWAY && HasTrackBit (GetTileRailwayStatus s t) .TRACK_X) ||
            (IsRailDepotTile s t && GetGroundDepotDirection s t == ReverseDiagDir exitdir) then
          some (followerAt ft.m_veh_owner ft.m_allow_90deg ft.m_railtypes old t
            (DiagDirToDiagTrackdir exitdir) exitdir)
        else none
    | none => none
  else none

/-- A track follower for straight track along the x axis. -/
def axisFollower : TrackFollower :=
  { construct := fun o a rts =>
      followerAt o a rts RailPathPos.invalid INVALID_TILE .INVALID_TRACKDIR .DIAGDIR_NE
    constructFor := fun v a rt =>
      followerAt v.owner a rt RailPathPos.invalid INVALID_TILE .INVALID_TRACKDIR .DIAGDIR_NE
    SetPos := fun ft pos =>
      { ft with m_new := { pos with trackdirs := TrackdirToTrackdirBits pos.td } }
    FollowNext := fun s ft => axisStep s ft
    Follow := fun s ft pos =>
      axisStep s { ft with m_new := { pos with trackdirs := TrackdirToTrackdirBits pos.td } } }

/-- A rail depot along the x axis that opens to the south-west, reserved. -/
def reservedDepotTile : Tile :=
  { groundTile with type := .TT_MISC, subtype := .TT_MISC_DEPOT, depot_is_rail := true,
                    depot_dir := .DIAGDIR_SW, depot_reserved := true,
                    railway_status := TRACK_BIT_X }

/-- A reserved line over the tiles 2 to 4 that ends in the depot on tile 1. -/
def depotLineMap : State :=
  { mapWith groundTile with
    tiles := fun i =>
      if i = 1 then reservedDepotTile
      else if 2 ≤ i ∧ i ≤ 4 then reservedXTile
      else groundTile }

/-- Train 1 on the depot tile of `depotLineMap`, on its way into the depot. -/
def depotPool : Vehicles :=
  { on_tile := fun t => if t = 1 then [trainUnit 1 1 1 (.onTrack .TRACKDIR_X_NE)] else []
    get := fun i => trainUnit i i 1 (.onTrack .TRACKDIR_X_NE) }

/-- Train 1 on tile 4 of `lineMap`, in front of the signal. -/
def linePool : Vehicles :=
  { on_tile := fun t => if t = 4 then [trainUnit 1 1 4 (.onTrack .TRACKDIR_X_SW)] else []
    get := fun i => trainUnit i i 4 (.onTrack .TRACKDIR_X_SW) }

/-- A stand-in for `FreeTrainTrackReservation` that leaves a trace in the
    state: it marks the tile of the train. -/
def releaseMark (s : State) (t : Vehicle) : State := MarkTileDirtyByTile s t.tile

/-! ## Notions for the analysis of waiting positions -/

/-- A position that `CheckWaitingPosition` can analyse: inside a wormhole, or
    on a tile with one of the twelve trackdirs. -/
def RailPathPos.has_track (p : RailPathPos) : Bool :=
  p.in_wormhole || (TrackdirToTrack p.td).isSome

/-- A depot entry position: on a rail depot tile, heading into the depot (the
    test of `pbs.cpp`, line 442). -/
def IsDepotEntryPosition (s : State) (pos : RailPathPos) : Bool :=
  !pos.in_wormhole && (IsRailDepotTile s pos.tile &&
    pos.td == DiagDirToDiagTrackdir (ReverseDiagDir (GetGroundDepotDirection s pos.tile)))

/-- A position with a signal along the direction of travel that is not a PBS
    signal (the test of `pbs.cpp`, line 444). -/
def HasNonPbsSignalAlong (s : State) (pos : RailPathPos) : Bool :=
  pos.has_signal_along s && !IsPbsSignal (pos.get_signal_type s)

/-- The track of the position itself is reserved on its tile
    (`HasReservedTrack(pos.tile, TrackdirToTrack(pos.td))`). -/
def OwnTrackReserved (s : State) (pos : RailPathPos) : Bool :=
  match TrackdirToTrack pos.td with
  | some track => HasReservedTrack s pos.tile track
  | none => false

/-- The position is taken: its wormhole is reserved, or its track overlaps a
    reserved track of its tile (the tests of `pbs.cpp`, lines 432 and 450). -/
def PositionOccupied (s : State) (pos : RailPathPos) : Bool :=
  if pos.in_wormhole then HasReservedPos s pos
  else
    match TrackdirToTrack pos.td with
    | some track => TrackOverlapsTracks (GetReservedTrackbits s pos.tile) track
    | none => false

/-- The next position carries no signal that makes it a place to stop before:
    it has a signal along that is no PBS signal, or no signal along and a
    signal against that is no one-way PBS signal, or no signal at all (the
    three `return PBS_UNSAFE` of `pbs.cpp`, lines 472-481). -/
def CheckWaitingPosition.lacksSafeSignal (s : State) (m_new : RailPathNewPos) : Bool :=
  if m_new.has_signal_along s then !IsPbsSignal (m_new.get_signal_type s)
  else if m_new.has_signal_against s then m_new.get_signal_type s != .SIGTYPE_PBS_ONEWAY
  else true

/-- A tile with its reservation bits and flags cleared. -/
def Tile.withoutReservation (c : Tile) : Tile :=
  { c with rail_reservation := TRACK_BIT_NONE, crossing_reserved := false,
           tunnel_head_reserved := false, depot_reserved := false, station_reserved := false }

/-- Two states that differ at most in reservation bits: the reservation bits
    and flags of the tiles, the reservation of wormholes, and the redraw and
    trigger lists the writers of reservations leave behind. -/
def SameButReservation (s s' : State) : Prop :=
  (∀ u, (s'.tiles u).withoutReservation = (s.tiles u).withoutReservation) ∧
    s'.map_size_x = s.map_size_x ∧
    s'.show_track_reservation = s.show_track_reservation ∧
    s'.train_near_crossing = s.train_near_crossing ∧
    s'.same_platform = s.same_platform ∧
    s'.signal_on_trackdir = s.signal_on_trackdir ∧
    s'.signal_type = s.signal_type ∧
    s'.other_tunnel_bridge_end = s.other_tunnel_bridge_end ∧
    s'.tile_owner = s.tile_owner ∧
    s'.rail_type = s.rail_type ∧
    s'.compatible_railtypes = s.compatible_railtypes

/-- A plain rail tile with the x track, reserved or not. -/
def xTile (reserved : Bool) : Tile :=
  { groundTile with type := .TT_RAILWAY, railway_status := TRACK_BIT_X,
                    rail_reservation := if reserved then TRACK_BIT_X else TRACK_BIT_NONE }

/-- A straight line of rail over the tiles 1 to 5 along the x axis; tile 2 is
    reserved when `here` is set and tile 3 when `ahead` is set; tile 3 carries
    a signal of kind `type` along the direction south-west when `along` is set
    and against it when `against` is set. -/
def signalLineMap (here ahead along against : Bool) (type : SignalType) : State :=
  { mapWith groundTile with
    tiles := fun i =>
      if i = 2 then xTile here
      else if i = 3 then xTile ahead
      else if 1 ≤ i ∧ i ≤ 5 then xTile false
      else groundTile
    signal_on_trackdir := fun t td =>
      t == 3 && ((along && td == .TRACKDIR_X_SW) || (against && td == .TRACKDIR_X_NE))
    signal_type := fun _ _ => type }

/-- A junction with the upper track reserved and an ordinary block signal
    along the x track in direction north-east. -/
def signalJunctionMap : State :=
  { mapWith junctionTile with
    signal_on_trackdir := fun t td => t == 5 && td == .TRACKDIR_X_NE
    signal_type := fun _ _ => .SIGTYPE_NORMAL }

/-- The train the examples of waiting positions are analysed for. -/
def waitingTrain : Vehicle := trainUnit 1 1 1 (.onTrack .TRACKDIR_X_SW)

/-- The follower of `axisFollower` for `waitingTrain` after the step from
    tile 2 to tile 3 in direction south-west. -/
def stepFromTwo : CFollowTrackRail :=
  followerAt 0 true 0 (RailPathPos.onTile 2 .TRACKDIR_X_SW) 3 .TRACKDIR_X_SW .DIAGDIR_SW

/-! ## Positions of the pathfinder (`pathfinder_type.h`) -/

/-- The trackdir bits that stand for a trackdir (`TRACKDIR_BIT_MASK`,
    `0x3F3F`). -/
def TRACKDIR_BIT_MASK : TrackdirBits := 16191

/-- Pathfinder current position (`struct PFPos`, `pathfinder_type.h`,
    lines 67-103). -/
structure PFPos where
  tile : TileIndex
  td : Trackdir
  deriving DecidableEq, Repr

/-- Pathfinder new position (`struct PFNewPos`, `pathfinder_type.h`,
    lines 108-117). -/
structure PFNewPos extends PFPos where
  trackdirs : TrackdirBits
  deriving DecidableEq, Repr

/-- The method `PFNewPos::SetTrackdir()` (`pathfinder_type.h`,
    lines 111-114). -/
def PFNewPos.SetTrackdir (p : PFNewPos) : PFNewPos :=
  { p with
    td := if KillFirstTrackdirBit p.trackdirs == TRACKDIR_BIT_NONE then
            FindFirstTrackdir p.trackdirs
          else .INVALID_TRACKDIR }

/-- The method `PFNewPos::IsTrackdirSet()` (`pathfinder_type.h`,
    line 116). -/
def PFNewPos.IsTrackdirSet (p : PFNewPos) : Bool := p.td != .INVALID_TRACKDIR

/-! ## Notions for the postconditions of `FollowReservation` -/

/-- Modelled from the spec: the trackdirs "reachable from the current"
    position on the next tile, entered in a direction
    (`DiagdirReachesTrackdirs` of `track_func.h`, not among the sources): the
    trackdirs whose reverse leaves the tile through the side of entry. -/
def DiagdirReachesTrackdirs : DiagDirection → TrackdirBits
  | .DIAGDIR_NE => TrackdirToTrackdirBits .TRACKDIR_X_NE |||
      TrackdirToTrackdirBits .TRACKDIR_LOWER_E ||| TrackdirToTrackdirBits .TRACKDIR_LEFT_N
  | .DIAGDIR_SE => TrackdirToTrackdirBits .TRACKDIR_Y_SE |||
      TrackdirToTrackdirBits .TRACKDIR_LEFT_S ||| TrackdirToTrackdirBits .TRACKDIR_UPPER_E
  | .DIAGDIR_SW => TrackdirToTrackdirBits .TRACKDIR_X_SW |||
      TrackdirToTrackdirBits .TRACKDIR_RIGHT_S ||| TrackdirToTrackdirBits .TRACKDIR_UPPER_W
  | .DIAGDIR_NW => TrackdirToTrackdirBits .TRACKDIR_Y_NW |||
      TrackdirToTrackdirBits .TRACKDIR_RIGHT_N ||| TrackdirToTrackdirBits .TRACKDIR_LOWER_W

/-- A tile store in which the reserved tracks of a tile never overlap. -/
def NoOverlappingReservation (s : State) : Prop :=
  ∀ t, TracksOverlap (GetReservedTrackbits s t) = false

/-- The tile number `k` of the platform tiles a step of the track follower
    skipped, counted back from its new position. -/
def skippedTile (s : State) (g : CFollowTrackRail) (k : Nat) : TileIndex :=
  (fun u => TILE_ADD u (-(TileOffsByDiagDir s g.m_exitdir)))^[k] g.m_new.tile

/-- What a step of the track follower onto a tile provides: outside stations
    the trackdirs of the new position are reachable in the direction of the
    step; with `TF_STATION` the new tile and the tiles skipped are rail station
    tiles along the track of the new trackdir. -/
def FollowerStepsOnTrack (s : State) (g : CFollowTrackRail) : Prop :=
  g.m_new.in_wormhole = false →
    (g.m_flag ≠ .TF_STATION →
      g.m_new.trackdirs &&& DiagdirReachesTrackdirs g.m_exitdir = g.m_new.trackdirs) ∧
    (g.m_flag = .TF_STATION →
      ∃ track, TrackdirToTrack g.m_new.td = some track ∧
        ∀ k, k ≤ g.m_tiles_skipped.toNat →
          GetTileType s (skippedTile s g k) = .TT_STATION ∧
            HasStationRail s (skippedTile s g k) = true ∧
            HasTrackBit (AxisToTrackBits (GetRailStationAxis s (skippedTile s g k))) track = true)

/-- The value of `start` a pass through the loop of `FollowReservation` ends
    with. -/
def LoopControl.start : LoopControl → RailPathPos
  | .stop _ start => start
  | .next _ _ start => start

/-! ## The positions `FollowReservation` visits -/

/-- The position the second half of the loop body assigns to `cur`
    (`pbs.cpp`, line 245), when the pass gets that far. -/
def FollowReservation.advanceAssigns (s : State) (ignore_oneway : Bool) (ft : CFollowTrackRail) :
    Option RailPathPos :=
  if !ignore_oneway && ft.m_new.has_blocking_signal s then none else some ft.m_new.toRailPathPos

/-- The position a pass through the loop body of `FollowReservation` assigns to
    `cur` (`pbs.cpp`, lines 236 and 245), and `none` when the pass leaves the
    loop before it assigns one. -/
def FollowReservation.assigns (s : State) (ignore_oneway : Bool) (ft : CFollowTrackRail) :
    Option RailPathPos :=
  if ft.m_new.in_wormhole then
    if !HasReservedPos s ft.m_new.toRailPathPos then none
    else FollowReservation.advanceAssigns s ignore_oneway ft
  else if ft.m_flag != .TF_STATION then
    let trackdirs := ft.m_new.trackdirs &&&
      TrackBitsToTrackdirBits (GetReservedTrackbits s ft.m_new.tile)
    if trackdirs == TRACKDIR_BIT_NONE then none
    else
      FollowReservation.advanceAssigns s ignore_oneway
        { ft with m_new := ft.m_new.set_trackdirs trackdirs }
  else if !HasStationReservation s ft.m_new.tile then
    FollowReservation.skipped s (TileOffsByDiagDir s ft.m_exitdir) ft.m_tiles_skipped.toNat ft.m_new
  else FollowReservation.advanceAssigns s ignore_oneway ft

/-- The positions the loop of `FollowReservation` assigns to `cur`, in order,
    within the given number of passes. -/
def FollowReservation.visits (F : TrackFollower) (s : State) (ignore_oneway : Bool) :
    Nat → CFollowTrackRail → RailPathPos → RailPathPos → List RailPathPos
  | 0, _, _, _ => []
  | fuel + 1, ft, cur, start =>
    match F.FollowNext s ft with
    | none => []
    | some ft =>
      match FollowReservation.body s ignore_oneway ft cur start with
      | .stop _ _ => (FollowReservation.assigns s ignore_oneway ft).toList
      | .next ft' cur start =>
        (FollowReservation.assigns s ignore_oneway ft).toList ++
          FollowReservation.visits F s ignore_oneway fuel ft' cur start

/-- The sequence of positions `FollowReservation` visits from `pos`: the start
    position and then every position assigned to `cur`. -/
def FollowReservation.path (F : TrackFollower) (fuel : Nat) (s : State) (o : Owner)
    (rts : RailTypes) (pos : RailPathPos) (ignore_oneway : Bool) : List RailPathPos :=
  pos :: FollowReservation.visits F s ignore_oneway fuel (F.SetPos (F.construct o true rts) pos)
    pos RailPathPos.invalid

/-- The reserved spur and circle of `lassoMap` with an ordinary one-way block
    signal on tile 17 that faces against the direction of travel around the
    circle. -/
def blockedLassoMap : State :=
  { lassoMap with signal_on_trackdir := fun t td => t == 17 && td == .TRACKDIR_LEFT_N }

/-! ## Widgets of the old widget array (`widget.cpp`) -/

/-- The value of an `int` converted to `int16`. -/
def toInt16 (x : Int) : Int := (x + 32768) % 65536 - 32768

/-- The value of an `int` converted to `byte`. -/
def toByte (x : Int) : Nat := (x % 256).toNat

/-- The value of an `int` converted to `uint16`. -/
def toUint16 (x : Int) : Nat := (x % 65536).toNat

/-- The value of an `int` converted to `uint`. -/
def toUint (x : Int) : Nat := (x % 4294967296).toNat

/-- The value of a `uint`, or of the result of an operation on `int`s,
    as a 32 bit `int`. -/
def toInt32 (x : Int) : Int := (x + 2147483648) % 4294967296 - 2147483648

/-- The widget types `ScrollbarClickHandler` tells apart (`enum WidgetType` of
    `window_gui.h`, not among the sources): the three kinds of scrollbar;
    `WWT_PANEL` and `WWT_PUSHTXTBTN` stand for all the other types. -/
inductive WidgetType
  | WWT_PANEL | WWT_PUSHTXTBTN | WWT_SCROLLBAR | WWT_SCROLL2BAR | WWT_HSCROLLBAR
  deriving DecidableEq, Repr

/-- The members of `Widget` (`window_gui.h`, not among the sources) that the
    routines below use: the type and the four coordinates, which are `int16`
    like the locals of `ResizeWidgets` and `ResizeButtons`. -/
structure Widget where
  type : WidgetType
  left : Int
  right : Int
  top : Int
  bottom : Int
  deriving DecidableEq, Repr

/-- The widget array `w->widget` of a window. -/
abbrev Widgets := Nat → Widget

/-- The widget array with the widget `i` replaced by `x`. -/
def Widgets.set (w : Widgets) (i : Nat) (x : Widget) : Widgets :=
  fun j => if j = i then x else w j

/-- Evenly distribute the combined horizontal length of two consecutive
    widgets (`widget.cpp`, lines 534-542). -/
def ResizeWidgets.two (w : Widgets) (a b : Nat) : Widgets :=
  let offset := toInt16 (w a).left
  let length := toInt16 ((w b).right - offset)
  let w := Widgets.set w a { w a with right := toInt16 (length.tdiv 2 + offset) }
  Widgets.set w b { w b with left := toInt16 ((w a).right + 1) }

/-- Evenly distribute the combined horizontal length of three consecutive
    widgets (`widget.cpp`, lines 552-566). -/
def ResizeWidgets.three (w : Widgets) (a b c : Nat) : Widgets :=
  let offset := toInt16 (w a).left
  let length := toInt16 ((w c).right - offset)
  let w := Widgets.set w a { w a with right := toInt16 (length.tdiv 3) }
  let w := Widgets.set w b { w b with right := toInt16 ((w a).right * 2) }
  let w := Widgets.set w a { w a with right := toInt16 ((w a).right + offset) }
  let w := Widgets.set w b { w b with right := toInt16 ((w b).right + offset) }
  let w := Widgets.set w b { w b with left := toInt16 ((w a).right + 1) }
  Widgets.set w c { w c with left := toInt16 ((w b).right + 1) }

/-- The split point `middle` of `ResizeButtons` for more than three widgets
    (`widget.cpp`, line 603). -/
def ResizeButtons.middle (length num_widgets offset : Int) : Int :=
  toInt16 ((length * num_widgets).tdiv (2 * num_widgets) + offset)

/-- Evenly distribute some widgets when resizing horizontally (`widget.cpp`,
    lines 574-612); `left` and `right` are bytes. The result is `none` when
    `NOT_REACHED()` is hit or the fuel for the recursion runs out. -/
def ResizeButtons : Nat → Widgets → Nat → Nat → Option Widgets
  | 0, _, _, _ => none
  | fuel + 1, w, left, right =>
    let num_widgets := toInt16 ((right : Int) - (left : Int) + 1)
    if num_widgets < 2 then none
    else if num_widgets = 2 then some (ResizeWidgets.two w left right)
    else if num_widgets = 3 then
      some (ResizeWidgets.three w left (toByte ((left : Int) + 1)) right)
    else
      let offset := toInt16 (w left).left
      let length := toInt16 ((w right).right - offset)
      let widget := toByte ((num_widgets - 1).tdiv 2 + (left : Int))
      let middle := ResizeButtons.middle length num_widgets offset
      let w := Widgets.set w widget { w widget with right := middle }
      let w := Widgets.set w (toByte ((widget : Int) + 1))
        { w (toByte ((widget : Int) + 1)) with left := toInt16 ((w widget).right + 1) }
      match ResizeButtons fuel w left widget with
      | none => none
      | some w => ResizeButtons fuel w (toByte ((widget : Int) + 1)) right

/-- A row of widgets from `left` pixels to `right` pixels: the first widget
    starts at `left`, the last one ends at `right`, everything else is zero. -/
def buttonRow (first last : Nat) (left right : Int) : Widgets :=
  fun i =>
    { type := .WWT_PUSHTXTBTN, left := if i = first then left else 0,
      right := if i = last then right else 0, top := 0, bottom := 11 }

/-- What `ResizeButtons` leaves behind for the widgets `left` to `right`: the
    widgets outside are untouched, and so are the left edge of the first, the
    right edge of the last and every top and bottom; each widget starts, in
    16 bit arithmetic, one pixel after the right edge of the one before; the
    right edges of all but the last widget are 16 bit numbers; and when the
    row has a pixel or more for every widget and its length fits 16 bits, they
    lie from the left edge of the row up to, not including, its right edge. -/
def ResizeButtons.Post (w : Widgets) (left right : Nat) (w' : Widgets) : Prop :=
  (∀ i, i < left ∨ right < i → w' i = w i) ∧
    (w' left).left = (w left).left ∧ (w' right).right = (w right).right ∧
    (∀ i, (w' i).top = (w i).top ∧ (w' i).bottom = (w i).bottom) ∧
    (∀ i, left ≤ i → i < right → (w' (i + 1)).left = toInt16 ((w' i).right + 1)) ∧
    (∀ i, left ≤ i → i < right → -32768 ≤ (w' i).right ∧ (w' i).right ≤ 32767) ∧
    (-32768 ≤ (w left).left → (w right).right ≤ 32767 →
      (right : Int) - (left : Int) ≤ (w right).right - (w left).left →
      (w right).right - (w left).left ≤ 32767 →
      ∀ i, left ≤ i → i < right →
        (w left).left ≤ (w' i).right ∧ (w' i).right < (w right).right)

/-! ## Scrollbars (`widget.cpp`) -/

/-- A point (`struct Point`, not among the sources). -/
structure Point where
  x : Int
  y : Int
  deriving DecidableEq, Repr

/-- The members of `Scrollbar` (`window_gui.h`, not among the sources): the
    number of elements in the list, the number of visible elements and the
    index of the first visible element, 16 bit unsigned numbers. -/
structure Scrollbar where
  count : Nat
  cap : Nat
  pos : Nat
  deriving DecidableEq, Repr

/-- The three scrollbars of a window. -/
inductive ScrollbarId
  | vscroll | vscroll2 | hscroll
  deriving DecidableEq, Repr

/-- The bits of `Window::flags4` that `ScrollbarClickHandler` sets and
    clears. -/
structure WindowFlags where
  WF_HSCROLL : Bool
  WF_SCROLL2 : Bool
  WF_SCROLL_UP : Bool
  WF_SCROLL_DOWN : Bool
  WF_SCROLL_MIDDLE : Bool
  deriving DecidableEq, Repr

/-- The members of `Window` that `ScrollbarClickHandler` uses; `dirty` records
    the call of `SetDirty()`. -/
structure Window where
  flags4 : WindowFlags
  vscroll : Scrollbar
  vscroll2 : Scrollbar
  hscroll : Scrollbar
  dirty : Bool
  deriving DecidableEq, Repr

/-- The global variables `ScrollbarClickHandler` uses; `cursor_pos` is
    `_cursor.pos`. -/
structure ScrollGlobals where
  scroller_click_timeout : Nat
  left_button_clicked : Bool
  scrollbar_start_pos : Int
  scrollbar_size : Int
  scrolling_scrollbar : Bool
  cursorpos_drag_start : Point
  cursor_pos : Point
  deriving DecidableEq, Repr

def Window.scrollbar (w : Window) : ScrollbarId → Scrollbar
  | .vscroll => w.vscroll
  | .vscroll2 => w.vscroll2
  | .hscroll => w.hscroll

def Window.setScrollbar (w : Window) (id : ScrollbarId) (sb : Scrollbar) : Window :=
  match id with
  | .vscroll => { w with vscroll := sb }
  | .vscroll2 => { w with vscroll2 := sb }
  | .hscroll => { w with hscroll := sb }

/-- Compute the vertical position of the draggable part of a scrollbar
    (`widget.cpp`, lines 26-48). The locals are 32 bit `int`s: every operation
    on them is taken modulo 2^32. -/
def HandleScrollbarHittest (sb : Scrollbar) (top bottom : Int) : Point :=
  let top := toInt32 (top + 10)
  let bottom := toInt32 (bottom - 9)
  let height := toInt32 (bottom - top)
  let pos : Int := sb.pos
  let count : Int := sb.count
  let cap : Int := sb.cap
  let top := if count ≠ 0 then toInt32 (top + (toInt32 (height * pos)).tdiv count) else top
  let cap := if cap > count then count else cap
  let bottom :=
    if count ≠ 0 then
      toInt32 (bottom - (toInt32 (toInt32 (toInt32 (count - pos) - cap) * height)).tdiv count)
    else bottom
  { x := top, y := toInt32 (bottom - 1) }

/-- The first `switch` of `ScrollbarClickHandler` (`widget.cpp`, lines 62-93):
    the window with its flags set for the kind of scrollbar, the bounds `mi`
    and `ma`, the coordinate `pos` of the click and the scrollbar; `none` for
    `NOT_REACHED()`. -/
def ScrollbarClickHandler.select (w : Window) (wi : Widget) (x y : Int) :
    Option (Window × Int × Int × Int × ScrollbarId) :=
  match wi.type with
  | .WWT_SCROLLBAR =>
    some ({ w with flags4 := { w.flags4 with WF_HSCROLL := false, WF_SCROLL2 := false } },
      wi.top, wi.bottom, y, .vscroll)
  | .WWT_SCROLL2BAR =>
    some ({ w with flags4 := { w.flags4 with WF_HSCROLL := false, WF_SCROLL2 := true } },
      wi.top, wi.bottom, y, .vscroll2)
  | .WWT_HSCROLLBAR =>
    some ({ w with flags4 := { w.flags4 with WF_SCROLL2 := false, WF_HSCROLL := true } },
      wi.left, wi.right, x, .hscroll)
  | _ => none

/-- The handling of the click once the scrollbar is known (`widget.cpp`,
    lines 94-130): the up button, the down button, or the bar with the part in
    front of, behind and on the slider. -/
def ScrollbarClickHandler.click (g : ScrollGlobals) (w : Window) (mi ma pos : Int)
    (id : ScrollbarId) : ScrollGlobals × Window :=
  let sb := w.scrollbar id
  if pos ≤ toInt32 (mi + 9) then
    let w := { w with flags4 := { w.flags4 with WF_SCROLL_UP := true } }
    let r : ScrollGlobals × Window :=
      if g.scroller_click_timeout = 0 then
        ({ g with scroller_click_timeout := 6 },
          if sb.pos ≠ 0 then w.setScrollbar id { sb with pos := toUint16 ((sb.pos : Int) - 1) }
          else w)
      else (g, w)
    ({ r.1 with left_button_clicked := false }, r.2)
  else if pos ≥ toInt32 (ma - 10) then
    let w := { w with flags4 := { w.flags4 with WF_SCROLL_DOWN := true } }
    let r : ScrollGlobals × Window :=
      if g.scroller_click_timeout = 0 then
        ({ g with scroller_click_timeout := 6 },
          if toByte ((sb.pos : Int) + (sb.cap : Int)) < sb.count then
            w.setScrollbar id { sb with pos := toUint16 ((sb.pos : Int) + 1) }
          else w)
      else (g, w)
    ({ r.1 with left_button_clicked := false }, r.2)
  else
    let pt := HandleScrollbarHittest sb mi ma
    if pos < pt.x then
      (g, w.setScrollbar id
        { sb with pos := toUint16 (max ((sb.pos : Int) - (sb.cap : Int)) 0) })
    else if pos > pt.y then
      (g, w.setScrollbar id
        { sb with pos := toUint16 (min ((sb.pos : Int) + (sb.cap : Int))
            (max ((sb.count : Int) - (sb.cap : Int)) 0)) })
    else
      ({ g with scrollbar_start_pos := toInt32 (toInt32 (pt.x - mi) - 9),
                scrollbar_size := toInt32 (toInt32 (ma - mi) - 23),
                scrolling_scrollbar := true, cursorpos_drag_start := g.cursor_pos },
        { w with flags4 := { w.flags4 with WF_SCROLL_MIDDLE := true } })

/-- Special handling for the scrollbar widget type (`widget.cpp`,
    lines 57-133): the globals and the window after the click, or `none` when
    `NOT_REACHED()` is hit. -/
def ScrollbarClickHandler (g : ScrollGlobals) (w : Window) (wi : Widget) (x y : Int) :
    Option (ScrollGlobals × Window) :=
  match ScrollbarClickHandler.select w wi x y with
  | none => none
  | some (w, mi, ma, pos, id) =>
    let r := ScrollbarClickHandler.click g w mi ma pos id
    some (r.1, { r.2 with dirty := true })

/-- The scrollbar shows a part of its list: `pos <= max(count - cap, 0)`. -/
def Scrollbar.InBounds (sb : Scrollbar) : Prop :=
  (sb.pos : Int) ≤ max ((sb.count : Int) - (sb.cap : Int)) 0

/-- The members of a scrollbar are 16 bit numbers. -/
def Scrollbar.Is16Bit (sb : Scrollbar) : Prop :=
  sb.count < 65536 ∧ sb.cap < 65536 ∧ sb.pos < 65536

/-- A window with one and the same scrollbar three times over, no flag set. -/
def scrollWindow (sb : Scrollbar) : Window :=
  { flags4 := { WF_HSCROLL := false, WF_SCROLL2 := false, WF_SCROLL_UP := false,
                WF_SCROLL_DOWN := false, WF_SCROLL_MIDDLE := false },
    vscroll := sb, vscroll2 := sb, hscroll := sb, dirty := false }

/-- The globals with the given click timeout, nothing being dragged. -/
def scrollGlobals (timeout : Nat) : ScrollGlobals :=
  { scroller_click_timeout := timeout, left_button_clicked := true, scrollbar_start_pos := 0,
    scrollbar_size := 0, scrolling_scrollbar := false, cursorpos_drag_start := { x := 0, y := 0 },
    cursor_pos := { x := 0, y := 0 } }

/-- A vertical scrollbar widget over the pixels 0 to 100. -/
def scrollbarWidget : Widget :=
  { type := .WWT_SCROLLBAR, left := 0, right := 11, top := 0, bottom := 100 }

/-! ## Nested widget containers (`widget.cpp`) -/

/-- The data members of `NWidgetBase` (`widget_type.h`, not among the
    sources) that the containers read and write: sizes, positions and resize
    steps are `uint`, the paddings `uint8`. -/
structure NWidgetBase where
  smallest_x : Nat
  smallest_y : Nat
  fill_x : Bool
  fill_y : Bool
  resize_x : Nat
  resize_y : Nat
  pos_x : Nat
  pos_y : Nat
  padding_top : Nat
  padding_right : Nat
  padding_bottom : Nat
  padding_left : Nat
  deriving DecidableEq, Repr

/-- A call of the virtual method `AssignSizePosition` of a child: the data of
    the child it is called for and the arguments. -/
structure AssignCall where
  child : NWidgetBase
  x : Nat
  y : Nat
  given_width : Nat
  given_height : Nat
  allow_resize_x : Bool
  allow_resize_y : Bool
  rtl : Bool
  deriving DecidableEq, Repr

/-- A child of a container: its data and its two virtual methods, which
    depend on the class of the child and are parameters here.
    `SetupSmallestSize` gives the data of the child after the call and the
    returned index, `AssignSizePosition` the data of the child after the
    call. -/
structure NWidgetChild where
  base : NWidgetBase
  SetupSmallestSize : NWidgetBase → NWidgetBase × Int
  AssignSizePosition : AssignCall → NWidgetBase

/-- The members of a container with pre, inter and post space
    (`NWidgetPIPContainer`): its own data, the three spaces (`uint8`) and the
    children from `head` to `tail`. -/
structure NWidgetPIPContainer where
  base : NWidgetBase
  pip_pre : Nat
  pip_inter : Nat
  pip_post : Nat
  children : List NWidgetChild

/-- The statement `if (this->head != NULL) this->head->padding_left +=
    this->pip_pre` (`widget.cpp`, line 1037). -/
def NWidgetHorizontal.padHead (pip_pre : Nat) : List NWidgetChild → List NWidgetChild
  | [] => []
  | ch :: rest =>
    { ch with base := { ch.base with
        padding_left := toByte ((ch.base.padding_left : Int) + (pip_pre : Int)) } } :: rest

/-- The first statements of the loop body of
    `NWidgetHorizontal::SetupSmallestSize` (`widget.cpp`, lines 1039-1046): the
    data of the child after its own `SetupSmallestSize` and the addition to
    its right padding, and the index the call returned; `last` says that the
    child has no `next`. -/
def NWidgetHorizontal.setupChild (pip_inter pip_post : Nat) (ch : NWidgetChild) (last : Bool) :
    NWidgetBase × Int :=
  let r := ch.SetupSmallestSize ch.base
  ({ r.1 with
      padding_right := toByte ((r.1.padding_right : Int) +
        ((if last then pip_post else pip_inter : Nat) : Int)) }, r.2)

/-- The rest of the loop body of `NWidgetHorizontal::SetupSmallestSize`
    (`widget.cpp`, lines 1048-1056): the data of the container with the
    child `cb` taken into account. `LeastCommonMultiple` (not among the
    sources) is the parameter `lcm`. -/
def NWidgetHorizontal.accumulate (lcm : Nat → Nat → Nat) (b cb : NWidgetBase) : NWidgetBase :=
  { b with
    smallest_x := toUint ((b.smallest_x : Int) + (cb.smallest_x : Int) +
      (cb.padding_left : Int) + (cb.padding_right : Int)),
    smallest_y := max b.smallest_y (toUint ((cb.smallest_y : Int) + (cb.padding_top : Int) +
      (cb.padding_bottom : Int))),
    fill_x := b.fill_x || cb.fill_x,
    fill_y := b.fill_y && cb.fill_y,
    resize_x :=
      if cb.resize_x > 0 then
        if b.resize_x = 0 ∨ b.resize_x > cb.resize_x then cb.resize_x else b.resize_x
      else b.resize_x,
    resize_y := lcm b.resize_y cb.resize_y }

/-- The loop of `NWidgetHorizontal::SetupSmallestSize` (`widget.cpp`,
    lines 1038-1057): the children, the biggest index and the data of the
    container after it. -/
def NWidgetHorizontal.setupChildren (lcm : Nat → Nat → Nat) (pip_inter pip_post : Nat) :
    List NWidgetChild → Int → NWidgetBase → List NWidgetChild × Int × NWidgetBase
  | [], biggest_index, b => ([], biggest_index, b)
  | ch :: rest, biggest_index, b =>
    let r := NWidgetHorizontal.setupChild pip_inter pip_post ch rest.isEmpty
    let r' := NWidgetHorizontal.setupChildren lcm pip_inter pip_post rest
      (max biggest_index r.2) (NWidgetHorizontal.accumulate lcm b r.1)
    ({ ch with base := r.1 } :: r'.1, r'.2)

/-- Compute the smallest size of a horizontal container
    (`NWidgetHorizontal::SetupSmallestSize`, `widget.cpp`, lines 1027-1062):
    the container afterwards and the biggest index. -/
def NWidgetHorizontal.SetupSmallestSize (lcm : Nat → Nat → Nat) (c : NWidgetPIPContainer) :
    NWidgetPIPContainer × Int :=
  let b := { c.base with smallest_x := 0, smallest_y := 0, fill_x := false, fill_y := true,
                         resize_x := 0, resize_y := 1 }
  let r := NWidgetHorizontal.setupChildren lcm c.pip_inter c.pip_post
    (NWidgetHorizontal.padHead c.pip_pre c.children) (-1) b
  ({ base := r.2.2, pip_pre := 0, pip_inter := 0, pip_post := 0, children := r.1 }, r.2.1)

/-- The number of children that would like a piece of the pie
    (`widget.cpp`, lines 1078-1082). -/
def NWidgetHorizontal.countChanging (l : List NWidgetChild) : Nat :=
  (l.filter (fun ch => ch.base.fill_x)).length

/-- The loop of `NWidgetHorizontal::AssignSizePosition` that fills and
    positions the children (`widget.cpp`, lines 1088-1116), over the children
    in the order they are visited: the children afterwards and the calls of
    their `AssignSizePosition`, or `none` when the assertion fails. -/
def NWidgetHorizontal.assignChildren (x y given_height : Nat) (resize_y : Nat) (rtl : Bool) :
    List NWidgetChild → Nat → Nat → Nat → Bool → Option (List NWidgetChild × List AssignCall)
  | [], _, _, _, _ => some ([], [])
  | ch :: rest, additional_length, num_changing_childs, position, allow_resize_x =>
    let cb := ch.base
    if given_height < toUint ((cb.smallest_y : Int) + (cb.padding_top : Int) +
        (cb.padding_bottom : Int)) then none
    else
      let child_height :=
        if cb.fill_y then
          toUint ((given_height : Int) - (cb.padding_top : Int) - (cb.padding_bottom : Int))
        else cb.smallest_y
      let child_pos_y :=
        if cb.fill_y then cb.padding_top
        else toUint (((toUint ((given_height : Int) - (cb.padding_top : Int) -
          (cb.padding_bottom : Int) - (child_height : Int)) / 2 : Nat) : Int) +
          (cb.padding_top : Int))
      let increment := additional_length / num_changing_childs
      let piece : Nat × Nat × Nat :=
        if cb.fill_x ∧ num_changing_childs > 0 then
          (toUint ((cb.smallest_x : Int) + (increment : Int)),
            toUint ((additional_length : Int) - (increment : Int)), num_changing_childs - 1)
        else (cb.smallest_x, additional_length, num_changing_childs)
      let child_width := piece.1
      let additional_length := piece.2.1
      let num_changing_childs := piece.2.2
      let call : AssignCall :=
        { child := cb,
          x := toUint ((x : Int) + (position : Int) +
            ((if rtl then cb.padding_right else cb.padding_left : Nat) : Int)),
          y := toUint ((y : Int) + (child_pos_y : Int)),
          given_width := child_width, given_height := child_height,
          allow_resize_x := allow_resize_x, allow_resize_y := decide (resize_y > 0), rtl := rtl }
      let cb := ch.AssignSizePosition call
      let position := toUint ((position : Int) + (child_width : Int) + (cb.padding_right : Int) +
        (cb.padding_left : Int))
      let allow_resize_x := if cb.resize_x > 0 then false else allow_resize_x
      match NWidgetHorizontal.assignChildren x y given_height resize_y rtl rest additional_length
          num_changing_childs position allow_resize_x with
      | none => none
      | some r => some ({ ch with base := cb } :: r.1, call :: r.2)

/-- Assign size and position to a horizontal container and its children
    (`NWidgetHorizontal::AssignSizePosition`, `widget.cpp`, lines 1064-1118):
    the container afterwards and the calls of `AssignSizePosition` of the
    children in the order they are made, or `none` when an assertion fails. -/
def NWidgetHorizontal.AssignSizePosition (c : NWidgetPIPContainer)
    (x y given_width given_height : Nat) (allow_resize_x allow_resize_y rtl : Bool) :
    Option (NWidgetPIPContainer × List AssignCall) :=
  if ¬ (given_width ≥ c.base.smallest_x ∧ given_height ≥ c.base.smallest_y) then none
  else
    let additional_length := toUint ((given_width : Int) - (c.base.smallest_x : Int))
    let b := { c.base with
      pos_x := x, pos_y := y, smallest_x := given_width, smallest_y := given_height,
      resize_x := if allow_resize_x then c.base.resize_x else 0,
      resize_y := if allow_resize_y then c.base.resize_y else 0 }
    let num_changing_childs := NWidgetHorizontal.countChanging c.children
    match NWidgetHorizontal.assignChildren x y given_height b.resize_y rtl
        (if rtl then c.children.reverse else c.children) additional_length num_changing_childs 0
        (decide (b.resize_x > 0)) with
    | none => none
    | some r => some ({ c with base := b, children := if rtl then r.1.reverse else r.1 }, r.2)

/-- The statement `if (this->head != NULL) this->head->padding_top +=
    this->pip_pre` (`widget.cpp`, line 1162). -/
def NWidgetVertical.padHead (pip_pre : Nat) : List NWidgetChild → List NWidgetChild
  | [] => []
  | ch :: rest =>
    { ch with base := { ch.base with
        padding_top := toByte ((ch.base.padding_top : Int) + (pip_pre : Int)) } } :: rest

/-- The first statements of the loop body of
    `NWidgetVertical::SetupSmallestSize` (`widget.cpp`, lines 1164-1171). -/
def NWidgetVertical.setupChild (pip_inter pip_post : Nat) (ch : NWidgetChild) (last : Bool) :
    NWidgetBase × Int :=
  let r := ch.SetupSmallestSize ch.base
  ({ r.1 with
      padding_bottom := toByte ((r.1.padding_bottom : Int) +
        ((if last then pip_post else pip_inter : Nat) : Int)) }, r.2)

/-- The rest of the loop body of `NWidgetVertical::SetupSmallestSize`
    (`widget.cpp`, lines 1173-1181). -/
def NWidgetVertical.accumulate (lcm : Nat → Nat → Nat) (b cb : NWidgetBase) : NWidgetBase :=
  { b with
    smallest_y := toUint ((b.smallest_y : Int) + (cb.smallest_y : Int) +
      (cb.padding_top : Int) + (cb.padding_bottom : Int)),
    smallest_x := max b.smallest_x (toUint ((cb.smallest_x : Int) + (cb.padding_left : Int) +
      (cb.padding_right : Int))),
    fill_y := b.fill_y || cb.fill_y,
    fill_x := b.fill_x && cb.fill_x,
    resize_y :=
      if cb.resize_y > 0 then
        if b.resize_y = 0 ∨ b.resize_y > cb.resize_y then cb.resize_y else b.resize_y
      else b.resize_y,
    resize_x := lcm b.resize_x cb.resize_x }

/-- The loop of `NWidgetVertical::SetupSmallestSize` (`widget.cpp`,
    lines 1163-1182). -/
def NWidgetVertical.setupChildren (lcm : Nat → Nat → Nat) (pip_inter pip_post : Nat) :
    List NWidgetChild → Int → NWidgetBase → List NWidgetChild × Int × NWidgetBase
  | [], biggest_index, b => ([], biggest_index, b)
  | ch :: rest, biggest_index, b =>
    let r := NWidgetVertical.setupChild pip_inter pip_post ch rest.isEmpty
    let r' := NWidgetVertical.setupChildren lcm pip_inter pip_post rest
      (max biggest_index r.2) (NWidgetVertical.accumulate lcm b r.1)
    ({ ch with base := r.1 } :: r'.1, r'.2)

/-- Compute the smallest size of a vertical container
    (`NWidgetVertical::SetupSmallestSize`, `widget.cpp`, lines 1152-1187). -/
def NWidgetVertical.SetupSmallestSize (lcm : Nat → Nat → Nat) (c : NWidgetPIPContainer) :
    NWidgetPIPContainer × Int :=
  let b := { c.base with smallest_x := 0, smallest_y := 0, fill_x := true, fill_y := false,
                         resize_x := 1, resize_y := 0 }
  let r := NWidgetVertical.setupChildren lcm c.pip_inter c.pip_post
    (NWidgetVertical.padHead c.pip_pre c.children) (-1) b
  ({ base := r.2.2, pip_pre := 0, pip_inter := 0, pip_post := 0, children := r.1 }, r.2.1)

/-- The number of children that would like a piece of the pie
    (`widget.cpp`, lines 1202-1206). -/
def NWidgetVertical.countChanging (l : List NWidgetChild) : Nat :=
  (l.filter (fun ch => ch.base.fill_y)).length

/-- The loop of `NWidgetVertical::AssignSizePosition` that fills and positions
    the children (`widget.cpp`, lines 1211-1238); `additional_length` and
    `num_changing_childs` are of type `int` here. -/
def NWidgetVertical.assignChildren (x y given_width : Nat) (resize_x : Nat) (rtl : Bool) :
    List NWidgetChild → Int → Int → Nat → Bool → Option (List NWidgetChild × List AssignCall)
  | [], _, _, _, _ => some ([], [])
  | ch :: rest, additional_length, num_changing_childs, position, allow_resize_y =>
    let cb := ch.base
    if given_width < toUint ((cb.smallest_x : Int) + (cb.padding_left : Int) +
        (cb.padding_right : Int)) then none
    else
      let child_width :=
        if cb.fill_x then
          toUint ((given_width : Int) - (cb.padding_left : Int) - (cb.padding_right : Int))
        else cb.smallest_x
      let child_pos_x :=
        if cb.fill_x then (if rtl then cb.padding_right else cb.padding_left)
        else toUint (((toUint ((given_width : Int) - (cb.padding_left : Int) -
          (cb.padding_right : Int) - (child_width : Int)) / 2 : Nat) : Int) +
          ((if rtl then cb.padding_right else cb.padding_left : Nat) : Int))
      let increment := toUint (additional_length.tdiv num_changing_childs)
      let piece : Nat × Int × Int :=
        if cb.fill_y ∧ num_changing_childs > 0 then
          (toUint ((cb.smallest_y : Int) + (increment : Int)),
            toInt32 (additional_length - (increment : Int)), num_changing_childs - 1)
        else (cb.smallest_y, additional_length, num_changing_childs)
      let child_height := piece.1
      let additional_length := piece.2.1
      let num_changing_childs := piece.2.2
      let call : AssignCall :=
        { child := cb,
          x := toUint ((x : Int) + (child_pos_x : Int)),
          y := toUint ((y : Int) + (position : Int) + (cb.padding_top : Int)),
          given_width := child_width, given_height := child_height,
          allow_resize_x := decide (resize_x > 0), allow_resize_y := allow_resize_y, rtl := rtl }
      let cb := ch.AssignSizePosition call
      let position := toUint ((position : Int) + (child_height : Int) + (cb.padding_top : Int) +
        (cb.padding_bottom : Int))
      let allow_resize_y := if cb.resize_y > 0 then false else allow_resize_y
      match NWidgetVertical.assignChildren x y given_width resize_x rtl rest additional_length
          num_changing_childs position allow_resize_y with
      | none => none
      | some r => some ({ ch with base := cb } :: r.1, call :: r.2)

/-- Assign size and position to a vertical container and its children
    (`NWidgetVertical::AssignSizePosition`, `widget.cpp`, lines 1189-1239). -/
def NWidgetVertical.AssignSizePosition (c : NWidgetPIPContainer)
    (x y given_width given_height : Nat) (allow_resize_x allow_resize_y rtl : Bool) :
    Option (NWidgetPIPContainer × List AssignCall) :=
  if ¬ (given_width ≥ c.base.smallest_x ∧ given_height ≥ c.base.smallest_y) then none
  else
    let additional_length := toInt32 ((given_height : Int) - (c.base.smallest_y : Int))
    let b := { c.base with
      pos_x := x, pos_y := y, smallest_x := given_width, smallest_y := given_height,
      resize_x := if allow_resize_x then c.base.resize_x else 0,
      resize_y := if allow_resize_y then c.base.resize_y else 0 }
    let num_changing_childs : Int := NWidgetVertical.countChanging c.children
    match NWidgetVertical.assignChildren x y given_width b.resize_x rtl c.children
        additional_length num_changing_childs 0 (decide (b.resize_y > 0)) with
    | none => none
    | some r => some ({ c with base := b, children := r.1 }, r.2)

/-- The widths the children of a list need: smallest width and both
    paddings. -/
def NWidgetChild.widths (l : List NWidgetChild) : Nat :=
  (l.map (fun ch => ch.base.smallest_x + ch.base.padding_left + ch.base.padding_right)).sum

/-- The heights the children of a list need: smallest height and both
    paddings. -/
def NWidgetChild.heights (l : List NWidgetChild) : Nat :=
  (l.map (fun ch => ch.base.smallest_y + ch.base.padding_top + ch.base.padding_bottom)).sum

/-- The widths handed out by a list of calls, each with both paddings of the
    child. -/
def AssignCall.widths (l : List AssignCall) : Nat :=
  (l.map (fun k => k.given_width + k.child.padding_left + k.child.padding_right)).sum

/-- The heights handed out by a list of calls, each with both paddings of the
    child. -/
def AssignCall.heights (l : List AssignCall) : Nat :=
  (l.map (fun k => k.given_height + k.child.padding_top + k.child.padding_bottom)).sum

/-- Assign size and position to a widget without children
    (`NWidgetResizeBase::AssignSizePosition`, `widget.cpp`, lines 794-803). -/
def NWidgetResizeBase.AssignSizePosition (k : AssignCall) : NWidgetBase :=
  { k.child with
    pos_x := k.x, pos_y := k.y, smallest_x := k.given_width, smallest_y := k.given_height,
    resize_x := if k.allow_resize_x then k.child.resize_x else 0,
    resize_y := if k.allow_resize_y then k.child.resize_y else 0 }

/-- Compute the smallest size of a spacer with the given minimal size
    (`NWidgetSpacer::SetupSmallestSize`, `widget.cpp`, lines 1260-1265). -/
def NWidgetSpacer.SetupSmallestSize (min_x min_y : Nat) (b : NWidgetBase) : NWidgetBase × Int :=
  ({ b with smallest_x := min_x, smallest_y := min_y }, -1)

/-- A spacer of the given minimal size and filling as a child of a
    container. -/
def spacer (min_x min_y : Nat) (fill_x fill_y : Bool) : NWidgetChild :=
  { base := { smallest_x := 0, smallest_y := 0, fill_x := fill_x, fill_y := fill_y,
              resize_x := 0, resize_y := 0, pos_x := 0, pos_y := 0, padding_top := 0,
              padding_right := 0, padding_bottom := 0, padding_left := 0 },
    SetupSmallestSize := NWidgetSpacer.SetupSmallestSize min_x min_y,
    AssignSizePosition := NWidgetResizeBase.AssignSizePosition }

/-- A container of three spacers, the first and the last of them filling, with
    two pixels in front of, three pixels between and two pixels behind them. -/
def spacerRow : NWidgetPIPContainer :=
  { base := (spacer 0 0 false false).base, pip_pre := 2, pip_inter := 3, pip_post := 2,
    children := [spacer 10 12 true true, spacer 20 12 false false, spacer 10 12 true true] }

/-- A container of two filling spacers that are 2^31 pixels wide each, with no
    space around them. -/
def wideRow : NWidgetPIPContainer :=
  { base := (spacer 0 0 false false).base, pip_pre := 0, pip_inter := 0, pip_post := 0,
    children := [spacer 2147483648 12 true true, spacer 2147483648 12 true true] }

/-! # Theorems -/

/-! ## Facts about track bits -/

theorem overlaps_iff_taken_or_crossed (res : TrackBits) (t : Track) :
    TrackOverlapsTracks res t = true ↔
      (HasTrackBit res t = true ∨ ∃ r, HasTrackBit res r = true ∧ TracksCross r t = true) := by
  revert res t; decide

theorem diag_overlaps_all (a : Axis) (t : Track) :
    TrackOverlapsTracks (AxisToTrackBits a) t = true := by
  revert a t; decide

theorem none_overlaps_nothing (t : Track) : TrackOverlapsTracks TRACK_BIT_NONE t = false := by
  revert t; decide

/-! ## Frame facts of the map writers -/

@[simp] theorem tiles_MarkTileDirtyByTile (s : State) (t : TileIndex) :
    (MarkTileDirtyByTile s t).tiles = s.tiles := rfl

@[simp] theorem tiles_TriggerStationRandomisation (s : State) (t : TileIndex) :
    (TriggerStationRandomisation s t).tiles = s.tiles := rfl

@[simp] theorem tiles_setTile_same (s : State) (t : TileIndex) (f : Tile → Tile) :
    (s.setTile t f).tiles t = f (s.tiles t) := by
  simp [State.setTile]

@[simp] theorem tiles_ite_mark (s : State) (c : Bool) (t : TileIndex) :
    (if c = true then MarkTileDirtyByTile s t else s).tiles = s.tiles := by
  cases c <;> rfl

/-! ## The outcome of `TryReserveRailTrack` -/

theorem not_overlaps_iff_free_and_uncrossed (bits : TrackBits) (t : Track) :
    TrackOverlapsTracks bits t = false ↔
      (HasTrackBit bits t = false ∧ ∀ r, HasTrackBit bits r = true → TracksCross r t = false) := by
  have h := overlaps_iff_taken_or_crossed bits t
  constructor
  · intro h0
    rw [h0] at h
    simp only [Bool.false_eq_true, false_iff, not_or, not_exists, not_and] at h
    exact ⟨by simpa using h.1, fun r hr => by simpa using h.2 r hr⟩
  · rintro ⟨h1, h2⟩
    by_contra hc
    have hc' : TrackOverlapsTracks bits t = true := by simpa using hc
    rcases h.mp hc' with h3 | ⟨r, hr, hx⟩
    · simp [h1] at h3
    · simp [h2 r hr] at hx

theorem TryReserveRailTrack_outcome (s : State) (tile : TileIndex) (t : Track)
    (trigger_stations : Bool) (hpre : CarriesTrack s tile t = true)
    (hkind : HasRailReservationBits s tile = true) :
    ∃ b s', TryReserveRailTrack s tile t trigger_stations = some (b, s') ∧
      (b = true ↔ TrackOverlapsTracks (GetReservedTrackbits s tile) t = false) ∧
      (GetTileType s tile ≠ .TT_RAILWAY → (b = true ↔ SingleReservationFlag s tile = false)) := by
  unfold TryReserveRailTrack
  simp only [hpre, Bool.not_true, Bool.false_eq_true, if_false]
  generalize hs0 : (if s.show_track_reservation = true then MarkTileDirtyByTile s tile else s) = s0
  have ht : s0.tiles = s.tiles := by rw [← hs0]; exact tiles_ite_mark s _ tile
  unfold HasRailReservationBits at hkind
  unfold SingleReservationFlag
  unfold GetReservedTrackbits
  simp only [GetTileType, GetTileSubtype, ht] at hkind ⊢
  cases hty : (s.tiles tile).type <;> simp only [hty] at hkind ⊢ <;> try (exact absurd hkind (by decide))
  · -- railway tile
    simp only [TryReserveTrack, GetRailReservationTrackBits, ht, TrackOverlapsTracks, HasTrackBit]
    by_cases h1 : ((s.tiles tile).rail_reservation &&& TrackToTrackBits t) = TRACK_BIT_NONE
    · by_cases h2 : TracksOverlap ((s.tiles tile).rail_reservation ||| TrackToTrackBits t) = true
      · exact ⟨false, s0, by simp [h1, h2], by simp [h1, h2], by simp⟩
      · exact ⟨true, _, by simp [h1, h2]; rfl, by simp [h1, h2], by simp⟩
    · exact ⟨false, s0, by simp [h1], by simp [h1], by simp⟩
  · -- misc tile
    cases hst : (s.tiles tile).subtype <;> simp only [hst] at hkind ⊢ <;>
      try (exact absurd hkind (by decide))
    · simp only [HasCrossingReservation, GetCrossingReservationTrackBits, GetCrossingRailBits, ht]
      cases hr : (s.tiles tile).crossing_reserved
      · exact ⟨true, _, by simp; rfl, by simp [none_overlaps_nothing], by simp⟩
      · exact ⟨false, s0, by simp, by simp [diag_overlaps_all], by simp⟩
    · simp only [HasTunnelHeadReservation, GetTunnelTransportType, GetTunnelReservationTrackBits,
        DiagDirToDiagTrackBits, ht] at hkind ⊢
      cases hr : (s.tiles tile).tunnel_head_reserved
      · exact ⟨true, _, by simp [hkind]; rfl, by simp [hkind, none_overlaps_nothing], by simp⟩
      · exact ⟨false, s0, by simp [hkind], by simp [hkind, diag_overlaps_all], by simp⟩
    · simp only [HasDepotReservation, IsRailDepotTile, IsDepotTile, IsRailDepot, GetTileType,
        GetTileSubtype, GetDepotReservationTrackBits, DiagDirToDiagTrackBits, ht, hty, hst]
        at hkind ⊢
      cases hr : (s.tiles tile).depot_reserved
      · exact ⟨true, _, by simp [hkind]; rfl, by simp [hkind, none_overlaps_nothing], by simp⟩
      · exact ⟨false, s0, by simp [hkind], by simp [hkind, diag_overlaps_all], by simp⟩
  · -- station tile
    simp only [HasStationRail, IsRailStation, IsRailWaypoint, GetStationType,
      HasStationReservation, GetStationReservationTrackBits, GetRailStationAxis, ht] at hkind ⊢
    cases hr : (s.tiles tile).station_reserved
    · exact ⟨true, _, by simp [hkind]; rfl, by simp [hkind, none_overlaps_nothing], by simp⟩
    · exact ⟨false, s0, by simp [hkind], by simp [hkind, diag_overlaps_all], by simp⟩

theorem TryReserveRailTrack_flag (s : State) (tile : TileIndex) (t : Track)
    (trigger_stations : Bool) (hpre : CarriesTrack s tile t = true)
    (hkind : HasRailReservationBits s tile = true) :
    ∃ s', TryReserveRailTrack s tile t trigger_stations =
      some (!TrackOverlapsTracks (GetReservedTrackbits s tile) t, s') := by
  obtain ⟨b, s', hres, hiff, _⟩ := TryReserveRailTrack_outcome s tile t trigger_stations hpre hkind
  refine ⟨s', ?_⟩
  rw [hres]
  cases b
  · have : TrackOverlapsTracks (GetReservedTrackbits s tile) t = true := by
      by_contra hc
      exact absurd (hiff.mpr (by simpa using hc)) (by decide)
    simp [this]
  · simp [hiff.mp rfl]

/-! ## C1: when `TryReserveRailTrack` succeeds -/

/-- C1: on a tile that carries track `t` and is of a class with rail reservation
    bits, `TryReserveRailTrack` returns, and it returns `true` exactly when `t`
    was not reserved and crossed no reserved track of the tile; on a crossing,
    rail tunnel head, rail depot or rail station tile that is exactly when the
    single reservation flag of the tile was clear. -/
theorem TryReserveRailTrack_true_iff (s : State) (tile : TileIndex) (t : Track)
    (trigger_stations : Bool) (hpre : CarriesTrack s tile t = true)
    (hkind : HasRailReservationBits s tile = true) :
    ∃ b s', TryReserveRailTrack s tile t trigger_stations = some (b, s') ∧
      (b = true ↔
        (HasTrackBit (GetReservedTrackbits s tile) t = false ∧
          ∀ r, HasTrackBit (GetReservedTrackbits s tile) r = true → TracksCross r t = false)) ∧
      (GetTileType s tile ≠ .TT_RAILWAY → (b = true ↔ SingleReservationFlag s tile = false)) := by
  obtain ⟨b, s', hres, hiff, hflag⟩ :=
    TryReserveRailTrack_outcome s tile t trigger_stations hpre hkind
  refine ⟨b, s', hres, ?_, hflag⟩
  rw [hiff]
  exact not_overlaps_iff_free_and_uncrossed (GetReservedTrackbits s tile) t

/-! ## C3: a failed `TryReserveRailTrack` changes no tile -/

/-- C3: whenever `TryReserveRailTrack` returns `false`, the map array is what it
    was before the call: every reservation bit and flag of every tile and every
    crossing barrier is unchanged (only the redraw list may have grown). -/
theorem TryReserveRailTrack_false_frame (s s' : State) (tile : TileIndex) (t : Track)
    (trigger_stations : Bool)
    (h : TryReserveRailTrack s tile t trigger_stations = some (false, s')) :
    s'.tiles = s.tiles ∧ s'.train_near_crossing = s.train_near_crossing ∧
      s'.station_triggers = s.station_triggers := by
  unfold TryReserveRailTrack at h
  by_cases hpre : CarriesTrack s tile t = true
  swap
  · simp [hpre] at h
  simp only [hpre, Bool.not_true, Bool.false_eq_true, if_false] at h
  have hfr : ∀ s0 : State,
      (if s.show_track_reservation = true then MarkTileDirtyByTile s tile else s) = s0 →
      s0.tiles = s.tiles ∧ s0.train_near_crossing = s.train_near_crossing ∧
        s0.station_triggers = s.station_triggers := by
    intro s0 hs0
    rw [← hs0]
    cases s.show_track_reservation <;> exact ⟨rfl, rfl, rfl⟩
  generalize hs0 : (if s.show_track_reservation = true then MarkTileDirtyByTile s tile else s) = s0
    at h
  have ht := hfr s0 hs0
  cases hty : GetTileType s0 tile <;> simp only [hty] at h <;>
    try (simp only [Option.some.injEq, Prod.mk.injEq, true_and] at h; rw [← h]; exact ht)
  · -- railway tile
    simp only [TryReserveTrack] at h
    split at h
    · simp only [Option.some.injEq, Prod.mk.injEq, true_and] at h; rw [← h]; exact ht
    · split at h
      · simp only [Option.some.injEq, Prod.mk.injEq, true_and] at h; rw [← h]; exact ht
      · simp at h
  · -- misc tile
    cases hst : GetTileSubtype s0 tile <;> simp only [hst] at h <;>
      try (simp only [Option.some.injEq, Prod.mk.injEq, true_and] at h; rw [← h]; exact ht)
    all_goals
      split at h
      · first
          | (simp only [Option.some.injEq, Prod.mk.injEq, true_and] at h; rw [← h]; exact ht)
          | simp at h
      · first
          | (simp only [Option.some.injEq, Prod.mk.injEq, true_and] at h; rw [← h]; exact ht)
          | simp at h
  · -- station tile
    split at h
    · simp at h
    · simp only [Option.some.injEq, Prod.mk.injEq, true_and] at h; rw [← h]; exact ht

/-! ## What a successful `TryReserveRailTrack` leaves behind -/

theorem TryReserveRailTrack_true_state (s s1 : State) (tile : TileIndex) (t : Track)
    (trigger_stations : Bool)
    (h : TryReserveRailTrack s tile t trigger_stations = some (true, s1)) :
    CarriesTrack s tile t = true ∧ HasRailReservationBits s tile = true ∧
      TrackOverlapsTracks (GetReservedTrackbits s tile) t = false ∧
      s1.show_track_reservation = s.show_track_reservation ∧
      s1.tiles = Function.update s.tiles tile ((s.tiles tile).reserved t) := by
  by_cases hpre : CarriesTrack s tile t = true
  swap
  · simp [TryReserveRailTrack, hpre] at h
  by_cases hkind : HasRailReservationBits s tile = true
  swap
  · exfalso
    unfold TryReserveRailTrack at h
    simp only [hpre, Bool.not_true, Bool.false_eq_true, if_false] at h
    generalize hs0 : (if s.show_track_reservation = true then MarkTileDirtyByTile s tile else s)
      = s0 at h
    have ht : s0.tiles = s.tiles := by rw [← hs0]; exact tiles_ite_mark s _ tile
    unfold HasRailReservationBits at hkind
    simp only [GetTileType, GetTileSubtype, ht] at hkind h
    cases hty : (s.tiles tile).type <;> simp only [hty] at hkind h <;> try (simp at h)
    · simp at hkind
    · cases hst : (s.tiles tile).subtype <;> simp only [hst] at hkind h <;> try (simp at h)
      · simp at hkind
      · simp [GetTunnelTransportType, ht] at hkind h
        simp [hkind] at h
      · simp [IsRailDepotTile, IsRailDepot, ht] at hkind h
        simp [hkind] at h
    · simp [HasStationRail, IsRailStation, IsRailWaypoint, GetStationType, ht] at hkind h
      simp [hkind] at h
  obtain ⟨b, s', hres, hiff, _⟩ := TryReserveRailTrack_outcome s tile t trigger_stations hpre hkind
  rw [h] at hres
  simp only [Option.some.injEq, Prod.mk.injEq] at hres
  obtain ⟨hb, hs'⟩ := hres
  subst hb
  have hov : TrackOverlapsTracks (GetReservedTrackbits s tile) t = false := hiff.mp rfl
  refine ⟨hpre, hkind, hov, ?_⟩
  clear hiff hov hkind hs'
  unfold TryReserveRailTrack at h
  simp only [hpre, Bool.not_true, Bool.false_eq_true, if_false] at h
  have hfr : ∀ s0 : State,
      (if s.show_track_reservation = true then MarkTileDirtyByTile s tile else s) = s0 →
      s0.tiles = s.tiles ∧ s0.show_track_reservation = s.show_track_reservation := by
    intro s0 hs0
    rw [← hs0]
    split <;> exact ⟨rfl, rfl⟩
  generalize hs0 : (if s.show_track_reservation = true then MarkTileDirtyByTile s tile else s) = s0
    at h
  obtain ⟨ht, hsh⟩ := hfr s0 hs0
  simp only [GetTileType, GetTileSubtype, ht] at h
  unfold Tile.reserved
  cases hty : (s.tiles tile).type <;> simp only [hty] at h ⊢ <;> try (simp at h)
  · -- railway tile
    simp only [TryReserveTrack, GetRailReservationTrackBits, ht] at h
    split at h
    · simp at h
    · split at h
      · simp at h
      · simp only [Option.some.injEq, Prod.mk.injEq, true_and] at h
        subst h
        exact ⟨hsh, by simp [SetTrackReservation, State.setTile, ht, hty]⟩
  · -- misc tile
    cases hst : (s.tiles tile).subtype <;> simp only [hst] at h ⊢ <;> try (simp at h)
    · split at h
      · simp at h
      · simp only [Option.some.injEq, Prod.mk.injEq, true_and] at h
        subst h
        exact ⟨hsh, by simp [BarCrossing, SetCrossingBarred, SetCrossingReservation,
          State.setTile, ht, hty, hst]⟩
    · split at h
      · simp only [Option.some.injEq, Prod.mk.injEq, true_and] at h
        subst h
        exact ⟨hsh, by simp [SetTunnelHeadReservation, State.setTile, ht, hty, hst]⟩
      · simp at h
    · split at h
      · simp only [Option.some.injEq, Prod.mk.injEq, true_and] at h
        subst h
        exact ⟨hsh, by simp [SetDepotReservation, State.setTile, ht, hty, hst]⟩
      · simp at h
  · -- station tile
    split at h
    · simp only [Option.some.injEq, Prod.mk.injEq, true_and] at h
      subst h
      refine ⟨?_, ?_⟩
      · simp only [MarkTileDirtyByTile]
        split <;> simpa [TriggerStationRandomisation, SetRailStationReservation, State.setTile]
          using hsh
      · simp only [MarkTileDirtyByTile]
        split <;> simp [TriggerStationRandomisation, SetRailStationReservation, State.setTile, ht, hty]
    · simp at h

/-! ## What `UnreserveRailTrack` leaves behind -/

theorem UnreserveRailTrack_state (s : State) (tile : TileIndex) (t : Track)
    (hpre : CarriesTrack s tile t = true) :
    ∃ s2, UnreserveRailTrack s tile t = some s2 ∧
      s2.show_track_reservation = s.show_track_reservation ∧
      s2.tiles = Function.update s.tiles tile
        ((s.tiles tile).unreserved t (s.train_near_crossing tile)) := by
  unfold UnreserveRailTrack
  simp only [hpre, Bool.not_true, Bool.false_eq_true, if_false]
  have hfr : ∀ s0 : State,
      (if s.show_track_reservation = true then MarkTileDirtyByTile s tile else s) = s0 →
      s0.tiles = s.tiles ∧ s0.show_track_reservation = s.show_track_reservation ∧
        s0.train_near_crossing = s.train_near_crossing := by
    intro s0 hs0
    rw [← hs0]
    split <;> exact ⟨rfl, rfl, rfl⟩
  generalize hs0 : (if s.show_track_reservation = true then MarkTileDirtyByTile s tile else s) = s0
  obtain ⟨ht, hsh, hnear⟩ := hfr s0 hs0
  have hself : Function.update s.tiles tile (s.tiles tile) = s.tiles := Function.update_eq_self _ _
  simp only [GetTileType, GetTileSubtype, ht]
  unfold Tile.unreserved
  cases hty : (s.tiles tile).type <;> simp only [hty] <;>
    try (exact ⟨s0, rfl, hsh, by rw [ht, hself]⟩)
  · -- railway tile
    exact ⟨_, rfl, hsh, by simp [UnreserveTrack, SetTrackReservation, State.setTile,
      GetRailReservationTrackBits, ht, hty]⟩
  · -- misc tile
    cases hst : (s.tiles tile).subtype <;> simp only [hst] <;>
      try (exact ⟨s0, rfl, hsh, by rw [ht, hself]⟩)
    · refine ⟨_, rfl, ?_, ?_⟩
      · simp only [UpdateLevelCrossing]
        split <;> simpa [SetCrossingBarred, SetCrossingReservation, State.setTile] using hsh
      · simp only [UpdateLevelCrossing]
        split
        · simp [SetCrossingBarred, SetCrossingReservation, State.setTile, HasCrossingReservation,
            ht, hty, hst, hnear]
        · rename_i hb
          simp [SetCrossingBarred, SetCrossingReservation, State.setTile, HasCrossingReservation,
            IsCrossingBarred, ht, hnear] at hb
          simp [SetCrossingReservation, State.setTile, ht, hty, hst, hb]
    · simp only [GetTunnelTransportType, ht]
      split
      · exact ⟨_, rfl, hsh, by simp_all [SetTunnelHeadReservation, State.setTile]⟩
      · exact ⟨s0, rfl, hsh, by simp_all⟩
    · simp only [IsRailDepot, ht]
      split
      · exact ⟨_, rfl, hsh, by simp_all [SetDepotReservation, State.setTile]⟩
      · exact ⟨s0, rfl, hsh, by simp_all⟩
  · -- station tile
    simp only [HasStationRail, IsRailStation, IsRailWaypoint, GetStationType, ht]
    split
    · exact ⟨_, rfl, hsh, by simp_all [SetRailStationReservation, State.setTile]⟩
    · exact ⟨s0, rfl, hsh, by simp_all⟩

/-! ## C4: reserve, then unreserve -/

theorem GetReservedTrackbits_eq_cell (s : State) (u : TileIndex) :
    GetReservedTrackbits s u = (s.tiles u).reservedTrackbits := by
  unfold GetReservedTrackbits Tile.reservedTrackbits
  simp only [GetTileType, GetTileSubtype, GetRailReservationTrackBits,
    GetCrossingReservationTrackBits, GetCrossingRailBits, HasCrossingReservation,
    GetTunnelTransportType, GetTunnelReservationTrackBits, HasTunnelHeadReservation,
    GetTunnelBridgeDirection, IsRailDepot, GetDepotReservationTrackBits, HasDepotReservation,
    GetGroundDepotDirection, HasStationRail, IsRailStation, IsRailWaypoint, GetStationType,
    GetStationReservationTrackBits, HasStationReservation, GetRailStationAxis]

theorem HasRailReservationBits_eq_cell (s : State) (u : TileIndex) :
    HasRailReservationBits s u = (s.tiles u).hasRailReservationBits := by
  unfold HasRailReservationBits Tile.hasRailReservationBits
  simp only [GetTileType, GetTileSubtype, GetTunnelTransportType, IsRailDepot, HasStationRail,
    IsRailStation, IsRailWaypoint, GetStationType]

theorem free_reserve_then_clear (res : TrackBits) (t : Track)
    (h : TrackOverlapsTracks res t = false) :
    (res ||| TrackToTrackBits t) &&& (TRACK_BIT_MASK ^^^ TrackToTrackBits t) = res := by
  revert res t; decide

theorem cell_reserve_unreserve (c : Tile) (t : Track) (near : Bool)
    (hk : c.hasRailReservationBits = true)
    (hov : TrackOverlapsTracks c.reservedTrackbits t = false) :
    ((c.reserved t).unreserved t near).reservedTrackbits = c.reservedTrackbits ∧
      ((c.reserved t).unreserved t near).reservation = c.reservation := by
  obtain ⟨ty, st, rs, rr, ca, cr, cb, tt, td, th, di, dd, dr, sty, sa, sr⟩ := c
  have hdiag : ∀ a : Axis, TrackOverlapsTracks (AxisToTrackBits a) t = false → False := by
    intro a h; rw [diag_overlaps_all] at h; exact absurd h (by decide)
  cases ty <;> try (simp [Tile.hasRailReservationBits] at hk; done)
  · simp only [Tile.reservedTrackbits] at hov
    simp [Tile.reserved, Tile.unreserved, Tile.reservedTrackbits, Tile.reservation,
      free_reserve_then_clear rr t hov]
  · cases st <;> try (simp [Tile.hasRailReservationBits] at hk; done)
    · cases cr
      · simp [Tile.reserved, Tile.unreserved, Tile.reservedTrackbits, Tile.reservation]
      · exact absurd hov (by simpa [Tile.reservedTrackbits] using fun h => hdiag ca h)
    · have htt : tt = .TRANSPORT_RAIL := by simpa [Tile.hasRailReservationBits] using hk
      cases th
      · simp [Tile.reserved, Tile.unreserved, Tile.reservedTrackbits, Tile.reservation, htt]
      · exact absurd hov (by
          simpa [Tile.reservedTrackbits, htt, DiagDirToDiagTrackBits] using fun h => hdiag _ h)
    · have hdi : di = true := by simpa [Tile.hasRailReservationBits] using hk
      cases dr
      · simp [Tile.reserved, Tile.unreserved, Tile.reservedTrackbits, Tile.reservation, hdi]
      · exact absurd hov (by
          simpa [Tile.reservedTrackbits, hdi, DiagDirToDiagTrackBits] using fun h => hdiag _ h)
  · have hs : (sty == StationType.STATION_RAIL || sty == StationType.STATION_WAYPOINT) = true := by
      simpa [Tile.hasRailReservationBits] using hk
    cases sr
    · simp [Tile.reserved, Tile.unreserved, Tile.reservedTrackbits, Tile.reservation, hs]
    · exact absurd hov (by
        simpa [Tile.reservedTrackbits, hs] using fun h => hdiag _ h)

theorem GetReservedTrackbits_congr (s s' : State) (u : TileIndex) (h : s'.tiles u = s.tiles u) :
    GetReservedTrackbits s' u = GetReservedTrackbits s u := by
  rw [GetReservedTrackbits_eq_cell, GetReservedTrackbits_eq_cell, h]

/-- C4: when `TryReserveRailTrack(tile, t)` has returned `true`, the following
    `UnreserveRailTrack(tile, t)` returns and leaves `GetReservedTrackbits` of
    every tile, and the reservation bits and flags of every tile, equal to what
    they were before the reservation. -/
theorem reserve_unreserve_roundtrip (s s1 : State) (tile : TileIndex) (t : Track)
    (trigger_stations : Bool)
    (h : TryReserveRailTrack s tile t trigger_stations = some (true, s1)) :
    ∃ s2, UnreserveRailTrack s1 tile t = some s2 ∧
      (∀ u, GetReservedTrackbits s2 u = GetReservedTrackbits s u) ∧
      (∀ u, (s2.tiles u).reservation = (s.tiles u).reservation) := by
  obtain ⟨hpre, hkind, hov, _, ht1⟩ := TryReserveRailTrack_true_state s s1 tile t trigger_stations h
  have hc1 : s1.tiles tile = (s.tiles tile).reserved t := by rw [ht1]; simp
  have hpre1 : CarriesTrack s1 tile t = true := by
    have : (s1.tiles tile).railway_status = (s.tiles tile).railway_status := by
      rw [hc1]; unfold Tile.reserved; split <;> try rfl
      split <;> rfl
    simpa [CarriesTrack, GetTileRailwayStatus, this] using hpre
  obtain ⟨s2, hun, _, ht2⟩ := UnreserveRailTrack_state s1 tile t hpre1
  rw [GetReservedTrackbits_eq_cell] at hov
  rw [HasRailReservationBits_eq_cell] at hkind
  have hcell := cell_reserve_unreserve (s.tiles tile) t (s1.train_near_crossing tile) hkind hov
  have htile : ∀ u, u ≠ tile → s2.tiles u = s.tiles u := by
    intro u hu
    rw [ht2, Function.update_noteq hu, ht1, Function.update_noteq hu]
  have hself : s2.tiles tile =
      ((s.tiles tile).reserved t).unreserved t (s1.train_near_crossing tile) := by
    rw [ht2, hc1]; simp
  refine ⟨s2, hun, ?_, ?_⟩
  · intro u
    by_cases hu : u = tile
    · subst hu
      rw [GetReservedTrackbits_eq_cell, GetReservedTrackbits_eq_cell, hself]
      exact hcell.1
    · exact GetReservedTrackbits_congr s s2 u (htile u hu)
  · intro u
    by_cases hu : u = tile
    · subst hu
      rw [hself]
      exact hcell.2
    · rw [htile u hu]

/-! ## C2: mutual exclusion -/

theorem overlap_mono (res : TrackBits) (t1 t2 : Track)
    (h : TrackOverlapsTracks (TrackToTrackBits t1) t2 = true) :
    TrackOverlapsTracks (res ||| TrackToTrackBits t1) t2 = true := by
  revert res t1 t2; decide

theorem cell_reserved_static (c : Tile) (t : Track) :
    (c.reserved t).type = c.type ∧ (c.reserved t).subtype = c.subtype ∧
      (c.reserved t).railway_status = c.railway_status ∧
      (c.reserved t).hasRailReservationBits = c.hasRailReservationBits := by
  obtain ⟨ty, st, rs, rr, ca, cr, cb, tt, td, th, di, dd, dr, sty, sa, sr⟩ := c
  cases ty <;> try (exact ⟨rfl, rfl, rfl, rfl⟩)
  cases st <;> exact ⟨rfl, rfl, rfl, rfl⟩

theorem cell_unreserved_static (c : Tile) (t : Track) (near : Bool) :
    (c.unreserved t near).type = c.type ∧ (c.unreserved t near).subtype = c.subtype ∧
      (c.unreserved t near).railway_status = c.railway_status ∧
      (c.unreserved t near).hasRailReservationBits = c.hasRailReservationBits := by
  obtain ⟨ty, st, rs, rr, ca, cr, cb, tt, td, th, di, dd, dr, sty, sa, sr⟩ := c
  cases ty <;> try (exact ⟨rfl, rfl, rfl, rfl⟩)
  · cases st <;> try (exact ⟨rfl, rfl, rfl, rfl⟩)
    · simp only [Tile.unreserved]; split <;> exact ⟨rfl, rfl, rfl, rfl⟩
    · simp only [Tile.unreserved]; split <;> exact ⟨rfl, rfl, rfl, rfl⟩
  · simp only [Tile.unreserved]; split <;> exact ⟨rfl, rfl, rfl, rfl⟩

theorem cell_reserved_overlaps (c : Tile) (t1 t2 : Track)
    (hk : c.hasRailReservationBits = true)
    (h12 : TrackOverlapsTracks (TrackToTrackBits t1) t2 = true ∨ c.type ≠ .TT_RAILWAY) :
    TrackOverlapsTracks (c.reserved t1).reservedTrackbits t2 = true := by
  obtain ⟨ty, st, rs, rr, ca, cr, cb, tt, td, th, di, dd, dr, sty, sa, sr⟩ := c
  cases ty <;> try (simp [Tile.hasRailReservationBits] at hk; done)
  · rcases h12 with h | h
    · simpa [Tile.reserved, Tile.reservedTrackbits] using overlap_mono rr t1 t2 h
    · exact absurd rfl h
  · cases st <;> try (simp [Tile.hasRailReservationBits] at hk; done)
    · simp [Tile.reserved, Tile.reservedTrackbits, diag_overlaps_all]
    · have htt : tt = .TRANSPORT_RAIL := by simpa [Tile.hasRailReservationBits] using hk
      simp [Tile.reserved, Tile.reservedTrackbits, htt, DiagDirToDiagTrackBits, diag_overlaps_all]
    · have hdi : di = true := by simpa [Tile.hasRailReservationBits] using hk
      simp [Tile.reserved, Tile.reservedTrackbits, hdi, DiagDirToDiagTrackBits, diag_overlaps_all]
  · have hs : (sty == StationType.STATION_RAIL || sty == StationType.STATION_WAYPOINT) = true := by
      simpa [Tile.hasRailReservationBits] using hk
    simp [Tile.reserved, Tile.reservedTrackbits, hs, diag_overlaps_all]

theorem CarriesTrack_congr (s s' : State) (u : TileIndex) (t : Track)
    (h : (s'.tiles u).railway_status = (s.tiles u).railway_status) :
    CarriesTrack s' u t = CarriesTrack s u t := by
  simp [CarriesTrack, GetTileRailwayStatus, h]

/-- C2: after `TryReserveRailTrack(tile, t1)` has returned `true`, the call
    for any track `t2` of the tile that overlaps `t1` returns `false`; when the
    tile had no reservation before, it returns `true` once
    `UnreserveRailTrack(tile, t1)` has been called; and on a crossing, tunnel
    head, depot or station tile every second call fails. -/
theorem mutual_exclusion (s s1 : State) (tile : TileIndex) (t1 t2 : Track)
    (trig1 trig2 : Bool)
    (h1 : TryReserveRailTrack s tile t1 trig1 = some (true, s1))
    (hc2 : CarriesTrack s tile t2 = true)
    (hov : TrackOverlapsTracks (TrackToTrackBits t1) t2 = true) :
    (∃ s2, TryReserveRailTrack s1 tile t2 trig2 = some (false, s2)) ∧
      (GetReservedTrackbits s tile = TRACK_BIT_NONE →
        ∃ s3 s4, UnreserveRailTrack s1 tile t1 = some s3 ∧
          TryReserveRailTrack s3 tile t2 trig2 = some (true, s4)) ∧
      (GetTileType s tile ≠ .TT_RAILWAY → ∀ t3 trig3, CarriesTrack s tile t3 = true →
        ∃ s2, TryReserveRailTrack s1 tile t3 trig3 = some (false, s2)) := by
  obtain ⟨hpre, hkind, hov1, _, ht1⟩ := TryReserveRailTrack_true_state s s1 tile t1 trig1 h1
  have hc1 : s1.tiles tile = (s.tiles tile).reserved t1 := by rw [ht1]; simp
  obtain ⟨hty1, hst1, hrs1, hk1⟩ := cell_reserved_static (s.tiles tile) t1
  rw [HasRailReservationBits_eq_cell] at hkind
  have hkind1 : HasRailReservationBits s1 tile = true := by
    rw [HasRailReservationBits_eq_cell, hc1, hk1]; exact hkind
  have hcar : ∀ t, CarriesTrack s1 tile t = CarriesTrack s tile t := fun t =>
    CarriesTrack_congr s s1 tile t (by rw [hc1]; exact hrs1)
  have hblock : ∀ t3 trig3, CarriesTrack s tile t3 = true →
      (TrackOverlapsTracks (TrackToTrackBits t1) t3 = true ∨ (s.tiles tile).type ≠ .TT_RAILWAY) →
      ∃ s2, TryReserveRailTrack s1 tile t3 trig3 = some (false, s2) := by
    intro t3 trig3 hc3 h13
    obtain ⟨s2, hs2⟩ := TryReserveRailTrack_flag s1 tile t3 trig3 ((hcar t3).trans hc3) hkind1
    refine ⟨s2, ?_⟩
    rw [hs2, GetReservedTrackbits_eq_cell, hc1,
      cell_reserved_overlaps (s.tiles tile) t1 t3 hkind h13]
    rfl
  refine ⟨hblock t2 trig2 hc2 (Or.inl hov), ?_, ?_⟩
  · intro hnone
    obtain ⟨s3, hun, _, ht3⟩ := UnreserveRailTrack_state s1 tile t1 ((hcar t1).trans hpre)
    have hc3 : s3.tiles tile =
        ((s.tiles tile).reserved t1).unreserved t1 (s1.train_near_crossing tile) := by
      rw [ht3, hc1]; simp
    obtain ⟨_, _, hrs3, hk3⟩ :=
      cell_unreserved_static ((s.tiles tile).reserved t1) t1 (s1.train_near_crossing tile)
    rw [GetReservedTrackbits_eq_cell] at hov1 hnone
    have hcell := cell_reserve_unreserve (s.tiles tile) t1 (s1.train_near_crossing tile) hkind hov1
    have hkind3 : HasRailReservationBits s3 tile = true := by
      rw [HasRailReservationBits_eq_cell, hc3, hk3, hk1]; exact hkind
    have hcar3 : CarriesTrack s3 tile t2 = true :=
      (CarriesTrack_congr s s3 tile t2 (by rw [hc3, hrs3, hrs1])).trans hc2
    obtain ⟨s4, hs4⟩ := TryReserveRailTrack_flag s3 tile t2 trig2 hcar3 hkind3
    refine ⟨s3, s4, hun, ?_⟩
    rw [hs4, GetReservedTrackbits_eq_cell, hc3, hcell.1, hnone, none_overlaps_nothing]
    rfl
  · intro hty t3 trig3 hc3
    exact hblock t3 trig3 hc3 (Or.inr (by simpa [GetTileType] using hty))

/-! ## C5: tiles without rail reservation bits -/

theorem TryReserveRailTrack_returns (s : State) (tile : TileIndex) (t : Track)
    (trigger_stations : Bool) (hpre : CarriesTrack s tile t = true) :
    ∃ b s', TryReserveRailTrack s tile t trigger_stations = some (b, s') := by
  unfold TryReserveRailTrack
  simp only [hpre, Bool.not_true, Bool.false_eq_true, if_false]
  generalize (if s.show_track_reservation = true then MarkTileDirtyByTile s tile else s) = s0
  repeat' split
  all_goals exact ⟨_, _, rfl⟩

theorem cell_unreserved_other (c : Tile) (t : Track) (near : Bool)
    (hk : c.hasRailReservationBits = false) : c.unreserved t near = c := by
  obtain ⟨ty, st, rs, rr, ca, cr, cb, tt, td, th, di, dd, dr, sty, sa, sr⟩ := c
  cases ty <;> try rfl
  · simp [Tile.hasRailReservationBits] at hk
  · cases st <;> try rfl
    · simp [Tile.hasRailReservationBits] at hk
    · have htt : ¬ tt = .TRANSPORT_RAIL := by simpa [Tile.hasRailReservationBits] using hk
      simp [Tile.unreserved, htt]
    · have hdi : di = false := by simpa [Tile.hasRailReservationBits] using hk
      simp [Tile.unreserved, hdi]
  · have hs : ¬ (sty = StationType.STATION_RAIL ∨ sty = StationType.STATION_WAYPOINT) := by
      simpa [Tile.hasRailReservationBits] using hk
    simp [Tile.unreserved, hs]

theorem TryReserveRailTrack_tiles_of_other (s s' : State) (tile : TileIndex) (t : Track)
    (trigger_stations b : Bool) (hk : HasRailReservationBits s tile = false)
    (h : TryReserveRailTrack s tile t trigger_stations = some (b, s')) :
    s'.tiles = s.tiles := by
  unfold TryReserveRailTrack at h
  by_cases hpre : CarriesTrack s tile t = true
  swap
  · simp [hpre] at h
  simp only [hpre, Bool.not_true, Bool.false_eq_true, if_false] at h
  generalize hs0 : (if s.show_track_reservation = true then MarkTileDirtyByTile s tile else s) = s0
    at h
  have ht : s0.tiles = s.tiles := by rw [← hs0]; exact tiles_ite_mark s _ tile
  have hfin : ∀ b0 : Bool, some (b0, s0) = some (b, s') → s'.tiles = s.tiles := by
    intro b0 h0
    simp only [Option.some.injEq, Prod.mk.injEq] at h0
    rw [← h0.2]; exact ht
  unfold HasRailReservationBits at hk
  simp only [GetTileType, GetTileSubtype, ht] at hk h
  cases hty : (s.tiles tile).type <;> simp only [hty] at hk h <;> try (exact hfin _ h)
  · simp at hk
  · cases hst : (s.tiles tile).subtype <;> simp only [hst] at hk h <;> try (exact hfin _ h)
    · simp at hk
    · simp only [GetTunnelTransportType, ht] at hk h
      simp only [hk, Bool.false_and, Bool.false_eq_true, if_false] at h
      exact hfin _ h
    · simp only [IsRailDepotTile, IsRailDepot, ht] at hk h
      simp only [hk, Bool.and_false, Bool.false_and, Bool.false_eq_true, if_false] at h
      exact hfin _ h
  · simp only [HasStationRail, IsRailStation, IsRailWaypoint, GetStationType, ht] at hk h
    simp only [hk, Bool.false_and, Bool.false_eq_true, if_false] at h
    exact hfin _ h

/-- C5: on a tile whose class has no rail reservation bits, a call admitted by
    the asserted precondition makes `TryReserveRailTrack` return `false` and
    `UnreserveRailTrack` return, and neither changes the map array. -/
theorem no_reservation_bits_noop (s : State) (tile : TileIndex) (t : Track)
    (trigger_stations : Bool) (hk : HasRailReservationBits s tile = false)
    (hpre : CarriesTrack s tile t = true) :
    (∃ s', TryReserveRailTrack s tile t trigger_stations = some (false, s') ∧
        s'.tiles = s.tiles) ∧
      (∃ s'', UnreserveRailTrack s tile t = some s'' ∧ s''.tiles = s.tiles) := by
  constructor
  · obtain ⟨b, s', hres⟩ := TryReserveRailTrack_returns s tile t trigger_stations hpre
    have hb : b = false := by
      cases b
      · rfl
      · have := (TryReserveRailTrack_true_state s s' tile t trigger_stations hres).2.1
        rw [hk] at this
        exact absurd this (by decide)
    subst hb
    exact ⟨s', hres, TryReserveRailTrack_tiles_of_other s s' tile t trigger_stations false hk hres⟩
  · obtain ⟨s2, hun, _, ht2⟩ := UnreserveRailTrack_state s tile t hpre
    refine ⟨s2, hun, ?_⟩
    rw [HasRailReservationBits_eq_cell] at hk
    rw [ht2, cell_unreserved_other _ _ _ hk]
    exact Function.update_eq_self _ _

/-! ## C6: the mutator and `GetReservedTrackbits` agree -/

theorem own_bit_after_reserve (res : TrackBits) (t : Track) :
    HasTrackBit (res ||| TrackToTrackBits t) t = true := by
  revert res t; decide

theorem status_within_axis (rs : TrackBits) (a : Axis) (t : Track)
    (hin : rs &&& AxisToTrackBits a = rs) (hc : (rs &&& TrackToTrackBits t) != TRACK_BIT_NONE) :
    HasTrackBit (AxisToTrackBits a) t = true := by
  revert rs a t; decide

theorem cell_other_none (c : Tile) (hk : c.hasRailReservationBits = false) :
    c.reservedTrackbits = TRACK_BIT_NONE := by
  obtain ⟨ty, st, rs, rr, ca, cr, cb, tt, td, th, di, dd, dr, sty, sa, sr⟩ := c
  cases ty <;> try rfl
  · simp [Tile.hasRailReservationBits] at hk
  · cases st <;> try rfl
    · simp [Tile.hasRailReservationBits] at hk
    · have htt : ¬ tt = .TRANSPORT_RAIL := by simpa [Tile.hasRailReservationBits] using hk
      simp [Tile.reservedTrackbits, htt]
    · have hdi : di = false := by simpa [Tile.hasRailReservationBits] using hk
      simp [Tile.reservedTrackbits, hdi]
  · have hs : ¬ (sty = StationType.STATION_RAIL ∨ sty = StationType.STATION_WAYPOINT) := by
      simpa [Tile.hasRailReservationBits] using hk
    simp [Tile.reservedTrackbits, hs]

/-- C6: on a tile whose railway status reports no track but those its
    reservation flag stands for, a `TryReserveRailTrack(tile, t)` that returned
    `true` leaves the bit of `t` in `GetReservedTrackbits(tile)`; and
    `GetReservedTrackbits` is `TRACK_BIT_NONE` on every tile whose class has no
    rail reservation bits. -/
theorem mutator_oracle_agree (s s1 : State) (tile : TileIndex) (t : Track)
    (trigger_stations : Bool) (hcons : StatusWithinFlagTrack s tile)
    (h : TryReserveRailTrack s tile t trigger_stations = some (true, s1)) :
    HasTrackBit (GetReservedTrackbits s1 tile) t = true ∧
      ∀ (s0 : State) (u : TileIndex), HasRailReservationBits s0 u = false →
        GetReservedTrackbits s0 u = TRACK_BIT_NONE := by
  refine ⟨?_, ?_⟩
  swap
  · intro s0 u hk
    rw [HasRailReservationBits_eq_cell] at hk
    rw [GetReservedTrackbits_eq_cell, cell_other_none _ hk]
  obtain ⟨hpre, hkind, _, _, ht1⟩ := TryReserveRailTrack_true_state s s1 tile t trigger_stations h
  have hc1 : s1.tiles tile = (s.tiles tile).reserved t := by rw [ht1]; simp
  rw [GetReservedTrackbits_eq_cell, hc1]
  rw [HasRailReservationBits_eq_cell] at hkind
  unfold StatusWithinFlagTrack FlagTrackBits at hcons
  simp only [GetTileType, GetTileSubtype, GetTileRailwayStatus, GetCrossingRailBits,
    GetTunnelBridgeDirection, GetGroundDepotDirection, GetRailStationAxis,
    DiagDirToDiagTrackBits] at hcons
  simp only [CarriesTrack, GetTileRailwayStatus] at hpre
  generalize s.tiles tile = c at hcons hpre hkind ⊢
  obtain ⟨ty, st, rs, rr, ca, cr, cb, tt, td, th, di, dd, dr, sty, sa, sr⟩ := c
  cases ty <;> try (simp [Tile.hasRailReservationBits] at hkind; done)
  · simpa [Tile.reserved, Tile.reservedTrackbits] using own_bit_after_reserve rr t
  · cases st <;> try (simp [Tile.hasRailReservationBits] at hkind; done)
    · have := status_within_axis rs ca t (by simpa using hcons) hpre
      simpa [Tile.reserved, Tile.reservedTrackbits] using this
    · have htt : tt = .TRANSPORT_RAIL := by simpa [Tile.hasRailReservationBits] using hkind
      have := status_within_axis rs (DiagDirToAxis td) t (by simpa using hcons) hpre
      simpa [Tile.reserved, Tile.reservedTrackbits, htt, DiagDirToDiagTrackBits] using this
    · have hdi : di = true := by simpa [Tile.hasRailReservationBits] using hkind
      have := status_within_axis rs (DiagDirToAxis dd) t (by simpa using hcons) hpre
      simpa [Tile.reserved, Tile.reservedTrackbits, hdi, DiagDirToDiagTrackBits] using this
  · have hs : (sty == StationType.STATION_RAIL || sty == StationType.STATION_WAYPOINT) = true := by
      simpa [Tile.hasRailReservationBits] using hkind
    have := status_within_axis rs sa t (by simpa using hcons) hpre
    simpa [Tile.reserved, Tile.reservedTrackbits, hs] using this

/-! ## C7, C8: the platform sweep -/

theorem TILE_ADD_platformTile (start : TileIndex) (diff : TileIndexDiff) (k : Nat) :
    TILE_ADD (platformTile start diff k) diff = platformTile start diff (k + 1) := by
  unfold platformTile TILE_ADD
  have hnn : (0 : Int) ≤ ((start : Int) + (k : Int) * diff) % 4294967296 :=
    Int.emod_nonneg _ (by norm_num)
  rw [Int.toNat_of_nonneg hnn, Int.emod_add_emod]
  congr 2
  push_cast
  ring

theorem platformTile_zero (start : TileIndex) (diff : TileIndexDiff)
    (h : start < 4294967296) : platformTile start diff 0 = start := by
  unfold platformTile TILE_ADD
  have h1 : ((start : Int) + ((0 : Nat) : Int) * diff) = (start : Int) := by simp
  rw [h1, Int.emod_eq_of_lt (by positivity) (by exact_mod_cast h)]
  simp

theorem SameButStationReservation.refl (s : State) : SameButStationReservation s s :=
  ⟨rfl, rfl, rfl, rfl, rfl, fun _ => rfl⟩

theorem SameButStationReservation.trans {s s' s'' : State}
    (h : SameButStationReservation s s') (h' : SameButStationReservation s' s'') :
    SameButStationReservation s s'' :=
  ⟨h'.1.trans h.1, h'.2.1.trans h.2.1, h'.2.2.1.trans h.2.2.1, h'.2.2.2.1.trans h.2.2.2.1,
    h'.2.2.2.2.1.trans h.2.2.2.2.1, fun u => (h'.2.2.2.2.2 u).trans (h.2.2.2.2.2 u)⟩

theorem SameButStationReservation.step (s : State) (tile : TileIndex) (b : Bool) :
    SameButStationReservation s (MarkTileDirtyByTile (SetRailStationReservation s tile b) tile) := by
  refine ⟨rfl, rfl, rfl, rfl, rfl, fun u => ?_⟩
  by_cases hu : u = tile
  · subst hu; simp [SetRailStationReservation, State.setTile]
  · simp [SetRailStationReservation, State.setTile, Function.update_noteq hu]

theorem SameButStationReservation.layout {s s' : State} (h : SameButStationReservation s s')
    (u : TileIndex) :
    (s'.tiles u).type = (s.tiles u).type ∧ (s'.tiles u).station_type = (s.tiles u).station_type ∧
      (s'.tiles u).station_axis = (s.tiles u).station_axis := by
  have := h.2.2.2.2.2 u
  simp only [Tile.mk.injEq] at this
  exact ⟨this.1, this.2.2.2.2.2.2.2.2.2.2.2.2.2.1, this.2.2.2.2.2.2.2.2.2.2.2.2.2.2.1⟩

theorem SameButStationReservation.compatible {s s' : State} (h : SameButStationReservation s s')
    (u v : TileIndex) :
    IsCompatibleTrainStationTile s' u v = IsCompatibleTrainStationTile s u v := by
  obtain ⟨h1, h2, h3⟩ := h.layout u
  obtain ⟨_, _, h4⟩ := h.layout v
  simp only [IsCompatibleTrainStationTile, IsRailStationTile, IsStationTile, IsRailStation,
    GetTileType, GetStationType, GetRailStationAxis, h1, h2, h3, h4, h.2.1]

theorem tiles_sweep_step_same (s : State) (tile : TileIndex) (b : Bool) :
    (MarkTileDirtyByTile (SetRailStationReservation s tile b) tile).tiles tile =
      { s.tiles tile with station_reserved := b } := by
  simp [SetRailStationReservation, State.setTile]

theorem tiles_sweep_step_other (s : State) (tile u : TileIndex) (b : Bool) (h : u ≠ tile) :
    (MarkTileDirtyByTile (SetRailStationReservation s tile b) tile).tiles u = s.tiles u := by
  simp [SetRailStationReservation, State.setTile, Function.update_noteq h]

theorem platform_loop_spec (s0 : State) (start : TileIndex) (diff : TileIndexDiff) (b : Bool)
    (n : Nat)
    (hcompat : ∀ k, 1 ≤ k → k < n →
      IsCompatibleTrainStationTile s0 (platformTile start diff k) start = true)
    (hend : IsCompatibleTrainStationTile s0 (platformTile start diff n) start = false) :
    ∀ m j fuel s, j + m = n → 1 ≤ m → m ≤ fuel → SameButStationReservation s0 s →
      ∃ s', SetRailStationPlatformReservation.loop start diff b fuel s (platformTile start diff j)
          = some s' ∧
        SameButStationReservation s0 s' ∧
        (∀ u, (∀ k, j ≤ k → k < n → u ≠ platformTile start diff k) → s'.tiles u = s.tiles u) ∧
        (∀ k, j ≤ k → k < n → s'.tiles (platformTile start diff k) =
          { s.tiles (platformTile start diff k) with station_reserved := b }) ∧
        s'.dirty = ((List.range' j m).map (platformTile start diff)).reverse ++ s.dirty := by
  intro m
  induction m with
  | zero => intro j fuel s _ h1; omega
  | succ m ih =>
    intro j fuel s hjm _ hfuel hsame
    obtain ⟨f, rfl⟩ : ∃ f, fuel = f + 1 := ⟨fuel - 1, by omega⟩
    have hsame1 : SameButStationReservation s0
        (MarkTileDirtyByTile (SetRailStationReservation s (platformTile start diff j) b)
          (platformTile start diff j)) :=
      hsame.trans (SameButStationReservation.step s _ b)
    simp only [SetRailStationPlatformReservation.loop, TILE_ADD_platformTile,
      hsame1.compatible]
    by_cases hm : m = 0
    · -- the last tile of the run
      subst hm
      have hj : j + 1 = n := hjm
      rw [hj, hend]
      refine ⟨_, by simp, hsame1, ?_, ?_, ?_⟩
      · intro u hu
        exact tiles_sweep_step_other s _ u b (hu j (le_refl j) (by omega))
      · intro k hk1 hk2
        have : k = j := by omega
        subst this
        exact tiles_sweep_step_same s _ b
      · simp [MarkTileDirtyByTile, SetRailStationReservation, State.setTile]
    · -- an inner tile of the run
      rw [hcompat (j + 1) (by omega) (by omega)]
      simp only [if_true]
      obtain ⟨s', hrun, hsame', hother, hrunTiles, hdirty⟩ :=
        ih (j + 1) f _ (by omega) (by omega) (by omega) hsame1
      refine ⟨s', hrun, hsame', ?_, ?_, ?_⟩
      · intro u hu
        rw [hother u (fun k hk1 hk2 => hu k (by omega) hk2)]
        exact tiles_sweep_step_other s _ u b (hu j (le_refl j) (by omega))
      · have hlater : ∀ k, j + 1 ≤ k → k < n → s'.tiles (platformTile start diff k) =
            { s.tiles (platformTile start diff k) with station_reserved := b } := by
          intro k hk1 hk2
          rw [hrunTiles k hk1 hk2]
          by_cases he : platformTile start diff k = platformTile start diff j
          · rw [he, tiles_sweep_step_same]
          · rw [tiles_sweep_step_other s _ _ b he]
        intro k hk1 hk2
        by_cases hkj : k = j
        · subst hkj
          by_cases hex : ∃ k', k + 1 ≤ k' ∧ k' < n ∧
              platformTile start diff k' = platformTile start diff k
          · obtain ⟨k', h1, h2, h3⟩ := hex
            rw [← h3]
            exact hlater k' h1 h2
          · rw [hother _ (fun k' h1 h2 h3 => hex ⟨k', h1, h2, h3.symm⟩)]
            exact tiles_sweep_step_same s _ b
        · exact hlater k (by omega) hk2
      · rw [hdirty]
        simp [MarkTileDirtyByTile, SetRailStationReservation, State.setTile, List.range'_succ]

theorem platformRunLength_spec (s : State) (start : TileIndex) (diff : TileIndexDiff) (n : Nat)
    (hend : IsCompatibleTrainStationTile s (platformTile start diff n) start = false) :
    ∀ m j fuel, j + m = n → m ≤ fuel →
      (∀ k, j ≤ k → k < n → IsCompatibleTrainStationTile s (platformTile start diff k) start = true) →
      platformRunLength s start diff fuel (platformTile start diff j) = m := by
  intro m
  induction m with
  | zero =>
    intro j fuel hj _ _
    have : j = n := by omega
    subst this
    cases fuel with
    | zero => rfl
    | succ f => simp [platformRunLength, hend]
  | succ m ih =>
    intro j fuel hj hfuel hc
    obtain ⟨f, rfl⟩ : ∃ f, fuel = f + 1 := ⟨fuel - 1, by omega⟩
    simp only [platformRunLength, hc j (le_refl j) (by omega), if_true, TILE_ADD_platformTile]
    rw [ih (j + 1) f (by omega) (by omega) (fun k hk1 hk2 => hc k (by omega) hk2)]
    omega

/-- C7: when `n >= 1` is the first step at which `start + n * offset` is not a
    compatible station tile of the rail station tile `start`, then
    `SetRailStationPlatformReservation(start, dir, b)` terminates (any fuel of
    at least `n` suffices), sets the station reservation flag to `b` on the
    tiles `start + k * offset` with `k < n`, writes exactly these `n` tiles in
    turn, and leaves every other tile unchanged. -/
theorem platform_sweep (fuel : Nat) (s : State) (start : TileIndex) (dir : DiagDirection)
    (b : Bool) (n : Nat) (hlt : start < 4294967296)
    (hst : IsRailStationTile s start = true)
    (hax : GetRailStationAxis s start = DiagDirToAxis dir) (hn : 1 ≤ n)
    (hcompat : ∀ k, 1 ≤ k → k < n → IsCompatibleTrainStationTile s
      (platformTile start (TileOffsByDiagDir s dir) k) start = true)
    (hend : IsCompatibleTrainStationTile s
      (platformTile start (TileOffsByDiagDir s dir) n) start = false)
    (hfuel : n ≤ fuel) :
    ∃ s', SetRailStationPlatformReservation fuel s start dir b = some s' ∧
      (∀ k, k < n →
        HasStationReservation s' (platformTile start (TileOffsByDiagDir s dir) k) = b) ∧
      (∀ k, k < n → s'.tiles (platformTile start (TileOffsByDiagDir s dir) k) =
        { s.tiles (platformTile start (TileOffsByDiagDir s dir) k) with station_reserved := b }) ∧
      (∀ u, (∀ k, k < n → u ≠ platformTile start (TileOffsByDiagDir s dir) k) →
        s'.tiles u = s.tiles u) ∧
      s'.dirty =
        ((List.range n).map (platformTile start (TileOffsByDiagDir s dir))).reverse ++ s.dirty := by
  obtain ⟨s', hrun, _, hother, htiles, hdirty⟩ :=
    platform_loop_spec s start (TileOffsByDiagDir s dir) b n hcompat hend n 0 fuel s (by omega) hn
      hfuel (SameButStationReservation.refl s)
  rw [platformTile_zero start _ hlt] at hrun
  refine ⟨s', ?_, ?_, ?_, ?_, ?_⟩
  · simp [SetRailStationPlatformReservation, hst, hax, hrun]
  · intro k hk
    simp [HasStationReservation, htiles k (Nat.zero_le k) hk]
  · intro k hk
    exact htiles k (Nat.zero_le k) hk
  · intro u hu
    exact hother u (fun k _ hk => hu k hk)
  · rw [hdirty, List.range_eq_range']

theorem platformTile_shift (start : TileIndex) (diff : TileIndexDiff) (a b : Nat)
    (h : platformTile start diff a = platformTile start diff b) :
    ∀ c, platformTile start diff (a + c) = platformTile start diff (b + c) := by
  intro c
  induction c with
  | zero => exact h
  | succ c ih =>
    rw [← Nat.add_assoc, ← Nat.add_assoc, ← TILE_ADD_platformTile, ← TILE_ADD_platformTile, ih]

/-- The tiles of a platform run are different tiles: a tile met twice would
    make the run go round without end. -/
theorem platformTile_injective (s : State) (start : TileIndex) (diff : TileIndexDiff) (n : Nat)
    (hcompat : ∀ k, k < n → IsCompatibleTrainStationTile s (platformTile start diff k) start = true)
    (hend : IsCompatibleTrainStationTile s (platformTile start diff n) start = false) :
    ∀ j k, j < n → k < n → platformTile start diff j = platformTile start diff k → j = k := by
  have key : ∀ a b, a < b → b < n → platformTile start diff a ≠ platformTile start diff b := by
    intro a b hab hbn h
    have hs := platformTile_shift start diff a b h (n - b)
    rw [Nat.add_sub_cancel' (Nat.le_of_lt hbn)] at hs
    have hc := hcompat (a + (n - b)) (by omega)
    rw [hs, hend] at hc
    exact absurd hc (by decide)
  intro j k hj hk h
  rcases Nat.lt_trichotomy j k with hlt | heq | hgt
  · exact absurd h (key j k hlt hk)
  · exact heq
  · exact absurd h.symm (key k j hgt hj)

/-- C8: on a platform whose run of `n` tiles from `start` in direction `dir` is
    entirely unreserved, reserving the platform and then unreserving it both
    terminate. The first sweep sets the reservation flag of the `n` tiles of
    the run, which are `n` different tiles, and of no other tile; the second
    sweep clears the flag of the same `n` tiles and of no other tile, so every
    tile of the run is unreserved again and the whole map array is restored.
    Each sweep writes the `n` tiles of the run in turn, once each, and `n` is
    the number of compatible contiguous platform tiles counted from `start`. -/
theorem platform_sweep_symmetry (fuel : Nat) (s : State) (start : TileIndex)
    (dir : DiagDirection) (n : Nat) (hlt : start < 4294967296)
    (hst : IsRailStationTile s start = true)
    (hax : GetRailStationAxis s start = DiagDirToAxis dir)
    (hself : IsCompatibleTrainStationTile s start start = true)
    (hcompat : ∀ k, 1 ≤ k → k < n → IsCompatibleTrainStationTile s
      (platformTile start (TileOffsByDiagDir s dir) k) start = true)
    (hend : IsCompatibleTrainStationTile s
      (platformTile start (TileOffsByDiagDir s dir) n) start = false)
    (hfree : ∀ k, k < n →
      HasStationReservation s (platformTile start (TileOffsByDiagDir s dir) k) = false)
    (hfuel : n ≤ fuel) :
    ∃ s1 s2, SetRailStationPlatformReservation fuel s start dir true = some s1 ∧
      SetRailStationPlatformReservation fuel s1 start dir false = some s2 ∧
      (∀ k, k < n → s1.tiles (platformTile start (TileOffsByDiagDir s dir) k) =
        { s.tiles (platformTile start (TileOffsByDiagDir s dir) k) with
          station_reserved := true }) ∧
      (∀ u, (∀ k, k < n → u ≠ platformTile start (TileOffsByDiagDir s dir) k) →
        s1.tiles u = s.tiles u) ∧
      (∀ k, k < n → s2.tiles (platformTile start (TileOffsByDiagDir s dir) k) =
        { s1.tiles (platformTile start (TileOffsByDiagDir s dir) k) with
          station_reserved := false }) ∧
      (∀ u, (∀ k, k < n → u ≠ platformTile start (TileOffsByDiagDir s dir) k) →
        s2.tiles u = s1.tiles u) ∧
      (∀ k, k < n →
        HasStationReservation s1 (platformTile start (TileOffsByDiagDir s dir) k) = true ∧
          HasStationReservation s2 (platformTile start (TileOffsByDiagDir s dir) k) = false) ∧
      s2.tiles = s.tiles ∧
      s1.dirty =
        ((List.range n).map (platformTile start (TileOffsByDiagDir s dir))).reverse ++ s.dirty ∧
      s2.dirty =
        ((List.range n).map (platformTile start (TileOffsByDiagDir s dir))).reverse ++ s1.dirty ∧
      ((List.range n).map (platformTile start (TileOffsByDiagDir s dir))).Nodup ∧
      ((List.range n).map (platformTile start (TileOffsByDiagDir s dir))).length = n ∧
      platformRunLength s start (TileOffsByDiagDir s dir) fuel start = n := by
  have h0 := platformTile_zero start (TileOffsByDiagDir s dir) hlt
  have hn : 1 ≤ n := by
    rcases Nat.eq_zero_or_pos n with h | h
    · subst h; rw [h0, hself] at hend; exact absurd hend (by decide)
    · exact h
  have hall : ∀ k, k < n → IsCompatibleTrainStationTile s
      (platformTile start (TileOffsByDiagDir s dir) k) start = true := by
    intro k hk
    rcases Nat.eq_zero_or_pos k with h | h
    · subst h; rw [h0]; exact hself
    · exact hcompat k h hk
  obtain ⟨s1, hrun1, hsame1, hother1, htiles1, hdirty1⟩ :=
    platform_loop_spec s start (TileOffsByDiagDir s dir) true n hcompat hend n 0 fuel s
      (by omega) hn hfuel (SameButStationReservation.refl s)
  have hoff : TileOffsByDiagDir s1 dir = TileOffsByDiagDir s dir := by
    cases dir <;> simp [TileOffsByDiagDir, hsame1.1]
  obtain ⟨s2, hrun2, _, hother2, htiles2, hdirty2⟩ :=
    platform_loop_spec s start (TileOffsByDiagDir s dir) false n hcompat hend n 0 fuel s1
      (by omega) hn hfuel hsame1
  rw [h0] at hrun1 hrun2
  obtain ⟨hty, hsty, hsax⟩ := hsame1.layout start
  have hst1 : IsRailStationTile s1 start = true := by
    simpa [IsRailStationTile, IsStationTile, IsRailStation, GetTileType, GetStationType, hty, hsty]
      using hst
  have hax1 : GetRailStationAxis s1 start = DiagDirToAxis dir := by
    simpa [GetRailStationAxis, hsax] using hax
  refine ⟨s1, s2, ?_, ?_, ?_, ?_, ?_, ?_, ?_, ?_, ?_, ?_, ?_, ?_, ?_⟩
  · simp [SetRailStationPlatformReservation, hst, hax, hrun1]
  · simp [SetRailStationPlatformReservation, hst1, hax1, hoff, hrun2]
  · exact fun k hk => htiles1 k (Nat.zero_le k) hk
  · exact fun u hu => hother1 u (fun k _ hk => hu k hk)
  · exact fun k hk => htiles2 k (Nat.zero_le k) hk
  · exact fun u hu => hother2 u (fun k _ hk => hu k hk)
  · intro k hk
    constructor
    · simp [HasStationReservation, htiles1 k (Nat.zero_le k) hk]
    · simp [HasStationReservation, htiles2 k (Nat.zero_le k) hk]
  · funext u
    by_cases hu : ∃ k, k < n ∧ u = platformTile start (TileOffsByDiagDir s dir) k
    · obtain ⟨k, hk, rfl⟩ := hu
      rw [htiles2 k (Nat.zero_le k) hk, htiles1 k (Nat.zero_le k) hk]
      have := hfree k hk
      simp only [HasStationReservation] at this
      rw [← this]
    · have hu' : ∀ k, 0 ≤ k → k < n → u ≠ platformTile start (TileOffsByDiagDir s dir) k :=
        fun k _ hk he => hu ⟨k, hk, he⟩
      rw [hother2 u hu', hother1 u hu']
  · rw [hdirty1, List.range_eq_range']
  · rw [hdirty2, List.range_eq_range']
  · refine (List.nodup_map_iff_inj_on (List.nodup_range n)).mpr ?_
    intro j hj k hk h
    exact platformTile_injective s start (TileOffsByDiagDir s dir) n hall hend j k
      (List.mem_range.mp hj) (List.mem_range.mp hk) h
  · simp
  · have := platformRunLength_spec s start (TileOffsByDiagDir s dir) n hend n 0 fuel (by omega)
      hfuel (fun k _ hk => hall k hk)
    rwa [h0] at this

/-! ## C9, C10: walking along a reservation -/

theorem FollowReservation.body_of_reservedNew (s : State) (ignore_oneway : Bool)
    (g ft' : CFollowTrackRail) (cur start : RailPathPos)
    (h : FollowReservation.reservedNew s g = some ft') :
    FollowReservation.body s ignore_oneway g cur start =
      FollowReservation.advance s ignore_oneway ft' cur start := by
  unfold FollowReservation.reservedNew at h
  unfold FollowReservation.body
  by_cases hw : g.m_new.in_wormhole = true
  · simp only [hw, if_true] at h ⊢
    by_cases hr : HasReservedPos s g.m_new.toRailPathPos = true
    · simp only [hr, if_true, Option.some.injEq] at h
      subst h
      simp [hr]
    · simp [hr] at h
  · simp only [hw, Bool.false_eq_true, if_false] at h ⊢
    by_cases hf : (g.m_flag != TrackFollowerFlag.TF_STATION) = true
    · simp only [hf, if_true] at h ⊢
      split at h
      · simp at h
      · rename_i hz
        simp only [Option.some.injEq] at h
        simp only [hz, Bool.false_eq_true, if_false, h]
    · simp only [hf, Bool.false_eq_true, if_false] at h ⊢
      by_cases hs : HasStationReservation s g.m_new.tile = true
      · simp only [hs, if_true, Option.some.injEq] at h
        subst h
        simp [hs]
      · simp [hs] at h

theorem FollowReservation.loop_along (F : TrackFollower) (s : State) (ignore_oneway : Bool)
    (k : Nat) (ft : Nat → CFollowTrackRail) (p : Nat → RailPathPos)
    (hstep : ∀ i, i < k → ∃ g, F.FollowNext s (ft i) = some g ∧
      (i + 1 < k →
        FollowReservation.body s ignore_oneway g (p i) (FollowReservation.startAt p i) =
          .next (ft (i + 1)) (p (i + 1)) (p 1)) ∧
      (i + 1 = k →
        FollowReservation.body s ignore_oneway g (p i) (FollowReservation.startAt p i) =
          .stop (p k) (p 1))) :
    ∀ m j fuel, j + m = k → 1 ≤ m → m ≤ fuel →
      FollowReservation.loop F s ignore_oneway fuel (ft j) (p j) (FollowReservation.startAt p j) =
        some (p k, p 1) := by
  intro m
  induction m with
  | zero => intro j fuel _ h; omega
  | succ m ih =>
    intro j fuel hj _ hfuel
    obtain ⟨f, rfl⟩ : ∃ f, fuel = f + 1 := ⟨fuel - 1, by omega⟩
    obtain ⟨g, hnext, hcont, hstop⟩ := hstep j (by omega)
    simp only [FollowReservation.loop, hnext]
    by_cases hm : m = 0
    · subst hm
      rw [hstop hj]
    · rw [hcont (by omega)]
      simp only
      have := ih (j + 1) f (by omega) (by omega) (by omega)
      simpa [FollowReservation.startAt] using this

theorem FollowReservation.advance_next (s : State) (ignore_oneway : Bool) (ft : CFollowTrackRail)
    (cur start : RailPathPos)
    (hb : ignore_oneway = true ∨ ft.m_new.has_blocking_signal s = false)
    (hstart : start.is_valid_tile = false ∨ ft.m_new.toRailPathPos ≠ start)
    (hd : ft.m_new.in_wormhole = true ∨ IsRailDepotTile s ft.m_new.tile = false)
    (hs : ft.m_new.has_signal_along s = false ∨
      IsPbsSignal (ft.m_new.get_signal_type s) = true) :
    FollowReservation.advance s ignore_oneway ft cur start =
      .next ft ft.m_new.toRailPathPos
        (if start.is_valid_tile then start else ft.m_new.toRailPathPos) := by
  unfold FollowReservation.advance
  have h1 : (!ignore_oneway && ft.m_new.has_blocking_signal s) = false := by
    rcases hb with h | h <;> simp [h]
  have h2 : (!ft.m_new.in_wormhole && IsRailDepotTile s ft.m_new.tile) = false := by
    rcases hd with h | h <;> simp [h]
  have h3 : (ft.m_new.has_signal_along s && !IsPbsSignal (ft.m_new.get_signal_type s)) = false := by
    rcases hs with h | h <;> simp [h]
  simp only [h1, h2, h3, Bool.false_eq_true, if_false]
  rcases hstart with h | h
  · simp [h]
  · by_cases hv : start.is_valid_tile = true
    · simp [hv, h]
    · simp [hv]

theorem FollowReservation.advance_stop (s : State) (ignore_oneway : Bool) (ft : CFollowTrackRail)
    (cur start : RailPathPos)
    (hb : ignore_oneway = true ∨ ft.m_new.has_blocking_signal s = false)
    (hs : (start.is_valid_tile = true ∧ ft.m_new.toRailPathPos = start) ∨
      (ft.m_new.has_signal_along s = true ∧
        IsPbsSignal (ft.m_new.get_signal_type s) = false)) :
    FollowReservation.advance s ignore_oneway ft cur start =
      .stop ft.m_new.toRailPathPos
        (if start.is_valid_tile then start else ft.m_new.toRailPathPos) := by
  unfold FollowReservation.advance
  have h1 : (!ignore_oneway && ft.m_new.has_blocking_signal s) = false := by
    rcases hb with h | h <;> simp [h]
  simp only [h1, Bool.false_eq_true, if_false]
  rcases hs with ⟨hv, he⟩ | ⟨ha, hp⟩
  · simp [hv, he]
  · by_cases hv : start.is_valid_tile = true
    · simp only [hv, Bool.not_true, Bool.false_eq_true, if_false, if_true, ha, hp,
        Bool.not_false, Bool.and_self]
      split
      · rfl
      · split <;> rfl
    · simp only [hv, Bool.not_false, if_true, Bool.false_eq_true, if_false, ha, hp,
        Bool.and_self]
      split <;> rfl

theorem FollowReservation.startAt_valid (p : Nat → RailPathPos) (i : Nat)
    (hv : (p 1).is_valid_tile = true) :
    (if (FollowReservation.startAt p i).is_valid_tile = true then FollowReservation.startAt p i
      else p (i + 1)) = p 1 := by
  unfold FollowReservation.startAt
  by_cases hi : i = 0
  · simp [hi, RailPathPos.invalid, RailPathPos.is_valid_tile]
  · simp [hi, hv]

theorem blocking_excludes_along (s : State) (p : RailPathPos)
    (h : p.has_signal_along s = true) : p.has_blocking_signal s = false := by
  simp [RailPathPos.has_blocking_signal, h]

/-- C9: let `p 0, ..., p k` (`k >= 1`) be a reserved path produced by the track
    follower from the reserved position `p 0`, on which no position before
    `p k` stops the walk (no blocking signal unless one-way signals are
    ignored, no return to `p 1`, no depot, no non-PBS signal along) and `p k`
    has a non-PBS signal along the direction of travel. Then
    `FollowReservation` started at `p 0` returns (any fuel of at least `k`
    suffices), writes back `p k` and returns `true`. -/
theorem FollowReservation_stops_at_signal (F : TrackFollower) (s : State) (o : Owner)
    (rts : RailTypes) (ignore_oneway : Bool) (k : Nat) (ft : Nat → CFollowTrackRail)
    (p : Nat → RailPathPos) (fuel : Nat)
    (hk : 1 ≤ k) (hres : HasReservedPos s (p 0) = true)
    (h0 : ft 0 = F.SetPos (F.construct o true rts) (p 0))
    (hpath : ∀ i, i < k → FollowReservation.reservedStep F s (ft i) (ft (i + 1)) (p (i + 1)))
    (hvalid : (p 1).is_valid_tile = true)
    (hblock : ignore_oneway = false → ∀ i, 1 ≤ i → i < k → (p i).has_blocking_signal s = false)
    (hloop : ∀ i, 2 ≤ i → i < k → p i ≠ p 1)
    (hdepot : ∀ i, 1 ≤ i → i < k →
      ((p i).in_wormhole = true ∨ IsRailDepotTile s (p i).tile = false))
    (hsig : ∀ i, 1 ≤ i → i < k →
      ((p i).has_signal_along s = false ∨ IsPbsSignal ((p i).get_signal_type s) = true))
    (hend : (p k).has_signal_along s = true ∧ IsPbsSignal ((p k).get_signal_type s) = false)
    (hfuel : k ≤ fuel) :
    FollowReservation F fuel s o rts (p 0) ignore_oneway = some (p k, true) := by
  have hb : ∀ i, 1 ≤ i → i ≤ k →
      (ignore_oneway = true ∨ (p i).has_blocking_signal s = false) := by
    intro i h1 h2
    cases hio : ignore_oneway
    · right
      rcases Nat.lt_or_ge i k with h | h
      · exact hblock hio i h1 h
      · have : i = k := by omega
        subst this
        exact blocking_excludes_along s _ hend.1
    · left; rfl
  have hloopRun := FollowReservation.loop_along F s ignore_oneway k ft p (by
    intro i hi
    obtain ⟨g, hnext, hnew, hpos⟩ := hpath i hi
    refine ⟨g, hnext, ?_, ?_⟩
    · intro hlt
      rw [FollowReservation.body_of_reservedNew s ignore_oneway g _ _ _ hnew,
        FollowReservation.advance_next s ignore_oneway (ft (i + 1)) _ _
          (by rw [hpos]; exact hb (i + 1) (by omega) (by omega))
          (by
            rw [hpos]
            by_cases hi0 : i = 0
            · left; simp [FollowReservation.startAt, hi0, RailPathPos.invalid,
                RailPathPos.is_valid_tile]
            · right
              simp only [FollowReservation.startAt, hi0, if_false]
              exact hloop (i + 1) (by omega) hlt)
          (by rw [hpos]; exact hdepot (i + 1) (by omega) hlt)
          (by rw [hpos]; exact hsig (i + 1) (by omega) hlt),
        hpos, FollowReservation.startAt_valid p i hvalid]
    · intro heq
      rw [FollowReservation.body_of_reservedNew s ignore_oneway g _ _ _ hnew,
        FollowReservation.advance_stop s ignore_oneway (ft (i + 1)) _ _
          (by rw [hpos]; exact hb (i + 1) (by omega) (by omega))
          (by rw [hpos, heq]; exact Or.inr hend),
        hpos, FollowReservation.startAt_valid p i hvalid, heq]) k 0 fuel (by omega) hk hfuel
  simp only [FollowReservation.startAt, if_true] at hloopRun
  simp [FollowReservation, hres, ← h0, hloopRun, hvalid]

/-- C10: let `p 0, ..., p k` (`k >= 2`) be a walk of the track follower from the
    reserved position `p 0` over reserved positions that comes back, with
    `p k`, to the first position visited, `p 1`, and not before, without depot,
    non-PBS signal along or blocking signal on it. Then `FollowReservation`
    started at `p 0` returns (any fuel of at least `k` suffices), writes back
    the position recorded as `start`, `p 1`, and returns `true`. -/
theorem FollowReservation_on_loop (F : TrackFollower) (s : State) (o : Owner)
    (rts : RailTypes) (ignore_oneway : Bool) (k : Nat) (ft : Nat → CFollowTrackRail)
    (p : Nat → RailPathPos) (fuel : Nat)
    (hk : 2 ≤ k) (hres : HasReservedPos s (p 0) = true)
    (h0 : ft 0 = F.SetPos (F.construct o true rts) (p 0))
    (hpath : ∀ i, i < k → FollowReservation.reservedStep F s (ft i) (ft (i + 1)) (p (i + 1)))
    (hvalid : (p 1).is_valid_tile = true)
    (hblock : ignore_oneway = false → ∀ i, 1 ≤ i → i < k → (p i).has_blocking_signal s = false)
    (hback : p k = p 1)
    (hloop : ∀ i, 2 ≤ i → i < k → p i ≠ p 1)
    (hdepot : ∀ i, 1 ≤ i → i < k →
      ((p i).in_wormhole = true ∨ IsRailDepotTile s (p i).tile = false))
    (hsig : ∀ i, 1 ≤ i → i < k →
      ((p i).has_signal_along s = false ∨ IsPbsSignal ((p i).get_signal_type s) = true))
    (hfuel : k ≤ fuel) :
    FollowReservation F fuel s o rts (p 0) ignore_oneway = some (p 1, true) := by
  have hb : ∀ i, 1 ≤ i → i ≤ k →
      (ignore_oneway = true ∨ (p i).has_blocking_signal s = false) := by
    intro i h1 h2
    cases hio : ignore_oneway
    · right
      rcases Nat.lt_or_ge i k with h | h
      · exact hblock hio i h1 h
      · have : i = k := by omega
        subst this
        rw [hback]
        exact hblock hio 1 (le_refl 1) (by omega)
    · left; rfl
  have hloopRun := FollowReservation.loop_along F s ignore_oneway k ft p (by
    intro i hi
    obtain ⟨g, hnext, hnew, hpos⟩ := hpath i hi
    refine ⟨g, hnext, ?_, ?_⟩
    · intro hlt
      rw [FollowReservation.body_of_reservedNew s ignore_oneway g _ _ _ hnew,
        FollowReservation.advance_next s ignore_oneway (ft (i + 1)) _ _
          (by rw [hpos]; exact hb (i + 1) (by omega) (by omega))
          (by
            rw [hpos]
            by_cases hi0 : i = 0
            · left; simp [FollowReservation.startAt, hi0, RailPathPos.invalid,
                RailPathPos.is_valid_tile]
            · right
              simp only [FollowReservation.startAt, hi0, if_false]
              exact hloop (i + 1) (by omega) hlt)
          (by rw [hpos]; exact hdepot (i + 1) (by omega) hlt)
          (by rw [hpos]; exact hsig (i + 1) (by omega) hlt),
        hpos, FollowReservation.startAt_valid p i hvalid]
    · intro heq
      have hi0 : i ≠ 0 := by omega
      rw [FollowReservation.body_of_reservedNew s ignore_oneway g _ _ _ hnew,
        FollowReservation.advance_stop s ignore_oneway (ft (i + 1)) _ _
          (by rw [hpos]; exact hb (i + 1) (by omega) (by omega))
          (by
            rw [hpos, heq]
            left
            simp only [FollowReservation.startAt, hi0, if_false]
            exact ⟨hvalid, hback⟩),
        hpos, FollowReservation.startAt_valid p i hvalid, heq]) k 0 fuel (by omega) (by omega)
    hfuel
  simp only [FollowReservation.startAt, if_true] at hloopRun
  simp [FollowReservation, hres, ← h0, hloopRun, hvalid, hback]

/-! ## C11: termination of the walk -/

theorem lasso_round (fuel : Nat) :
    FollowReservation.loop lassoFollower lassoMap false fuel
        (lassoAt (RailPathPos.onTile 10 .TRACKDIR_RIGHT_N) 9 .TRACKDIR_LOWER_E .DIAGDIR_NE)
        (RailPathPos.onTile 9 .TRACKDIR_LOWER_E) (RailPathPos.onTile 10 .TRACKDIR_X_NE) = none ∧
      FollowReservation.loop lassoFollower lassoMap false fuel
        (lassoAt (RailPathPos.onTile 9 .TRACKDIR_LOWER_E) 17 .TRACKDIR_LEFT_S .DIAGDIR_SE)
        (RailPathPos.onTile 17 .TRACKDIR_LEFT_S) (RailPathPos.onTile 10 .TRACKDIR_X_NE) = none ∧
      FollowReservation.loop lassoFollower lassoMap false fuel
        (lassoAt (RailPathPos.onTile 17 .TRACKDIR_LEFT_S) 18 .TRACKDIR_UPPER_W .DIAGDIR_SW)
        (RailPathPos.onTile 18 .TRACKDIR_UPPER_W) (RailPathPos.onTile 10 .TRACKDIR_X_NE) = none ∧
      FollowReservation.loop lassoFollower lassoMap false fuel
        (lassoAt (RailPathPos.onTile 18 .TRACKDIR_UPPER_W) 10 .TRACKDIR_RIGHT_N .DIAGDIR_NW)
        (RailPathPos.onTile 10 .TRACKDIR_RIGHT_N) (RailPathPos.onTile 10 .TRACKDIR_X_NE) = none := by
  induction fuel with
  | zero => exact ⟨rfl, rfl, rfl, rfl⟩
  | succ f ih =>
    obtain ⟨h9, h17, h18, h10⟩ := ih
    exact ⟨h17, h18, h10, h9⟩

theorem lasso_diverges (fuel : Nat) :
    FollowReservation lassoFollower fuel lassoMap 0 0 (RailPathPos.onTile 11 .TRACKDIR_X_NE)
      false = none := by
  match fuel with
  | 0 => rfl
  | 1 => rfl
  | 2 => rfl
  | f + 3 =>
    have h : FollowReservation.loop lassoFollower lassoMap false (f + 3)
        (lassoFollower.SetPos (lassoFollower.construct 0 true 0)
          (RailPathPos.onTile 11 .TRACKDIR_X_NE))
        (RailPathPos.onTile 11 .TRACKDIR_X_NE) RailPathPos.invalid = none :=
      (lasso_round f).2.1
    have hres : HasReservedPos lassoMap (RailPathPos.onTile 11 .TRACKDIR_X_NE) = true := by rfl
    simp only [FollowReservation, hres, Bool.not_true, Bool.false_eq_true, if_false, h]

theorem FollowReservation.advance_next_inv (s : State) (ignore_oneway : Bool)
    (ft ft' : CFollowTrackRail) (cur start cur' start' : RailPathPos)
    (h : FollowReservation.advance s ignore_oneway ft cur start = .next ft' cur' start') :
    ft' = ft ∧ cur' = ft.m_new.toRailPathPos ∧
      start' = (if start.is_valid_tile then start else cur') ∧
      (start.is_valid_tile = true → cur' ≠ start) := by
  unfold FollowReservation.advance at h
  split at h
  · exact absurd h (by simp)
  · by_cases hv : start.is_valid_tile = true
    · simp only [hv, Bool.not_true, Bool.false_eq_true, if_false] at h
      split at h
      · exact absurd h (by simp)
      · rename_i hne
        split at h
        · exact absurd h (by simp)
        · split at h
          · exact absurd h (by simp)
          · simp only [LoopControl.next.injEq] at h
            obtain ⟨h1, h2, h3⟩ := h
            refine ⟨h1.symm, h2.symm, by rw [← h3]; simp [hv], fun _ => ?_⟩
            rw [← h2]
            simpa using hne
    · simp only [hv, Bool.not_false, if_true] at h
      split at h
      · exact absurd h (by simp)
      · split at h
        · exact absurd h (by simp)
        · simp only [LoopControl.next.injEq] at h
          obtain ⟨h1, h2, h3⟩ := h
          refine ⟨h1.symm, h2.symm, by simp [hv, ← h2, h3], fun hv' => absurd hv' hv⟩

theorem FollowReservation.body_next_inv (s : State) (ignore_oneway : Bool)
    (g ft' : CFollowTrackRail) (cur start cur' start' : RailPathPos)
    (h : FollowReservation.body s ignore_oneway g cur start = .next ft' cur' start') :
    FollowReservation.reservedNew s g = some ft' ∧ cur' = ft'.m_new.toRailPathPos ∧
      start' = (if start.is_valid_tile then start else cur') ∧
      (start.is_valid_tile = true → cur' ≠ start) := by
  unfold FollowReservation.body at h
  unfold FollowReservation.reservedNew
  by_cases hw : g.m_new.in_wormhole = true
  · simp only [hw, if_true] at h ⊢
    by_cases hr : HasReservedPos s g.m_new.toRailPathPos = true
    · simp only [hr, Bool.not_true, Bool.false_eq_true, if_false, if_true] at h ⊢
      obtain ⟨h1, h2, h3, h4⟩ := FollowReservation.advance_next_inv _ _ _ _ _ _ _ _ h
      subst h1
      exact ⟨rfl, h2, h3, h4⟩
    · simp [hr] at h
  · simp only [hw, Bool.false_eq_true, if_false] at h ⊢
    by_cases hf : (g.m_flag != TrackFollowerFlag.TF_STATION) = true
    · simp only [hf, if_true] at h ⊢
      split at h
      · exact absurd h (by simp)
      · rename_i hz
        obtain ⟨h1, h2, h3, h4⟩ := FollowReservation.advance_next_inv _ _ _ _ _ _ _ _ h
        subst h1
        simp only [hz, Bool.false_eq_true, if_false, true_and]
        exact ⟨h2, h3, h4⟩
    · simp only [hf, Bool.false_eq_true, if_false] at h ⊢
      by_cases hs : HasStationReservation s g.m_new.tile = true
      · simp only [hs, Bool.not_true, Bool.false_eq_true, if_false, if_true] at h ⊢
        obtain ⟨h1, h2, h3, h4⟩ := FollowReservation.advance_next_inv _ _ _ _ _ _ _ _ h
        subst h1
        exact ⟨rfl, h2, h3, h4⟩
      · simp only [hs, Bool.not_false, if_true] at h
        split at h <;> exact absurd h (by simp)

theorem walkFollower_succ (F : TrackFollower) (s : State) (ft0 g ft' : CFollowTrackRail)
    (i : Nat) (hn : F.FollowNext s (walkFollower F s ft0 i) = some g)
    (hr : FollowReservation.reservedNew s g = some ft') :
    walkFollower F s ft0 (i + 1) = ft' := by
  simp [walkFollower, hn, hr]

theorem FollowReservation.walks_succ (F : TrackFollower) (s : State) (o : Owner)
    (rts : RailTypes) (p0 : RailPathPos) (n : Nat)
    (h : FollowReservation.walks F s o rts p0 n)
    (hstep : FollowReservation.reservedStep F s
      (walkFollower F s (F.SetPos (F.construct o true rts) p0) n)
      (walkFollower F s (F.SetPos (F.construct o true rts) p0) (n + 1))
      (walkPos F s o rts p0 (n + 1))) :
    FollowReservation.walks F s o rts p0 (n + 1) := by
  intro i hi
  rcases Nat.lt_or_ge i n with h1 | h1
  · exact h i h1
  · have : i = n := by omega
    subst this
    exact hstep

theorem FollowReservation.walks_mono (F : TrackFollower) (s : State) (o : Owner)
    (rts : RailTypes) (p0 : RailPathPos) (m n : Nat) (hmn : m ≤ n)
    (h : FollowReservation.walks F s o rts p0 n) : FollowReservation.walks F s o rts p0 m :=
  fun i hi => h i (by omega)

theorem FollowReservation.loop_none_walks (F : TrackFollower) (s : State) (o : Owner)
    (rts : RailTypes) (p0 : RailPathPos) (ignore_oneway : Bool)
    (hvalid : FollowReservation.walks F s o rts p0 1 →
      (walkPos F s o rts p0 1).is_valid_tile = true) :
    ∀ n j, FollowReservation.walks F s o rts p0 j →
      FollowReservation.loop F s ignore_oneway n
        (walkFollower F s (F.SetPos (F.construct o true rts) p0) j) (walkPos F s o rts p0 j)
        (FollowReservation.startAt (walkPos F s o rts p0) j) = none →
      FollowReservation.walks F s o rts p0 (j + n) ∧
        ∀ i, 1 ≤ i → j ≤ i → i < j + n → walkPos F s o rts p0 (i + 1) ≠ walkPos F s o rts p0 1 := by
  intro n
  induction n with
  | zero =>
    intro j hw _
    exact ⟨hw, fun i _ h1 h2 => by omega⟩
  | succ n ih =>
    intro j hw hnone
    simp only [FollowReservation.loop] at hnone
    split at hnone
    · exact absurd hnone (by simp)
    · rename_i g hnext
      split at hnone
      · exact absurd hnone (by simp)
      · rename_i ft' cur' st' hbody
        obtain ⟨hnew, hcur, hst, hne⟩ :=
          FollowReservation.body_next_inv s ignore_oneway g ft' _ _ cur' st' hbody
        have hW : walkFollower F s (F.SetPos (F.construct o true rts) p0) (j + 1) = ft' :=
          walkFollower_succ F s _ g ft' j hnext hnew
        have hP : walkPos F s o rts p0 (j + 1) = cur' := by
          simp [walkPos, hW, hcur]
        have hw' : FollowReservation.walks F s o rts p0 (j + 1) :=
          FollowReservation.walks_succ F s o rts p0 j hw
            ⟨g, hnext, by rw [hW]; exact hnew, by rw [hW, hP, hcur]⟩
        have hv1 : (walkPos F s o rts p0 1).is_valid_tile = true :=
          hvalid (FollowReservation.walks_mono F s o rts p0 1 (j + 1) (by omega) hw')
        have hst' : st' = FollowReservation.startAt (walkPos F s o rts p0) (j + 1) := by
          rw [hst]
          by_cases hj : j = 0
          · subst hj
            simp [FollowReservation.startAt, RailPathPos.invalid, RailPathPos.is_valid_tile,
              INVALID_TILE, ← hP]
          · simp [FollowReservation.startAt, hj, hv1]
        rw [← hW, ← hP, hst'] at hnone
        obtain ⟨hwalk, hfar⟩ := ih (j + 1) hw' hnone
        refine ⟨by rw [show j + (n + 1) = j + 1 + n by omega]; exact hwalk, ?_⟩
        intro i hi1 hji hlt
        rcases Nat.lt_or_ge j i with h | h
        · exact hfar i hi1 (by omega) (by omega)
        · have hij : i = j := by omega
          subst hij
          have hj0 : i ≠ 0 := by omega
          rw [hP]
          have := hne (by simp [FollowReservation.startAt, hj0, hv1])
          simpa [FollowReservation.startAt, hj0] using this

theorem walk_descent (P : Nat → RailPathPos) (N d : Nat)
    (hinj : ∀ i j, 1 ≤ i → i < j → j ≤ N → P (i + 1) = P (j + 1) → P i = P j) (hd : 1 ≤ d) :
    ∀ a, 1 ≤ a → a + d ≤ N + 1 → P a = P (a + d) → P 1 = P (1 + d) := by
  intro a
  induction a with
  | zero => intro h; omega
  | succ a ih =>
    intro _ hle heq
    rcases Nat.eq_zero_or_pos a with h0 | hpos
    · subst h0
      simpa [Nat.add_comm] using heq
    · have := hinj a (a + d) hpos (by omega) (by omega)
        (by rw [show a + d + 1 = a + 1 + d by omega]; exact heq)
      exact ih hpos (by omega) this

/-- C11 (amended): let the walk from the reserved position `p0` stay, while it
    lasts, within a set `net` of at most `N` positions, let the first position
    visited have a valid tile, and let no position of the walk be entered from
    two different positions of the walk. Then `FollowReservation` returns
    within `N + 1` steps of the track follower: its comparison with the
    recorded `start` detects every loop. -/
theorem FollowReservation_terminates (F : TrackFollower) (s : State) (o : Owner)
    (rts : RailTypes) (p0 : RailPathPos) (ignore_oneway : Bool) (net : Finset RailPathPos)
    (N : Nat) (hres : HasReservedPos s p0 = true) (hcard : net.card ≤ N)
    (hnet : ∀ i, 1 ≤ i → i ≤ N + 1 → FollowReservation.walks F s o rts p0 i →
      walkPos F s o rts p0 i ∈ net)
    (hvalid : FollowReservation.walks F s o rts p0 1 →
      (walkPos F s o rts p0 1).is_valid_tile = true)
    (hinj : ∀ i j, 1 ≤ i → i < j → j ≤ N → FollowReservation.walks F s o rts p0 (j + 1) →
      walkPos F s o rts p0 (i + 1) = walkPos F s o rts p0 (j + 1) →
      walkPos F s o rts p0 i = walkPos F s o rts p0 j) :
    ∃ r, FollowReservation F (N + 1) s o rts p0 ignore_oneway = some r := by
  by_contra hno
  have hloop : FollowReservation.loop F s ignore_oneway (N + 1)
      (F.SetPos (F.construct o true rts) p0) p0 RailPathPos.invalid = none := by
    by_contra hsome
    obtain ⟨⟨cur, st⟩, hr⟩ := Option.ne_none_iff_exists'.mp hsome
    exact hno ⟨(cur, st.is_valid_tile), by simp [FollowReservation, hres, hr]⟩
  have h0 : walkPos F s o rts p0 0 = p0 := by simp [walkPos]
  obtain ⟨hwalk, hfar⟩ := FollowReservation.loop_none_walks F s o rts p0 ignore_oneway hvalid
    (N + 1) 0 (fun i hi => by omega) (by
      simpa [walkFollower, h0, FollowReservation.startAt] using hloop)
  have hwalk' : ∀ m, m ≤ N + 1 → FollowReservation.walks F s o rts p0 m := fun m hm =>
    FollowReservation.walks_mono F s o rts p0 m (0 + (N + 1)) (by omega) hwalk
  obtain ⟨x, hx, y, hy, hxy, hf⟩ :=
    Finset.exists_ne_map_eq_of_card_lt_of_maps_to
      (show net.card < (Finset.range (N + 1)).card by simp; omega)
      (fun k hk => hnet (k + 1) (by omega) (by simp at hk; omega)
        (hwalk' (k + 1) (by simp at hk; omega)))
  simp only [Finset.mem_range] at hx hy
  have key : ∀ a b, a < b → b < N + 1 →
      walkPos F s o rts p0 (a + 1) = walkPos F s o rts p0 (b + 1) → False := by
    intro a b hab hb heq
    have hd := walk_descent (walkPos F s o rts p0) N (b - a)
      (fun i j hi hij hj => hinj i j hi hij hj (hwalk' (j + 1) (by omega))) (by omega)
      (a + 1) (by omega) (by omega)
      (by rw [show a + 1 + (b - a) = b + 1 by omega]; exact heq)
    exact hfar (b - a) (by omega) (by omega) (by omega)
      (by rw [show b - a + 1 = 1 + (b - a) by omega]; exact hd.symm)
  rcases Nat.lt_or_gt_of_ne hxy with h | h
  · exact key x y h hy hf
  · exact key y x h hx hf.symm

/-- C11 (counterexample): on the finite network `lassoMap`, started at the
    reserved position on tile 11, the walk runs over tile 10 into the circle
    and never meets the recorded `start` (the position on tile 10) again: no
    amount of fuel makes `FollowReservation` return. -/
theorem FollowReservation_lasso_never_returns :
    HasReservedPos lassoMap (RailPathPos.onTile 11 .TRACKDIR_X_NE) = true ∧
      ¬ FollowReservation.Terminates lassoFollower lassoMap 0 0
        (RailPathPos.onTile 11 .TRACKDIR_X_NE) false := by
  refine ⟨by rfl, ?_⟩
  rintro ⟨fuel, h⟩
  rw [lasso_diverges fuel] at h
  exact absurd h (by decide)

/-! ## C12: the returned flag when the reservation ends inside a station -/

/-- C12 (the code at the failing input): the train stands on tile 9 in front
    of a platform whose first two tiles, 10 and 11, are reserved. The follower
    steps to the platform end, tile 13, which is not reserved; the search over
    the skipped tiles finds tile 11. `FollowReservation` writes back the
    position on tile 11 and returns `false`, although the walk has advanced past
    the starting position. -/
theorem FollowReservation_station_end_returns_false :
    FollowReservation platformFollower 1 stationEndMap 0 0
        (RailPathPos.onTile 9 .TRACKDIR_X_SW) false =
        some (RailPathPos.onTile 11 .TRACKDIR_X_SW, false) ∧
      RailPathPos.onTile 11 .TRACKDIR_X_SW ≠ RailPathPos.onTile 9 .TRACKDIR_X_SW := by
  refine ⟨by rfl, by decide⟩

/-! ## C13: one-way signals against the direction of travel -/

theorem FollowReservation.skipped_reserved (s : State) (diff : TileIndexDiff) :
    ∀ (n : Nat) (m_new : RailPathNewPos) (q : RailPathPos),
      FollowReservation.skipped s diff n m_new = some q → HasStationReservation s q.tile = true := by
  intro n
  induction n with
  | zero => intro m_new q h; simp [FollowReservation.skipped] at h
  | succ n ih =>
    intro m_new q h
    simp only [FollowReservation.skipped] at h
    split at h
    · rename_i hr
      simp only [Option.some.injEq] at h
      rw [← h]
      exact hr
    · exact ih _ q h

theorem no_signal_not_blocking (s : State) (q : RailPathPos)
    (h : ∀ td, HasSignalOnTrackdir s q.tile td = false) : q.has_blocking_signal s = false := by
  simp [RailPathPos.has_blocking_signal, RailPathPos.has_signal_against, h]

theorem FollowReservation.advance_cur (s : State) (ft : CFollowTrackRail)
    (cur start : RailPathPos) :
    (FollowReservation.advance s false ft cur start).cur = cur ∨
      (FollowReservation.advance s false ft cur start).cur.has_blocking_signal s = false := by
  unfold FollowReservation.advance
  by_cases hb : ft.m_new.has_blocking_signal s = true
  · left
    simp [hb, LoopControl.cur]
  · right
    have hb' : ft.m_new.has_blocking_signal s = false := by simpa using hb
    simp only [Bool.not_false, Bool.true_and, hb', Bool.false_eq_true, if_false]
    repeat' split
    all_goals exact hb'

theorem FollowReservation.body_cur (s : State)
    (hnosig : ∀ tile td, HasStationReservation s tile = true →
      HasSignalOnTrackdir s tile td = false)
    (g : CFollowTrackRail) (cur start : RailPathPos) :
    (FollowReservation.body s false g cur start).cur = cur ∨
      (FollowReservation.body s false g cur start).cur.has_blocking_signal s = false := by
  unfold FollowReservation.body
  by_cases hw : g.m_new.in_wormhole = true
  · simp only [hw, if_true]
    split
    · left; rfl
    · exact FollowReservation.advance_cur s g cur start
  · simp only [hw, Bool.false_eq_true, if_false]
    by_cases hf : (g.m_flag != TrackFollowerFlag.TF_STATION) = true
    · simp only [hf, if_true]
      split
      · left; rfl
      · exact FollowReservation.advance_cur s _ cur start
    · simp only [hf, Bool.false_eq_true, if_false]
      by_cases hs : HasStationReservation s g.m_new.tile = true
      · simp only [hs, Bool.not_true, Bool.false_eq_true, if_false]
        exact FollowReservation.advance_cur s g cur start
      · simp only [hs, Bool.not_false, if_true]
        cases hfound : FollowReservation.skipped s (TileOffsByDiagDir s g.m_exitdir)
            g.m_tiles_skipped.toNat g.m_new with
        | none => left; rfl
        | some found =>
          right
          exact no_signal_not_blocking s found (fun td =>
            hnosig _ td (FollowReservation.skipped_reserved s _ _ _ found hfound))

theorem FollowReservation.loop_cur (F : TrackFollower) (s : State)
    (hnosig : ∀ tile td, HasStationReservation s tile = true →
      HasSignalOnTrackdir s tile td = false)
    (p0 : RailPathPos) :
    ∀ (fuel : Nat) (ft : CFollowTrackRail) (cur start e st : RailPathPos),
      (cur = p0 ∨ cur.has_blocking_signal s = false) →
      FollowReservation.loop F s false fuel ft cur start = some (e, st) →
      (e = p0 ∨ e.has_blocking_signal s = false) := by
  intro fuel
  induction fuel with
  | zero => intro ft cur start e st _ h; simp [FollowReservation.loop] at h
  | succ f ih =>
    intro ft cur start e st hcur h
    simp only [FollowReservation.loop] at h
    split at h
    · simp only [Option.some.injEq, Prod.mk.injEq] at h
      rw [← h.1]; exact hcur
    · rename_i g _
      have hb := FollowReservation.body_cur s hnosig g cur start
      split at h
      · rename_i c st' hbody
        simp only [Option.some.injEq, Prod.mk.injEq] at h
        rw [hbody] at hb
        simp only [LoopControl.cur] at hb
        rw [← h.1]
        rcases hb with hb | hb
        · rw [hb]; exact hcur
        · exact Or.inr hb
      · rename_i ft' c st' hbody
        rw [hbody] at hb
        simp only [LoopControl.cur] at hb
        refine ih ft' c st' e st ?_ h
        rcases hb with hb | hb
        · rw [hb]; exact hcur
        · exact Or.inr hb

theorem FollowReservation.loop_until (F : TrackFollower) (s : State) (ignore_oneway : Bool)
    (k : Nat) (ft : Nat → CFollowTrackRail) (p : Nat → RailPathPos) (c st : RailPathPos)
    (hstep : ∀ i, i < k → ∃ g, F.FollowNext s (ft i) = some g ∧
      (i + 1 < k →
        FollowReservation.body s ignore_oneway g (p i) (FollowReservation.startAt p i) =
          .next (ft (i + 1)) (p (i + 1)) (p 1)) ∧
      (i + 1 = k →
        FollowReservation.body s ignore_oneway g (p i) (FollowReservation.startAt p i) =
          .stop c st)) :
    ∀ m j fuel, j + m = k → 1 ≤ m → m ≤ fuel →
      FollowReservation.loop F s ignore_oneway fuel (ft j) (p j) (FollowReservation.startAt p j) =
        some (c, st) := by
  intro m
  induction m with
  | zero => intro j fuel _ h; omega
  | succ m ih =>
    intro j fuel hj _ hfuel
    obtain ⟨f, rfl⟩ : ∃ f, fuel = f + 1 := ⟨fuel - 1, by omega⟩
    obtain ⟨g, hnext, hcont, hstop⟩ := hstep j (by omega)
    simp only [FollowReservation.loop, hnext]
    by_cases hm : m = 0
    · subst hm
      rw [hstop hj]
    · rw [hcont (by omega)]
      simp only
      have := ih (j + 1) f (by omega) (by omega) (by omega)
      simpa [FollowReservation.startAt] using this

theorem FollowReservation.advance_blocked (s : State) (ft : CFollowTrackRail)
    (cur start : RailPathPos) (hb : ft.m_new.has_blocking_signal s = true) :
    FollowReservation.advance s false ft cur start = .stop cur start := by
  simp [FollowReservation.advance, hb]

/-- C13: with `ignore_oneway = false`, on a map whose tiles with a station
    reservation carry no signal, the position `FollowReservation` writes back
    is the start position or a position without blocking signal; and when the
    reserved walk `p 0, ..., p k` meets its first blocking signal at `p k`, the
    routine returns with `p (k - 1)`, the last position before the signal (the
    returned flag tells whether that is past the start position). -/
theorem FollowReservation_respects_blocking_signal (F : TrackFollower) (s : State) (o : Owner)
    (rts : RailTypes) (p0 : RailPathPos)
    (hnosig : ∀ tile td, HasStationReservation s tile = true →
      HasSignalOnTrackdir s tile td = false) :
    (∀ fuel e b, FollowReservation F fuel s o rts p0 false = some (e, b) →
        (e = p0 ∨ e.has_blocking_signal s = false)) ∧
      (∀ (k : Nat) (ft : Nat → CFollowTrackRail) (p : Nat → RailPathPos) (fuel : Nat),
        1 ≤ k → p 0 = p0 → HasReservedPos s p0 = true →
        ft 0 = F.SetPos (F.construct o true rts) p0 →
        (∀ i, i < k → FollowReservation.reservedStep F s (ft i) (ft (i + 1)) (p (i + 1))) →
        (2 ≤ k → (p 1).is_valid_tile = true) →
        (∀ i, 1 ≤ i → i < k → (p i).has_blocking_signal s = false) →
        (p k).has_blocking_signal s = true →
        (∀ i, 2 ≤ i → i < k → p i ≠ p 1) →
        (∀ i, 1 ≤ i → i < k →
          ((p i).in_wormhole = true ∨ IsRailDepotTile s (p i).tile = false)) →
        (∀ i, 1 ≤ i → i < k →
          ((p i).has_signal_along s = false ∨ IsPbsSignal ((p i).get_signal_type s) = true)) →
        k ≤ fuel →
        FollowReservation F fuel s o rts p0 false = some (p (k - 1), decide (2 ≤ k))) := by
  constructor
  · intro fuel e b h
    unfold FollowReservation at h
    split at h
    · exact absurd h (by simp)
    · simp only at h
      split at h
      · exact absurd h (by simp)
      · rename_i cur st hloop
        simp only [Option.some.injEq, Prod.mk.injEq] at h
        rw [← h.1]
        exact FollowReservation.loop_cur F s hnosig p0 fuel _ p0 _ cur st (Or.inl rfl) hloop
  · intro k ft p fuel hk hp0 hres h0 hpath hvalid hfree hblocked hloop hdepot hsig hfuel
    have hrun := FollowReservation.loop_until F s false k ft p (p (k - 1))
      (FollowReservation.startAt p (k - 1)) (by
        intro i hi
        obtain ⟨g, hnext, hnew, hpos⟩ := hpath i hi
        refine ⟨g, hnext, ?_, ?_⟩
        · intro hlt
          have hv1 : (p 1).is_valid_tile = true := hvalid (by omega)
          rw [FollowReservation.body_of_reservedNew s false g _ _ _ hnew,
            FollowReservation.advance_next s false (ft (i + 1)) _ _
              (by rw [hpos]; exact Or.inr (hfree (i + 1) (by omega) hlt))
              (by
                rw [hpos]
                by_cases hi0 : i = 0
                · left; simp [FollowReservation.startAt, hi0, RailPathPos.invalid,
                    RailPathPos.is_valid_tile]
                · right
                  simp only [FollowReservation.startAt, hi0, if_false]
                  exact hloop (i + 1) (by omega) hlt)
              (by rw [hpos]; exact hdepot (i + 1) (by omega) hlt)
              (by rw [hpos]; exact hsig (i + 1) (by omega) hlt),
            hpos, FollowReservation.startAt_valid p i hv1]
        · intro heq
          have hik : i = k - 1 := by omega
          rw [FollowReservation.body_of_reservedNew s false g _ _ _ hnew,
            FollowReservation.advance_blocked s (ft (i + 1)) _ _
              (by rw [hpos, heq]; exact hblocked), hik]) k 0 fuel (by omega) hk hfuel
    have hst : (FollowReservation.startAt p (k - 1)).is_valid_tile = decide (2 ≤ k) := by
      by_cases h2 : 2 ≤ k
      · have : k - 1 ≠ 0 := by omega
        simp [FollowReservation.startAt, this, hvalid h2, h2]
      · have : k - 1 = 0 := by omega
        simp [FollowReservation.startAt, this, h2, RailPathPos.invalid,
          RailPathPos.is_valid_tile]
    have hrun' : FollowReservation.loop F s false fuel (ft 0) p0 RailPathPos.invalid =
        some (p (k - 1), FollowReservation.startAt p (k - 1)) := by
      have h00 : FollowReservation.startAt p 0 = RailPathPos.invalid := by
        simp [FollowReservation.startAt]
      rw [h00, hp0] at hrun
      exact hrun
    simp [FollowReservation, hres, ← h0, hrun', hst]

/-! ## C14: the train on a tile -/

theorem FindTrain.scan_skip (V : Vehicles) (wanted : TrainTrackdir → Bool) (v : Vehicle)
    (rest : List Vehicle) (best : Option Vehicle) (h : v.isTrainOn wanted = false) :
    FindTrain.scan V wanted (v :: rest) best = FindTrain.scan V wanted rest best := by
  unfold Vehicle.isTrainOn at h
  rw [FindTrain.scan]
  by_cases h1 : v.type = .VEH_TRAIN
  · by_cases h2 : v.crashed = true
    · simp [h2]
    · have h3 : wanted v.trackdir = false := by simpa [h1, h2] using h
      simp [h3]
  · simp [h1]

theorem FindTrain.scan_take (V : Vehicles) (wanted : TrainTrackdir → Bool) (v : Vehicle)
    (rest : List Vehicle) (best : Option Vehicle) (h : v.isTrainOn wanted = true) :
    FindTrain.scan V wanted (v :: rest) best =
      FindTrain.scan V wanted rest (some (FindTrain.better (v.First V) best)) := by
  unfold Vehicle.isTrainOn at h
  simp only [Bool.and_eq_true, beq_iff_eq, Bool.not_eq_true'] at h
  obtain ⟨⟨h1, h2⟩, h3⟩ := h
  rw [FindTrain.scan]
  cases best with
  | none => simp [h1, h2, h3, FindTrain.better]
  | some b =>
    by_cases hlt : (v.First V).index < b.index
    · simp [h1, h2, h3, FindTrain.better, hlt]
    · simp [h1, h2, h3, FindTrain.better, hlt]

theorem FindTrain.scan_none (V : Vehicles) (wanted : TrainTrackdir → Bool) (l : List Vehicle) :
    ∀ best, FindTrain.scan V wanted l best = none ↔
      best = none ∧ ∀ v ∈ l, v.isTrainOn wanted = false := by
  induction l with
  | nil => intro best; simp [FindTrain.scan]
  | cons v rest ih =>
    intro best
    cases hq : v.isTrainOn wanted with
    | false =>
      rw [FindTrain.scan_skip V wanted v rest best hq, ih]
      simp [hq]
    | true =>
      rw [FindTrain.scan_take V wanted v rest best hq, ih]
      simp [hq]

theorem FindTrain.better_index (t : Vehicle) (best : Option Vehicle) :
    (FindTrain.better t best).index ≤ t.index ∧
      (∀ b, best = some b → (FindTrain.better t best).index ≤ b.index) ∧
      (FindTrain.better t best = t ∨ best = some (FindTrain.better t best)) := by
  cases best with
  | none => simp [FindTrain.better]
  | some b =>
    by_cases hlt : t.index < b.index
    · have hb : FindTrain.better t (some b) = t := by simp [FindTrain.better, hlt]
      rw [hb]
      exact ⟨le_refl _, fun b' hb' => by cases hb'; exact Nat.le_of_lt hlt, Or.inl rfl⟩
    · have hb : FindTrain.better t (some b) = b := by simp [FindTrain.better, hlt]
      rw [hb]
      exact ⟨Nat.le_of_not_lt hlt, fun b' hb' => by cases hb'; exact le_refl _, Or.inr rfl⟩

theorem FindTrain.scan_some (V : Vehicles) (wanted : TrainTrackdir → Bool) (l : List Vehicle) :
    ∀ best t, FindTrain.scan V wanted l best = some t →
      (best = some t ∨ ∃ v ∈ l, v.isTrainOn wanted = true ∧ t = v.First V) ∧
        (∀ b, best = some b → t.index ≤ b.index) ∧
        ∀ w ∈ l, w.isTrainOn wanted = true → t.index ≤ (w.First V).index := by
  induction l with
  | nil =>
    intro best t h
    simp only [FindTrain.scan] at h
    subst h
    simp
  | cons v rest ih =>
    intro best t h
    cases hq : v.isTrainOn wanted with
    | false =>
      rw [FindTrain.scan_skip V wanted v rest best hq] at h
      obtain ⟨h1, h2, h3⟩ := ih best t h
      refine ⟨?_, h2, ?_⟩
      · rcases h1 with h1 | ⟨u, hu, hqu, htu⟩
        · exact Or.inl h1
        · exact Or.inr ⟨u, List.mem_cons_of_mem _ hu, hqu, htu⟩
      · intro w hw hqw
        rcases List.mem_cons.mp hw with rfl | hw
        · rw [hq] at hqw; exact absurd hqw (by decide)
        · exact h3 w hw hqw
    | true =>
      rw [FindTrain.scan_take V wanted v rest best hq] at h
      obtain ⟨h1, h2, h3⟩ := ih _ t h
      obtain ⟨hb1, hb2, hb3⟩ := FindTrain.better_index (v.First V) best
      have hle := h2 _ rfl
      refine ⟨?_, ?_, ?_⟩
      · rcases h1 with h1 | ⟨u, hu, hqu, htu⟩
        · have ht : t = FindTrain.better (v.First V) best := by
            simpa using h1.symm
          rcases hb3 with hb3 | hb3
          · exact Or.inr ⟨v, List.mem_cons_self _ _, hq, by rw [ht, hb3]⟩
          · exact Or.inl (by rw [ht]; exact hb3)
        · exact Or.inr ⟨u, List.mem_cons_of_mem _ hu, hqu, htu⟩
      · intro b hb
        exact le_trans hle (hb2 b hb)
      · intro w hw hqw
        rcases List.mem_cons.mp hw with rfl | hw
        · exact le_trans hle hb1
        · exact h3 w hw hqw

/-- The result of the loop does not depend on the order of the vehicles, in a
    pool whose vehicles are stored under their own index. -/
theorem FindTrain.scan_perm (V : Vehicles) (wanted : TrainTrackdir → Bool)
    (hpool : ∀ i, (V.get i).index = i) (l l' : List Vehicle) (hperm : l'.Perm l) :
    FindTrain.scan V wanted l' none = FindTrain.scan V wanted l none := by
  cases h : FindTrain.scan V wanted l none with
  | none =>
    rw [FindTrain.scan_none] at h ⊢
    exact ⟨rfl, fun v hv => h.2 v (hperm.mem_iff.mp hv)⟩
  | some t =>
    cases h' : FindTrain.scan V wanted l' none with
    | none =>
      rw [FindTrain.scan_none] at h'
      obtain ⟨h1, _, _⟩ := FindTrain.scan_some V wanted l none t h
      rcases h1 with h1 | ⟨u, hu, hqu, _⟩
      · exact absurd h1 (by simp)
      · rw [h'.2 u (hperm.mem_iff.mpr hu)] at hqu
        exact absurd hqu (by decide)
    | some t' =>
      obtain ⟨h1, _, h3⟩ := FindTrain.scan_some V wanted l none t h
      obtain ⟨h1', _, h3'⟩ := FindTrain.scan_some V wanted l' none t' h'
      rcases h1 with h1 | ⟨u, hu, hqu, htu⟩
      · exact absurd h1 (by simp)
      rcases h1' with h1' | ⟨u', hu', hqu', htu'⟩
      · exact absurd h1' (by simp)
      have hle : t.index ≤ t'.index := by
        rw [htu']; exact h3 u' (hperm.mem_iff.mp hu') hqu'
      have hle' : t'.index ≤ t.index := by
        rw [htu]; exact h3' u (hperm.mem_iff.mpr hu) hqu
      have hidx : t'.index = t.index := le_antisymm hle' hle
      rw [htu, htu'] at hidx
      simp only [Vehicle.First, hpool] at hidx
      rw [htu, htu']
      simp [Vehicle.First, hidx]

/-- C14: in a pool whose vehicles are stored under their own index,
    `FindTrainOnTrack` returns NULL iff no train vehicle on the tile that has
    not crashed is on the track; otherwise it returns the head (`First()`) of
    such a vehicle, and no head of such a vehicle has a lower index; and the
    result is the same for every order in which the iterator yields the
    vehicles of the tile. The same holds for `FindTrainInWormhole` and the
    vehicles inside a wormhole. -/
theorem FindTrain_lowest_index (V : Vehicles) (tile : TileIndex) (track : Track)
    (hpool : ∀ i, (V.get i).index = i) :
    ((FindTrainOnTrack V tile track = none ↔
        ∀ v ∈ V.on_tile tile, v.isTrainOnTrack track = false) ∧
      (∀ t, FindTrainOnTrack V tile track = some t →
        (∃ v ∈ V.on_tile tile, v.isTrainOnTrack track = true ∧ t = v.First V) ∧
          ∀ w ∈ V.on_tile tile, w.isTrainOnTrack track = true → t.index ≤ (w.First V).index) ∧
      (∀ V' : Vehicles, V'.get = V.get → (V'.on_tile tile).Perm (V.on_tile tile) →
        FindTrainOnTrack V' tile track = FindTrainOnTrack V tile track)) ∧
    ((FindTrainInWormhole V tile = none ↔
        ∀ v ∈ V.on_tile tile, v.isTrainInWormhole = false) ∧
      (∀ t, FindTrainInWormhole V tile = some t →
        (∃ v ∈ V.on_tile tile, v.isTrainInWormhole = true ∧ t = v.First V) ∧
          ∀ w ∈ V.on_tile tile, w.isTrainInWormhole = true → t.index ≤ (w.First V).index) ∧
      (∀ V' : Vehicles, V'.get = V.get → (V'.on_tile tile).Perm (V.on_tile tile) →
        FindTrainInWormhole V' tile = FindTrainInWormhole V tile)) := by
  have key : ∀ wanted : TrainTrackdir → Bool,
      (FindTrain.scan V wanted (V.on_tile tile) none = none ↔
        ∀ v ∈ V.on_tile tile, v.isTrainOn wanted = false) ∧
      (∀ t, FindTrain.scan V wanted (V.on_tile tile) none = some t →
        (∃ v ∈ V.on_tile tile, v.isTrainOn wanted = true ∧ t = v.First V) ∧
          ∀ w ∈ V.on_tile tile, w.isTrainOn wanted = true → t.index ≤ (w.First V).index) ∧
      (∀ V' : Vehicles, V'.get = V.get → (V'.on_tile tile).Perm (V.on_tile tile) →
        FindTrain.scan V' wanted (V'.on_tile tile) none =
          FindTrain.scan V wanted (V.on_tile tile) none) := by
    intro wanted
    refine ⟨?_, ?_, ?_⟩
    · rw [FindTrain.scan_none]; simp
    · intro t h
      obtain ⟨h1, _, h3⟩ := FindTrain.scan_some V wanted _ none t h
      rcases h1 with h1 | h1
      · exact absurd h1 (by simp)
      · exact ⟨h1, h3⟩
    · intro V' hget hperm
      have hsame : ∀ l best, FindTrain.scan V' wanted l best = FindTrain.scan V wanted l best := by
        intro l
        induction l with
        | nil => intro best; simp [FindTrain.scan]
        | cons v rest ih =>
          intro best
          rw [FindTrain.scan, FindTrain.scan]
          simp only [ih, Vehicle.First, hget]
      rw [hsame]
      exact FindTrain.scan_perm V wanted hpool _ _ hperm
  exact ⟨key _, key _⟩

/-! ## C15: the train at the end of a path -/

theorem FindTrainOnTrack_some (V : Vehicles) (tile : TileIndex) (track : Track) (t : Vehicle)
    (h : FindTrainOnTrack V tile track = some t) :
    (∃ v ∈ V.on_tile tile, v.isTrainOnTrack track = true ∧ t = v.First V) ∧
      ∀ w ∈ V.on_tile tile, w.isTrainOnTrack track = true → t.index ≤ (w.First V).index := by
  obtain ⟨h1, _, h3⟩ := FindTrain.scan_some V _ _ none t h
  rcases h1 with h1 | h1
  · exact absurd h1 (by simp)
  · exact ⟨h1, h3⟩

theorem FindTrainOnTrack_none (V : Vehicles) (tile : TileIndex) (track : Track)
    (h : FindTrainOnTrack V tile track = none) :
    ∀ w ∈ V.on_tile tile, w.isTrainOnTrack track = false :=
  ((FindTrain.scan_none V _ _ none).mp h).2

theorem FindTrainInWormhole_some (V : Vehicles) (tile : TileIndex) (t : Vehicle)
    (h : FindTrainInWormhole V tile = some t) :
    (∃ v ∈ V.on_tile tile, v.isTrainInWormhole = true ∧ t = v.First V) ∧
      ∀ w ∈ V.on_tile tile, w.isTrainInWormhole = true → t.index ≤ (w.First V).index := by
  obtain ⟨h1, _, h3⟩ := FindTrain.scan_some V _ _ none t h
  rcases h1 with h1 | h1
  · exact absurd h1 (by simp)
  · exact ⟨h1, h3⟩

theorem FindTrainInWormhole_none (V : Vehicles) (tile : TileIndex)
    (h : FindTrainInWormhole V tile = none) :
    ∀ w ∈ V.on_tile tile, w.isTrainInWormhole = false :=
  ((FindTrain.scan_none V _ _ none).mp h).2

/-- The train the platform loop of `FindTrainOnPathEnd` returns stands on the
    first tile of the run, counted from `tile`, that holds a train on the
    track. -/
theorem FindTrainOnPathEnd.platform_some (V : Vehicles) (s : State) (start : TileIndex)
    (track : Track) (diff : TileIndexDiff) (t : Vehicle) :
    ∀ fuel tile, FindTrainOnPathEnd.platform V s start track diff fuel tile = some (some t) →
      ∃ k, ((∃ v ∈ V.on_tile ((fun u => TILE_ADD u diff)^[k] tile),
              v.isTrainOnTrack track = true ∧ t = v.First V) ∧
            ∀ w ∈ V.on_tile ((fun u => TILE_ADD u diff)^[k] tile),
              w.isTrainOnTrack track = true → t.index ≤ (w.First V).index) ∧
        (∀ j, j < k → ∀ w ∈ V.on_tile ((fun u => TILE_ADD u diff)^[j] tile),
          w.isTrainOnTrack track = false) ∧
        ∀ j, j ≤ k →
          IsCompatibleTrainStationTile s ((fun u => TILE_ADD u diff)^[j] tile) start = true := by
  intro fuel
  induction fuel with
  | zero => intro tile h; simp [FindTrainOnPathEnd.platform] at h
  | succ n ih =>
    intro tile h
    rw [FindTrainOnPathEnd.platform] at h
    by_cases hc : IsCompatibleTrainStationTile s tile start = true
    · simp only [hc, if_true] at h
      cases hf : FindTrainOnTrack V tile track with
      | some t' =>
        simp only [hf, Option.some.injEq] at h
        subst h
        refine ⟨0, FindTrainOnTrack_some V tile track t' hf, fun j hj => by omega, ?_⟩
        intro j hj
        have : j = 0 := by omega
        subst this
        exact hc
      | none =>
        simp only [hf] at h
        obtain ⟨k, h1, h2, h3⟩ := ih _ h
        refine ⟨k + 1, h1, ?_, ?_⟩
        · intro j hj
          cases j with
          | zero => exact FindTrainOnTrack_none V tile track hf
          | succ i => exact h2 i (by omega)
        · intro j hj
          cases j with
          | zero => exact hc
          | succ i => exact h3 i (by omega)
    · simp [hc] at h

/-- C15 (amended): the train `FindTrainOnPathEnd` returns is a train of the
    first location, in the order of its scan, that holds a train it looks for
    (the wormhole end, then the other end; or the tile of the position, then
    the tiles of the same platform behind it, nearest first), and among the
    trains of that location it is the head with the lowest index. -/
theorem FindTrainOnPathEnd_first_location (V : Vehicles) (fuel : Nat) (s : State)
    (pos : RailPathPos) (t : Vehicle) (h : FindTrainOnPathEnd V fuel s pos = some (some t)) :
    ∃ k, (∃ v ∈ V.on_tile (FindTrainOnPathEnd.location s pos k),
          FindTrainOnPathEnd.qualifies pos v = true ∧ t = v.First V) ∧
      (∀ w ∈ V.on_tile (FindTrainOnPathEnd.location s pos k),
        FindTrainOnPathEnd.qualifies pos w = true → t.index ≤ (w.First V).index) ∧
      (∀ j, j < k → ∀ w ∈ V.on_tile (FindTrainOnPathEnd.location s pos j),
        FindTrainOnPathEnd.qualifies pos w = false) ∧
      (k = 0 ∨ (pos.in_wormhole = true ∧ k = 1) ∨
        (pos.in_wormhole = false ∧ IsRailStationTile s pos.tile = true ∧
          ∀ j, 1 ≤ j → j ≤ k →
            IsCompatibleTrainStationTile s (FindTrainOnPathEnd.location s pos j) pos.tile
              = true)) := by
  unfold FindTrainOnPathEnd at h
  by_cases hw : pos.in_wormhole = true
  · simp only [hw, if_true] at h
    cases hf : FindTrainInWormhole V pos.wormhole with
    | some t' =>
      simp only [hf, Option.some.injEq] at h
      subst h
      obtain ⟨h1, h2⟩ := FindTrainInWormhole_some V _ _ hf
      refine ⟨0, ?_, ?_, fun j hj => by omega, Or.inl rfl⟩
      · simpa [FindTrainOnPathEnd.location, FindTrainOnPathEnd.qualifies, hw] using h1
      · simpa [FindTrainOnPathEnd.location, FindTrainOnPathEnd.qualifies, hw] using h2
    | none =>
      simp only [hf, Option.some.injEq] at h
      obtain ⟨h1, h2⟩ := FindTrainInWormhole_some V _ _ h
      refine ⟨1, ?_, ?_, ?_, Or.inr (Or.inl ⟨hw, rfl⟩)⟩
      · simpa [FindTrainOnPathEnd.location, FindTrainOnPathEnd.qualifies, hw] using h1
      · simpa [FindTrainOnPathEnd.location, FindTrainOnPathEnd.qualifies, hw] using h2
      · intro j hj w hwm
        have : j = 0 := by omega
        subst this
        have := FindTrainInWormhole_none V _ hf w
          (by simpa [FindTrainOnPathEnd.location, hw] using hwm)
        simpa [FindTrainOnPathEnd.qualifies, hw] using this
  · have hw' : pos.in_wormhole = false := by simpa using hw
    simp only [hw', Bool.false_eq_true, if_false] at h
    cases htr : TrackdirToTrack pos.td with
    | none => simp [htr] at h
    | some track =>
      cases hex : TrackdirToExitdir (ReverseTrackdir pos.td) with
      | none => simp [htr, hex] at h
      | some exitdir =>
        simp only [htr, hex] at h
        have hloc : ∀ k, FindTrainOnPathEnd.location s pos k =
            (fun u => TILE_ADD u (TileOffsByDiagDir s exitdir))^[k] pos.tile := by
          intro k; simp [FindTrainOnPathEnd.location, hw', hex]
        have hq : ∀ w, FindTrainOnPathEnd.qualifies pos w = w.isTrainOnTrack track := by
          intro w; simp [FindTrainOnPathEnd.qualifies, hw', htr]
        cases hf : FindTrainOnTrack V pos.tile track with
        | some t' =>
          simp only [hf, Option.some.injEq] at h
          subst h
          obtain ⟨h1, h2⟩ := FindTrainOnTrack_some V _ _ _ hf
          refine ⟨0, ?_, ?_, fun j hj => by omega, Or.inl rfl⟩
          · simpa [hloc, hq] using h1
          · simpa [hloc, hq] using h2
        | none =>
          simp only [hf] at h
          by_cases hst : IsRailStationTile s pos.tile = true
          · simp only [hst, if_true] at h
            obtain ⟨k, h1, h2, h3⟩ := FindTrainOnPathEnd.platform_some V s _ _ _ t _ _ h
            refine ⟨k + 1, ?_, ?_, ?_, Or.inr (Or.inr ⟨hw', hst, ?_⟩)⟩
            · simpa [hloc, hq] using h1.1
            · simpa [hloc, hq] using h1.2
            · intro j hj w hwm
              rw [hq]
              cases j with
              | zero =>
                exact FindTrainOnTrack_none V _ _ hf w (by simpa [hloc] using hwm)
              | succ i =>
                exact h2 i (by omega) w (by simpa [hloc] using hwm)
            · intro j h1j hjk
              cases j with
              | zero => omega
              | succ i =>
                have := h3 i (by omega)
                simpa [hloc] using this
          · simp [hst] at h

/-- C15 (counterexample): with train 7 on the tile of the path end, a station
    tile, and train 3 on the platform tile behind it, both on the track of the
    position, `FindTrainOnPathEnd` returns train 7, although train 3 stands on a
    tile of the scan and has the lower index. -/
theorem FindTrainOnPathEnd_not_lowest_of_all :
    FindTrainOnPathEnd platformPool 3 platformMap (RailPathPos.onTile 10 .TRACKDIR_X_NE) =
        some (some (trainUnit 7 7 10 (.onTrack .TRACKDIR_X_NE))) ∧
      FindTrainOnPathEnd.location platformMap (RailPathPos.onTile 10 .TRACKDIR_X_NE) 1 = 11 ∧
      IsRailStationTile platformMap 10 = true ∧
      IsCompatibleTrainStationTile platformMap 11 10 = true ∧
      trainUnit 3 3 11 (.onTrack .TRACKDIR_X_NE) ∈ platformPool.on_tile 11 ∧
      FindTrainOnPathEnd.qualifies (RailPathPos.onTile 10 .TRACKDIR_X_NE)
        (trainUnit 3 3 11 (.onTrack .TRACKDIR_X_NE)) = true ∧
      ((trainUnit 3 3 11 (.onTrack .TRACKDIR_X_NE)).First platformPool).index <
        (trainUnit 7 7 10 (.onTrack .TRACKDIR_X_NE)).index := by
  refine ⟨by rfl, by rfl, by rfl, by rfl, ?_, by rfl, by decide⟩
  simp [platformPool]

/-! ## C18, C19: `FollowTrainReservation` -/

/-- C18: for a train whose position is not reserved, `FollowTrainReservation`
    gives the position of the train and `check` unchanged, whatever the track
    follower and the vehicles on the map are, and with no fuel at all: no
    reservation is followed and no train is looked for. -/
theorem FollowTrainReservation_unreserved (F : TrackFollower) (V : Vehicles) (fuel : Nat)
    (s : State) (v : Vehicle) (check : Bool) (htrain : v.type = .VEH_TRAIN)
    (hres : HasReservedPos s v.pos = false) :
    FollowTrainReservation F V fuel s v check = some (v.pos, check) := by
  simp [FollowTrainReservation, htrain, hres]

/-- What `FollowTrainReservation` returns for `check = true`, in terms of the
    flag `FollowReservation` returns. -/
theorem FollowTrainReservation_flag (F : TrackFollower) (V : Vehicles) (fuel : Nat) (s : State)
    (v : Vehicle) (e : RailPathPos) (b : Bool)
    (h : FollowTrainReservation F V fuel s v true = some (e, b)) :
    b = false ↔ HasReservedPos s v.pos = true ∧
      FollowReservation F fuel s v.owner (GetCompatibleRailTypes s v.railtype) v.pos false =
        some (e, true) ∧
      ∃ t, FindTrainOnPathEnd V fuel s e = some (some t) ∧ (t.First V).index ≠ v.index := by
  unfold FollowTrainReservation at h
  by_cases htrain : v.type = .VEH_TRAIN
  · simp only [htrain, bne_self_eq_false, Bool.false_eq_true, if_false] at h
    by_cases hres : HasReservedPos s v.pos = true
    · simp only [hres, if_true] at h
      cases hf : FollowReservation F fuel s v.owner (GetCompatibleRailTypes s v.railtype)
          v.pos false with
      | none => simp [hf] at h
      | some r =>
        obtain ⟨e', ext⟩ := r
        simp only [hf] at h
        by_cases hre : HasReservedPos s e' = true
        · simp only [hre, Bool.not_true, Bool.false_eq_true, if_false, Bool.and_true] at h
          cases ext with
          | false =>
            simp only [Bool.false_eq_true, if_false, Option.some.injEq, Prod.mk.injEq] at h
            obtain ⟨rfl, rfl⟩ := h
            simp [hres]
          | true =>
            simp only [if_true] at h
            cases hp : FindTrainOnPathEnd V fuel s e' with
            | none => simp [hp] at h
            | some r' =>
              cases r' with
              | none =>
                simp only [hp, Option.some.injEq, Prod.mk.injEq] at h
                obtain ⟨rfl, rfl⟩ := h
                simp [hres, hp]
              | some t =>
                simp only [hp] at h
                by_cases hi : (t.First V).index = v.index
                · simp only [hi, bne_self_eq_false, Bool.false_eq_true, if_false,
                    Option.some.injEq, Prod.mk.injEq] at h
                  obtain ⟨rfl, rfl⟩ := h
                  simp [hres, hp, hi]
                · simp only [bne_iff_ne, ne_eq, hi, not_false_eq_true, if_true,
                    Option.some.injEq, Prod.mk.injEq] at h
                  obtain ⟨rfl, rfl⟩ := h
                  simp [hres, hp, hi]
        · simp [hre] at h
    · simp only [hres, Bool.false_eq_true, if_false, Option.some.injEq, Prod.mk.injEq] at h
      obtain ⟨rfl, rfl⟩ := h
      simp [hres]
  · simp [htrain] at h

/-- With `check = false`, `FollowTrainReservation` returns `false`. -/
theorem FollowTrainReservation_unchecked (F : TrackFollower) (V : Vehicles) (fuel : Nat)
    (s : State) (v : Vehicle) (e : RailPathPos) (b : Bool)
    (h : FollowTrainReservation F V fuel s v false = some (e, b)) : b = false := by
  unfold FollowTrainReservation at h
  by_cases htrain : v.type = .VEH_TRAIN
  · simp only [htrain, bne_self_eq_false, Bool.false_eq_true, if_false] at h
    by_cases hres : HasReservedPos s v.pos = true
    · simp only [hres, if_true] at h
      cases hf : FollowReservation F fuel s v.owner (GetCompatibleRailTypes s v.railtype)
          v.pos false with
      | none => simp [hf] at h
      | some r =>
        obtain ⟨e', ext⟩ := r
        simp only [hf, Bool.and_false, Bool.false_eq_true, if_false] at h
        by_cases hre : HasReservedPos s e' = true
        · simp only [hre, Bool.not_true, Bool.false_eq_true, if_false, Option.some.injEq,
            Prod.mk.injEq] at h
          exact h.2.symm
        · simp [hre] at h
    · simp only [hres, Bool.false_eq_true, if_false, Option.some.injEq, Prod.mk.injEq] at h
      exact h.2.symm
  · simp [htrain] at h

/-- C19 (the code at the failing input): train 1 stands on the reserved tile 9
    in front of a platform whose first two tiles 10 and 11 are reserved, and
    train 2 stands on tile 11. `FollowTrainReservation` for train 1 with
    `check = true` writes back the position on tile 11, beyond the position of
    the train, and returns `true`, although `FindTrainOnPathEnd` finds train 2
    at that position. -/
theorem FollowTrainReservation_misses_train_in_station :
    (trainUnit 1 1 9 (.onTrack .TRACKDIR_X_SW)).pos = RailPathPos.onTile 9 .TRACKDIR_X_SW ∧
      HasReservedPos stationEndMap (RailPathPos.onTile 9 .TRACKDIR_X_SW) = true ∧
      FollowTrainReservation platformFollower stationPool 1 stationEndMap
          (trainUnit 1 1 9 (.onTrack .TRACKDIR_X_SW)) true =
        some (RailPathPos.onTile 11 .TRACKDIR_X_SW, true) ∧
      FindTrainOnPathEnd stationPool 1 stationEndMap (RailPathPos.onTile 11 .TRACKDIR_X_SW) =
        some (some (trainUnit 2 2 11 (.onTrack .TRACKDIR_X_SW))) ∧
      ((trainUnit 2 2 11 (.onTrack .TRACKDIR_X_SW)).First stationPool).index ≠
        (trainUnit 1 1 9 (.onTrack .TRACKDIR_X_SW)).index := by
  refine ⟨by rfl, by rfl, by rfl, by rfl, by decide⟩

/-! ## C16, C17: `GetTrainForReservation` -/

/-- What the train found makes `GetTrainForReservation` do to the state. -/
theorem GetTrainForReservation.found_effect (release : State → Vehicle → State) (s : State)
    (free : Bool) (t : Vehicle) (r : Option Vehicle) (s' : State) (calls : List Vehicle)
    (h : GetTrainForReservation.found release s free t = some (r, s', calls)) :
    (∀ u, free = true → r = some u → calls = [u] ∧ s' = release s u) ∧
      ((free = false ∨ r = none) → calls = [] ∧ s' = s) := by
  unfold GetTrainForReservation.found at h
  split at h
  · exact absurd h (by simp)
  · split at h
    · simp only [Option.some.injEq, Prod.mk.injEq] at h
      obtain ⟨rfl, rfl, rfl⟩ := h
      simp
    · split at h
      · next hfree =>
        simp only [Option.some.injEq, Prod.mk.injEq] at h
        obtain ⟨rfl, rfl, rfl⟩ := h
        simp [hfree]
      · next hfree =>
        simp only [Option.some.injEq, Prod.mk.injEq] at h
        obtain ⟨rfl, rfl, rfl⟩ := h
        simp [hfree]

/-- What one pass of the loop of `GetTrainForReservation` does to the
    state, when the rest of the routine does the same. -/
theorem GetTrainForReservation.pass_effect (F : TrackFollower) (V : Vehicles)
    (release : State → Vehicle → State) (fuel : Nat) (s : State) (tile : TileIndex)
    (rts : RailTypes) (free : Bool) (trackdir : Trackdir)
    (rest : Option (Option Vehicle × State × List Vehicle))
    (r : Option Vehicle) (s' : State) (calls : List Vehicle)
    (hrest : rest = some (r, s', calls) →
      (∀ u, free = true → r = some u → calls = [u] ∧ s' = release s u) ∧
        ((free = false ∨ r = none) → calls = [] ∧ s' = s))
    (h : GetTrainForReservation.pass F V release fuel s tile rts free trackdir rest =
      some (r, s', calls)) :
    (∀ u, free = true → r = some u → calls = [u] ∧ s' = release s u) ∧
      ((free = false ∨ r = none) → calls = [] ∧ s' = s) := by
  unfold GetTrainForReservation.pass at h
  split at h
  · exact hrest h
  · split at h
    · exact absurd h (by simp)
    · exact hrest h
    · exact GetTrainForReservation.found_effect release s free _ r s' calls h

/-- A pass of the loop that finds a front engine on a depot tile, with a
    trackdir other than the one into the depot direction, ends the routine. -/
theorem GetTrainForReservation.pass_mismatch (F : TrackFollower) (V : Vehicles)
    (release : State → Vehicle → State) (fuel : Nat) (s : State) (tile : TileIndex)
    (rts : RailTypes) (free : Bool) (trackdir : Trackdir)
    (rest : Option (Option Vehicle × State × List Vehicle)) (t : Vehicle)
    (hfront : t.front_engine = true) (hdepot : IsRailDepotTile s t.tile = true)
    (htd : t.trackdir ≠ .onTrack (DiagDirToDiagTrackdir (GetGroundDepotDirection s t.tile)))
    (hs : GetTrainForReservation.skips s tile trackdir = false)
    (hp : GetTrainForReservation.probe F V fuel s tile rts trackdir = some (some t)) :
    GetTrainForReservation.pass F V release fuel s tile rts free trackdir rest =
      some (none, s, []) := by
  simp [GetTrainForReservation.pass, hs, hp, GetTrainForReservation.found, hfront, hdepot, htd]

/-- C16: when `GetTrainForReservation` returns the train `t` and `free` is
    true, `FreeTrainTrackReservation` has been called once, for `t`, and the
    state is what that call left; when `free` is false or NULL is returned,
    it has not been called and the state is unchanged. -/
theorem GetTrainForReservation_release (F : TrackFollower) (V : Vehicles)
    (release : State → Vehicle → State) (fuel : Nat) (s : State) (tile : TileIndex)
    (track : Track) (free : Bool) (r : Option Vehicle) (s' : State) (calls : List Vehicle)
    (h : GetTrainForReservation F V release fuel s tile track free = some (r, s', calls)) :
    HasReservedTrack s tile track = true ∧
      (∀ t, free = true → r = some t → calls = [t] ∧ s' = release s t) ∧
      ((free = false ∨ r = none) → calls = [] ∧ s' = s) := by
  unfold GetTrainForReservation at h
  by_cases hres : HasReservedTrack s tile track = true
  · simp only [hres, Bool.not_true, Bool.false_eq_true, if_false] at h
    refine ⟨hres, GetTrainForReservation.pass_effect F V release fuel s tile _ free _ _ r s'
      calls (fun hrest => ?_) h⟩
    exact GetTrainForReservation.pass_effect F V release fuel s tile _ free _ _ r s' calls
      (fun h0 => by
        simp only [Option.some.injEq, Prod.mk.injEq] at h0
        obtain ⟨rfl, rfl, rfl⟩ := h0
        simp) hrest
  · simp [hres] at h

/-- C17: when the train found at the end of a probed direction (the first
    direction, or the second one after the first was left out or led to no
    train) stands on a rail depot tile with another trackdir than the one into
    the depot direction, `GetTrainForReservation` returns NULL, calls
    `FreeTrainTrackReservation` for no train and leaves the state as it is,
    also for `free = true`; in the first direction this holds whatever a probe
    of the second direction would give. -/
theorem GetTrainForReservation_depot_mismatch (F : TrackFollower) (V : Vehicles)
    (release : State → Vehicle → State) (fuel : Nat) (s : State) (tile : TileIndex)
    (track : Track) (free : Bool) (t : Vehicle)
    (hres : HasReservedTrack s tile track = true)
    (hfront : t.front_engine = true)
    (hdepot : IsRailDepotTile s t.tile = true)
    (htd : t.trackdir ≠ .onTrack (DiagDirToDiagTrackdir (GetGroundDepotDirection s t.tile)))
    (hprobe :
      (GetTrainForReservation.skips s tile (TrackToTrackdir track) = false ∧
        GetTrainForReservation.probe F V fuel s tile
          (GetCompatibleRailTypes s (GetRailType s tile track)) (TrackToTrackdir track) =
            some (some t)) ∨
      ((GetTrainForReservation.skips s tile (TrackToTrackdir track) = true ∨
        GetTrainForReservation.probe F V fuel s tile
          (GetCompatibleRailTypes s (GetRailType s tile track)) (TrackToTrackdir track) =
            some none) ∧
        GetTrainForReservation.skips s tile (ReverseTrackdir (TrackToTrackdir track)) = false ∧
        GetTrainForReservation.probe F V fuel s tile
          (GetCompatibleRailTypes s (GetRailType s tile track))
          (ReverseTrackdir (TrackToTrackdir track)) = some (some t))) :
    GetTrainForReservation F V release fuel s tile track free = some (none, s, []) := by
  unfold GetTrainForReservation
  simp only [hres, Bool.not_true, Bool.false_eq_true, if_false]
  rcases hprobe with ⟨hs, hp⟩ | ⟨hfirst, hs, hp⟩
  · exact GetTrainForReservation.pass_mismatch F V release fuel s tile _ free _ _ t hfront hdepot
      htd hs hp
  · have hsecond := GetTrainForReservation.pass_mismatch F V release fuel s tile
      (GetCompatibleRailTypes s (GetRailType s tile track)) free
      (ReverseTrackdir (TrackToTrackdir track)) (some (none, s, [])) t hfront hdepot htd hs hp
    rw [hsecond]
    rcases hfirst with hskip | hnone
    · simp [GetTrainForReservation.pass, hskip]
    · by_cases hskip : GetTrainForReservation.skips s tile (TrackToTrackdir track) = true
      · simp [GetTrainForReservation.pass, hskip]
      · simp [GetTrainForReservation.pass, hskip, hnone]

/-! ## C20: waiting positions on a reserved depot tile -/

/-- C20 (amended): for a position on a rail depot tile that heads into the
    depot (its trackdir is the diagonal trackdir against the depot direction)
    and whose depot reservation flag is set, `CheckWaitingPosition` returns
    `PBS_BUSY` in every checking mode, whatever the track follower finds. -/
theorem CheckWaitingPosition_depot_entry_busy (F : TrackFollower) (s : State) (v : Vehicle)
    (pos : RailPathPos) (forbid_90deg : Bool) (cb : PBSCheckingBehaviour)
    (hw : pos.in_wormhole = false) (hdepot : IsRailDepotTile s pos.tile = true)
    (htd : pos.td = DiagDirToDiagTrackdir (ReverseDiagDir (GetGroundDepotDirection s pos.tile)))
    (hres : HasDepotReservation s pos.tile = true) :
    CheckWaitingPosition F s v pos forbid_90deg cb = .ok .PBS_BUSY := by
  have hcur : CheckWaitingPosition.current s pos cb = .returned .PBS_BUSY := by
    unfold CheckWaitingPosition.current
    simp [hw, hdepot, ← htd, hres]
  simp [CheckWaitingPosition, hcur]

/-- C20 (counterexample): on a reserved rail depot tile that opens to the
    south-west, with no track in front of it, the position that heads out of
    the depot is classified `PBS_FREE` in mode `PBS_CHECK_SAFE`, not
    `PBS_BUSY`. -/
theorem CheckWaitingPosition_depot_exit_not_busy :
    IsRailDepotTile (mapWith reservedDepotTile) 5 = true ∧
      HasDepotReservation (mapWith reservedDepotTile) 5 = true ∧
      (RailPathPos.onTile 5 .TRACKDIR_X_SW).in_wormhole = false ∧
      CheckWaitingPosition axisFollower (mapWith reservedDepotTile)
        (trainUnit 1 1 5 (.onTrack .TRACKDIR_X_SW)) (RailPathPos.onTile 5 .TRACKDIR_X_SW) false
        .PBS_CHECK_SAFE = .ok .PBS_FREE := by
  refine ⟨by rfl, by rfl, by rfl, by rfl⟩

/-! ## The analysis of a waiting position, step by step -/

/-- The first part of `CheckWaitingPosition` in terms of the notions above. -/
theorem CheckWaitingPosition.current_eq (s : State) (pos : RailPathPos)
    (cb : PBSCheckingBehaviour) :
    CheckWaitingPosition.current s pos cb =
      if IsDepotEntryPosition s pos then
        .returned (if HasDepotReservation s pos.tile then .PBS_BUSY else .PBS_FREE)
      else if !pos.has_track then .invalid
      else if HasNonPbsSignalAlong s pos then
        .returned (if cb == .PBS_CHECK_SAFE then .PBS_FREE
          else if OwnTrackReserved s pos then .PBS_BUSY else .PBS_FREE)
      else if cb != .PBS_CHECK_SAFE && PositionOccupied s pos then
        (if cb != .PBS_CHECK_FULL then .returned .PBS_BUSY else .provisional .PBS_BUSY)
      else .provisional .PBS_FREE := by
  unfold CheckWaitingPosition.current IsDepotEntryPosition HasNonPbsSignalAlong OwnTrackReserved
    PositionOccupied RailPathPos.has_track
  by_cases hw : pos.in_wormhole = true
  · have hsig : pos.has_signal_along s = false := by simp [RailPathPos.has_signal_along, hw]
    simp only [hw, hsig, if_true, Bool.not_true, Bool.false_and, Bool.true_or, Bool.false_eq_true,
      if_false]
  · have hw' : pos.in_wormhole = false := by simpa using hw
    simp only [hw', Bool.false_eq_true, if_false, Bool.not_false, Bool.true_and, Bool.false_or]
    by_cases hd : (IsRailDepotTile s pos.tile &&
        pos.td == DiagDirToDiagTrackdir (ReverseDiagDir (GetGroundDepotDirection s pos.tile)))
          = true
    · simp only [hd, if_true]
    · simp only [hd, if_false]
      cases htr : TrackdirToTrack pos.td with
      | none => simp
      | some track =>
        simp only [Option.isSome_some, Bool.not_true, Bool.false_eq_true, if_false]
        by_cases hsig : (pos.has_signal_along s && !IsPbsSignal (pos.get_signal_type s)) = true
        · simp only [hsig, if_true]
          cases cb <;> simp
        · simp only [hsig, Bool.false_eq_true, if_false]

/-- The second part of `CheckWaitingPosition`, with the test of the signals
    of the next position named. -/
theorem CheckWaitingPosition.ahead_eq (s : State) (pos : RailPathPos)
    (cb : PBSCheckingBehaviour) (state : PBSPositionState) (m_new : RailPathNewPos) :
    CheckWaitingPosition.ahead s pos cb state m_new =
      if m_new.is_empty then .error .assert_not_empty
      else if !(state == .PBS_FREE || cb == .PBS_CHECK_FULL) then .error .assert_free_or_full
      else if cb != .PBS_CHECK_FREE then
        if !m_new.is_single then .ok .PBS_UNSAFE
        else if CheckWaitingPosition.lacksSafeSignal s m_new then .ok .PBS_UNSAFE
        else if cb == .PBS_CHECK_SAFE then .ok .PBS_FREE
        else if state != .PBS_FREE then .ok .PBS_BUSY
        else CheckWaitingPosition.final s state m_new
      else if !IsStationTile s pos.tile then
        if !m_new.is_single then .error .assert_single
        else if !m_new.has_signals s then .error .assert_has_signals
        else if !IsPbsSignal (m_new.get_signal_type s) then .error .assert_pbs_signal
        else CheckWaitingPosition.final s state m_new
      else CheckWaitingPosition.final s state m_new := rfl

/-- The second part of `CheckWaitingPosition` in the modes that check
    safety, when none of the first two assertions fails. -/
theorem CheckWaitingPosition.ahead_checked (s : State) (pos : RailPathPos)
    (cb : PBSCheckingBehaviour) (state : PBSPositionState) (m_new : RailPathNewPos)
    (hcb : cb ≠ .PBS_CHECK_FREE) (hne : m_new.is_empty = false)
    (hok : state = .PBS_FREE ∨ cb = .PBS_CHECK_FULL) :
    CheckWaitingPosition.ahead s pos cb state m_new =
      if !m_new.is_single || CheckWaitingPosition.lacksSafeSignal s m_new then .ok .PBS_UNSAFE
      else if cb == .PBS_CHECK_SAFE then .ok .PBS_FREE
      else if state != .PBS_FREE then .ok .PBS_BUSY
      else .ok (if HasReservedPos s m_new.toRailPathPos then .PBS_BUSY else .PBS_FREE) := by
  rw [CheckWaitingPosition.ahead_eq, hne]
  unfold CheckWaitingPosition.final
  generalize CheckWaitingPosition.lacksSafeSignal s m_new = b
  generalize m_new.is_single = c
  generalize HasReservedPos s m_new.toRailPathPos = r
  rcases hok with h | h
  · subst h
    cases cb <;> cases b <;> cases c <;> simp at hcb ⊢
  · subst h
    cases state <;> cases b <;> cases c <;> simp

/-- The second part of `CheckWaitingPosition` in mode `PBS_CHECK_FREE` never
    gives `PBS_UNSAFE`. -/
theorem CheckWaitingPosition.ahead_free_mode (s : State) (pos : RailPathPos)
    (state : PBSPositionState) (m_new : RailPathNewPos) :
    CheckWaitingPosition.ahead s pos .PBS_CHECK_FREE state m_new ≠ .ok .PBS_UNSAFE := by
  rw [CheckWaitingPosition.ahead_eq]
  unfold CheckWaitingPosition.final
  generalize m_new.is_empty = a
  generalize m_new.is_single = c
  generalize m_new.has_signals s = d
  generalize IsPbsSignal (m_new.get_signal_type s) = e
  generalize HasReservedPos s m_new.toRailPathPos = r
  generalize IsStationTile s pos.tile = g
  cases state <;> cases a <;> cases c <;> cases d <;> cases e <;> cases r <;> cases g <;> simp

/-! ## C21, C22: positions in front of a signal -/

/-- What `CheckWaitingPosition` does once the position itself is neither a
    depot entry position nor a position with a signal along that is not a PBS
    signal. -/
theorem CheckWaitingPosition.eq_general (F : TrackFollower) (s : State) (v : Vehicle)
    (pos : RailPathPos) (forbid_90deg : Bool) (cb : PBSCheckingBehaviour)
    (hvalid : pos.has_track = true) (hd : IsDepotEntryPosition s pos = false)
    (hs : HasNonPbsSignalAlong s pos = false) :
    CheckWaitingPosition F s v pos forbid_90deg cb =
      if cb != .PBS_CHECK_SAFE && PositionOccupied s pos then
        if cb != .PBS_CHECK_FULL then .ok .PBS_BUSY
        else
          match F.Follow s (F.constructFor v (!forbid_90deg) v.railtype) pos with
          | none => .ok .PBS_BUSY
          | some ft => CheckWaitingPosition.ahead s pos cb .PBS_BUSY ft.m_new
      else
        match F.Follow s (F.constructFor v (!forbid_90deg) v.railtype) pos with
        | none => .ok .PBS_FREE
        | some ft => CheckWaitingPosition.ahead s pos cb .PBS_FREE ft.m_new := by
  unfold CheckWaitingPosition
  rw [CheckWaitingPosition.current_eq]
  simp only [hvalid, hd, hs, Bool.false_eq_true, if_false, Bool.not_true]
  by_cases h1 : (cb != .PBS_CHECK_SAFE && PositionOccupied s pos) = true
  · simp only [h1, if_true]
    by_cases h2 : (cb != .PBS_CHECK_FULL) = true
    · simp only [h2, if_true]
    · simp only [h2, Bool.false_eq_true, if_false]
  · simp only [h1, Bool.false_eq_true, if_false]

/-- Mode `PBS_CHECK_FREE` never returns `PBS_UNSAFE`. -/
theorem CheckWaitingPosition.free_mode_never_rejects (F : TrackFollower) (s : State)
    (v : Vehicle) (pos : RailPathPos) (forbid_90deg : Bool) :
    CheckWaitingPosition F s v pos forbid_90deg .PBS_CHECK_FREE ≠ .ok .PBS_UNSAFE := by
  unfold CheckWaitingPosition
  rw [CheckWaitingPosition.current_eq]
  have hahead := CheckWaitingPosition.ahead_free_mode s pos
  revert hahead
  generalize IsDepotEntryPosition s pos = a
  generalize HasDepotReservation s pos.tile = b
  generalize pos.has_track = c
  generalize HasNonPbsSignalAlong s pos = d
  generalize OwnTrackReserved s pos = e
  generalize PositionOccupied s pos = f
  dsimp only
  generalize F.Follow s (F.constructFor v (!forbid_90deg) v.railtype) pos = next
  intro hahead
  cases next with
  | none => cases a <;> cases b <;> cases c <;> cases d <;> cases e <;> cases f <;> simp
  | some ft =>
    cases a <;> cases b <;> cases c <;> cases d <;> cases e <;> cases f <;>
      simp [hahead]

/-- A signal along the direction of travel that is no PBS signal makes the
    next position lack a safe signal. -/
theorem CheckWaitingPosition.lacksSafeSignal_iff (s : State) (m_new : RailPathNewPos) :
    CheckWaitingPosition.lacksSafeSignal s m_new = true ↔
      (m_new.has_signal_along s = false ∧ m_new.has_signal_against s = false) ∨
      (m_new.has_signal_along s = true ∧ IsPbsSignal (m_new.get_signal_type s) = false) ∨
      (m_new.has_signal_along s = false ∧ m_new.has_signal_against s = true ∧
        m_new.get_signal_type s ≠ .SIGTYPE_PBS_ONEWAY) := by
  unfold CheckWaitingPosition.lacksSafeSignal
  generalize m_new.has_signal_along s = a
  generalize m_new.has_signal_against s = b
  generalize m_new.get_signal_type s = t
  cases a <;> cases b <;> cases t <;> simp [IsPbsSignal]

/-- The signals that make the next position a place to stop before. -/
theorem CheckWaitingPosition.not_lacksSafeSignal_iff (s : State) (m_new : RailPathNewPos) :
    CheckWaitingPosition.lacksSafeSignal s m_new = false ↔
      (m_new.has_signal_along s = true ∧ IsPbsSignal (m_new.get_signal_type s) = true) ∨
      (m_new.has_signal_along s = false ∧ m_new.has_signal_against s = true ∧
        m_new.get_signal_type s = .SIGTYPE_PBS_ONEWAY) := by
  unfold CheckWaitingPosition.lacksSafeSignal
  generalize m_new.has_signal_along s = a
  generalize m_new.has_signal_against s = b
  generalize m_new.get_signal_type s = t
  cases a <;> cases b <;> cases t <;> simp [IsPbsSignal]

/-- C21 (amended): for a position that is neither a depot entry position nor
    a position with a signal along that is not a PBS signal, and whose next
    position carries a signal along the direction of travel that is not a PBS
    signal (as a two-way block signal does), `CheckWaitingPosition` returns
    `PBS_UNSAFE` in the modes `PBS_CHECK_FULL` and `PBS_CHECK_SAFE`, and in mode
    `PBS_CHECK_SAFE_FREE` unless the position itself is taken, when it returns
    `PBS_BUSY`; in mode `PBS_CHECK_FREE` it does not return `PBS_UNSAFE`. -/
theorem CheckWaitingPosition_before_block_signal (F : TrackFollower) (s : State) (v : Vehicle)
    (pos : RailPathPos) (forbid_90deg : Bool) (ft : CFollowTrackRail)
    (hvalid : pos.has_track = true) (hd : IsDepotEntryPosition s pos = false)
    (hs : HasNonPbsSignalAlong s pos = false)
    (hfollow : F.Follow s (F.constructFor v (!forbid_90deg) v.railtype) pos = some ft)
    (hne : ft.m_new.is_empty = false) (halong : ft.m_new.has_signal_along s = true)
    (hnonpbs : IsPbsSignal (ft.m_new.get_signal_type s) = false) :
    CheckWaitingPosition F s v pos forbid_90deg .PBS_CHECK_FULL = .ok .PBS_UNSAFE ∧
      CheckWaitingPosition F s v pos forbid_90deg .PBS_CHECK_SAFE = .ok .PBS_UNSAFE ∧
      (PositionOccupied s pos = false →
        CheckWaitingPosition F s v pos forbid_90deg .PBS_CHECK_SAFE_FREE = .ok .PBS_UNSAFE) ∧
      (PositionOccupied s pos = true →
        CheckWaitingPosition F s v pos forbid_90deg .PBS_CHECK_SAFE_FREE = .ok .PBS_BUSY) ∧
      CheckWaitingPosition F s v pos forbid_90deg .PBS_CHECK_FREE ≠ .ok .PBS_UNSAFE := by
  have hlack : CheckWaitingPosition.lacksSafeSignal s ft.m_new = true :=
    (CheckWaitingPosition.lacksSafeSignal_iff s ft.m_new).mpr (Or.inr (Or.inl ⟨halong, hnonpbs⟩))
  refine ⟨?_, ?_, ?_, ?_, CheckWaitingPosition.free_mode_never_rejects F s v pos forbid_90deg⟩
  · rw [CheckWaitingPosition.eq_general F s v pos forbid_90deg _ hvalid hd hs, hfollow]
    by_cases hocc : PositionOccupied s pos = true
    · simp [hocc, CheckWaitingPosition.ahead_checked s pos .PBS_CHECK_FULL .PBS_BUSY ft.m_new
        (by decide) hne (Or.inr rfl), hlack]
    · simp [hocc, CheckWaitingPosition.ahead_checked s pos .PBS_CHECK_FULL .PBS_FREE ft.m_new
        (by decide) hne (Or.inl rfl), hlack]
  · rw [CheckWaitingPosition.eq_general F s v pos forbid_90deg _ hvalid hd hs, hfollow]
    simp [CheckWaitingPosition.ahead_checked s pos .PBS_CHECK_SAFE .PBS_FREE ft.m_new
      (by decide) hne (Or.inl rfl), hlack]
  · intro hocc
    rw [CheckWaitingPosition.eq_general F s v pos forbid_90deg _ hvalid hd hs, hfollow]
    simp [hocc, CheckWaitingPosition.ahead_checked s pos .PBS_CHECK_SAFE_FREE .PBS_FREE ft.m_new
      (by decide) hne (Or.inl rfl), hlack]
  · intro hocc
    rw [CheckWaitingPosition.eq_general F s v pos forbid_90deg _ hvalid hd hs]
    simp [hocc]

/-- C21 (counterexample): on a line with a two-way block signal on tile 3, the
    position on tile 2 has the single next position on tile 3, with the signal
    along and against and not a PBS signal. With tile 2 reserved,
    `CheckWaitingPosition` returns `PBS_BUSY` in the modes
    `PBS_CHECK_SAFE_FREE` and `PBS_CHECK_FREE`; with tile 2 free, mode
    `PBS_CHECK_FREE` fails its assertion of a PBS signal. -/
theorem CheckWaitingPosition_block_signal_not_rejected :
    axisFollower.Follow (signalLineMap true false true true .SIGTYPE_NORMAL)
        (axisFollower.constructFor waitingTrain (!false) waitingTrain.railtype)
        (RailPathPos.onTile 2 .TRACKDIR_X_SW) = some stepFromTwo ∧
      stepFromTwo.m_new.toRailPathPos = RailPathPos.onTile 3 .TRACKDIR_X_SW ∧
      stepFromTwo.m_new.is_single = true ∧
      stepFromTwo.m_new.has_signal_along (signalLineMap true false true true .SIGTYPE_NORMAL)
        = true ∧
      stepFromTwo.m_new.has_signal_against (signalLineMap true false true true .SIGTYPE_NORMAL)
        = true ∧
      IsPbsSignal (stepFromTwo.m_new.get_signal_type
        (signalLineMap true false true true .SIGTYPE_NORMAL)) = false ∧
      CheckWaitingPosition axisFollower (signalLineMap true false true true .SIGTYPE_NORMAL)
        waitingTrain (RailPathPos.onTile 2 .TRACKDIR_X_SW) false .PBS_CHECK_SAFE_FREE =
          .ok .PBS_BUSY ∧
      CheckWaitingPosition axisFollower (signalLineMap true false true true .SIGTYPE_NORMAL)
        waitingTrain (RailPathPos.onTile 2 .TRACKDIR_X_SW) false .PBS_CHECK_FREE =
          .ok .PBS_BUSY ∧
      CheckWaitingPosition axisFollower (signalLineMap false false true true .SIGTYPE_NORMAL)
        waitingTrain (RailPathPos.onTile 2 .TRACKDIR_X_SW) false .PBS_CHECK_FREE =
          .error .assert_pbs_signal := by
  refine ⟨by rfl, by rfl, by rfl, by rfl, by rfl, by rfl, by rfl, by rfl, by rfl⟩

/-- On a reserved rail depot tile every track is taken. -/
theorem depot_entry_reserved_occupied (s : State) (pos : RailPathPos)
    (hd : IsDepotEntryPosition s pos = true) (hres : HasDepotReservation s pos.tile = true) :
    PositionOccupied s pos = true := by
  unfold IsDepotEntryPosition at hd
  simp only [Bool.and_eq_true, Bool.not_eq_true', beq_iff_eq] at hd
  obtain ⟨hw, hdepot, htd⟩ := hd
  have hbits : GetReservedTrackbits s pos.tile =
      AxisToTrackBits (DiagDirToAxis (GetGroundDepotDirection s pos.tile)) := by
    unfold IsRailDepotTile IsDepotTile at hdepot
    simp only [Bool.and_eq_true, beq_iff_eq] at hdepot
    obtain ⟨⟨h1, h2⟩, h3⟩ := hdepot
    simp [GetReservedTrackbits, h1, h2, h3, GetDepotReservationTrackBits, hres,
      DiagDirToDiagTrackBits]
  unfold PositionOccupied
  simp only [hw, Bool.false_eq_true, if_false, hbits]
  cases htr : TrackdirToTrack pos.td with
  | none =>
    rw [htd] at htr
    revert htr
    generalize GetGroundDepotDirection s pos.tile = d
    cases d <;> simp [ReverseDiagDir, DiagDirToDiagTrackdir, TrackdirToTrack]
  | some track => exact diag_overlaps_all _ track

/-- A position whose own track is reserved is taken. -/
theorem own_reserved_occupied (s : State) (pos : RailPathPos) (hw : pos.in_wormhole = false)
    (hres : OwnTrackReserved s pos = true) : PositionOccupied s pos = true := by
  unfold OwnTrackReserved at hres
  unfold PositionOccupied
  simp only [hw, Bool.false_eq_true, if_false]
  cases htr : TrackdirToTrack pos.td with
  | none => simp [htr] at hres
  | some track =>
    simp only [htr] at hres
    unfold HasReservedTrack at hres
    simp [TrackOverlapsTracks, hres]

/-- C22 (amended): for a position that is itself free (its track overlaps no
    reserved track of its tile, or its wormhole is not reserved) and whose
    single next position carries a PBS signal along the direction of travel
    and is unreserved, `CheckWaitingPosition` returns `PBS_FREE` in the modes
    `PBS_CHECK_FULL` and `PBS_CHECK_SAFE_FREE`. -/
theorem CheckWaitingPosition_before_pbs_signal (F : TrackFollower) (s : State) (v : Vehicle)
    (pos : RailPathPos) (forbid_90deg : Bool) (ft : CFollowTrackRail)
    (hvalid : pos.has_track = true) (hfree : PositionOccupied s pos = false)
    (hfollow : F.Follow s (F.constructFor v (!forbid_90deg) v.railtype) pos = some ft)
    (hne : ft.m_new.is_empty = false) (hsingle : ft.m_new.is_single = true)
    (halong : ft.m_new.has_signal_along s = true)
    (hpbs : IsPbsSignal (ft.m_new.get_signal_type s) = true)
    (hunres : HasReservedPos s ft.m_new.toRailPathPos = false) :
    CheckWaitingPosition F s v pos forbid_90deg .PBS_CHECK_FULL = .ok .PBS_FREE ∧
      CheckWaitingPosition F s v pos forbid_90deg .PBS_CHECK_SAFE_FREE = .ok .PBS_FREE := by
  have hlack : CheckWaitingPosition.lacksSafeSignal s ft.m_new = false :=
    (CheckWaitingPosition.not_lacksSafeSignal_iff s ft.m_new).mpr (Or.inl ⟨halong, hpbs⟩)
  have key : ∀ cb, cb ≠ .PBS_CHECK_FREE → cb ≠ .PBS_CHECK_SAFE →
      CheckWaitingPosition F s v pos forbid_90deg cb = .ok .PBS_FREE := by
    intro cb hcb1 hcb2
    by_cases hd : IsDepotEntryPosition s pos = true
    · have hdr : HasDepotReservation s pos.tile = false := by
        by_contra hcon
        have := depot_entry_reserved_occupied s pos hd (by simpa using hcon)
        rw [hfree] at this
        exact absurd this (by decide)
      unfold CheckWaitingPosition
      rw [CheckWaitingPosition.current_eq]
      simp [hd, hdr]
    · by_cases hs : HasNonPbsSignalAlong s pos = true
      · have hw : pos.in_wormhole = false := by
          unfold HasNonPbsSignalAlong RailPathPos.has_signal_along at hs
          cases hww : pos.in_wormhole with
          | false => rfl
          | true => simp [hww] at hs
        have hown : OwnTrackReserved s pos = false := by
          by_contra hcon
          have := own_reserved_occupied s pos hw (by simpa using hcon)
          rw [hfree] at this
          exact absurd this (by decide)
        unfold CheckWaitingPosition
        rw [CheckWaitingPosition.current_eq]
        simp [hd, hs, hvalid, hown]
      · rw [CheckWaitingPosition.eq_general F s v pos forbid_90deg cb hvalid (by simpa using hd)
          (by simpa using hs), hfollow]
        have hsafe : (cb == .PBS_CHECK_SAFE) = false := by simpa using hcb2
        simp [hfree, CheckWaitingPosition.ahead_checked s pos cb .PBS_FREE ft.m_new hcb1 hne
          (Or.inl rfl), hlack, hsingle, hunres, hsafe]
  exact ⟨key _ (by decide) (by decide), key _ (by decide) (by decide)⟩

/-- C22 (counterexample): on a line with a PBS signal along the direction of
    travel on tile 3, tile 3 not reserved, the position on the reserved tile 2
    has the single unreserved next position on tile 3 with that signal, and
    `CheckWaitingPosition` returns `PBS_BUSY` in the modes `PBS_CHECK_FULL` and
    `PBS_CHECK_SAFE_FREE`. -/
theorem CheckWaitingPosition_reserved_before_pbs_signal :
    axisFollower.Follow (signalLineMap true false true false .SIGTYPE_PBS)
        (axisFollower.constructFor waitingTrain (!false) waitingTrain.railtype)
        (RailPathPos.onTile 2 .TRACKDIR_X_SW) = some stepFromTwo ∧
      stepFromTwo.m_new.toRailPathPos = RailPathPos.onTile 3 .TRACKDIR_X_SW ∧
      stepFromTwo.m_new.is_single = true ∧
      stepFromTwo.m_new.has_signal_along (signalLineMap true false true false .SIGTYPE_PBS)
        = true ∧
      IsPbsSignal (stepFromTwo.m_new.get_signal_type
        (signalLineMap true false true false .SIGTYPE_PBS)) = true ∧
      HasReservedPos (signalLineMap true false true false .SIGTYPE_PBS)
        stepFromTwo.m_new.toRailPathPos = false ∧
      CheckWaitingPosition axisFollower (signalLineMap true false true false .SIGTYPE_PBS)
        waitingTrain (RailPathPos.onTile 2 .TRACKDIR_X_SW) false .PBS_CHECK_FULL =
          .ok .PBS_BUSY ∧
      CheckWaitingPosition axisFollower (signalLineMap true false true false .SIGTYPE_PBS)
        waitingTrain (RailPathPos.onTile 2 .TRACKDIR_X_SW) false .PBS_CHECK_SAFE_FREE =
          .ok .PBS_BUSY := by
  refine ⟨by rfl, by rfl, by rfl, by rfl, by rfl, by rfl, by rfl, by rfl⟩

/-! ## C23, C24, C25: the checking modes compared -/

/-- C23: on the same state, `CheckWaitingPosition` returns `PBS_UNSAFE` in mode
    `PBS_CHECK_SAFE` if and only if it returns `PBS_UNSAFE` in mode
    `PBS_CHECK_FULL`, for every track follower, train, position and 90-degree
    setting. -/
theorem CheckWaitingPosition_safe_full_consistent (F : TrackFollower) (s : State) (v : Vehicle)
    (pos : RailPathPos) (forbid_90deg : Bool) :
    CheckWaitingPosition F s v pos forbid_90deg .PBS_CHECK_SAFE = .ok .PBS_UNSAFE ↔
      CheckWaitingPosition F s v pos forbid_90deg .PBS_CHECK_FULL = .ok .PBS_UNSAFE := by
  unfold CheckWaitingPosition
  rw [CheckWaitingPosition.current_eq, CheckWaitingPosition.current_eq]
  generalize IsDepotEntryPosition s pos = a
  generalize HasDepotReservation s pos.tile = b
  generalize pos.has_track = c
  generalize HasNonPbsSignalAlong s pos = d
  generalize OwnTrackReserved s pos = e
  generalize PositionOccupied s pos = f
  dsimp only
  generalize F.Follow s (F.constructFor v (!forbid_90deg) v.railtype) pos = next
  cases next with
  | none => cases a <;> cases b <;> cases c <;> cases d <;> cases e <;> cases f <;> simp
  | some ft =>
    simp only [CheckWaitingPosition.ahead_eq, CheckWaitingPosition.final]
    generalize ft.m_new.is_empty = g
    generalize ft.m_new.is_single = h
    generalize CheckWaitingPosition.lacksSafeSignal s ft.m_new = i
    generalize HasReservedPos s ft.m_new.toRailPathPos = j
    cases a <;> cases c <;> cases d <;> cases f <;> cases g <;> cases h <;> cases i <;>
      cases j <;> cases b <;> cases e <;> simp

/-- C24: on the same state, `CheckWaitingPosition` returns `PBS_FREE` in mode
    `PBS_CHECK_SAFE_FREE` if and only if it returns `PBS_FREE` in mode
    `PBS_CHECK_FULL`, that is if and only if the position is both safe and
    free. -/
theorem CheckWaitingPosition_safe_free_full_consistent (F : TrackFollower) (s : State)
    (v : Vehicle) (pos : RailPathPos) (forbid_90deg : Bool) :
    CheckWaitingPosition F s v pos forbid_90deg .PBS_CHECK_SAFE_FREE = .ok .PBS_FREE ↔
      CheckWaitingPosition F s v pos forbid_90deg .PBS_CHECK_FULL = .ok .PBS_FREE := by
  unfold CheckWaitingPosition
  rw [CheckWaitingPosition.current_eq, CheckWaitingPosition.current_eq]
  generalize IsDepotEntryPosition s pos = a
  generalize HasDepotReservation s pos.tile = b
  generalize pos.has_track = c
  generalize HasNonPbsSignalAlong s pos = d
  generalize OwnTrackReserved s pos = e
  generalize PositionOccupied s pos = f
  dsimp only
  generalize F.Follow s (F.constructFor v (!forbid_90deg) v.railtype) pos = next
  cases next with
  | none => cases a <;> cases b <;> cases c <;> cases d <;> cases e <;> cases f <;> simp
  | some ft =>
    simp only [CheckWaitingPosition.ahead_eq, CheckWaitingPosition.final]
    generalize ft.m_new.is_empty = g
    generalize ft.m_new.is_single = h
    generalize CheckWaitingPosition.lacksSafeSignal s ft.m_new = i
    generalize HasReservedPos s ft.m_new.toRailPathPos = j
    cases a <;> cases c <;> cases d <;> cases f <;> cases g <;> cases h <;> cases i <;>
      cases j <;> cases b <;> cases e <;> simp

/-- A next position that does not lack a safe signal has a signal, and that
    signal is a PBS signal. -/
theorem CheckWaitingPosition.safe_signal_is_pbs (s : State) (m_new : RailPathNewPos)
    (h : CheckWaitingPosition.lacksSafeSignal s m_new = false) :
    m_new.has_signals s = true ∧ IsPbsSignal (m_new.get_signal_type s) = true := by
  unfold CheckWaitingPosition.lacksSafeSignal at h
  unfold RailPathPos.has_signals
  revert h
  generalize m_new.has_signal_along s = a
  generalize m_new.has_signal_against s = b
  generalize m_new.get_signal_type s = t
  cases a <;> cases b <;> cases t <;> simp [IsPbsSignal]

/-- After a free position: what mode `PBS_CHECK_FULL` returns other than
    `PBS_UNSAFE`, mode `PBS_CHECK_FREE` returns too, with no assertion
    failing. -/
theorem CheckWaitingPosition.ahead_full_to_free (s : State) (pos : RailPathPos)
    (m_new : RailPathNewPos) (r : PBSPositionState)
    (h : CheckWaitingPosition.ahead s pos .PBS_CHECK_FULL .PBS_FREE m_new = .ok r)
    (hr : r ≠ .PBS_UNSAFE) :
    CheckWaitingPosition.ahead s pos .PBS_CHECK_FREE .PBS_FREE m_new = .ok r := by
  rw [CheckWaitingPosition.ahead_eq] at h ⊢
  have hl := CheckWaitingPosition.safe_signal_is_pbs s m_new
  revert h hl
  unfold CheckWaitingPosition.final
  generalize m_new.is_empty = g
  generalize m_new.is_single = c
  generalize CheckWaitingPosition.lacksSafeSignal s m_new = i
  generalize m_new.has_signals s = l
  generalize IsPbsSignal (m_new.get_signal_type s) = p
  generalize HasReservedPos s m_new.toRailPathPos = j
  generalize IsStationTile s pos.tile = k
  cases g <;> cases c <;> cases i <;> simp <;> intros <;> simp_all

/-- After a taken position, mode `PBS_CHECK_FULL` returns `PBS_UNSAFE` or
    `PBS_BUSY`. -/
theorem CheckWaitingPosition.ahead_full_busy (s : State) (pos : RailPathPos)
    (m_new : RailPathNewPos) (r : PBSPositionState)
    (h : CheckWaitingPosition.ahead s pos .PBS_CHECK_FULL .PBS_BUSY m_new = .ok r)
    (hr : r ≠ .PBS_UNSAFE) : r = .PBS_BUSY := by
  rw [CheckWaitingPosition.ahead_eq] at h
  revert h
  unfold CheckWaitingPosition.final
  generalize m_new.is_empty = g
  generalize m_new.is_single = c
  generalize CheckWaitingPosition.lacksSafeSignal s m_new = i
  cases g <;> cases c <;> cases i <;> simp <;> intros <;> simp_all

/-- C25: whenever mode `PBS_CHECK_FULL` returns a classification other than
    `PBS_UNSAFE` (the position is safe), mode `PBS_CHECK_FREE` returns on the
    same state, none of the assertions failing, and returns the same
    classification; so it returns `PBS_FREE` if and only if `PBS_CHECK_FULL`
    does. -/
theorem CheckWaitingPosition_free_full_consistent (F : TrackFollower) (s : State) (v : Vehicle)
    (pos : RailPathPos) (forbid_90deg : Bool) (r : PBSPositionState)
    (h : CheckWaitingPosition F s v pos forbid_90deg .PBS_CHECK_FULL = .ok r)
    (hr : r ≠ .PBS_UNSAFE) :
    CheckWaitingPosition F s v pos forbid_90deg .PBS_CHECK_FREE = .ok r ∧
      (CheckWaitingPosition F s v pos forbid_90deg .PBS_CHECK_FREE = .ok .PBS_FREE ↔
        CheckWaitingPosition F s v pos forbid_90deg .PBS_CHECK_FULL = .ok .PBS_FREE) := by
  have key : CheckWaitingPosition F s v pos forbid_90deg .PBS_CHECK_FREE = .ok r := by
    unfold CheckWaitingPosition at h ⊢
    rw [CheckWaitingPosition.current_eq] at h ⊢
    by_cases ha : IsDepotEntryPosition s pos = true
    · simpa [ha] using h
    by_cases hc : pos.has_track = true
    swap
    · simp [ha, hc] at h
    by_cases hd : HasNonPbsSignalAlong s pos = true
    · simpa [ha, hc, hd] using h
    by_cases hf : PositionOccupied s pos = true
    · simp only [ha, hc, hd, hf, Bool.false_eq_true, if_false, Bool.not_true, bne_self_eq_false,
        Bool.and_true] at h
      simp only [ha, hc, hd, hf, Bool.false_eq_true, if_false, Bool.not_true, Bool.and_true]
      have hb : r = .PBS_BUSY := by
        revert h
        generalize F.Follow s (F.constructFor v (!forbid_90deg) v.railtype) pos = next
        cases next with
        | none => intro h; simpa using h.symm
        | some ft => intro h; exact CheckWaitingPosition.ahead_full_busy s pos _ r h hr
      simp [hb]
    · simp only [ha, hc, hd, hf, Bool.false_eq_true, if_false, Bool.not_true, Bool.and_false] at h
      simp only [ha, hc, hd, hf, Bool.false_eq_true, if_false, Bool.not_true, Bool.and_false]
      revert h
      generalize F.Follow s (F.constructFor v (!forbid_90deg) v.railtype) pos = next
      cases next with
      | none => intro h; exact h
      | some ft => intro h; exact CheckWaitingPosition.ahead_full_to_free s pos _ r h hr
  refine ⟨key, ?_⟩
  rw [key, h]

/-! ## C26: mode `PBS_CHECK_SAFE` and the reservation state -/

theorem SameButReservation.depot_entry (s s' : State) (h : SameButReservation s s')
    (pos : RailPathPos) : IsDepotEntryPosition s' pos = IsDepotEntryPosition s pos := by
  have hu := h.1 pos.tile
  have h1 : (s'.tiles pos.tile).type = (s.tiles pos.tile).type :=
    show (s'.tiles pos.tile).withoutReservation.type = (s.tiles pos.tile).withoutReservation.type
      from congrArg Tile.type hu
  have h2 : (s'.tiles pos.tile).subtype = (s.tiles pos.tile).subtype :=
    show (s'.tiles pos.tile).withoutReservation.subtype =
      (s.tiles pos.tile).withoutReservation.subtype from congrArg Tile.subtype hu
  have h3 : (s'.tiles pos.tile).depot_is_rail = (s.tiles pos.tile).depot_is_rail :=
    show (s'.tiles pos.tile).withoutReservation.depot_is_rail =
      (s.tiles pos.tile).withoutReservation.depot_is_rail from congrArg Tile.depot_is_rail hu
  have h4 : (s'.tiles pos.tile).depot_dir = (s.tiles pos.tile).depot_dir :=
    show (s'.tiles pos.tile).withoutReservation.depot_dir =
      (s.tiles pos.tile).withoutReservation.depot_dir from congrArg Tile.depot_dir hu
  simp only [IsDepotEntryPosition, IsRailDepotTile, IsDepotTile, IsRailDepot, GetTileType,
    GetTileSubtype, GetGroundDepotDirection, h1, h2, h3, h4]

theorem SameButReservation.signal_along (s s' : State) (h : SameButReservation s s')
    (pos : RailPathPos) : HasNonPbsSignalAlong s' pos = HasNonPbsSignalAlong s pos := by
  obtain ⟨_, _, _, _, _, h5, h6, _⟩ := h
  simp only [HasNonPbsSignalAlong, RailPathPos.has_signal_along, RailPathPos.get_signal_type,
    HasSignalOnTrackdir, GetSignalType, h5, h6]

theorem SameButReservation.lacksSafeSignal (s s' : State) (h : SameButReservation s s')
    (m_new : RailPathNewPos) :
    CheckWaitingPosition.lacksSafeSignal s' m_new = CheckWaitingPosition.lacksSafeSignal s m_new := by
  obtain ⟨_, _, _, _, _, h5, h6, _⟩ := h
  simp only [CheckWaitingPosition.lacksSafeSignal, RailPathPos.has_signal_along,
    RailPathPos.has_signal_against, RailPathPos.get_signal_type, HasSignalOnTrackdir,
    GetSignalType, h5, h6]

/-- What mode `PBS_CHECK_SAFE` returns for a position that is no depot entry
    position: nothing in it reads a reservation. -/
theorem CheckWaitingPosition.safe_mode_eq (F : TrackFollower) (s : State) (v : Vehicle)
    (pos : RailPathPos) (forbid_90deg : Bool) (hd : IsDepotEntryPosition s pos = false) :
    CheckWaitingPosition F s v pos forbid_90deg .PBS_CHECK_SAFE =
      if !pos.has_track then .error .invalid_trackdir
      else if HasNonPbsSignalAlong s pos then .ok .PBS_FREE
      else
        match F.Follow s (F.constructFor v (!forbid_90deg) v.railtype) pos with
        | none => .ok .PBS_FREE
        | some ft =>
          if ft.m_new.is_empty then .error .assert_not_empty
          else if !ft.m_new.is_single || CheckWaitingPosition.lacksSafeSignal s ft.m_new then
            .ok .PBS_UNSAFE
          else .ok .PBS_FREE := by
  unfold CheckWaitingPosition
  rw [CheckWaitingPosition.current_eq]
  simp only [hd, Bool.false_eq_true, if_false]
  generalize pos.has_track = c
  generalize HasNonPbsSignalAlong s pos = d
  generalize OwnTrackReserved s pos = e
  generalize PositionOccupied s pos = f
  generalize F.Follow s (F.constructFor v (!forbid_90deg) v.railtype) pos = next
  cases next with
  | none => cases c <;> cases d <;> cases e <;> cases f <;> simp
  | some ft =>
    simp only [CheckWaitingPosition.ahead_eq, CheckWaitingPosition.final]
    generalize ft.m_new.is_empty = g
    generalize ft.m_new.is_single = h
    generalize CheckWaitingPosition.lacksSafeSignal s ft.m_new = i
    cases c <;> cases d <;> cases g <;> cases h <;> cases i <;> simp

/-- C26: in mode `PBS_CHECK_SAFE`, for a position that is no depot entry
    position and two states that differ at most in reservation bits (the track
    follower finding the same on both), `CheckWaitingPosition` gives the same
    result on both states, and the result is not `PBS_BUSY`. -/
theorem CheckWaitingPosition_safe_ignores_reservation (F : TrackFollower) (s s' : State)
    (v : Vehicle) (pos : RailPathPos) (forbid_90deg : Bool) (hsame : SameButReservation s s')
    (hd : IsDepotEntryPosition s pos = false)
    (hF : F.Follow s' (F.constructFor v (!forbid_90deg) v.railtype) pos =
      F.Follow s (F.constructFor v (!forbid_90deg) v.railtype) pos) :
    CheckWaitingPosition F s' v pos forbid_90deg .PBS_CHECK_SAFE =
        CheckWaitingPosition F s v pos forbid_90deg .PBS_CHECK_SAFE ∧
      CheckWaitingPosition F s v pos forbid_90deg .PBS_CHECK_SAFE ≠ .ok .PBS_BUSY := by
  have hd' : IsDepotEntryPosition s' pos = false := by
    rw [SameButReservation.depot_entry s s' hsame]; exact hd
  constructor
  · rw [CheckWaitingPosition.safe_mode_eq F s' v pos forbid_90deg hd',
      CheckWaitingPosition.safe_mode_eq F s v pos forbid_90deg hd, hF,
      SameButReservation.signal_along s s' hsame]
    simp only [SameButReservation.lacksSafeSignal s s' hsame]
  · rw [CheckWaitingPosition.safe_mode_eq F s v pos forbid_90deg hd]
    generalize pos.has_track = c
    generalize HasNonPbsSignalAlong s pos = d
    generalize F.Follow s (F.constructFor v (!forbid_90deg) v.railtype) pos = next
    cases next with
    | none => cases c <;> cases d <;> simp
    | some ft =>
      dsimp only
      generalize ft.m_new.is_empty = g
      generalize ft.m_new.is_single = h
      generalize CheckWaitingPosition.lacksSafeSignal s ft.m_new = i
      cases c <;> cases d <;> cases g <;> cases h <;> cases i <;> simp

/-! ## C27, C28, C29: the position ahead -/

/-- C27: in mode `PBS_CHECK_FULL`, for a position that is neither a depot
    entry position nor a position with a signal along that is not a PBS signal,
    and that has a next position, `CheckWaitingPosition` returns `PBS_FREE` if
    and only if the next position is a single one with a PBS signal along, or
    with no signal along and a one-way PBS signal against, the position itself
    is not taken (its track overlaps no reserved track of its tile, or its
    wormhole is not reserved), and the next position is not reserved. -/
theorem CheckWaitingPosition_full_free_iff (F : TrackFollower) (s : State) (v : Vehicle)
    (pos : RailPathPos) (forbid_90deg : Bool) (ft : CFollowTrackRail)
    (hvalid : pos.has_track = true) (hd : IsDepotEntryPosition s pos = false)
    (hs : HasNonPbsSignalAlong s pos = false)
    (hfollow : F.Follow s (F.constructFor v (!forbid_90deg) v.railtype) pos = some ft)
    (hne : ft.m_new.is_empty = false) :
    CheckWaitingPosition F s v pos forbid_90deg .PBS_CHECK_FULL = .ok .PBS_FREE ↔
      (ft.m_new.is_single = true ∧
        ((ft.m_new.has_signal_along s = true ∧
            IsPbsSignal (ft.m_new.get_signal_type s) = true) ∨
          (ft.m_new.has_signal_along s = false ∧ ft.m_new.has_signal_against s = true ∧
            ft.m_new.get_signal_type s = .SIGTYPE_PBS_ONEWAY))) ∧
        PositionOccupied s pos = false ∧
        HasReservedPos s ft.m_new.toRailPathPos = false := by
  rw [CheckWaitingPosition.eq_general F s v pos forbid_90deg _ hvalid hd hs, hfollow,
    ← CheckWaitingPosition.not_lacksSafeSignal_iff]
  by_cases hocc : PositionOccupied s pos = true
  · simp only [hocc, bne_self_eq_false, Bool.false_eq_true, if_false, Bool.and_true]
    rw [CheckWaitingPosition.ahead_checked s pos .PBS_CHECK_FULL .PBS_BUSY ft.m_new
      (by decide) hne (Or.inr rfl)]
    generalize ft.m_new.is_single = h
    generalize CheckWaitingPosition.lacksSafeSignal s ft.m_new = i
    generalize HasReservedPos s ft.m_new.toRailPathPos = j
    cases h <;> cases i <;> cases j <;> simp
  · have hocc' : PositionOccupied s pos = false := by simpa using hocc
    simp only [hocc', Bool.and_false, Bool.false_eq_true, if_false]
    rw [CheckWaitingPosition.ahead_checked s pos .PBS_CHECK_FULL .PBS_FREE ft.m_new
      (by decide) hne (Or.inl rfl)]
    generalize ft.m_new.is_single = h
    generalize CheckWaitingPosition.lacksSafeSignal s ft.m_new = i
    generalize HasReservedPos s ft.m_new.toRailPathPos = j
    cases h <;> cases i <;> cases j <;> simp

/-- C28: for a position that is neither a depot entry position nor a position
    with a signal along that is not a PBS signal, and from which the track
    follower finds no next position, `CheckWaitingPosition` returns in every
    mode, and never `PBS_UNSAFE`: it returns `PBS_BUSY` when the mode is not
    `PBS_CHECK_SAFE` and the position is taken, and `PBS_FREE` otherwise. Where
    the follower is asked, the provisional classification it then returns is
    `PBS_BUSY` exactly when the mode is `PBS_CHECK_FULL` and the position is
    taken, and `PBS_FREE` otherwise. -/
theorem CheckWaitingPosition_end_of_track (F : TrackFollower) (s : State) (v : Vehicle)
    (pos : RailPathPos) (forbid_90deg : Bool) (cb : PBSCheckingBehaviour)
    (hvalid : pos.has_track = true) (hd : IsDepotEntryPosition s pos = false)
    (hs : HasNonPbsSignalAlong s pos = false)
    (hfollow : F.Follow s (F.constructFor v (!forbid_90deg) v.railtype) pos = none) :
    CheckWaitingPosition F s v pos forbid_90deg cb =
        .ok (if cb != .PBS_CHECK_SAFE && PositionOccupied s pos then .PBS_BUSY else .PBS_FREE) ∧
      CheckWaitingPosition F s v pos forbid_90deg cb ≠ .ok .PBS_UNSAFE ∧
      (∀ state, CheckWaitingPosition.current s pos cb = .provisional state →
        (state = .PBS_BUSY ↔ (cb = .PBS_CHECK_FULL ∧ PositionOccupied s pos = true)) ∧
          (state ≠ .PBS_BUSY → state = .PBS_FREE)) ∧
      (CheckWaitingPosition.current s pos cb = .returned .PBS_BUSY ↔
        (cb ≠ .PBS_CHECK_FULL ∧ cb ≠ .PBS_CHECK_SAFE ∧ PositionOccupied s pos = true)) := by
  rw [CheckWaitingPosition.eq_general F s v pos forbid_90deg _ hvalid hd hs, hfollow,
    CheckWaitingPosition.current_eq]
  simp only [hvalid, hd, hs, Bool.false_eq_true, if_false, Bool.not_true]
  generalize PositionOccupied s pos = f
  cases cb <;> cases f <;> simp

/-- A new position set to more than one trackdir is not a single one. -/
theorem RailPathNewPos.set_trackdirs_not_single (p : RailPathNewPos) (trackdirs : TrackdirBits)
    (h : KillFirstTrackdirBit trackdirs ≠ TRACKDIR_BIT_NONE) :
    (p.set_trackdirs trackdirs).is_single = false := by
  simp [RailPathNewPos.set_trackdirs, RailPathNewPos.is_single, h]

/-- C29: in a mode other than `PBS_CHECK_FREE`, for a position that is neither
    a depot entry position nor a position with a signal along that is not a PBS
    signal, for which `PBS_BUSY` has not been returned already (the mode is
    `PBS_CHECK_FULL` or `PBS_CHECK_SAFE`, or the position is not taken) and
    that has a next position, `CheckWaitingPosition` returns `PBS_UNSAFE`
    whenever the next position is not a single one (as after `set_trackdirs`
    with more than one trackdir), has no signal at all, has a signal along that
    is not a PBS signal, or has no signal along and a signal against that is
    not a one-way PBS signal. -/
theorem CheckWaitingPosition_rejects_next (F : TrackFollower) (s : State) (v : Vehicle)
    (pos : RailPathPos) (forbid_90deg : Bool) (cb : PBSCheckingBehaviour) (ft : CFollowTrackRail)
    (hcb : cb ≠ .PBS_CHECK_FREE)
    (hvalid : pos.has_track = true) (hd : IsDepotEntryPosition s pos = false)
    (hs : HasNonPbsSignalAlong s pos = false)
    (hreached : cb = .PBS_CHECK_FULL ∨ cb = .PBS_CHECK_SAFE ∨ PositionOccupied s pos = false)
    (hfollow : F.Follow s (F.constructFor v (!forbid_90deg) v.railtype) pos = some ft)
    (hne : ft.m_new.is_empty = false)
    (hbad : ft.m_new.is_single = false ∨
      (ft.m_new.has_signal_along s = false ∧ ft.m_new.has_signal_against s = false) ∨
      (ft.m_new.has_signal_along s = true ∧ IsPbsSignal (ft.m_new.get_signal_type s) = false) ∨
      (ft.m_new.has_signal_along s = false ∧ ft.m_new.has_signal_against s = true ∧
        ft.m_new.get_signal_type s ≠ .SIGTYPE_PBS_ONEWAY)) :
    CheckWaitingPosition F s v pos forbid_90deg cb = .ok .PBS_UNSAFE ∧
      ∀ (p : RailPathNewPos) (trackdirs : TrackdirBits),
        KillFirstTrackdirBit trackdirs ≠ TRACKDIR_BIT_NONE →
        (p.set_trackdirs trackdirs).is_single = false := by
  refine ⟨?_, RailPathNewPos.set_trackdirs_not_single⟩
  have hbad' : (!ft.m_new.is_single || CheckWaitingPosition.lacksSafeSignal s ft.m_new) = true := by
    rcases hbad with h | h
    · simp [h]
    · simp [(CheckWaitingPosition.lacksSafeSignal_iff s ft.m_new).mpr h]
  rw [CheckWaitingPosition.eq_general F s v pos forbid_90deg _ hvalid hd hs, hfollow]
  by_cases h1 : (cb != .PBS_CHECK_SAFE && PositionOccupied s pos) = true
  · have hfull : cb = .PBS_CHECK_FULL := by
      rcases hreached with h | h | h
      · exact h
      · simp [h] at h1
      · simp [h] at h1
    subst hfull
    simp only [h1, if_true, bne_self_eq_false, Bool.false_eq_true, if_false]
    rw [CheckWaitingPosition.ahead_checked s pos .PBS_CHECK_FULL .PBS_BUSY ft.m_new
      (by decide) hne (Or.inr rfl)]
    simp [hbad']
  · simp only [h1, Bool.false_eq_true, if_false]
    rw [CheckWaitingPosition.ahead_checked s pos cb .PBS_FREE ft.m_new hcb hne (Or.inl rfl)]
    simp [hbad']

/-! ## C30: a position at a signal that is not a PBS signal -/

/-- C30: for a position that is no depot entry position and has a signal along
    the direction of travel that is not a PBS signal (so is not in a wormhole),
    `CheckWaitingPosition` returns, whatever the track follower would find,
    `PBS_FREE` in mode `PBS_CHECK_SAFE` and, in the other modes, `PBS_BUSY` when
    the track of the position itself is reserved on its tile and `PBS_FREE`
    when it is not; so never `PBS_UNSAFE`. -/
theorem CheckWaitingPosition_at_block_signal (F : TrackFollower) (s : State) (v : Vehicle)
    (pos : RailPathPos) (forbid_90deg : Bool) (cb : PBSCheckingBehaviour)
    (hvalid : pos.has_track = true) (hd : IsDepotEntryPosition s pos = false)
    (hs : HasNonPbsSignalAlong s pos = true) :
    CheckWaitingPosition F s v pos forbid_90deg cb =
        .ok (if cb = .PBS_CHECK_SAFE then .PBS_FREE
          else if OwnTrackReserved s pos then .PBS_BUSY else .PBS_FREE) ∧
      CheckWaitingPosition F s v pos forbid_90deg cb ≠ .ok .PBS_UNSAFE ∧
      (OwnTrackReserved s pos = true ↔
        ∃ track, TrackdirToTrack pos.td = some track ∧
          HasTrackBit (GetReservedTrackbits s pos.tile) track = true) := by
  have hres : CheckWaitingPosition F s v pos forbid_90deg cb =
      .ok (if cb = .PBS_CHECK_SAFE then .PBS_FREE
        else if OwnTrackReserved s pos then .PBS_BUSY else .PBS_FREE) := by
    unfold CheckWaitingPosition
    rw [CheckWaitingPosition.current_eq]
    simp only [hvalid, hd, hs, Bool.false_eq_true, if_false, Bool.not_true, if_true]
    cases cb <;> simp
  refine ⟨hres, ?_, ?_⟩
  · rw [hres]
    generalize OwnTrackReserved s pos = e
    cases cb <;> cases e <;> simp
  · unfold OwnTrackReserved HasReservedTrack
    cases TrackdirToTrack pos.td with
    | none => simp
    | some track => simp

/-! ## C31: the assertions of `CheckWaitingPosition` on `state` -/

/-- C31: for every track follower, state, train, position, 90-degree setting
    and checking mode, `CheckWaitingPosition` fails neither the assertion
    `(state == PBS_FREE) || (cb == PBS_CHECK_FULL)` after the follower step nor
    the assertion `state == PBS_FREE` before the final return. -/
theorem CheckWaitingPosition_state_assertions_hold (F : TrackFollower) (s : State) (v : Vehicle)
    (pos : RailPathPos) (forbid_90deg : Bool) (cb : PBSCheckingBehaviour) :
    CheckWaitingPosition F s v pos forbid_90deg cb ≠ .error .assert_free_or_full ∧
      CheckWaitingPosition F s v pos forbid_90deg cb ≠ .error .assert_state_free := by
  unfold CheckWaitingPosition
  rw [CheckWaitingPosition.current_eq]
  generalize IsDepotEntryPosition s pos = a
  generalize HasDepotReservation s pos.tile = b
  generalize pos.has_track = c
  generalize HasNonPbsSignalAlong s pos = d
  generalize OwnTrackReserved s pos = e
  generalize PositionOccupied s pos = f
  dsimp only
  generalize F.Follow s (F.constructFor v (!forbid_90deg) v.railtype) pos = next
  cases next with
  | none =>
    cases cb <;> cases a <;> cases b <;> cases c <;> cases d <;> cases e <;> cases f <;> simp
  | some ft =>
    simp only [CheckWaitingPosition.ahead_eq, CheckWaitingPosition.final]
    generalize ft.m_new.is_empty = g
    generalize ft.m_new.is_single = h
    generalize CheckWaitingPosition.lacksSafeSignal s ft.m_new = i
    generalize HasReservedPos s ft.m_new.toRailPathPos = j
    generalize IsStationTile s pos.tile = k
    generalize ft.m_new.has_signals s = l
    generalize IsPbsSignal (ft.m_new.get_signal_type s) = q
    cases cb <;> cases a <;> cases c <;> cases d <;> cases f <;> cases g <;> simp <;>
      cases h <;> cases i <;> simp <;> cases k <;> cases l <;> cases q <;> simp

/-! ## C35: `PFNewPos::SetTrackdir` -/

/-- A number without a second bit is a power of two. -/
theorem pow_two_of_KillFirstTrackdirBit (x : Nat) (hx : x ≠ 0)
    (h : KillFirstTrackdirBit x = TRACKDIR_BIT_NONE) : x = 2 ^ x.log2 := by
  unfold KillFirstTrackdirBit TRACKDIR_BIT_NONE at h
  by_contra hne
  have h1 : 2 ^ x.log2 ≤ x := Nat.log2_self_le hx
  have h2 : x < 2 ^ (x.log2 + 1) := Nat.lt_log2_self
  have key : ∀ y, 2 ^ x.log2 ≤ y → y < 2 ^ (x.log2 + 1) → y.testBit x.log2 = true := by
    intro y hy1 hy2
    obtain ⟨i, hi, hbit⟩ := Nat.ge_two_pow_implies_high_bit_true hy1
    have hlt : i < x.log2 + 1 := by
      by_contra hcon
      have hge := Nat.testBit_implies_ge hbit
      have : 2 ^ (x.log2 + 1) ≤ 2 ^ i := Nat.pow_le_pow_right (by decide) (by omega)
      omega
    have hi' : i = x.log2 := by omega
    rw [← hi']; exact hbit
  have hb1 := key x h1 h2
  have hb2 := key (x - 1) (by omega) (by omega)
  have hb : (x &&& (x - 1)).testBit x.log2 = true := by
    rw [Nat.testBit_and, hb1, hb2]; rfl
  rw [h] at hb
  simp at hb

/-- A single bit within `TRACKDIR_BIT_MASK` is the bit of one of the twelve
    trackdirs. -/
theorem pow_two_within_mask (k : Nat) (h : 2 ^ k &&& TRACKDIR_BIT_MASK = 2 ^ k) :
    k < 14 ∧ k ≠ 6 ∧ k ≠ 7 := by
  have hle : 2 ^ k ≤ TRACKDIR_BIT_MASK := by
    rw [← h]; exact Nat.and_le_right
  have hk : k < 14 := by
    by_contra hcon
    have h14 : (2 : Nat) ^ 14 ≤ 2 ^ k := Nat.pow_le_pow_right (by decide) (by omega)
    have hle' : (2 : Nat) ^ k ≤ 16191 := hle
    omega
  refine ⟨hk, ?_, ?_⟩
  · rintro rfl
    exact absurd h (by decide)
  · rintro rfl
    exact absurd h (by decide)

/-- The trackdir `SetTrackdir` sets for a single trackdir bit. -/
theorem PFNewPos.SetTrackdir_of_bit (tile : TileIndex) (td : Trackdir) (k : Nat) (hk : k < 14)
    (h6 : k ≠ 6) (h7 : k ≠ 7) :
    (PFNewPos.SetTrackdir { tile := tile, td := td, trackdirs := 2 ^ k }).td ≠ .INVALID_TRACKDIR ∧
      TrackdirValue (PFNewPos.SetTrackdir { tile := tile, td := td, trackdirs := 2 ^ k }).td = k ∧
      TrackdirToTrackdirBits (PFNewPos.SetTrackdir { tile := tile, td := td, trackdirs := 2 ^ k }).td
        = 2 ^ k := by
  have key : (if KillFirstTrackdirBit (2 ^ k) == TRACKDIR_BIT_NONE then FindFirstTrackdir (2 ^ k)
        else .INVALID_TRACKDIR) ≠ Trackdir.INVALID_TRACKDIR ∧
      TrackdirValue (if KillFirstTrackdirBit (2 ^ k) == TRACKDIR_BIT_NONE then
        FindFirstTrackdir (2 ^ k) else .INVALID_TRACKDIR) = k ∧
      TrackdirToTrackdirBits (if KillFirstTrackdirBit (2 ^ k) == TRACKDIR_BIT_NONE then
        FindFirstTrackdir (2 ^ k) else .INVALID_TRACKDIR) = 2 ^ k := by
    interval_cases k
    all_goals first
      | exact absurd rfl h6
      | exact absurd rfl h7
      | decide
  exact key

/-- C35: for a set of trackdirs (bits within `TRACKDIR_BIT_MASK`), after
    `SetTrackdir()` the trackdir is set (`IsTrackdirSet()`) if and only if
    exactly one bit of `trackdirs` is set, and `td` is then the trackdir with
    that bit; with no bit or with two or more bits `td` is
    `INVALID_TRACKDIR`. The other fields are unchanged. -/
theorem PFNewPos_SetTrackdir_single (p : PFNewPos)
    (hmask : p.trackdirs &&& TRACKDIR_BIT_MASK = p.trackdirs) :
    (p.SetTrackdir.IsTrackdirSet = true ↔ ∃ k, p.trackdirs = 2 ^ k) ∧
      (∀ k, p.trackdirs = 2 ^ k →
        TrackdirValue p.SetTrackdir.td = k ∧
          TrackdirToTrackdirBits p.SetTrackdir.td = p.trackdirs) ∧
      ((¬ ∃ k, p.trackdirs = 2 ^ k) → p.SetTrackdir.td = .INVALID_TRACKDIR) ∧
      p.SetTrackdir.trackdirs = p.trackdirs ∧ p.SetTrackdir.tile = p.tile := by
  obtain ⟨⟨tile, td⟩, trackdirs⟩ := p
  simp only at hmask
  have hpow : ∀ k, trackdirs = 2 ^ k →
      (PFNewPos.SetTrackdir { tile := tile, td := td, trackdirs := trackdirs }).td ≠
          .INVALID_TRACKDIR ∧
        TrackdirValue (PFNewPos.SetTrackdir { tile := tile, td := td, trackdirs := trackdirs }).td
          = k ∧
        TrackdirToTrackdirBits
          (PFNewPos.SetTrackdir { tile := tile, td := td, trackdirs := trackdirs }).td
            = trackdirs := by
    intro k hk
    subst hk
    obtain ⟨h1, h2, h3⟩ := pow_two_within_mask k hmask
    exact PFNewPos.SetTrackdir_of_bit tile td k h1 h2 h3
  have hset : PFNewPos.IsTrackdirSet
      (PFNewPos.SetTrackdir { tile := tile, td := td, trackdirs := trackdirs }) = true →
      ∃ k, trackdirs = 2 ^ k := by
    intro hs
    unfold PFNewPos.IsTrackdirSet PFNewPos.SetTrackdir at hs
    simp only [bne_iff_ne, ne_eq] at hs
    by_cases hkill : KillFirstTrackdirBit trackdirs = TRACKDIR_BIT_NONE
    · have hx : trackdirs ≠ 0 := by
        rintro rfl
        exact hs (by decide)
      exact ⟨_, pow_two_of_KillFirstTrackdirBit trackdirs hx hkill⟩
    · simp [hkill] at hs
  refine ⟨⟨hset, ?_⟩, fun k hk => (hpow k hk).2, ?_, rfl, rfl⟩
  · rintro ⟨k, hk⟩
    simpa [PFNewPos.IsTrackdirSet] using (hpow k hk).1
  · intro hno
    by_contra hcon
    exact hno (hset (by simpa [PFNewPos.IsTrackdirSet] using hcon))

/-! ## C33: one reserved trackdir per step -/

/-- The table of reachable trackdirs agrees with `TrackdirToExitdir`: a
    trackdir can be taken on a tile entered in direction `d` exactly when its
    reverse leaves the tile against `d`. -/
theorem DiagdirReachesTrackdirs_geometry (d : DiagDirection) (td : Trackdir)
    (h : td ≠ .INVALID_TRACKDIR) :
    DiagdirReachesTrackdirs d &&& TrackdirToTrackdirBits td ≠ 0 ↔
      TrackdirToExitdir (ReverseTrackdir td) = some (ReverseDiagDir d) := by
  revert d td; decide

theorem reserved_reach_cases (d : DiagDirection) (bits : TrackBits)
    (h : TracksOverlap bits = false) :
    TrackBitsToTrackdirBits bits &&& DiagdirReachesTrackdirs d = 0 ∨
      ∃ td track, td ≠ Trackdir.INVALID_TRACKDIR ∧ TrackdirToTrack td = some track ∧
        HasTrackBit bits track = true ∧
        TrackBitsToTrackdirBits bits &&& DiagdirReachesTrackdirs d = 2 ^ TrackdirValue td := by
  revert d bits; decide

/-- The reserved trackdirs among reachable ones, on a tile whose reserved
    tracks do not overlap: none, or the bit of one trackdir of a reserved
    track. -/
theorem reserved_reachable_cases (trackdirs : TrackdirBits) (d : DiagDirection) (bits : TrackBits)
    (hreach : trackdirs &&& DiagdirReachesTrackdirs d = trackdirs)
    (hno : TracksOverlap bits = false) :
    trackdirs &&& TrackBitsToTrackdirBits bits = 0 ∨
      ∃ td track, td ≠ Trackdir.INVALID_TRACKDIR ∧ TrackdirToTrack td = some track ∧
        HasTrackBit bits track = true ∧
        trackdirs &&& TrackBitsToTrackdirBits bits = 2 ^ TrackdirValue td := by
  have hinter : trackdirs &&& TrackBitsToTrackdirBits bits =
      trackdirs &&& (TrackBitsToTrackdirBits bits &&& DiagdirReachesTrackdirs d) := by
    conv_lhs => rw [← hreach]
    rw [Nat.and_assoc, Nat.and_comm (DiagdirReachesTrackdirs d)]
  rcases reserved_reach_cases d bits hno with h0 | ⟨td, track, h1, h2, h3, h4⟩
  · left
    rw [hinter, h0, Nat.and_zero]
  · rw [hinter, h4, Nat.and_two_pow]
    cases hbit : trackdirs.testBit (TrackdirValue td) with
    | false => left; simp
    | true => right; exact ⟨td, track, h1, h2, h3, by simp⟩

theorem TrackdirToTrackdirBits_eq_pow (td : Trackdir) (h : td ≠ .INVALID_TRACKDIR) :
    TrackdirToTrackdirBits td = 2 ^ TrackdirValue td := by
  revert td; decide

/-- The trackdir set for the bit of a trackdir is that trackdir. -/
theorem set_trackdirs_of_bit (td : Trackdir) (h : td ≠ .INVALID_TRACKDIR) :
    (if KillFirstTrackdirBit (2 ^ TrackdirValue td) == TRACKDIR_BIT_NONE then
        FindFirstTrackdir (2 ^ TrackdirValue td)
      else Trackdir.INVALID_TRACKDIR) = td ∧
      (2 : Nat) ^ TrackdirValue td ≠ 0 := by
  revert td; decide

/-- A step on ordinary track onto a tile whose reserved tracks do not overlap
    leaves at most one trackdir that is both reachable and reserved. -/
theorem FollowReservation.reservedNew_single (s : State) (g : CFollowTrackRail)
    (hw : g.m_new.in_wormhole = false) (hst : g.m_flag ≠ .TF_STATION)
    (hreach : g.m_new.trackdirs &&& DiagdirReachesTrackdirs g.m_exitdir = g.m_new.trackdirs)
    (hno : TracksOverlap (GetReservedTrackbits s g.m_new.tile) = false) :
    KillFirstTrackdirBit (g.m_new.trackdirs &&&
        TrackBitsToTrackdirBits (GetReservedTrackbits s g.m_new.tile)) = TRACKDIR_BIT_NONE ∧
      (∀ ft', FollowReservation.reservedNew s g = some ft' →
        ft'.m_new.is_single = true ∧
          TrackdirToTrackdirBits ft'.m_new.td = ft'.m_new.trackdirs ∧
          ft'.m_new.trackdirs = g.m_new.trackdirs &&&
            TrackBitsToTrackdirBits (GetReservedTrackbits s g.m_new.tile) ∧
          HasReservedPos s ft'.m_new.toRailPathPos = true) ∧
      (FollowReservation.reservedNew s g = none →
        ∀ ignore_oneway cur start,
          FollowReservation.body s ignore_oneway g cur start = .stop cur start) := by
  have hst' : (g.m_flag != .TF_STATION) = true := by simpa using hst
  rcases reserved_reachable_cases _ _ _ hreach hno with h0 | ⟨td, track, h1, h2, h3, h4⟩
  · refine ⟨by rw [h0]; rfl, ?_, ?_⟩
    · intro ft' hft
      simp [FollowReservation.reservedNew, hw, hst', h0, TRACKDIR_BIT_NONE] at hft
    · intro _ io cur start
      simp [FollowReservation.body, hw, hst', h0, TRACKDIR_BIT_NONE]
  · obtain ⟨hset, hne⟩ := set_trackdirs_of_bit td h1
    have hkill : KillFirstTrackdirBit (2 ^ TrackdirValue td) = TRACKDIR_BIT_NONE := by
      by_contra hcon
      have hb : (KillFirstTrackdirBit (2 ^ TrackdirValue td) == TRACKDIR_BIT_NONE) = false := by
        simpa using hcon
      rw [hb] at hset
      exact h1 (by simpa using hset.symm)
    refine ⟨by rw [h4]; exact hkill, ?_, ?_⟩
    · intro ft' hft
      have hne' : ¬ ((2 : Nat) ^ TrackdirValue td = TRACKDIR_BIT_NONE) := hne
      simp only [FollowReservation.reservedNew, hw, hst', h4, Bool.false_eq_true, if_false,
        if_true, beq_iff_eq, hne', Option.some.injEq] at hft
      subst hft
      have htd : (g.m_new.set_trackdirs (2 ^ TrackdirValue td)).td = td := hset
      have hbitv : TrackdirToTrackdirBits td = 2 ^ TrackdirValue td :=
        TrackdirToTrackdirBits_eq_pow td h1
      refine ⟨?_, ?_, h4.symm, ?_⟩
      · simp only [RailPathNewPos.is_single, htd]
        simpa using h1
      · simp only [htd]
        exact hbitv
      · have hwm : (g.m_new.set_trackdirs (2 ^ TrackdirValue td)).toRailPathPos.in_wormhole
            = false := hw
        have htile : (g.m_new.set_trackdirs (2 ^ TrackdirValue td)).toRailPathPos.tile
            = g.m_new.tile := rfl
        have htd' : (g.m_new.set_trackdirs (2 ^ TrackdirValue td)).toRailPathPos.td = td := hset
        simp only [HasReservedPos, hwm, htile, htd', h2, HasReservedTrack, h3, Bool.false_eq_true,
          if_false]
    · intro hnone
      have hne' : ¬ ((2 : Nat) ^ TrackdirValue td = TRACKDIR_BIT_NONE) := hne
      simp [FollowReservation.reservedNew, hw, hst', h4, hne'] at hnone

/-- C33: on a step of `FollowReservation` that is neither inside a wormhole
    nor over a station, onto a tile whose reserved tracks do not overlap, the
    trackdirs that are both reachable in the direction of the step and
    reserved contain at most one trackdir; when there is one, the new position
    is collapsed to that single trackdir, which runs on a reserved track of the
    tile, and when there is none the walk stops. -/
theorem FollowReservation_single_reserved_trackdir (s : State) (g : CFollowTrackRail)
    (hw : g.m_new.in_wormhole = false) (hst : g.m_flag ≠ .TF_STATION)
    (hreach : g.m_new.trackdirs &&& DiagdirReachesTrackdirs g.m_exitdir = g.m_new.trackdirs)
    (hno : TracksOverlap (GetReservedTrackbits s g.m_new.tile) = false) :
    KillFirstTrackdirBit (g.m_new.trackdirs &&&
        TrackBitsToTrackdirBits (GetReservedTrackbits s g.m_new.tile)) = TRACKDIR_BIT_NONE ∧
      (∀ ft', FollowReservation.reservedNew s g = some ft' →
        ft'.m_new.is_single = true ∧
          TrackdirToTrackdirBits ft'.m_new.td = ft'.m_new.trackdirs ∧
          ft'.m_new.trackdirs = g.m_new.trackdirs &&&
            TrackBitsToTrackdirBits (GetReservedTrackbits s g.m_new.tile) ∧
          HasReservedPos s ft'.m_new.toRailPathPos = true) ∧
      (FollowReservation.reservedNew s g = none →
        ∀ ignore_oneway cur start,
          FollowReservation.body s ignore_oneway g cur start = .stop cur start) :=
  FollowReservation.reservedNew_single s g hw hst hreach hno

/-! ## C32: the end of a reservation is reserved -/

theorem FollowReservation.advance_cur_cases (s : State) (ignore_oneway : Bool)
    (ft : CFollowTrackRail) (cur start : RailPathPos) :
    (FollowReservation.advance s ignore_oneway ft cur start).cur = cur ∨
      (FollowReservation.advance s ignore_oneway ft cur start).cur = ft.m_new.toRailPathPos := by
  unfold FollowReservation.advance
  dsimp only
  repeat' split
  all_goals simp [LoopControl.cur]

/-- The position found among the skipped station tiles lies some steps back
    from the new position of the follower, on its trackdir. -/
theorem FollowReservation.skipped_spec (s : State) (diff : TileIndexDiff) :
    ∀ (n : Nat) (m_new : RailPathNewPos) (q : RailPathPos),
      FollowReservation.skipped s diff n m_new = some q →
        ∃ k, 1 ≤ k ∧ k ≤ n ∧ q.tile = (fun u => TILE_ADD u (-diff))^[k] m_new.tile ∧
          q.td = m_new.td ∧ q.wormhole = m_new.wormhole := by
  intro n
  induction n with
  | zero => intro m_new q h; simp [FollowReservation.skipped] at h
  | succ n ih =>
    intro m_new q h
    simp only [FollowReservation.skipped] at h
    split at h
    · simp only [Option.some.injEq] at h
      rw [← h]
      exact ⟨1, le_refl 1, Nat.succ_le_succ (Nat.zero_le n), rfl, rfl, rfl⟩
    · obtain ⟨k, h1, h2, h3, h4, h5⟩ := ih _ q h
      refine ⟨k + 1, Nat.le_add_left 1 k, Nat.succ_le_succ h2, ?_, h4, h5⟩
      rw [h3, Function.iterate_succ_apply]

/-- A position on a reserved rail station tile along the track of the
    platform is reserved. -/
theorem station_pos_reserved (s : State) (q : RailPathPos) (track : Track)
    (hw : q.in_wormhole = false) (htr : TrackdirToTrack q.td = some track)
    (hty : GetTileType s q.tile = .TT_STATION) (hrail : HasStationRail s q.tile = true)
    (hax : HasTrackBit (AxisToTrackBits (GetRailStationAxis s q.tile)) track = true)
    (hres : HasStationReservation s q.tile = true) : HasReservedPos s q = true := by
  simp only [HasReservedPos, hw, htr, HasReservedTrack, GetReservedTrackbits, hty, hrail,
    GetStationReservationTrackBits, hres, if_true, Bool.false_eq_true, if_false]
  exact hax

/-- A pass through the loop body of `FollowReservation` keeps `cur` on a
    reserved position. -/
theorem FollowReservation.body_cur_reserved (s : State) (ignore_oneway : Bool)
    (g : CFollowTrackRail) (cur start : RailPathPos)
    (hno : TracksOverlap (GetReservedTrackbits s g.m_new.tile) = false)
    (hg : FollowerStepsOnTrack s g) (hcur : HasReservedPos s cur = true) :
    HasReservedPos s (FollowReservation.body s ignore_oneway g cur start).cur = true := by
  unfold FollowReservation.body
  by_cases hw : g.m_new.in_wormhole = true
  · rw [if_pos hw]
    by_cases hr : HasReservedPos s g.m_new.toRailPathPos = true
    · simp only [hr, Bool.not_true, Bool.false_eq_true, if_false]
      rcases FollowReservation.advance_cur_cases s ignore_oneway g cur start with h | h
      · rw [h]; exact hcur
      · rw [h]; exact hr
    · simp only [hr, Bool.not_false, if_true] 
      exact hcur
  · have hw' : g.m_new.in_wormhole = false := by simpa using hw
    rw [if_neg hw]
    obtain ⟨hplain, hstation⟩ := hg hw'
    by_cases hst : g.m_flag = .TF_STATION
    · have hst' : (g.m_flag != .TF_STATION) = false := by simp [hst]
      simp only [hst', Bool.false_eq_true, if_false]
      obtain ⟨track, htr, hall⟩ := hstation hst
      by_cases hres : HasStationReservation s g.m_new.tile = true
      · simp only [hres, Bool.not_true, Bool.false_eq_true, if_false]
        rcases FollowReservation.advance_cur_cases s ignore_oneway g cur start with h | h
        · rw [h]; exact hcur
        · rw [h]
          obtain ⟨h1, h2, h3⟩ := hall 0 (Nat.zero_le _)
          exact station_pos_reserved s g.m_new.toRailPathPos track hw' htr h1 h2 h3 hres
      · simp only [hres, Bool.not_false, if_true]
        cases hsk : FollowReservation.skipped s (TileOffsByDiagDir s g.m_exitdir)
            g.m_tiles_skipped.toNat g.m_new with
        | none => exact hcur
        | some found =>
          obtain ⟨k, _, hk, htile, htd, hwm⟩ := FollowReservation.skipped_spec s _ _ _ _ hsk
          have hfres := FollowReservation.skipped_reserved s _ _ _ _ hsk
          obtain ⟨h1, h2, h3⟩ := hall k hk
          have htile' : found.tile = skippedTile s g k := htile
          rw [← htile'] at h1 h2 h3
          have hfw : found.in_wormhole = false := by
            simp only [RailPathPos.in_wormhole, hwm]
            exact hw'
          exact station_pos_reserved s found track hfw (by rw [htd]; exact htr) h1 h2 h3 hfres
    · have hst' : (g.m_flag != .TF_STATION) = true := by simpa using hst
      simp only [hst', if_true]
      obtain ⟨_, hsome, _⟩ := FollowReservation.reservedNew_single s g hw' hst (hplain hst) hno
      by_cases hz : (g.m_new.trackdirs &&&
          TrackBitsToTrackdirBits (GetReservedTrackbits s g.m_new.tile)) = TRACKDIR_BIT_NONE
      · simp only [hz, beq_self_eq_true, if_true]
        exact hcur
      · have hz' : ((g.m_new.trackdirs &&&
            TrackBitsToTrackdirBits (GetReservedTrackbits s g.m_new.tile)) == TRACKDIR_BIT_NONE)
              = false := by simpa using hz
        simp only [hz', Bool.false_eq_true, if_false]
        have hnew : FollowReservation.reservedNew s g = some { g with m_new :=
            (g.m_new.set_trackdirs (g.m_new.trackdirs &&&
              TrackBitsToTrackdirBits (GetReservedTrackbits s g.m_new.tile))) } := by
          simp only [FollowReservation.reservedNew, hw', hst', hz', Bool.false_eq_true, if_false,
            if_true]
        rcases FollowReservation.advance_cur_cases s ignore_oneway _ cur start with h | h
        · rw [h]; exact hcur
        · rw [h]; exact (hsome _ hnew).2.2.2

theorem LoopControl.cur_next (ft : CFollowTrackRail) (cur start : RailPathPos) :
    (LoopControl.next ft cur start).cur = cur := rfl

theorem LoopControl.cur_stop (cur start : RailPathPos) :
    (LoopControl.stop cur start).cur = cur := rfl

theorem FollowReservation.advance_cur_assigns (s : State) (ignore_oneway : Bool)
    (ft : CFollowTrackRail) (cur start : RailPathPos) :
    (FollowReservation.advance s ignore_oneway ft cur start).cur =
      (FollowReservation.advanceAssigns s ignore_oneway ft).getD cur := by
  unfold FollowReservation.advance FollowReservation.advanceAssigns
  dsimp only
  repeat' split
  all_goals simp [LoopControl.cur]

/-- The value of `cur` after a pass is the position the pass assigns, or the
    old value when it assigns none. -/
theorem FollowReservation.body_cur_assigns (s : State) (ignore_oneway : Bool)
    (ft : CFollowTrackRail) (cur start : RailPathPos) :
    (FollowReservation.body s ignore_oneway ft cur start).cur =
      (FollowReservation.assigns s ignore_oneway ft).getD cur := by
  unfold FollowReservation.body FollowReservation.assigns
  dsimp only
  repeat' split
  all_goals first
    | exact FollowReservation.advance_cur_assigns s ignore_oneway _ cur start
    | simp_all [LoopControl.cur]

/-- The loop of `FollowReservation` ends on a reserved position when it starts
    on one. -/
theorem FollowReservation.loop_reserved (F : TrackFollower) (s : State) (ignore_oneway : Bool)
    (hno : NoOverlappingReservation s)
    (hF : ∀ ft g, F.FollowNext s ft = some g → FollowerStepsOnTrack s g) :
    ∀ (fuel : Nat) (ft : CFollowTrackRail) (cur start e st : RailPathPos),
      HasReservedPos s cur = true →
      FollowReservation.loop F s ignore_oneway fuel ft cur start = some (e, st) →
      HasReservedPos s e = true := by
  intro fuel
  induction fuel with
  | zero => intro ft cur start e st _ h; simp [FollowReservation.loop] at h
  | succ fuel ih =>
    intro ft cur start e st hcur h
    simp only [FollowReservation.loop] at h
    cases hn : F.FollowNext s ft with
    | none =>
      rw [hn] at h
      simp only [Option.some.injEq, Prod.mk.injEq] at h
      rw [← h.1]; exact hcur
    | some g =>
      rw [hn] at h
      dsimp only at h
      have hb := FollowReservation.body_cur_reserved s ignore_oneway g cur start
        (hno g.m_new.tile) (hF ft g hn) hcur
      cases hbody : FollowReservation.body s ignore_oneway g cur start with
      | stop cur' start' =>
        rw [hbody] at h hb
        simp only [Option.some.injEq, Prod.mk.injEq] at h
        rw [← h.1]; exact hb
      | next ft' cur' start' =>
        rw [hbody] at h hb
        exact ih ft' cur' start' e st hb h

/-- Every position the loop of `FollowReservation` visits is reserved, when
    it starts on a reserved one. -/
theorem FollowReservation.visits_reserved (F : TrackFollower) (s : State) (ignore_oneway : Bool)
    (hno : NoOverlappingReservation s)
    (hF : ∀ ft g, F.FollowNext s ft = some g → FollowerStepsOnTrack s g) :
    ∀ (fuel : Nat) (ft : CFollowTrackRail) (cur start : RailPathPos),
      HasReservedPos s cur = true →
      ∀ p ∈ FollowReservation.visits F s ignore_oneway fuel ft cur start,
        HasReservedPos s p = true := by
  intro fuel
  induction fuel with
  | zero => intro ft cur start _ p hp; simp [FollowReservation.visits] at hp
  | succ fuel ih =>
    intro ft cur start hcur p hp
    simp only [FollowReservation.visits] at hp
    cases hn : F.FollowNext s ft with
    | none => rw [hn] at hp; simp at hp
    | some g =>
      rw [hn] at hp
      dsimp only at hp
      have hb := FollowReservation.body_cur_reserved s ignore_oneway g cur start
        (hno g.m_new.tile) (hF ft g hn) hcur
      have hc := FollowReservation.body_cur_assigns s ignore_oneway g cur start
      have hhere : ∀ q ∈ (FollowReservation.assigns s ignore_oneway g).toList,
          HasReservedPos s q = true := by
        intro q hq
        cases ha : FollowReservation.assigns s ignore_oneway g with
        | none => rw [ha] at hq; simp at hq
        | some a =>
          rw [ha] at hq hc
          simp only [Option.toList_some, List.mem_singleton] at hq
          simp only [Option.getD_some] at hc
          rw [hq, ← hc]
          exact hb
      cases hbody : FollowReservation.body s ignore_oneway g cur start with
      | stop c st =>
        rw [hbody] at hp
        exact hhere p hp
      | next ft' c st =>
        rw [hbody] at hp hb
        dsimp only at hp
        rcases List.mem_append.mp hp with h | h
        · exact hhere p h
        · exact ih ft' c st hb p h

/-- C32: in a tile store where the reserved tracks of a tile never overlap, and
    with a track follower whose steps lead onto reachable trackdirs (outside
    stations) and along platforms (over stations), from a reserved start
    position every position `FollowReservation` visits is reserved, and so is
    the end position it writes back, for both values of `ignore_oneway` and
    also when the end is found among the skipped station tiles. -/
theorem FollowReservation_end_reserved (F : TrackFollower) (s : State) (o : Owner)
    (rts : RailTypes) (pos : RailPathPos) (ignore_oneway : Bool)
    (hno : NoOverlappingReservation s)
    (hF : ∀ ft g, F.FollowNext s ft = some g → FollowerStepsOnTrack s g)
    (hpos : HasReservedPos s pos = true) :
    (∀ fuel e b, FollowReservation F fuel s o rts pos ignore_oneway = some (e, b) →
        HasReservedPos s e = true) ∧
      (∀ fuel p, p ∈ FollowReservation.path F fuel s o rts pos ignore_oneway →
        HasReservedPos s p = true) := by
  constructor
  · intro fuel e b h
    unfold FollowReservation at h
    simp only [hpos, Bool.not_true, Bool.false_eq_true, if_false] at h
    cases hl : FollowReservation.loop F s ignore_oneway fuel (F.SetPos (F.construct o true rts) pos)
        pos RailPathPos.invalid with
    | none => rw [hl] at h; simp at h
    | some r =>
      obtain ⟨e', st⟩ := r
      rw [hl] at h
      simp only [Option.some.injEq, Prod.mk.injEq] at h
      rw [← h.1]
      exact FollowReservation.loop_reserved F s ignore_oneway hno hF fuel _ pos _ e' st hpos hl
  · intro fuel p hp
    simp only [FollowReservation.path, List.mem_cons] at hp
    rcases hp with rfl | hp
    · exact hpos
    · exact FollowReservation.visits_reserved F s ignore_oneway hno hF fuel _ pos _ hpos p hp

/-! ## C34: the walk with and without one-way signals -/

/-- With one-way signals ignored the second half of the loop body does what it
    does otherwise, unless that is to stop in front of a blocking signal. -/
theorem FollowReservation.advance_ignore (s : State) (io io' : Bool) (hio : io = true → io' = true)
    (ft : CFollowTrackRail) (cur start : RailPathPos) :
    (FollowReservation.advance s io ft cur start = FollowReservation.advance s io' ft cur start ∧
        FollowReservation.advanceAssigns s io ft = FollowReservation.advanceAssigns s io' ft) ∨
      (FollowReservation.advance s io ft cur start = .stop cur start ∧
        FollowReservation.advanceAssigns s io ft = none) := by
  cases io with
  | true => left; rw [hio rfl]; exact ⟨rfl, rfl⟩
  | false =>
    cases io' with
    | false => left; exact ⟨rfl, rfl⟩
    | true =>
      cases hb : ft.m_new.has_blocking_signal s with
      | true =>
        right
        simp [FollowReservation.advance, FollowReservation.advanceAssigns, hb]
      | false =>
        left
        simp [FollowReservation.advance, FollowReservation.advanceAssigns, hb]

/-- With one-way signals ignored a pass through the loop body does what it
    does otherwise, unless that is to stop in front of a blocking signal. -/
theorem FollowReservation.body_ignore (s : State) (io io' : Bool) (hio : io = true → io' = true)
    (ft : CFollowTrackRail) (cur start : RailPathPos) :
    (FollowReservation.body s io ft cur start = FollowReservation.body s io' ft cur start ∧
        FollowReservation.assigns s io ft = FollowReservation.assigns s io' ft) ∨
      (FollowReservation.body s io ft cur start = .stop cur start ∧
        FollowReservation.assigns s io ft = none) := by
  unfold FollowReservation.body FollowReservation.assigns
  dsimp only
  repeat' split
  all_goals first
    | exact FollowReservation.advance_ignore s io io' hio _ cur start
    | exact Or.inl ⟨rfl, rfl⟩

/-- The positions visited: fewer passes, or one-way signals not ignored, give
    a prefix. -/
theorem FollowReservation.visits_initial (F : TrackFollower) (s : State) (io io' : Bool)
    (hio : io = true → io' = true) :
    ∀ (fuel fuel' : Nat) (ft : CFollowTrackRail) (cur start : RailPathPos), fuel ≤ fuel' →
      FollowReservation.visits F s io fuel ft cur start <+:
        FollowReservation.visits F s io' fuel' ft cur start := by
  intro fuel
  induction fuel with
  | zero => intro fuel' ft cur start _; simp [FollowReservation.visits]
  | succ fuel ih =>
    intro fuel' ft cur start hle
    obtain ⟨f', rfl⟩ : ∃ f', fuel' = f' + 1 := ⟨fuel' - 1, by omega⟩
    simp only [FollowReservation.visits]
    cases hn : F.FollowNext s ft with
    | none => simp
    | some g =>
      dsimp only
      rcases FollowReservation.body_ignore s io io' hio g cur start with ⟨hb, ha⟩ | ⟨hb, ha⟩
      · rw [hb, ha]
        cases FollowReservation.body s io' g cur start with
        | stop c st => simp
        | next ft' c st =>
          dsimp only
          exact (List.prefix_append_right_inj _).mpr (ih f' ft' c st (by omega))
      · rw [hb, ha]
        simp

/-- The last position visited is the position the loop ends with. -/
theorem FollowReservation.loop_last_visit (F : TrackFollower) (s : State) (io : Bool) :
    ∀ (fuel : Nat) (ft : CFollowTrackRail) (cur start e st : RailPathPos),
      FollowReservation.loop F s io fuel ft cur start = some (e, st) →
      (cur :: FollowReservation.visits F s io fuel ft cur start).getLast? = some e := by
  intro fuel
  induction fuel with
  | zero => intro ft cur start e st h; simp [FollowReservation.loop] at h
  | succ fuel ih =>
    intro ft cur start e st h
    simp only [FollowReservation.loop] at h
    simp only [FollowReservation.visits]
    cases hn : F.FollowNext s ft with
    | none =>
      rw [hn] at h
      simp only [Option.some.injEq, Prod.mk.injEq] at h
      simp [h.1]
    | some g =>
      rw [hn] at h
      dsimp only at h ⊢
      have hc := FollowReservation.body_cur_assigns s io g cur start
      cases hbody : FollowReservation.body s io g cur start with
      | stop c st' =>
        rw [hbody] at h hc
        simp only [Option.some.injEq, Prod.mk.injEq] at h
        dsimp only
        rw [← h.1]
        simp only [LoopControl.cur] at hc
        cases ha : FollowReservation.assigns s io g with
        | none => rw [ha] at hc; simp [hc]
        | some x => rw [ha] at hc; simp [hc]
      | next ft' c st' =>
        rw [hbody] at h hc
        dsimp only at h ⊢
        have hi := ih ft' c st' e st h
        simp only [LoopControl.cur] at hc
        cases ha : FollowReservation.assigns s io g with
        | none =>
          rw [ha] at hc
          simp only [Option.getD_none] at hc
          subst hc
          simpa using hi
        | some x =>
          rw [ha] at hc
          simp only [Option.getD_some] at hc
          subst hc
          simp only [Option.toList_some, List.singleton_append, List.getLast?_cons_cons]
          exact hi

theorem FollowReservation.advance_start_kept (s : State) (io : Bool) (ft : CFollowTrackRail)
    (cur start : RailPathPos) (h : start.is_valid_tile = true) :
    (FollowReservation.advance s io ft cur start).start = start := by
  unfold FollowReservation.advance
  simp only [h, Bool.not_true, Bool.false_eq_true, if_false]
  repeat' split
  all_goals rfl

theorem FollowReservation.body_start_kept (s : State) (io : Bool) (ft : CFollowTrackRail)
    (cur start : RailPathPos) (h : start.is_valid_tile = true) :
    (FollowReservation.body s io ft cur start).start = start := by
  unfold FollowReservation.body
  dsimp only
  repeat' split
  all_goals first
    | exact FollowReservation.advance_start_kept s io _ cur start h
    | rfl

/-- Once `start` is set the loop of `FollowReservation` ends with it. -/
theorem FollowReservation.loop_start_kept (F : TrackFollower) (s : State) (io : Bool) :
    ∀ (fuel : Nat) (ft : CFollowTrackRail) (cur start e st : RailPathPos),
      start.is_valid_tile = true →
      FollowReservation.loop F s io fuel ft cur start = some (e, st) → st = start := by
  intro fuel
  induction fuel with
  | zero => intro ft cur start e st _ h; simp [FollowReservation.loop] at h
  | succ fuel ih =>
    intro ft cur start e st hv h
    simp only [FollowReservation.loop] at h
    cases hn : F.FollowNext s ft with
    | none =>
      rw [hn] at h
      simp only [Option.some.injEq, Prod.mk.injEq] at h
      exact h.2.symm
    | some g =>
      rw [hn] at h
      dsimp only at h
      have hk := FollowReservation.body_start_kept s io g cur start hv
      cases hbody : FollowReservation.body s io g cur start with
      | stop c st' =>
        rw [hbody] at h hk
        simp only [Option.some.injEq, Prod.mk.injEq] at h
        simp only [LoopControl.start] at hk
        rw [← h.2, hk]
      | next ft' c st' =>
        rw [hbody] at h hk
        dsimp only at h
        simp only [LoopControl.start] at hk
        subst hk
        exact ih ft' c st' e st hv h

/-- When the loop sets `start` with one-way signals honoured, it sets it with
    one-way signals ignored. -/
theorem FollowReservation.loop_start_ignore (F : TrackFollower) (s : State) :
    ∀ (fuel fuel' : Nat) (ft : CFollowTrackRail) (cur start e st e' st' : RailPathPos),
      FollowReservation.loop F s false fuel ft cur start = some (e, st) →
      st.is_valid_tile = true →
      FollowReservation.loop F s true fuel' ft cur start = some (e', st') →
      st'.is_valid_tile = true := by
  intro fuel
  induction fuel with
  | zero => intro fuel' ft cur start e st e' st' h; simp [FollowReservation.loop] at h
  | succ fuel ih =>
    intro fuel' ft cur start e st e' st' h hv h'
    cases fuel' with
    | zero => simp [FollowReservation.loop] at h'
    | succ f' =>
      simp only [FollowReservation.loop] at h h'
      cases hn : F.FollowNext s ft with
      | none =>
        rw [hn] at h h'
        simp only [Option.some.injEq, Prod.mk.injEq] at h h'
        rw [← h'.2, h.2]; exact hv
      | some g =>
        rw [hn] at h h'
        dsimp only at h h'
        rcases FollowReservation.body_ignore s false true (fun hc => absurd hc (by simp)) g cur
          start with ⟨hb, _⟩ | ⟨hb, _⟩
        · rw [hb] at h
          cases hbody : FollowReservation.body s true g cur start with
          | stop c s2 =>
            rw [hbody] at h h'
            simp only [Option.some.injEq, Prod.mk.injEq] at h h'
            rw [← h'.2, h.2]; exact hv
          | next ft' c s2 =>
            rw [hbody] at h h'
            exact ih f' ft' c s2 e st e' st' h hv h'
        · rw [hb] at h
          simp only [Option.some.injEq, Prod.mk.injEq] at h
          have hsv : start.is_valid_tile = true := by rw [h.2]; exact hv
          have hk := FollowReservation.body_start_kept s true g cur start hsv
          cases hbody : FollowReservation.body s true g cur start with
          | stop c s2 =>
            rw [hbody] at h' hk
            simp only [Option.some.injEq, Prod.mk.injEq] at h'
            simp only [LoopControl.start] at hk
            rw [← h'.2, hk]; exact hsv
          | next ft' c s2 =>
            rw [hbody] at h' hk
            dsimp only at h'
            simp only [LoopControl.start] at hk
            subst hk
            rw [FollowReservation.loop_start_kept F s true f' ft' c s2 e' st' hsv h']
            exact hsv

/-- Once the loop has ended, more passes visit nothing more. -/
theorem FollowReservation.visits_stable (F : TrackFollower) (s : State) (io : Bool) :
    ∀ (fuel fuel' : Nat) (ft : CFollowTrackRail) (cur start : RailPathPos) (r : RailPathPos × RailPathPos),
      fuel ≤ fuel' → FollowReservation.loop F s io fuel ft cur start = some r →
      FollowReservation.visits F s io fuel' ft cur start =
        FollowReservation.visits F s io fuel ft cur start := by
  intro fuel
  induction fuel with
  | zero => intro fuel' ft cur start r _ h; simp [FollowReservation.loop] at h
  | succ fuel ih =>
    intro fuel' ft cur start r hle h
    obtain ⟨f', rfl⟩ : ∃ f', fuel' = f' + 1 := ⟨fuel' - 1, by omega⟩
    simp only [FollowReservation.loop] at h
    simp only [FollowReservation.visits]
    cases hn : F.FollowNext s ft with
    | none => rfl
    | some g =>
      rw [hn] at h
      dsimp only at h ⊢
      cases hbody : FollowReservation.body s io g cur start with
      | stop c st => rfl
      | next ft' c st =>
        rw [hbody] at h
        dsimp only at h ⊢
        rw [ih f' ft' c st r (by omega) h]

theorem blockedLasso_round (fuel : Nat) :
    FollowReservation.loop lassoFollower blockedLassoMap true fuel
        (lassoAt (RailPathPos.onTile 10 .TRACKDIR_RIGHT_N) 9 .TRACKDIR_LOWER_E .DIAGDIR_NE)
        (RailPathPos.onTile 9 .TRACKDIR_LOWER_E) (RailPathPos.onTile 10 .TRACKDIR_X_NE) = none ∧
      FollowReservation.loop lassoFollower blockedLassoMap true fuel
        (lassoAt (RailPathPos.onTile 9 .TRACKDIR_LOWER_E) 17 .TRACKDIR_LEFT_S .DIAGDIR_SE)
        (RailPathPos.onTile 17 .TRACKDIR_LEFT_S) (RailPathPos.onTile 10 .TRACKDIR_X_NE) = none ∧
      FollowReservation.loop lassoFollower blockedLassoMap true fuel
        (lassoAt (RailPathPos.onTile 17 .TRACKDIR_LEFT_S) 18 .TRACKDIR_UPPER_W .DIAGDIR_SW)
        (RailPathPos.onTile 18 .TRACKDIR_UPPER_W) (RailPathPos.onTile 10 .TRACKDIR_X_NE) = none ∧
      FollowReservation.loop lassoFollower blockedLassoMap true fuel
        (lassoAt (RailPathPos.onTile 18 .TRACKDIR_UPPER_W) 10 .TRACKDIR_RIGHT_N .DIAGDIR_NW)
        (RailPathPos.onTile 10 .TRACKDIR_RIGHT_N) (RailPathPos.onTile 10 .TRACKDIR_X_NE) = none := by
  induction fuel with
  | zero => exact ⟨rfl, rfl, rfl, rfl⟩
  | succ f ih =>
    obtain ⟨h9, h17, h18, h10⟩ := ih
    exact ⟨h17, h18, h10, h9⟩

theorem blockedLasso_diverges (fuel : Nat) :
    FollowReservation lassoFollower fuel blockedLassoMap 0 0 (RailPathPos.onTile 11 .TRACKDIR_X_NE)
      true = none := by
  match fuel with
  | 0 => rfl
  | 1 => rfl
  | 2 => rfl
  | f + 3 =>
    have h : FollowReservation.loop lassoFollower blockedLassoMap true (f + 3)
        (lassoFollower.SetPos (lassoFollower.construct 0 true 0)
          (RailPathPos.onTile 11 .TRACKDIR_X_NE))
        (RailPathPos.onTile 11 .TRACKDIR_X_NE) RailPathPos.invalid = none :=
      (blockedLasso_round f).2.1
    have hres : HasReservedPos blockedLassoMap (RailPathPos.onTile 11 .TRACKDIR_X_NE) = true := by
      rfl
    simp only [FollowReservation, hres, Bool.not_true, Bool.false_eq_true, if_false, h]

/-- C34 (amended): the positions `FollowReservation` visits with
    `ignore_oneway = false` within some number of passes are a prefix of the
    positions it visits with `ignore_oneway = true` within at least as many
    passes; when a call returns, the positions visited end with the position
    it writes back and more passes add nothing; and when the call with `false`
    returns `true`, the call with `true` returns `true` whenever it returns,
    which it does with enough passes if its walk terminates. -/
theorem FollowReservation_ignore_oneway_monotone (F : TrackFollower) (s : State) (o : Owner)
    (rts : RailTypes) (pos : RailPathPos) (fuel fuel' : Nat) (hle : fuel ≤ fuel') :
    FollowReservation.path F fuel s o rts pos false <+:
        FollowReservation.path F fuel' s o rts pos true ∧
      (∀ io e b, FollowReservation F fuel s o rts pos io = some (e, b) →
        (FollowReservation.path F fuel s o rts pos io).getLast? = some e ∧
          FollowReservation.path F fuel' s o rts pos io =
            FollowReservation.path F fuel s o rts pos io) ∧
      (∀ e, FollowReservation F fuel s o rts pos false = some (e, true) →
        (∀ f e' b', FollowReservation F f s o rts pos true = some (e', b') → b' = true) ∧
          (FollowReservation.Terminates F s o rts pos true →
            ∃ f e', FollowReservation F f s o rts pos true = some (e', true))) := by
  have hflag : ∀ e, FollowReservation F fuel s o rts pos false = some (e, true) →
      ∀ f e' b', FollowReservation F f s o rts pos true = some (e', b') → b' = true := by
    intro e h f e' b' h'
    unfold FollowReservation at h h'
    by_cases hpos : HasReservedPos s pos = true
    · simp only [hpos, Bool.not_true, Bool.false_eq_true, if_false] at h h'
      cases hl : FollowReservation.loop F s false fuel (F.SetPos (F.construct o true rts) pos)
          pos RailPathPos.invalid with
      | none => rw [hl] at h; simp at h
      | some r =>
        cases hl' : FollowReservation.loop F s true f (F.SetPos (F.construct o true rts) pos)
            pos RailPathPos.invalid with
        | none => rw [hl'] at h'; simp at h'
        | some r' =>
          obtain ⟨c, st⟩ := r
          obtain ⟨c', st'⟩ := r'
          rw [hl] at h
          rw [hl'] at h'
          simp only [Option.some.injEq, Prod.mk.injEq] at h h'
          rw [← h'.2]
          exact FollowReservation.loop_start_ignore F s fuel f _ pos _ c st c' st' hl h.2 hl'
    · simp [hpos] at h
  refine ⟨?_, ?_, ?_⟩
  · simp only [FollowReservation.path]
    exact List.cons_prefix_cons.mpr ⟨rfl,
      FollowReservation.visits_initial F s false true (fun hc => absurd hc (by simp)) fuel fuel' _
        pos _ hle⟩
  · intro io e b h
    unfold FollowReservation at h
    by_cases hpos : HasReservedPos s pos = true
    · simp only [hpos, Bool.not_true, Bool.false_eq_true, if_false] at h
      cases hl : FollowReservation.loop F s io fuel (F.SetPos (F.construct o true rts) pos)
          pos RailPathPos.invalid with
      | none => rw [hl] at h; simp at h
      | some r =>
        obtain ⟨c, st⟩ := r
        rw [hl] at h
        simp only [Option.some.injEq, Prod.mk.injEq] at h
        simp only [FollowReservation.path]
        refine ⟨?_, ?_⟩
        · rw [← h.1]
          exact FollowReservation.loop_last_visit F s io fuel _ pos _ c st hl
        · rw [FollowReservation.visits_stable F s io fuel fuel' _ pos _ (c, st) hle hl]
    · simp [hpos] at h
  · intro e h
    refine ⟨hflag e h, ?_⟩
    rintro ⟨f, hf⟩
    cases hr : FollowReservation F f s o rts pos true with
    | none => rw [hr] at hf; simp at hf
    | some r =>
      obtain ⟨e', b'⟩ := r
      have hb := hflag e h f e' b' hr
      subst hb
      exact ⟨f, e', hr⟩

/-- C34 (counterexample): on the reserved spur and circle of
    `blockedLassoMap`, started on the spur, the call with
    `ignore_oneway = false` stops in front of the one-way signal on tile 17 and
    returns `true`, while the call with `ignore_oneway = true` passes the
    signal and goes round the circle for ever: it returns nothing, whatever
    the fuel. -/
theorem FollowReservation_ignore_oneway_never_returns :
    FollowReservation lassoFollower 3 blockedLassoMap 0 0
        (RailPathPos.onTile 11 .TRACKDIR_X_NE) false
        = some (RailPathPos.onTile 9 .TRACKDIR_LOWER_E, true) ∧
      ∀ fuel, FollowReservation lassoFollower fuel blockedLassoMap 0 0
        (RailPathPos.onTile 11 .TRACKDIR_X_NE) true = none :=
  ⟨by rfl, blockedLasso_diverges⟩

/-! ## C36, C37: `ResizeButtons` -/

theorem toInt16_of_range (x : Int) (h1 : -32768 ≤ x) (h2 : x ≤ 32767) : toInt16 x = x := by
  unfold toInt16; omega

theorem toInt16_range (x : Int) : -32768 ≤ toInt16 x ∧ toInt16 x ≤ 32767 := by
  unfold toInt16; omega

theorem toByte_of_range (x : Nat) (h : x < 256) : toByte (x : Int) = x := by
  unfold toByte; omega

theorem toByte_succ (x : Nat) (h : x + 1 < 256) : toByte ((x : Int) + 1) = x + 1 := by
  unfold toByte; omega

/-- The division of C by a positive number, in terms of the rounded down
    division. -/
theorem tdiv_pos (a b : Int) (hb : 0 < b) :
    a.tdiv b = if 0 ≤ a then a / b else -((-a) / b) := by
  split
  · rename_i h
    exact Int.tdiv_eq_ediv h (Int.le_of_lt hb)
  · rename_i h
    have h1 : 0 ≤ -a := by omega
    have h2 := Int.tdiv_eq_ediv h1 (Int.le_of_lt hb)
    rw [Int.neg_tdiv] at h2
    omega

/-- The multiplier `num_widgets / (2 * num_widgets)` of the split point is one
    half. -/
theorem ResizeButtons.middle_eq (length num_widgets offset : Int) (h : 0 < num_widgets) :
    ResizeButtons.middle length num_widgets offset = toInt16 (length.tdiv 2 + offset) := by
  unfold ResizeButtons.middle
  congr 2
  rw [tdiv_pos _ _ (by omega : (0 : Int) < 2 * num_widgets), tdiv_pos _ _ (by omega : (0 : Int) < 2)]
  have e1 : length * num_widgets / (2 * num_widgets) = length / 2 := by
    rw [mul_comm length, mul_comm 2, Int.mul_ediv_mul_of_pos _ _ h]
  have e2 : -(length * num_widgets) / (2 * num_widgets) = -length / 2 := by
    rw [← neg_mul, mul_comm (-length), mul_comm 2, Int.mul_ediv_mul_of_pos _ _ h]
  by_cases hl : 0 ≤ length
  · have : 0 ≤ length * num_widgets := Int.mul_nonneg hl (Int.le_of_lt h)
    rw [if_pos this, if_pos hl, e1]
  · have : ¬ 0 ≤ length * num_widgets := by
      have : length * num_widgets < 0 := Int.mul_neg_of_neg_of_pos (by omega) h
      omega
    rw [if_neg this, if_neg hl, e2]

/-- The right edge `ResizeWidgets` gives the first of two widgets. -/
theorem ResizeWidgets.two_shape (w : Widgets) (a : Nat) (x : Int)
    (hx : x = toInt16 ((toInt16 ((w (a + 1)).right - toInt16 (w a).left)).tdiv 2 +
      toInt16 (w a).left)) :
    (∀ i, i ≠ a → i ≠ a + 1 → ResizeWidgets.two w a (a + 1) i = w i) ∧
      ResizeWidgets.two w a (a + 1) a = { w a with right := x } ∧
      ResizeWidgets.two w a (a + 1) (a + 1) = { w (a + 1) with left := toInt16 (x + 1) } := by
  have h1 : a ≠ a + 1 := by omega
  have h2 : a + 1 ≠ a := by omega
  subst hx
  refine ⟨?_, ?_, ?_⟩
  · intro i hi hj
    simp [ResizeWidgets.two, Widgets.set, hi, hj]
  · simp [ResizeWidgets.two, Widgets.set, h1]
  · simp [ResizeWidgets.two, Widgets.set, h2]

/-- The edges `ResizeWidgets` gives three widgets. -/
theorem ResizeWidgets.three_shape (w : Widgets) (a : Nat) (t x y : Int)
    (ht : t = toInt16 ((toInt16 ((w (a + 2)).right - toInt16 (w a).left)).tdiv 3))
    (hx : x = toInt16 (t + toInt16 (w a).left))
    (hy : y = toInt16 (toInt16 (t * 2) + toInt16 (w a).left)) :
    (∀ i, i ≠ a → i ≠ a + 1 → i ≠ a + 2 → ResizeWidgets.three w a (a + 1) (a + 2) i = w i) ∧
      ResizeWidgets.three w a (a + 1) (a + 2) a = { w a with right := x } ∧
      ResizeWidgets.three w a (a + 1) (a + 2) (a + 1) =
        { w (a + 1) with right := y, left := toInt16 (x + 1) } ∧
      ResizeWidgets.three w a (a + 1) (a + 2) (a + 2) =
        { w (a + 2) with left := toInt16 (y + 1) } := by
  have h1 : a ≠ a + 1 := by omega
  have h2 : a + 1 ≠ a := by omega
  have h3 : a ≠ a + 2 := by omega
  have h4 : a + 2 ≠ a := by omega
  have h5 : a + 1 ≠ a + 2 := by omega
  have h6 : a + 2 ≠ a + 1 := by omega
  subst hy hx ht
  refine ⟨?_, ?_, ?_, ?_⟩
  · intro i hi hj hk
    simp [ResizeWidgets.three, Widgets.set, hi, hj, hk]
  · simp [ResizeWidgets.three, Widgets.set, h1, h2, h3, h4, h5, h6]
  · simp [ResizeWidgets.three, Widgets.set, h1, h2, h3, h4, h5, h6]
  · simp [ResizeWidgets.three, Widgets.set, h1, h2, h3, h4, h5, h6]

theorem ResizeWidgets.two_post (w : Widgets) (a : Nat) :
    ResizeButtons.Post w a (a + 1) (ResizeWidgets.two w a (a + 1)) := by
  obtain ⟨ho, ha, hb⟩ := ResizeWidgets.two_shape w a _ rfl
  refine ⟨?_, ?_, ?_, ?_, ?_, ?_, ?_⟩
  · intro i hi
    exact ho i (by omega) (by omega)
  · rw [ha]
  · rw [hb]
  · intro i
    by_cases h1 : i = a
    · subst h1; rw [ha]; exact ⟨rfl, rfl⟩
    by_cases h2 : i = a + 1
    · subst h2; rw [hb]; exact ⟨rfl, rfl⟩
    rw [ho i h1 h2]; exact ⟨rfl, rfl⟩
  · intro i h1 h2
    have : i = a := by omega
    subst this
    rw [ha, hb]
  · intro i h1 h2
    have : i = a := by omega
    subst this
    rw [ha]
    exact toInt16_range _
  · intro hL hR hd hlen i h1 h2
    have : i = a := by omega
    subst this
    rw [ha]
    dsimp only
    have e1 : toInt16 (w i).left = (w i).left := toInt16_of_range _ hL (by omega)
    have e2 : toInt16 ((w (i + 1)).right - (w i).left) = (w (i + 1)).right - (w i).left :=
      toInt16_of_range _ (by omega) (by omega)
    rw [e1, e2, tdiv_pos _ _ (by omega : (0 : Int) < 2)]
    have hpos : 0 ≤ (w (i + 1)).right - (w i).left := by push_cast at hd; omega
    rw [if_pos hpos, toInt16_of_range _ (by omega) (by omega)]
    push_cast at hd
    omega

theorem ResizeWidgets.three_post (w : Widgets) (a : Nat) :
    ResizeButtons.Post w a (a + 2) (ResizeWidgets.three w a (a + 1) (a + 2)) := by
  obtain ⟨ho, ha, hb, hc⟩ := ResizeWidgets.three_shape w a _ _ _ rfl rfl rfl
  refine ⟨?_, ?_, ?_, ?_, ?_, ?_, ?_⟩
  · intro i hi
    exact ho i (by omega) (by omega) (by omega)
  · rw [ha]
  · rw [hc]
  · intro i
    by_cases h1 : i = a
    · subst h1; rw [ha]; exact ⟨rfl, rfl⟩
    by_cases h2 : i = a + 1
    · subst h2; rw [hb]; exact ⟨rfl, rfl⟩
    by_cases h3 : i = a + 2
    · subst h3; rw [hc]; exact ⟨rfl, rfl⟩
    rw [ho i h1 h2 h3]; exact ⟨rfl, rfl⟩
  · intro i h1 h2
    have : i = a ∨ i = a + 1 := by omega
    rcases this with rfl | rfl
    · rw [ha, hb]
    · rw [hb, hc]
  · intro i h1 h2
    have : i = a ∨ i = a + 1 := by omega
    rcases this with rfl | rfl
    · rw [ha]; exact toInt16_range _
    · rw [hb]; exact toInt16_range _
  · intro hL hR hd hlen i h1 h2
    have e1 : toInt16 (w a).left = (w a).left := toInt16_of_range _ hL (by omega)
    have e2 : toInt16 ((w (a + 2)).right - (w a).left) = (w (a + 2)).right - (w a).left :=
      toInt16_of_range _ (by omega) (by omega)
    have hpos : 0 ≤ (w (a + 2)).right - (w a).left := by push_cast at hd; omega
    have e3 : ((w (a + 2)).right - (w a).left).tdiv 3 = ((w (a + 2)).right - (w a).left) / 3 := by
      rw [tdiv_pos _ _ (by omega : (0 : Int) < 3), if_pos hpos]
    have e4 : toInt16 (((w (a + 2)).right - (w a).left) / 3) =
        ((w (a + 2)).right - (w a).left) / 3 := toInt16_of_range _ (by omega) (by omega)
    have e5 : toInt16 (((w (a + 2)).right - (w a).left) / 3 * 2) =
        ((w (a + 2)).right - (w a).left) / 3 * 2 := toInt16_of_range _ (by omega) (by omega)
    push_cast at hd
    have : i = a ∨ i = a + 1 := by omega
    rcases this with rfl | rfl
    · rw [ha]
      dsimp only
      rw [e1, e2, e3, e4, toInt16_of_range _ (by omega) (by omega)]
      omega
    · rw [hb]
      dsimp only
      rw [e1, e2, e3, e4, e5, toInt16_of_range _ (by omega) (by omega)]
      omega

/-- With a unit of fuel for every widget `ResizeButtons` returns, and leaves
    the row as `ResizeButtons.Post` says. -/
theorem ResizeButtons.spec :
    ∀ (fuel : Nat) (w : Widgets) (left right : Nat), left < right → right < 256 →
      right - left ≤ fuel →
      ∃ w', ResizeButtons fuel w left right = some w' ∧ ResizeButtons.Post w left right w' := by
  intro fuel
  induction fuel with
  | zero => intro w left right h1 _ h3; omega
  | succ fuel ih =>
    intro w left right hlt hr hfuel
    have hn : toInt16 ((right : Int) - (left : Int) + 1) = (right : Int) - (left : Int) + 1 :=
      toInt16_of_range _ (by omega) (by omega)
    simp only [ResizeButtons, hn]
    have hn2 : ¬ ((right : Int) - (left : Int) + 1 < 2) := by omega
    rw [if_neg hn2]
    by_cases h2 : (right : Int) - (left : Int) + 1 = 2
    · rw [if_pos h2]
      have hr2 : right = left + 1 := by omega
      subst hr2
      exact ⟨_, rfl, ResizeWidgets.two_post w left⟩
    rw [if_neg h2]
    by_cases h3 : (right : Int) - (left : Int) + 1 = 3
    · rw [if_pos h3]
      have hr3 : right = left + 2 := by omega
      subst hr3
      rw [toByte_succ left (by omega)]
      exact ⟨_, rfl, ResizeWidgets.three_post w left⟩
    rw [if_neg h3]
    -- more than three widgets
    obtain ⟨m, hm⟩ : ∃ m : Nat, m = left + (right - left) / 2 := ⟨_, rfl⟩
    have hwidget : toByte (((right : Int) - (left : Int) + 1 - 1).tdiv 2 + (left : Int)) = m := by
      rw [tdiv_pos _ _ (by omega : (0 : Int) < 2), if_pos (by omega)]
      unfold toByte
      omega
    rw [hwidget, toByte_succ m (by omega)]
    have hlm : left < m := by omega
    have hmr : m + 1 < right := by omega
    have hmm : m ≠ m + 1 := by omega
    have hmm' : m + 1 ≠ m := by omega
    -- the split
    generalize hmid : ResizeButtons.middle
      (toInt16 ((w right).right - toInt16 (w left).left))
      ((right : Int) - (left : Int) + 1) (toInt16 (w left).left) = middle
    generalize hw2 : Widgets.set (Widgets.set w m { w m with right := middle }) (m + 1)
      { Widgets.set w m { w m with right := middle } (m + 1) with
        left := toInt16 ((Widgets.set w m { w m with right := middle } m).right + 1) } = w2
    have hw2o : ∀ i, i ≠ m → i ≠ m + 1 → w2 i = w i := by
      intro i h1 h2
      rw [← hw2]; simp [Widgets.set, h1, h2]
    have hw2m : w2 m = { w m with right := middle } := by
      rw [← hw2]; simp [Widgets.set, hmm]
    have hw2n : w2 (m + 1) = { w (m + 1) with left := toInt16 (middle + 1) } := by
      rw [← hw2]; simp [Widgets.set, hmm']
    have hw2tb : ∀ i, (w2 i).top = (w i).top ∧ (w2 i).bottom = (w i).bottom := by
      intro i
      by_cases h1 : i = m
      · subst h1; rw [hw2m]; exact ⟨rfl, rfl⟩
      by_cases h2 : i = m + 1
      · subst h2; rw [hw2n]; exact ⟨rfl, rfl⟩
      rw [hw2o i h1 h2]; exact ⟨rfl, rfl⟩
    obtain ⟨wa, hwa, pa1, pa2, pa3, pa4, pa5, pa7, pa6⟩ :=
      ih w2 left m hlm (by omega) (by omega)
    obtain ⟨wb, hwb, pb1, pb2, pb3, pb4, pb5, pb7, pb6⟩ :=
      ih wa (m + 1) right hmr hr (by omega)
    rw [hwa]
    dsimp only
    refine ⟨wb, hwb, ?_, ?_, ?_, ?_, ?_, ?_, ?_⟩
    · intro i hi
      rw [pb1 i (by omega), pa1 i (by omega), hw2o i (by omega) (by omega)]
    · rw [pb1 left (by omega), pa2, hw2o left (by omega) (by omega)]
    · rw [pb3, pa1 right (by omega), hw2o right (by omega) (by omega)]
    · intro i
      exact ⟨(pb4 i).1.trans ((pa4 i).1.trans (hw2tb i).1),
        (pb4 i).2.trans ((pa4 i).2.trans (hw2tb i).2)⟩
    · intro i h1 h2
      by_cases hi : i < m
      · rw [pb1 (i + 1) (by omega), pb1 i (by omega)]
        exact pa5 i h1 hi
      by_cases hi' : i = m
      · subst hi'
        rw [pb2, pa1 (i + 1) (by omega), hw2n, pb1 i (by omega), pa3, hw2m]
      exact pb5 i (by omega) h2
    · intro i h1 h2
      by_cases hi : i < m
      · rw [pb1 i (by omega)]
        exact pa7 i h1 hi
      by_cases hi' : i = m
      · subst hi'
        rw [pb1 i (by omega), pa3, hw2m, ← hmid]
        exact toInt16_range _
      exact pb7 i (by omega) h2
    · intro hL hR hd hlen i h1 h2
      have e1 : toInt16 (w left).left = (w left).left := toInt16_of_range _ hL (by omega)
      have e2 : toInt16 ((w right).right - (w left).left) = (w right).right - (w left).left :=
        toInt16_of_range _ (by omega) (by omega)
      have hpos : 0 ≤ (w right).right - (w left).left := by omega
      have hmiddle : middle = (w left).left + ((w right).right - (w left).left) / 2 := by
        rw [← hmid, ResizeButtons.middle_eq _ _ _ (by omega), e1, e2,
          tdiv_pos _ _ (by omega : (0 : Int) < 2), if_pos hpos,
          toInt16_of_range _ (by omega) (by omega)]
        omega
      have hmcast : (m : Int) = (left : Int) + ((right : Int) - (left : Int)) / 2 := by
        rw [hm]; push_cast
        rw [Nat.cast_sub (Nat.le_of_lt hlt)]
      have hwl : (w2 left).left = (w left).left := by rw [hw2o left (by omega) (by omega)]
      have hwm : (w2 m).right = middle := by rw [hw2m]
      have hwn : (wa (m + 1)).left = middle + 1 := by
        rw [pa1 (m + 1) (by omega), hw2n]
        exact toInt16_of_range _ (by omega) (by omega)
      have hwr : (wa right).right = (w right).right := by
        rw [pa1 right (by omega), hw2o right (by omega) (by omega)]
      have ra := pa6 (by rw [hwl]; exact hL) (by rw [hwm]; omega)
        (by rw [hwl, hwm]; omega) (by rw [hwl, hwm]; omega)
      have rb := pb6 (by rw [hwn]; omega) (by rw [hwr]; exact hR)
        (by rw [hwn, hwr]; push_cast; omega) (by rw [hwn, hwr]; omega)
      by_cases hi : i < m
      · rw [pb1 i (by omega)]
        have := ra i h1 hi
        rw [hwl, hwm] at this
        omega
      by_cases hi' : i = m
      · subst hi'
        rw [pb1 i (by omega), pa3, hwm]
        omega
      · have := rb i (by omega) h2
        rw [hwn, hwr] at this
        omega

/-- C36: the split point of `ResizeButtons` for more than three widgets is the
    left edge plus one half of the length, whatever the number of widgets: the
    multiplier `num_widgets / (2 * num_widgets)` is one half. For five widgets
    over the pixels 0 to 100 the right edge of the rightmost widget of the left
    side is 50, not the 2/5 of the length, 40, that the comment in the code
    promises. -/
theorem ResizeButtons_middle_is_half :
    (∀ length num_widgets offset : Int, 0 < num_widgets →
      ResizeButtons.middle length num_widgets offset = toInt16 (length.tdiv 2 + offset)) ∧
      ResizeButtons.middle 100 5 0 = 50 ∧
      (0 : Int) + 100 * (5 / 2) / 5 = 40 ∧
      (ResizeButtons 4 (buttonRow 0 4 0 100) 0 4).map
        (fun w => [(w 0).right, (w 1).right, (w 2).right, (w 3).right, (w 4).right])
        = some [16, 32, 50, 75, 100] :=
  ⟨ResizeButtons.middle_eq, by decide, by decide, by rfl⟩

/-- C37 (counterexample): two widgets whose row starts and ends at pixel 32767.
    `ResizeButtons` leaves the right edge of the first at 32767 and sets the
    left edge of the second to `(int16)(32767 + 1)`, which is -32768 and not
    32768: the widgets do not lie against each other. -/
theorem ResizeButtons_wraps_at_int16_max :
    (ResizeButtons 1 (buttonRow 0 1 32767 32767) 0 1).map
        (fun w => ((w 0).left, (w 0).right, (w 1).left, (w 1).right))
        = some (32767, 32767, -32768, 32767) ∧
      (-32768 : Int) ≠ 32767 + 1 :=
  ⟨by rfl, by decide⟩

/-- C37 (amended): for widgets `left < right` (bytes) `ResizeButtons` returns,
    given a unit of fuel for every widget of the row. Afterwards the widgets
    outside `left..right`, the left edge of `left`, the right edge of `right`
    and every top and bottom are unchanged, and every widget of the row but the
    first starts one pixel after the right edge of the widget before it, in the
    16 bit arithmetic of the coordinates: exactly so unless that right edge is
    32767, and in particular whenever the row has a pixel or more for every
    widget and its length fits 16 bits. -/
theorem ResizeButtons_adjacent (fuel : Nat) (w : Widgets) (left right : Nat) (hlt : left < right)
    (hr : right < 256) (hfuel : right - left ≤ fuel) :
    ∃ w', ResizeButtons fuel w left right = some w' ∧
      (∀ i, i < left ∨ right < i → w' i = w i) ∧
      (w' left).left = (w left).left ∧ (w' right).right = (w right).right ∧
      (∀ i, (w' i).top = (w i).top ∧ (w' i).bottom = (w i).bottom) ∧
      (∀ i, left ≤ i → i < right →
        (w' (i + 1)).left = toInt16 ((w' i).right + 1) ∧
          ((w' i).right ≠ 32767 → (w' (i + 1)).left = (w' i).right + 1)) ∧
      (-32768 ≤ (w left).left → (w right).right ≤ 32767 →
        (right : Int) - (left : Int) ≤ (w right).right - (w left).left →
        (w right).right - (w left).left ≤ 32767 →
        ∀ i, left ≤ i → i < right → (w' (i + 1)).left = (w' i).right + 1) := by
  obtain ⟨w', hw, p1, p2, p3, p4, p5, p7, p6⟩ := ResizeButtons.spec fuel w left right hlt hr hfuel
  refine ⟨w', hw, p1, p2, p3, p4, ?_, ?_⟩
  · intro i h1 h2
    refine ⟨p5 i h1 h2, fun hne => ?_⟩
    rw [p5 i h1 h2]
    have := p7 i h1 h2
    exact toInt16_of_range _ (by omega) (by omega)
  · intro hL hR hd hlen i h1 h2
    rw [p5 i h1 h2]
    have := p6 hL hR hd hlen i h1 h2
    exact toInt16_of_range _ (by omega) (by omega)

/-! ## C39: the position of a scrollbar after a click -/

theorem Window.scrollbar_setScrollbar (w : Window) (id id' : ScrollbarId) (sb : Scrollbar) :
    (w.setScrollbar id sb).scrollbar id' = if id' = id then sb else w.scrollbar id' := by
  cases id <;> cases id' <;> rfl

theorem Window.scrollbar_flags (w : Window) (f : WindowFlags) (id : ScrollbarId) :
    ({ w with flags4 := f }).scrollbar id = w.scrollbar id := by
  cases id <;> rfl

theorem Window.scrollbar_dirty (w : Window) (d : Bool) (id : ScrollbarId) :
    ({ w with dirty := d }).scrollbar id = w.scrollbar id := by
  cases id <;> rfl

theorem ScrollbarClickHandler.select_scrollbar (w w1 : Window) (wi : Widget) (x y mi ma pos : Int)
    (id : ScrollbarId) (h : ScrollbarClickHandler.select w wi x y = some (w1, mi, ma, pos, id))
    (id' : ScrollbarId) : w1.scrollbar id' = w.scrollbar id' := by
  unfold ScrollbarClickHandler.select at h
  split at h <;> simp only [Option.some.injEq, Prod.mk.injEq, reduceCtorEq] at h
  all_goals
    obtain ⟨h1, _⟩ := h
    rw [← h1]
    exact Window.scrollbar_flags _ _ _

/-- The scrollbars of a window after the handling of a click: the clicked one
    keeps `count` and `cap` and, when `pos + cap` fits a byte or the click
    timeout has not run out, `pos <= max(count - cap, 0)`; the other ones are
    untouched. -/
theorem ScrollbarClickHandler.click_scrollbar (g : ScrollGlobals) (w : Window) (mi ma pos : Int)
    (id id' : ScrollbarId) (h16 : (w.scrollbar id).Is16Bit) (hb : (w.scrollbar id).InBounds) :
    ((ScrollbarClickHandler.click g w mi ma pos id).2.scrollbar id').count
        = (w.scrollbar id').count ∧
      ((ScrollbarClickHandler.click g w mi ma pos id).2.scrollbar id').cap
        = (w.scrollbar id').cap ∧
      (id' ≠ id → (ScrollbarClickHandler.click g w mi ma pos id).2.scrollbar id'
        = w.scrollbar id') ∧
      ((w.scrollbar id).pos + (w.scrollbar id).cap < 256 ∨ g.scroller_click_timeout ≠ 0 →
        ((ScrollbarClickHandler.click g w mi ma pos id).2.scrollbar id).InBounds) := by
  obtain ⟨hc, hk, hp⟩ := h16
  unfold Scrollbar.InBounds at hb ⊢
  unfold ScrollbarClickHandler.click
  dsimp only
  refine ⟨?_, ?_, ?_, ?_⟩
  · repeat' split
    all_goals simp only [Window.scrollbar_setScrollbar, Window.scrollbar_flags]
    all_goals try split
    all_goals first
      | rfl
      | (rename_i hid; rw [hid])
  · repeat' split
    all_goals simp only [Window.scrollbar_setScrollbar, Window.scrollbar_flags]
    all_goals try split
    all_goals first
      | rfl
      | (rename_i hid; rw [hid])
  · intro hne
    repeat' split
    all_goals simp only [Window.scrollbar_setScrollbar, Window.scrollbar_flags, hne, if_false]
  · intro hbyte
    repeat' split
    all_goals simp only [Window.scrollbar_setScrollbar, Window.scrollbar_flags, if_true]
    all_goals try (unfold toUint16)
    all_goals try (unfold toByte at *)
    all_goals omega

/-- A click on a scrollbar keeps `pos <= max(count - cap, 0)` unless it is a
    click on the down button, with the click timeout run out, on a scrollbar
    for which `pos + cap` does not fit a byte. -/
theorem ScrollbarClickHandler.keeps_bounds (g g' : ScrollGlobals) (w w' : Window) (wi : Widget)
    (x y : Int) (h : ScrollbarClickHandler g w wi x y = some (g', w'))
    (h16 : ∀ id, (w.scrollbar id).Is16Bit) (hb : ∀ id, (w.scrollbar id).InBounds)
    (hbyte : (∀ id, (w.scrollbar id).pos + (w.scrollbar id).cap < 256) ∨
      g.scroller_click_timeout ≠ 0) :
    ∀ id, (w'.scrollbar id).InBounds ∧ (w'.scrollbar id).count = (w.scrollbar id).count ∧
      (w'.scrollbar id).cap = (w.scrollbar id).cap := by
  intro id'
  unfold ScrollbarClickHandler at h
  cases hs : ScrollbarClickHandler.select w wi x y with
  | none => rw [hs] at h; simp at h
  | some r =>
    obtain ⟨w1, mi, ma, pos, id⟩ := r
    rw [hs] at h
    simp only [Option.some.injEq, Prod.mk.injEq] at h
    have hsel := ScrollbarClickHandler.select_scrollbar w w1 wi x y mi ma pos id hs
    have h16' : (w1.scrollbar id).Is16Bit := by rw [hsel]; exact h16 id
    have hb' : (w1.scrollbar id).InBounds := by rw [hsel]; exact hb id
    obtain ⟨c1, c2, c3, c4⟩ :=
      ScrollbarClickHandler.click_scrollbar g w1 mi ma pos id id' h16' hb'
    rw [← h.2, Window.scrollbar_dirty]
    refine ⟨?_, by rw [c1, hsel], by rw [c2, hsel]⟩
    by_cases hid : id' = id
    · subst hid
      apply c4
      rcases hbyte with hbyte | hbyte
      · left; rw [hsel]; exact hbyte id'
      · right; exact hbyte
    · rw [c3 hid, hsel]
      exact hb id'

/-- C39: a scrollbar of 300 elements with 10 of them visible stands at its
    last position 290 = max(count - cap, 0); a click on the down button with
    the click timeout run out moves it to position 291, past the end of the
    list, because `(byte)(pos + cap)` is 44 and so below `count`. The other
    clicks (up button, page up, page down, drag start, or any click before the
    timeout has run out), and the down button on scrollbars for which
    `pos + cap` fits a byte, keep `pos <= max(count - cap, 0)`. -/
theorem ScrollbarClickHandler_down_button_overshoots :
    Scrollbar.Is16Bit { count := 300, cap := 10, pos := 290 } ∧
      Scrollbar.InBounds { count := 300, cap := 10, pos := 290 } ∧
      (ScrollbarClickHandler (scrollGlobals 0) (scrollWindow { count := 300, cap := 10, pos := 290 })
          scrollbarWidget 5 95).map (fun r => r.2.vscroll)
        = some { count := 300, cap := 10, pos := 291 } ∧
      ¬ Scrollbar.InBounds { count := 300, cap := 10, pos := 291 } ∧
      (∀ (g g' : ScrollGlobals) (w w' : Window) (wi : Widget) (x y : Int),
        ScrollbarClickHandler g w wi x y = some (g', w') →
        (∀ id, (w.scrollbar id).Is16Bit) → (∀ id, (w.scrollbar id).InBounds) →
        ((∀ id, (w.scrollbar id).pos + (w.scrollbar id).cap < 256) ∨
          g.scroller_click_timeout ≠ 0) →
        ∀ id, (w'.scrollbar id).InBounds) := by
  refine ⟨by unfold Scrollbar.Is16Bit; decide, by unfold Scrollbar.InBounds; decide, by rfl,
    by unfold Scrollbar.InBounds; decide, ?_⟩
  intro g g' w w' wi x y h h16 hb hbyte id
  exact (ScrollbarClickHandler.keeps_bounds g g' w w' wi x y h h16 hb hbyte id).1

/-! ## C38: the distribution of extra space in a container -/

theorem toUint_cast (a : Nat) (h : a < 4294967296) : toUint (a : Int) = a := by
  unfold toUint; omega

/-- The pieces of the pie: with `q * num <= add <= (q + 1) * num` the next
    piece `add / num` is `q` or `q + 1` and the rest of the pie is again
    between `q` and `q + 1` for each of the others. -/
theorem piece_of_pie (q add n : Nat) (h1 : q * (n + 1) ≤ add) (h2 : add ≤ (q + 1) * (n + 1)) :
    q ≤ add / (n + 1) ∧ add / (n + 1) ≤ q + 1 ∧ add / (n + 1) ≤ add ∧
      q * n ≤ add - add / (n + 1) ∧ add - add / (n + 1) ≤ (q + 1) * n := by
  have hpos : 0 < n + 1 := Nat.succ_pos n
  have e1 : q ≤ add / (n + 1) := (Nat.le_div_iff_mul_le hpos).mpr h1
  have e2 : add / (n + 1) ≤ q + 1 := Nat.div_le_of_le_mul (by rw [Nat.mul_comm]; exact h2)
  have e3 : add / (n + 1) ≤ add := Nat.div_le_self _ _
  have e4 : add / (n + 1) * (n + 1) ≤ add := Nat.div_mul_le_self _ _
  have e5 : add < (add / (n + 1) + 1) * (n + 1) := by
    have := Nat.lt_succ_iff.mpr (Nat.le_refl (add / (n + 1)))
    exact (Nat.div_lt_iff_lt_mul hpos).mp this
  refine ⟨e1, e2, e3, ?_, ?_⟩
  · have hq : add / (n + 1) = q ∨ add / (n + 1) = q + 1 := by omega
    rcases hq with hq | hq
    · rw [hq] at e4 e5 ⊢
      rw [Nat.mul_succ] at h1
      omega
    · rw [hq] at e4 e5 ⊢
      rw [Nat.mul_succ] at h1 h2 e4
      rw [Nat.add_mul] at h2 e4 
      omega
  · have hq : add / (n + 1) = q ∨ add / (n + 1) = q + 1 := by omega
    rcases hq with hq | hq
    · rw [hq] at e4 e5 ⊢
      rw [Nat.mul_succ] at e5
      omega
    · rw [hq] at e4 e5 ⊢
      rw [Nat.mul_succ] at h2 e4
      omega

theorem NWidgetHorizontal.countChanging_fill_x_cons (ch : NWidgetChild) (rest : List NWidgetChild) :
    NWidgetHorizontal.countChanging (ch :: rest) =
      (if ch.base.fill_x then 1 else 0) + NWidgetHorizontal.countChanging rest := by
  unfold NWidgetHorizontal.countChanging
  cases h : ch.base.fill_x
  · simp [List.filter, h]
  · simp [List.filter, h]
    omega

theorem NWidgetChild.widths_cons_child (ch : NWidgetChild) (rest : List NWidgetChild) :
    NWidgetChild.widths (ch :: rest) =
      ch.base.smallest_x + ch.base.padding_left + ch.base.padding_right +
        NWidgetChild.widths rest := by
  simp [NWidgetChild.widths]

theorem AssignCall.widths_cons_call (k : AssignCall) (rest : List AssignCall) :
    AssignCall.widths (k :: rest) =
      k.given_width + k.child.padding_left + k.child.padding_right + AssignCall.widths rest := by
  simp [AssignCall.widths]

/-- The loop of `NWidgetHorizontal::AssignSizePosition` hands out the whole
    pie: it does not fail, calls every child once, gives the children without
    `fill_x` their smallest width and every other child `q` or `q + 1` pixels
    more, and the widths with the paddings add up to what the children need
    plus the pie. -/
theorem NWidgetHorizontal.assignChildren_widths (x y given_height resize_y : Nat) (rtl : Bool)
    (q : Nat) :
    ∀ (l : List NWidgetChild) (add num : Nat),
      num = NWidgetHorizontal.countChanging l → q * num ≤ add → add ≤ (q + 1) * num →
      NWidgetChild.widths l + add < 4294967296 →
      (∀ ch ∈ l, toUint ((ch.base.smallest_y : Int) + (ch.base.padding_top : Int) +
        (ch.base.padding_bottom : Int)) ≤ given_height) →
      ∀ (position : Nat) (allow : Bool),
        NWidgetHorizontal.assignChildren x y given_height resize_y rtl l add num position allow
            ≠ none ∧
          ∀ r, NWidgetHorizontal.assignChildren x y given_height resize_y rtl l add num position
              allow = some r →
            r.2.map (fun k => k.child) = l.map (fun ch => ch.base) ∧
              AssignCall.widths r.2 = NWidgetChild.widths l + add ∧
              ∀ k ∈ r.2, (k.child.fill_x = false → k.given_width = k.child.smallest_x) ∧
                (k.child.fill_x = true → k.child.smallest_x + q ≤ k.given_width ∧
                  k.given_width ≤ k.child.smallest_x + q + 1) := by
  intro l
  induction l with
  | nil =>
    intro add num hnum _ hq2 _ _ position allow
    have hn0 : num = 0 := by rw [hnum]; rfl
    have ha0 : add = 0 := by rw [hn0] at hq2; omega
    refine ⟨by simp [NWidgetHorizontal.assignChildren], ?_⟩
    intro r hr
    simp only [NWidgetHorizontal.assignChildren, Option.some.injEq] at hr
    rw [← hr]
    simp [AssignCall.widths, NWidgetChild.widths, ha0]
  | cons ch rest ih =>
    intro add num hnum hq1 hq2 hsum hassert position allow
    have hA : ¬ given_height < toUint ((ch.base.smallest_y : Int) + (ch.base.padding_top : Int) +
        (ch.base.padding_bottom : Int)) :=
      not_lt.mpr (hassert ch (List.mem_cons_self _ _))
    have hassert' : ∀ c ∈ rest, toUint ((c.base.smallest_y : Int) + (c.base.padding_top : Int) +
        (c.base.padding_bottom : Int)) ≤ given_height :=
      fun c hc => hassert c (List.mem_cons_of_mem _ hc)
    rw [NWidgetHorizontal.countChanging_fill_x_cons] at hnum
    rw [NWidgetChild.widths_cons_child] at hsum
    simp only [NWidgetHorizontal.assignChildren, if_neg hA]
    cases hf : ch.base.fill_x with
    | false =>
      rw [hf] at hnum
      simp only [Bool.false_eq_true, false_and, if_false] at hnum ⊢
      have hnum' : num = NWidgetHorizontal.countChanging rest := by omega
      have hrec := ih add num hnum' hq1 hq2 (by omega) hassert'
      constructor
      · split
        · rename_i heq
          exact absurd heq (hrec _ _).1
        · simp
      · intro r hr
        split at hr
        · simp at hr
        · rename_i r' heq
          obtain ⟨h1, h2, h3⟩ := (hrec _ _).2 r' heq
          simp only [Option.some.injEq] at hr
          rw [← hr]
          refine ⟨?_, ?_, ?_⟩
          · simp only [List.map_cons, h1]
          · rw [AssignCall.widths_cons_call, NWidgetChild.widths_cons_child, h2]
            dsimp only
            omega
          · intro k hk
            rcases List.mem_cons.mp hk with rfl | hk
            · exact ⟨fun _ => rfl, fun hc => by simp [hf] at hc⟩
            · exact h3 k hk
    | true =>
      rw [hf] at hnum
      simp only [if_true] at hnum
      obtain ⟨n, rfl⟩ : ∃ n, num = n + 1 := ⟨NWidgetHorizontal.countChanging rest, by omega⟩
      have hnum' : n = NWidgetHorizontal.countChanging rest := by omega
      obtain ⟨p1, p2, p3, p4, p5⟩ := piece_of_pie q add n hq1 hq2
      have hpos : n + 1 > 0 := Nat.succ_pos n
      have hw : toUint ((ch.base.smallest_x : Int) + ((add / (n + 1) : Nat) : Int)) =
          ch.base.smallest_x + add / (n + 1) := by
        unfold toUint; omega
      have ha : toUint ((add : Int) - ((add / (n + 1) : Nat) : Int)) = add - add / (n + 1) := by
        unfold toUint; omega
      simp only [hpos, and_self, if_true, hw, ha, Nat.add_sub_cancel]
      have hrec := ih (add - add / (n + 1)) n hnum' p4 p5 (by omega) hassert'
      constructor
      · split
        · rename_i heq
          exact absurd heq (hrec _ _).1
        · simp
      · intro r hr
        split at hr
        · simp at hr
        · rename_i r' heq
          obtain ⟨h1, h2, h3⟩ := (hrec _ _).2 r' heq
          simp only [Option.some.injEq] at hr
          rw [← hr]
          refine ⟨?_, ?_, ?_⟩
          · simp only [List.map_cons, h1]
          · rw [AssignCall.widths_cons_call, NWidgetChild.widths_cons_child, h2]
            dsimp only
            omega
          · intro k hk
            rcases List.mem_cons.mp hk with rfl | hk
            · exact ⟨fun hc => by simp [hf] at hc, fun _ => ⟨by dsimp only; omega,
                by dsimp only; omega⟩⟩
            · exact h3 k hk

/-- The loop of `NWidgetHorizontal::SetupSmallestSize` adds up the widths the
    children need, when the sum fits a `uint`, and takes the biggest of the
    heights they need. -/
theorem NWidgetHorizontal.setupChildren_widths (lcm : Nat → Nat → Nat) (pip_inter pip_post : Nat) :
    ∀ (l : List NWidgetChild) (biggest_index : Int) (b : NWidgetBase),
      (b.smallest_x + NWidgetChild.widths
          (NWidgetHorizontal.setupChildren lcm pip_inter pip_post l biggest_index b).1
            < 4294967296 →
        (NWidgetHorizontal.setupChildren lcm pip_inter pip_post l biggest_index b).2.2.smallest_x =
          b.smallest_x + NWidgetChild.widths
            (NWidgetHorizontal.setupChildren lcm pip_inter pip_post l biggest_index b).1) ∧
      b.smallest_y ≤
        (NWidgetHorizontal.setupChildren lcm pip_inter pip_post l biggest_index b).2.2.smallest_y ∧
      ∀ ch ∈ (NWidgetHorizontal.setupChildren lcm pip_inter pip_post l biggest_index b).1,
        toUint ((ch.base.smallest_y : Int) + (ch.base.padding_top : Int) +
          (ch.base.padding_bottom : Int)) ≤
        (NWidgetHorizontal.setupChildren lcm pip_inter pip_post l biggest_index b).2.2.smallest_y := by
  intro l
  induction l with
  | nil =>
    intro bi b
    simp [NWidgetHorizontal.setupChildren, NWidgetChild.widths]
  | cons ch rest ih =>
    intro bi b
    simp only [NWidgetHorizontal.setupChildren]
    generalize NWidgetHorizontal.setupChild pip_inter pip_post ch rest.isEmpty = r
    have hbx : (NWidgetHorizontal.accumulate lcm b r.1).smallest_x =
        toUint ((b.smallest_x : Int) + (r.1.smallest_x : Int) +
          (r.1.padding_left : Int) + (r.1.padding_right : Int)) := rfl
    have hby : (NWidgetHorizontal.accumulate lcm b r.1).smallest_y =
        max b.smallest_y (toUint ((r.1.smallest_y : Int) +
          (r.1.padding_top : Int) + (r.1.padding_bottom : Int))) := rfl
    obtain ⟨i1, i2, i3⟩ := ih (max bi r.2) (NWidgetHorizontal.accumulate lcm b r.1)
    refine ⟨?_, ?_, ?_⟩
    · intro hlt
      rw [NWidgetChild.widths_cons_child] at hlt ⊢
      dsimp only at hlt ⊢
      have e : (NWidgetHorizontal.accumulate lcm b r.1).smallest_x =
          b.smallest_x + r.1.smallest_x + r.1.padding_left + r.1.padding_right := by
        rw [hbx]; unfold toUint; omega
      rw [i1 (by omega), e]
      omega
    · exact Nat.le_trans (by rw [hby]; exact Nat.le_max_left _ _) i2
    · intro c hc
      rcases List.mem_cons.mp hc with rfl | hc
      · exact Nat.le_trans (by rw [hby]; exact Nat.le_max_right _ _) i2
      · exact i3 c hc

theorem NWidgetHorizontal.countChanging_reverse (l : List NWidgetChild) :
    NWidgetHorizontal.countChanging l.reverse = NWidgetHorizontal.countChanging l := by
  simp [NWidgetHorizontal.countChanging, List.filter_reverse]

theorem NWidgetChild.widths_reverse (l : List NWidgetChild) :
    NWidgetChild.widths l.reverse = NWidgetChild.widths l := by
  simp [NWidgetChild.widths, List.sum_reverse]

theorem NWidgetHorizontal.countChanging_fill_x_pos (l : List NWidgetChild)
    (h : ∃ ch ∈ l, ch.base.fill_x = true) : 0 < NWidgetHorizontal.countChanging l := by
  obtain ⟨ch, hm, hf⟩ := h
  unfold NWidgetHorizontal.countChanging
  exact List.length_pos_of_mem (List.mem_filter.mpr ⟨hm, hf⟩)

/-- The distribution of extra width by a horizontal container whose smallest
    size fits the widths its children need. -/
theorem NWidgetHorizontal.AssignSizePosition_exact_widths (c : NWidgetPIPContainer)
    (x y given_width given_height : Nat) (allow_resize_x allow_resize_y rtl : Bool)
    (hsx : c.base.smallest_x = NWidgetChild.widths c.children)
    (hsy : ∀ ch ∈ c.children, toUint ((ch.base.smallest_y : Int) + (ch.base.padding_top : Int) +
      (ch.base.padding_bottom : Int)) ≤ c.base.smallest_y)
    (hgw : c.base.smallest_x ≤ given_width) (hgw32 : given_width < 4294967296)
    (hgh : c.base.smallest_y ≤ given_height)
    (hfill : ∃ ch ∈ c.children, ch.base.fill_x = true) :
    ∃ c' calls,
      NWidgetHorizontal.AssignSizePosition c x y given_width given_height allow_resize_x
        allow_resize_y rtl = some (c', calls) ∧
      calls.map (fun k => k.child) =
        (if rtl then c.children.reverse else c.children).map (fun ch => ch.base) ∧
      AssignCall.widths calls = given_width ∧
      (∀ k ∈ calls, k.child.fill_x = false → k.given_width = k.child.smallest_x) ∧
      (∀ k ∈ calls, k.child.smallest_x ≤ k.given_width) ∧
      (∀ k ∈ calls, ∀ k' ∈ calls, k.child.fill_x = true → k'.child.fill_x = true →
        k.given_width - k.child.smallest_x ≤ k'.given_width - k'.child.smallest_x + 1) := by
  have hpos := NWidgetHorizontal.countChanging_fill_x_pos c.children hfill
  have hadd : toUint ((given_width : Int) - (c.base.smallest_x : Int)) =
      given_width - c.base.smallest_x := by unfold toUint; omega
  generalize hl : (if rtl then c.children.reverse else c.children) = l
  have hcount : NWidgetHorizontal.countChanging c.children = NWidgetHorizontal.countChanging l := by
    rw [← hl]; cases rtl
    · rfl
    · exact (NWidgetHorizontal.countChanging_reverse _).symm
  have hwidths : NWidgetChild.widths l = NWidgetChild.widths c.children := by
    rw [← hl]; cases rtl
    · rfl
    · exact NWidgetChild.widths_reverse _
  have hmem : ∀ ch ∈ l, ch ∈ c.children := by
    rw [← hl]; cases rtl
    · exact fun ch h => h
    · exact fun ch h => List.mem_reverse.mp h
  obtain ⟨q, hq1, hq2⟩ : ∃ q, q * NWidgetHorizontal.countChanging c.children ≤
      given_width - c.base.smallest_x ∧ given_width - c.base.smallest_x ≤
        (q + 1) * NWidgetHorizontal.countChanging c.children :=
    ⟨(given_width - c.base.smallest_x) / NWidgetHorizontal.countChanging c.children,
      Nat.div_mul_le_self _ _,
      Nat.le_of_lt ((Nat.div_lt_iff_lt_mul hpos).mp (Nat.lt_succ_self _))⟩
  have hspec := NWidgetHorizontal.assignChildren_widths x y given_height
    (if allow_resize_y then c.base.resize_y else 0) rtl q l
    (given_width - c.base.smallest_x) (NWidgetHorizontal.countChanging c.children) hcount hq1 hq2
    (by rw [hwidths, ← hsx]; omega)
    (fun ch hc => Nat.le_trans (hsy ch (hmem ch hc)) hgh) 0
    (decide ((if allow_resize_x then c.base.resize_x else 0) > 0))
  unfold NWidgetHorizontal.AssignSizePosition
  have hassert : ¬ ¬ (given_width ≥ c.base.smallest_x ∧ given_height ≥ c.base.smallest_y) :=
    not_not.mpr ⟨hgw, hgh⟩
  rw [if_neg hassert]
  dsimp only
  rw [hadd, hl]
  cases hr : NWidgetHorizontal.assignChildren x y given_height
      (if allow_resize_y then c.base.resize_y else 0) rtl l (given_width - c.base.smallest_x)
      (NWidgetHorizontal.countChanging c.children) 0
      (decide ((if allow_resize_x then c.base.resize_x else 0) > 0)) with
  | none => exact absurd hr hspec.1
  | some r =>
    obtain ⟨h1, h2, h3⟩ := hspec.2 r hr
    refine ⟨_, _, rfl, h1, ?_, ?_, ?_, ?_⟩
    · rw [h2, hwidths, ← hsx]; omega
    · exact fun k hk => (h3 k hk).1
    · intro k hk
      cases hf : k.child.fill_x with
      | false => exact Nat.le_of_eq ((h3 k hk).1 hf).symm
      | true => have := ((h3 k hk).2 hf).1; omega
    · intro k hk k' hk' hf hf'
      have a1 := (h3 k hk).2 hf
      have a2 := (h3 k' hk').2 hf'
      omega

theorem NWidgetVertical.countChanging_fill_y_cons (ch : NWidgetChild) (rest : List NWidgetChild) :
    NWidgetVertical.countChanging (ch :: rest) =
      (if ch.base.fill_y then 1 else 0) + NWidgetVertical.countChanging rest := by
  unfold NWidgetVertical.countChanging
  cases h : ch.base.fill_y
  · simp [List.filter, h]
  · simp [List.filter, h]
    omega

theorem NWidgetChild.heights_cons_child (ch : NWidgetChild) (rest : List NWidgetChild) :
    NWidgetChild.heights (ch :: rest) =
      ch.base.smallest_y + ch.base.padding_top + ch.base.padding_bottom +
        NWidgetChild.heights rest := by
  simp [NWidgetChild.heights]

theorem AssignCall.heights_cons_call (k : AssignCall) (rest : List AssignCall) :
    AssignCall.heights (k :: rest) =
      k.given_height + k.child.padding_top + k.child.padding_bottom +
        AssignCall.heights rest := by
  simp [AssignCall.heights]

/-- The loop of `NWidgetVertical::AssignSizePosition` hands out the whole pie,
    as long as the pie fits an `int`. -/
theorem NWidgetVertical.assignChildren_heights (x y given_width resize_x : Nat) (rtl : Bool)
    (q : Nat) :
    ∀ (l : List NWidgetChild) (add num : Nat),
      num = NWidgetVertical.countChanging l → q * num ≤ add → add ≤ (q + 1) * num →
      NWidgetChild.heights l + add < 4294967296 → add < 2147483648 →
      (∀ ch ∈ l, toUint ((ch.base.smallest_x : Int) + (ch.base.padding_left : Int) +
        (ch.base.padding_right : Int)) ≤ given_width) →
      ∀ (position : Nat) (allow : Bool),
        NWidgetVertical.assignChildren x y given_width resize_x rtl l (add : Int) (num : Int)
            position allow ≠ none ∧
          ∀ r, NWidgetVertical.assignChildren x y given_width resize_x rtl l (add : Int)
              (num : Int) position allow = some r →
            r.2.map (fun k => k.child) = l.map (fun ch => ch.base) ∧
              AssignCall.heights r.2 = NWidgetChild.heights l + add ∧
              ∀ k ∈ r.2, (k.child.fill_y = false → k.given_height = k.child.smallest_y) ∧
                (k.child.fill_y = true → k.child.smallest_y + q ≤ k.given_height ∧
                  k.given_height ≤ k.child.smallest_y + q + 1) := by
  intro l
  induction l with
  | nil =>
    intro add num hnum _ hq2 _ _ _ position allow
    have hn0 : num = 0 := by rw [hnum]; rfl
    have ha0 : add = 0 := by rw [hn0] at hq2; omega
    refine ⟨by simp [NWidgetVertical.assignChildren], ?_⟩
    intro r hr
    simp only [NWidgetVertical.assignChildren, Option.some.injEq] at hr
    rw [← hr]
    simp [AssignCall.heights, NWidgetChild.heights, ha0]
  | cons ch rest ih =>
    intro add num hnum hq1 hq2 hsum hint hassert position allow
    have hA : ¬ given_width < toUint ((ch.base.smallest_x : Int) + (ch.base.padding_left : Int) +
        (ch.base.padding_right : Int)) :=
      not_lt.mpr (hassert ch (List.mem_cons_self _ _))
    have hassert' : ∀ c ∈ rest, toUint ((c.base.smallest_x : Int) + (c.base.padding_left : Int) +
        (c.base.padding_right : Int)) ≤ given_width :=
      fun c hc => hassert c (List.mem_cons_of_mem _ hc)
    rw [NWidgetVertical.countChanging_fill_y_cons] at hnum
    rw [NWidgetChild.heights_cons_child] at hsum
    simp only [NWidgetVertical.assignChildren, if_neg hA]
    cases hf : ch.base.fill_y with
    | false =>
      rw [hf] at hnum
      simp only [Bool.false_eq_true, false_and, if_false] at hnum ⊢
      have hnum' : num = NWidgetVertical.countChanging rest := by omega
      have hrec := ih add num hnum' hq1 hq2 (by omega) hint hassert'
      constructor
      · split
        · rename_i heq
          exact absurd heq (hrec _ _).1
        · simp
      · intro r hr
        split at hr
        · simp at hr
        · rename_i r' heq
          obtain ⟨h1, h2, h3⟩ := (hrec _ _).2 r' heq
          simp only [Option.some.injEq] at hr
          rw [← hr]
          refine ⟨?_, ?_, ?_⟩
          · simp only [List.map_cons, h1]
          · rw [AssignCall.heights_cons_call, NWidgetChild.heights_cons_child, h2]
            dsimp only
            omega
          · intro k hk
            rcases List.mem_cons.mp hk with rfl | hk
            · exact ⟨fun _ => rfl, fun hc => by simp [hf] at hc⟩
            · exact h3 k hk
    | true =>
      rw [hf] at hnum
      simp only [if_true] at hnum
      obtain ⟨n, rfl⟩ : ∃ n, num = n + 1 := ⟨NWidgetVertical.countChanging rest, by omega⟩
      have hnum' : n = NWidgetVertical.countChanging rest := by omega
      obtain ⟨p1, p2, p3, p4, p5⟩ := piece_of_pie q add n hq1 hq2
      have hpos : ((n + 1 : Nat) : Int) > 0 := by omega
      have hdiv : (add : Int).tdiv ((n + 1 : Nat) : Int) = ((add / (n + 1) : Nat) : Int) := by
        rw [Int.tdiv_eq_ediv (by omega) (by omega)]
        norm_cast
      have hinc : toUint ((add : Int).tdiv ((n + 1 : Nat) : Int)) = add / (n + 1) := by
        rw [hdiv]; unfold toUint; omega
      have hw : toUint ((ch.base.smallest_y : Int) + ((add / (n + 1) : Nat) : Int)) =
          ch.base.smallest_y + add / (n + 1) := by
        unfold toUint; omega
      have ha : toInt32 ((add : Int) - ((add / (n + 1) : Nat) : Int)) =
          ((add - add / (n + 1) : Nat) : Int) := by
        unfold toInt32; omega
      have hn1 : ((n + 1 : Nat) : Int) - 1 = (n : Int) := by omega
      simp only [hpos, and_self, if_true, hinc, hw, ha, hn1]
      have hrec := ih (add - add / (n + 1)) n hnum' p4 p5 (by omega) (by omega) hassert'
      constructor
      · split
        · rename_i heq
          exact absurd heq (hrec _ _).1
        · simp
      · intro r hr
        split at hr
        · simp at hr
        · rename_i r' heq
          obtain ⟨h1, h2, h3⟩ := (hrec _ _).2 r' heq
          simp only [Option.some.injEq] at hr
          rw [← hr]
          refine ⟨?_, ?_, ?_⟩
          · simp only [List.map_cons, h1]
          · rw [AssignCall.heights_cons_call, NWidgetChild.heights_cons_child, h2]
            dsimp only
            omega
          · intro k hk
            rcases List.mem_cons.mp hk with rfl | hk
            · exact ⟨fun hc => by simp [hf] at hc, fun _ => ⟨by dsimp only; omega,
                by dsimp only; omega⟩⟩
            · exact h3 k hk

/-- The loop of `NWidgetVertical::SetupSmallestSize` adds up the heights the
    children need, when the sum fits a `uint`, and takes the biggest of the
    widths they need. -/
theorem NWidgetVertical.setupChildren_heights (lcm : Nat → Nat → Nat) (pip_inter pip_post : Nat) :
    ∀ (l : List NWidgetChild) (biggest_index : Int) (b : NWidgetBase),
      (b.smallest_y + NWidgetChild.heights
          (NWidgetVertical.setupChildren lcm pip_inter pip_post l biggest_index b).1
            < 4294967296 →
        (NWidgetVertical.setupChildren lcm pip_inter pip_post l biggest_index b).2.2.smallest_y =
          b.smallest_y + NWidgetChild.heights
            (NWidgetVertical.setupChildren lcm pip_inter pip_post l biggest_index b).1) ∧
      b.smallest_x ≤
        (NWidgetVertical.setupChildren lcm pip_inter pip_post l biggest_index b).2.2.smallest_x ∧
      ∀ ch ∈ (NWidgetVertical.setupChildren lcm pip_inter pip_post l biggest_index b).1,
        toUint ((ch.base.smallest_x : Int) + (ch.base.padding_left : Int) +
          (ch.base.padding_right : Int)) ≤
        (NWidgetVertical.setupChildren lcm pip_inter pip_post l biggest_index b).2.2.smallest_x := by
  intro l
  induction l with
  | nil =>
    intro bi b
    simp [NWidgetVertical.setupChildren, NWidgetChild.heights]
  | cons ch rest ih =>
    intro bi b
    simp only [NWidgetVertical.setupChildren]
    generalize NWidgetVertical.setupChild pip_inter pip_post ch rest.isEmpty = r
    have hby : (NWidgetVertical.accumulate lcm b r.1).smallest_y =
        toUint ((b.smallest_y : Int) + (r.1.smallest_y : Int) +
          (r.1.padding_top : Int) + (r.1.padding_bottom : Int)) := rfl
    have hbx : (NWidgetVertical.accumulate lcm b r.1).smallest_x =
        max b.smallest_x (toUint ((r.1.smallest_x : Int) +
          (r.1.padding_left : Int) + (r.1.padding_right : Int))) := rfl
    obtain ⟨i1, i2, i3⟩ := ih (max bi r.2) (NWidgetVertical.accumulate lcm b r.1)
    refine ⟨?_, ?_, ?_⟩
    · intro hlt
      rw [NWidgetChild.heights_cons_child] at hlt ⊢
      dsimp only at hlt ⊢
      have e : (NWidgetVertical.accumulate lcm b r.1).smallest_y =
          b.smallest_y + r.1.smallest_y + r.1.padding_top + r.1.padding_bottom := by
        rw [hby]; unfold toUint; omega
      rw [i1 (by omega), e]
      omega
    · exact Nat.le_trans (by rw [hbx]; exact Nat.le_max_left _ _) i2
    · intro c hc
      rcases List.mem_cons.mp hc with rfl | hc
      · exact Nat.le_trans (by rw [hbx]; exact Nat.le_max_right _ _) i2
      · exact i3 c hc

theorem NWidgetVertical.countChanging_fill_y_pos (l : List NWidgetChild)
    (h : ∃ ch ∈ l, ch.base.fill_y = true) : 0 < NWidgetVertical.countChanging l := by
  obtain ⟨ch, hm, hf⟩ := h
  unfold NWidgetVertical.countChanging
  exact List.length_pos_of_mem (List.mem_filter.mpr ⟨hm, hf⟩)

/-- The distribution of extra height by a vertical container whose smallest
    size fits the heights its children need. -/
theorem NWidgetVertical.AssignSizePosition_exact_heights (c : NWidgetPIPContainer)
    (x y given_width given_height : Nat) (allow_resize_x allow_resize_y rtl : Bool)
    (hsy : c.base.smallest_y = NWidgetChild.heights c.children)
    (hsx : ∀ ch ∈ c.children, toUint ((ch.base.smallest_x : Int) + (ch.base.padding_left : Int) +
      (ch.base.padding_right : Int)) ≤ c.base.smallest_x)
    (hgh : c.base.smallest_y ≤ given_height) (hgh31 : given_height < 2147483648)
    (hgw : c.base.smallest_x ≤ given_width)
    (hfill : ∃ ch ∈ c.children, ch.base.fill_y = true) :
    ∃ c' calls,
      NWidgetVertical.AssignSizePosition c x y given_width given_height allow_resize_x
        allow_resize_y rtl = some (c', calls) ∧
      calls.map (fun k => k.child) = c.children.map (fun ch => ch.base) ∧
      AssignCall.heights calls = given_height ∧
      (∀ k ∈ calls, k.child.fill_y = false → k.given_height = k.child.smallest_y) ∧
      (∀ k ∈ calls, k.child.smallest_y ≤ k.given_height) ∧
      (∀ k ∈ calls, ∀ k' ∈ calls, k.child.fill_y = true → k'.child.fill_y = true →
        k.given_height - k.child.smallest_y ≤ k'.given_height - k'.child.smallest_y + 1) := by
  have hpos := NWidgetVertical.countChanging_fill_y_pos c.children hfill
  have hadd : toInt32 ((given_height : Int) - (c.base.smallest_y : Int)) =
      ((given_height - c.base.smallest_y : Nat) : Int) := by unfold toInt32; omega
  obtain ⟨q, hq1, hq2⟩ : ∃ q, q * NWidgetVertical.countChanging c.children ≤
      given_height - c.base.smallest_y ∧ given_height - c.base.smallest_y ≤
        (q + 1) * NWidgetVertical.countChanging c.children :=
    ⟨(given_height - c.base.smallest_y) / NWidgetVertical.countChanging c.children,
      Nat.div_mul_le_self _ _,
      Nat.le_of_lt ((Nat.div_lt_iff_lt_mul hpos).mp (Nat.lt_succ_self _))⟩
  have hspec := NWidgetVertical.assignChildren_heights x y given_width
    (if allow_resize_x then c.base.resize_x else 0) rtl q c.children
    (given_height - c.base.smallest_y) (NWidgetVertical.countChanging c.children) rfl hq1 hq2
    (by rw [← hsy]; omega) (by omega)
    (fun ch hc => Nat.le_trans (hsx ch hc) hgw) 0
    (decide ((if allow_resize_y then c.base.resize_y else 0) > 0))
  unfold NWidgetVertical.AssignSizePosition
  have hassert : ¬ ¬ (given_width ≥ c.base.smallest_x ∧ given_height ≥ c.base.smallest_y) :=
    not_not.mpr ⟨hgw, hgh⟩
  rw [if_neg hassert]
  dsimp only
  rw [hadd]
  cases hr : NWidgetVertical.assignChildren x y given_width
      (if allow_resize_x then c.base.resize_x else 0) rtl c.children
      ((given_height - c.base.smallest_y : Nat) : Int)
      ((NWidgetVertical.countChanging c.children : Nat) : Int) 0
      (decide ((if allow_resize_y then c.base.resize_y else 0) > 0)) with
  | none => exact absurd hr hspec.1
  | some r =>
    obtain ⟨h1, h2, h3⟩ := hspec.2 r hr
    refine ⟨_, _, rfl, h1, ?_, ?_, ?_, ?_⟩
    · rw [h2, ← hsy]; omega
    · exact fun k hk => (h3 k hk).1
    · intro k hk
      cases hf : k.child.fill_y with
      | false => exact Nat.le_of_eq ((h3 k hk).1 hf).symm
      | true => have := ((h3 k hk).2 hf).1; omega
    · intro k hk k' hk' hf hf'
      have a1 := (h3 k hk).2 hf
      have a2 := (h3 k' hk').2 hf'
      omega

/-- C38 (counterexample): sizes that do not fit the machine integers. Two
    filling spacers of 2^31 pixels in a horizontal container add up to the
    smallest width 0 in `uint`; given the width 10 the container hands each of
    them 2^31 + 5 pixels, together 4294967306 and not 10. The vertical
    container of `spacerRow`, whose smallest height is 46, given the height
    3000000000 computes a negative `additional_length` in `int` and hands out
    heights that, with the paddings, add up to 7294967296. -/
theorem NWidget_AssignSizePosition_overflows :
    ((NWidgetHorizontal.SetupSmallestSize Nat.lcm wideRow).1.base.smallest_x = 0 ∧
      (NWidgetHorizontal.SetupSmallestSize Nat.lcm wideRow).1.base.smallest_y = 12 ∧
      (NWidgetHorizontal.SetupSmallestSize Nat.lcm wideRow).1.children.map
        (fun ch => ch.base.fill_x) = [true, true] ∧
      (NWidgetHorizontal.AssignSizePosition (NWidgetHorizontal.SetupSmallestSize Nat.lcm wideRow).1
        0 0 10 60 true true false).map (fun r => r.2.map (fun k => k.given_width))
        = some [2147483653, 2147483653] ∧
      (NWidgetHorizontal.AssignSizePosition (NWidgetHorizontal.SetupSmallestSize Nat.lcm wideRow).1
        0 0 10 60 true true false).map (fun r => AssignCall.widths r.2)
        = some 4294967306) ∧
    ((NWidgetVertical.SetupSmallestSize Nat.lcm spacerRow).1.base.smallest_y = 46 ∧
      (NWidgetVertical.SetupSmallestSize Nat.lcm spacerRow).1.base.smallest_x = 20 ∧
      (NWidgetVertical.SetupSmallestSize Nat.lcm spacerRow).1.children.map
        (fun ch => ch.base.fill_y) = [true, false, true] ∧
      (NWidgetVertical.AssignSizePosition (NWidgetVertical.SetupSmallestSize Nat.lcm spacerRow).1
        0 0 55 3000000000 true true false).map (fun r => r.2.map (fun k => k.given_height))
        = some [3647483637, 12, 3647483637] ∧
      (NWidgetVertical.AssignSizePosition (NWidgetVertical.SetupSmallestSize Nat.lcm spacerRow).1
        0 0 55 3000000000 true true false).map (fun r => AssignCall.heights r.2)
        = some 7294967296) :=
  ⟨⟨by rfl, by rfl, by rfl, by rfl, by rfl⟩, ⟨by rfl, by rfl, by rfl, by rfl, by rfl⟩⟩

/-- C38 (amended): a horizontal container `c` and a vertical container `d` whose smallest
    sizes were computed by `SetupSmallestSize`, and that are given at least
    their smallest size, hand out the extra space exactly when one child or
    more fills: `AssignSizePosition` returns, calls `AssignSizePosition` of
    every child once, in the order of the children (backwards for a horizontal
    container with `rtl`); the widths (heights) handed to the children, each
    with both paddings of the child, add up to the given width (height); a
    child without `fill_x` (`fill_y`) is handed its smallest width (height), no
    child is handed less; and the extra amounts of two filling children differ
    by at most 1. The sizes are taken to fit the machine integers: the widths
    the children need and the given width fit a `uint`, the given height of the
    vertical container fits an `int`. -/
theorem NWidget_AssignSizePosition_distributes (lcm : Nat → Nat → Nat)
    (c d : NWidgetPIPContainer) (x y given_width given_height : Nat)
    (allow_resize_x allow_resize_y rtl : Bool) (x' y' given_width' given_height' : Nat)
    (allow_resize_x' allow_resize_y' rtl' : Bool)
    (hcw : NWidgetChild.widths (NWidgetHorizontal.SetupSmallestSize lcm c).1.children
      < 4294967296)
    (hcx : (NWidgetHorizontal.SetupSmallestSize lcm c).1.base.smallest_x ≤ given_width)
    (hcy : (NWidgetHorizontal.SetupSmallestSize lcm c).1.base.smallest_y ≤ given_height)
    (hc32 : given_width < 4294967296)
    (hcf : ∃ ch ∈ (NWidgetHorizontal.SetupSmallestSize lcm c).1.children, ch.base.fill_x = true)
    (hdh : NWidgetChild.heights (NWidgetVertical.SetupSmallestSize lcm d).1.children
      < 4294967296)
    (hdx : (NWidgetVertical.SetupSmallestSize lcm d).1.base.smallest_x ≤ given_width')
    (hdy : (NWidgetVertical.SetupSmallestSize lcm d).1.base.smallest_y ≤ given_height')
    (hd31 : given_height' < 2147483648)
    (hdf : ∃ ch ∈ (NWidgetVertical.SetupSmallestSize lcm d).1.children, ch.base.fill_y = true) :
    (∃ c' calls,
      NWidgetHorizontal.AssignSizePosition (NWidgetHorizontal.SetupSmallestSize lcm c).1 x y
        given_width given_height allow_resize_x allow_resize_y rtl = some (c', calls) ∧
      calls.map (fun k => k.child) =
        (if rtl then (NWidgetHorizontal.SetupSmallestSize lcm c).1.children.reverse
          else (NWidgetHorizontal.SetupSmallestSize lcm c).1.children).map (fun ch => ch.base) ∧
      AssignCall.widths calls = given_width ∧
      (∀ k ∈ calls, k.child.fill_x = false → k.given_width = k.child.smallest_x) ∧
      (∀ k ∈ calls, k.child.smallest_x ≤ k.given_width) ∧
      (∀ k ∈ calls, ∀ k' ∈ calls, k.child.fill_x = true → k'.child.fill_x = true →
        k.given_width - k.child.smallest_x ≤ k'.given_width - k'.child.smallest_x + 1)) ∧
    (∃ d' calls,
      NWidgetVertical.AssignSizePosition (NWidgetVertical.SetupSmallestSize lcm d).1 x' y'
        given_width' given_height' allow_resize_x' allow_resize_y' rtl' = some (d', calls) ∧
      calls.map (fun k => k.child) =
        (NWidgetVertical.SetupSmallestSize lcm d).1.children.map (fun ch => ch.base) ∧
      AssignCall.heights calls = given_height' ∧
      (∀ k ∈ calls, k.child.fill_y = false → k.given_height = k.child.smallest_y) ∧
      (∀ k ∈ calls, k.child.smallest_y ≤ k.given_height) ∧
      (∀ k ∈ calls, ∀ k' ∈ calls, k.child.fill_y = true → k'.child.fill_y = true →
        k.given_height - k.child.smallest_y ≤ k'.given_height - k'.child.smallest_y + 1)) := by
  constructor
  · obtain ⟨s1, _, s3⟩ := NWidgetHorizontal.setupChildren_widths lcm c.pip_inter c.pip_post
      (NWidgetHorizontal.padHead c.pip_pre c.children) (-1)
      { c.base with smallest_x := 0, smallest_y := 0, fill_x := false, fill_y := true,
                    resize_x := 0, resize_y := 1 }
    exact NWidgetHorizontal.AssignSizePosition_exact_widths _ x y given_width given_height
      allow_resize_x allow_resize_y rtl
      (by
        have := s1 (by simpa using hcw)
        simpa using this)
      s3 hcx hc32 hcy hcf
  · obtain ⟨s1, _, s3⟩ := NWidgetVertical.setupChildren_heights lcm d.pip_inter d.pip_post
      (NWidgetVertical.padHead d.pip_pre d.children) (-1)
      { d.base with smallest_x := 0, smallest_y := 0, fill_x := true, fill_y := false,
                    resize_x := 1, resize_y := 0 }
    exact NWidgetVertical.AssignSizePosition_exact_heights _ x' y' given_width' given_height'
      allow_resize_x' allow_resize_y' rtl'
      (by
        have := s1 (by simpa using hdh)
        simpa using this)
      s3 hdy hd31 hdx hdf

/-! ## The theorems at concrete maps -/

theorem TryReserveRailTrack_true_iff_witness :
    ∃ b s', TryReserveRailTrack (mapWith junctionTile) 5 .TRACK_LOWER false = some (b, s') ∧
      (b = true ↔
        (HasTrackBit (GetReservedTrackbits (mapWith junctionTile) 5) .TRACK_LOWER = false ∧
          ∀ r, HasTrackBit (GetReservedTrackbits (mapWith junctionTile) 5) r = true →
            TracksCross r .TRACK_LOWER = false)) ∧
      (GetTileType (mapWith junctionTile) 5 ≠ .TT_RAILWAY →
        (b = true ↔ SingleReservationFlag (mapWith junctionTile) 5 = false)) :=
  TryReserveRailTrack_true_iff (mapWith junctionTile) 5 .TRACK_LOWER false (by decide) (by decide)

theorem mutual_exclusion_witness :
    (∃ s2, TryReserveRailTrack
        (stateOr (mapWith freeJunctionTile)
          (TryReserveRailTrack (mapWith freeJunctionTile) 5 .TRACK_X false))
        5 .TRACK_UPPER false = some (false, s2)) ∧
      (GetReservedTrackbits (mapWith freeJunctionTile) 5 = TRACK_BIT_NONE →
        ∃ s3 s4, UnreserveRailTrack
            (stateOr (mapWith freeJunctionTile)
              (TryReserveRailTrack (mapWith freeJunctionTile) 5 .TRACK_X false))
            5 .TRACK_X = some s3 ∧
          TryReserveRailTrack s3 5 .TRACK_UPPER false = some (true, s4)) ∧
      (GetTileType (mapWith freeJunctionTile) 5 ≠ .TT_RAILWAY → ∀ t3 trig3,
        CarriesTrack (mapWith freeJunctionTile) 5 t3 = true →
        ∃ s2, TryReserveRailTrack
          (stateOr (mapWith freeJunctionTile)
            (TryReserveRailTrack (mapWith freeJunctionTile) 5 .TRACK_X false))
          5 t3 trig3 = some (false, s2)) :=
  mutual_exclusion (mapWith freeJunctionTile) _ 5 .TRACK_X .TRACK_UPPER false false rfl
    (by decide) (by decide)

theorem TryReserveRailTrack_false_frame_witness :
    (stateOr (mapWith junctionTile)
        (TryReserveRailTrack (mapWith junctionTile) 5 .TRACK_X false)).tiles =
        (mapWith junctionTile).tiles ∧
      (stateOr (mapWith junctionTile)
        (TryReserveRailTrack (mapWith junctionTile) 5 .TRACK_X false)).train_near_crossing =
        (mapWith junctionTile).train_near_crossing ∧
      (stateOr (mapWith junctionTile)
        (TryReserveRailTrack (mapWith junctionTile) 5 .TRACK_X false)).station_triggers =
        (mapWith junctionTile).station_triggers :=
  TryReserveRailTrack_false_frame (mapWith junctionTile) _ 5 .TRACK_X false rfl

theorem reserve_unreserve_roundtrip_witness :
    ∃ s2, UnreserveRailTrack
        (stateOr (mapWith crossingTile) (TryReserveRailTrack (mapWith crossingTile) 5 .TRACK_X true))
        5 .TRACK_X = some s2 ∧
      (∀ u, GetReservedTrackbits s2 u = GetReservedTrackbits (mapWith crossingTile) u) ∧
      (∀ u, (s2.tiles u).reservation = ((mapWith crossingTile).tiles u).reservation) :=
  reserve_unreserve_roundtrip (mapWith crossingTile) _ 5 .TRACK_X true rfl

theorem no_reservation_bits_noop_witness :
    (∃ s', TryReserveRailTrack (mapWith oddGroundTile) 5 .TRACK_X false = some (false, s') ∧
        s'.tiles = (mapWith oddGroundTile).tiles) ∧
      (∃ s'', UnreserveRailTrack (mapWith oddGroundTile) 5 .TRACK_X = some s'' ∧
        s''.tiles = (mapWith oddGroundTile).tiles) :=
  no_reservation_bits_noop (mapWith oddGroundTile) 5 .TRACK_X false (by decide) (by decide)

theorem mutator_oracle_agree_witness :
    HasTrackBit (GetReservedTrackbits
        (stateOr (mapWith crossingTile) (TryReserveRailTrack (mapWith crossingTile) 5 .TRACK_X true))
        5) .TRACK_X = true ∧
      ∀ (s0 : State) (u : TileIndex), HasRailReservationBits s0 u = false →
        GetReservedTrackbits s0 u = TRACK_BIT_NONE :=
  mutator_oracle_agree (mapWith crossingTile) _ 5 .TRACK_X true (fun _ => by decide) rfl

theorem platform_sweep_witness :
    ∃ s', SetRailStationPlatformReservation 3 platformMap 10 .DIAGDIR_SW true = some s' ∧
      (∀ k, k < 3 →
        HasStationReservation s'
          (platformTile 10 (TileOffsByDiagDir platformMap .DIAGDIR_SW) k) = true) ∧
      (∀ k, k < 3 → s'.tiles (platformTile 10 (TileOffsByDiagDir platformMap .DIAGDIR_SW) k) =
        { platformMap.tiles (platformTile 10 (TileOffsByDiagDir platformMap .DIAGDIR_SW) k) with
          station_reserved := true }) ∧
      (∀ u, (∀ k, k < 3 → u ≠ platformTile 10 (TileOffsByDiagDir platformMap .DIAGDIR_SW) k) →
        s'.tiles u = platformMap.tiles u) ∧
      s'.dirty =
        ((List.range 3).map
          (platformTile 10 (TileOffsByDiagDir platformMap .DIAGDIR_SW))).reverse ++
          platformMap.dirty :=
  platform_sweep 3 platformMap 10 .DIAGDIR_SW true 3 (by decide) (by decide) (by decide)
    (by decide) (fun k h1 h2 => by interval_cases k <;> rfl) (by rfl) (le_refl 3)

theorem platform_sweep_symmetry_witness :
    ∃ s1 s2, SetRailStationPlatformReservation 3 platformMap 10 .DIAGDIR_SW true = some s1 ∧
      SetRailStationPlatformReservation 3 s1 10 .DIAGDIR_SW false = some s2 ∧
      (∀ k, k < 3 → s1.tiles (platformTile 10 (TileOffsByDiagDir platformMap .DIAGDIR_SW) k) =
        { platformMap.tiles (platformTile 10 (TileOffsByDiagDir platformMap .DIAGDIR_SW) k) with
          station_reserved := true }) ∧
      (∀ u, (∀ k, k < 3 → u ≠ platformTile 10 (TileOffsByDiagDir platformMap .DIAGDIR_SW) k) →
        s1.tiles u = platformMap.tiles u) ∧
      (∀ k, k < 3 → s2.tiles (platformTile 10 (TileOffsByDiagDir platformMap .DIAGDIR_SW) k) =
        { s1.tiles (platformTile 10 (TileOffsByDiagDir platformMap .DIAGDIR_SW) k) with
          station_reserved := false }) ∧
      (∀ u, (∀ k, k < 3 → u ≠ platformTile 10 (TileOffsByDiagDir platformMap .DIAGDIR_SW) k) →
        s2.tiles u = s1.tiles u) ∧
      (∀ k, k < 3 →
        HasStationReservation s1
            (platformTile 10 (TileOffsByDiagDir platformMap .DIAGDIR_SW) k) = true ∧
          HasStationReservation s2
            (platformTile 10 (TileOffsByDiagDir platformMap .DIAGDIR_SW) k) = false) ∧
      s2.tiles = platformMap.tiles ∧
      s1.dirty =
        ((List.range 3).map
          (platformTile 10 (TileOffsByDiagDir platformMap .DIAGDIR_SW))).reverse ++
          platformMap.dirty ∧
      s2.dirty =
        ((List.range 3).map
          (platformTile 10 (TileOffsByDiagDir platformMap .DIAGDIR_SW))).reverse ++ s1.dirty ∧
      ((List.range 3).map (platformTile 10 (TileOffsByDiagDir platformMap .DIAGDIR_SW))).Nodup ∧
      ((List.range 3).map
        (platformTile 10 (TileOffsByDiagDir platformMap .DIAGDIR_SW))).length = 3 ∧
      platformRunLength platformMap 10 (TileOffsByDiagDir platformMap .DIAGDIR_SW) 3 10 = 3 :=
  platform_sweep_symmetry 3 platformMap 10 .DIAGDIR_SW 3 (by decide) (by decide) (by decide)
    (by decide) (fun k h1 h2 => by interval_cases k <;> rfl)
    (by rfl) (fun k hk => by interval_cases k <;> rfl) (le_refl 3)

theorem FollowReservation_stops_at_signal_witness :
    FollowReservation lineFollower 3 lineMap 0 0 (RailPathPos.onTile 1 .TRACKDIR_X_SW) false =
      some (RailPathPos.onTile 4 .TRACKDIR_X_SW, true) :=
  FollowReservation_stops_at_signal lineFollower lineMap 0 0 false 3
    (walkFollower lineFollower lineMap
      (lineFollower.SetPos (lineFollower.construct 0 true 0)
        (RailPathPos.onTile 1 .TRACKDIR_X_SW)))
    (walkPos lineFollower lineMap 0 0 (RailPathPos.onTile 1 .TRACKDIR_X_SW)) 3
    (by decide) (by rfl) rfl
    (fun i hi => by interval_cases i <;> exact ⟨_, rfl, rfl, rfl⟩)
    (by rfl)
    (fun _ i h1 h2 => by interval_cases i <;> rfl)
    (fun i h1 h2 => by interval_cases i; decide)
    (fun i h1 h2 => by interval_cases i <;> exact Or.inr rfl)
    (fun i h1 h2 => by interval_cases i <;> exact Or.inl rfl)
    ⟨by rfl, by rfl⟩ (le_refl 3)

theorem FollowReservation_on_loop_witness :
    FollowReservation ringFollower 5 ringMap 0 0 (RailPathPos.onTile 9 .TRACKDIR_LOWER_E) false =
      some (RailPathPos.onTile 17 .TRACKDIR_LEFT_S, true) :=
  FollowReservation_on_loop ringFollower ringMap 0 0 false 5
    (walkFollower ringFollower ringMap
      (ringFollower.SetPos (ringFollower.construct 0 true 0)
        (RailPathPos.onTile 9 .TRACKDIR_LOWER_E)))
    (walkPos ringFollower ringMap 0 0 (RailPathPos.onTile 9 .TRACKDIR_LOWER_E)) 5
    (by decide) (by rfl) rfl
    (fun i hi => by interval_cases i <;> exact ⟨_, rfl, rfl, rfl⟩)
    (by rfl)
    (fun _ i h1 h2 => by interval_cases i <;> rfl)
    (by rfl)
    (fun i h1 h2 => by interval_cases i <;> decide)
    (fun i h1 h2 => by interval_cases i <;> exact Or.inr rfl)
    (fun i h1 h2 => by interval_cases i <;> exact Or.inl rfl)
    (le_refl 5)

theorem FollowReservation_terminates_witness :
    ∃ r, FollowReservation ringFollower (4 + 1) ringMap 0 0
      (RailPathPos.onTile 9 .TRACKDIR_LOWER_E) false = some r :=
  FollowReservation_terminates ringFollower ringMap 0 0 (RailPathPos.onTile 9 .TRACKDIR_LOWER_E)
    false
    {RailPathPos.onTile 9 .TRACKDIR_LOWER_E, RailPathPos.onTile 17 .TRACKDIR_LEFT_S,
      RailPathPos.onTile 18 .TRACKDIR_UPPER_W, RailPathPos.onTile 10 .TRACKDIR_RIGHT_N}
    4 (by rfl) (by decide)
    (fun i h1 h2 _ => by interval_cases i <;> decide)
    (fun _ => by rfl)
    (fun i j h1 h2 h3 _ h => by
      interval_cases j <;> interval_cases i <;> first | rfl | exact absurd h (by decide))

theorem FollowReservation_respects_blocking_signal_witness :
    FollowReservation lineFollower 3 blockedLineMap 0 0 (RailPathPos.onTile 1 .TRACKDIR_X_SW)
      false = some (RailPathPos.onTile 3 .TRACKDIR_X_SW, true) :=
  (FollowReservation_respects_blocking_signal lineFollower blockedLineMap 0 0
    (RailPathPos.onTile 1 .TRACKDIR_X_SW)
    (fun tile td h => by
      simp only [HasStationReservation, blockedLineMap, lineMap, mapWith] at h
      split at h <;> exact absurd h (by decide))).2 3
    (walkFollower lineFollower blockedLineMap
      (lineFollower.SetPos (lineFollower.construct 0 true 0)
        (RailPathPos.onTile 1 .TRACKDIR_X_SW)))
    (walkPos lineFollower blockedLineMap 0 0 (RailPathPos.onTile 1 .TRACKDIR_X_SW)) 3
    (by decide) (by rfl) (by rfl) rfl
    (fun i hi => by interval_cases i <;> exact ⟨_, rfl, rfl, rfl⟩)
    (fun _ => by rfl)
    (fun i h1 h2 => by interval_cases i <;> rfl)
    (by rfl)
    (fun i h1 h2 => by interval_cases i; decide)
    (fun i h1 h2 => by interval_cases i <;> exact Or.inr rfl)
    (fun i h1 h2 => by interval_cases i <;> exact Or.inl rfl)
    (le_refl 3)

theorem FindTrain_lowest_index_witness :
    ((FindTrainOnTrack twoTrainsPool 5 .TRACK_X = none ↔
        ∀ v ∈ twoTrainsPool.on_tile 5, v.isTrainOnTrack .TRACK_X = false) ∧
      (∀ t, FindTrainOnTrack twoTrainsPool 5 .TRACK_X = some t →
        (∃ v ∈ twoTrainsPool.on_tile 5, v.isTrainOnTrack .TRACK_X = true ∧
            t = v.First twoTrainsPool) ∧
          ∀ w ∈ twoTrainsPool.on_tile 5, w.isTrainOnTrack .TRACK_X = true →
            t.index ≤ (w.First twoTrainsPool).index) ∧
      (∀ V' : Vehicles, V'.get = twoTrainsPool.get →
        (V'.on_tile 5).Perm (twoTrainsPool.on_tile 5) →
        FindTrainOnTrack V' 5 .TRACK_X = FindTrainOnTrack twoTrainsPool 5 .TRACK_X)) ∧
    ((FindTrainInWormhole twoTrainsPool 5 = none ↔
        ∀ v ∈ twoTrainsPool.on_tile 5, v.isTrainInWormhole = false) ∧
      (∀ t, FindTrainInWormhole twoTrainsPool 5 = some t →
        (∃ v ∈ twoTrainsPool.on_tile 5, v.isTrainInWormhole = true ∧
            t = v.First twoTrainsPool) ∧
          ∀ w ∈ twoTrainsPool.on_tile 5, w.isTrainInWormhole = true →
            t.index ≤ (w.First twoTrainsPool).index) ∧
      (∀ V' : Vehicles, V'.get = twoTrainsPool.get →
        (V'.on_tile 5).Perm (twoTrainsPool.on_tile 5) →
        FindTrainInWormhole V' 5 = FindTrainInWormhole twoTrainsPool 5)) :=
  FindTrain_lowest_index twoTrainsPool 5 .TRACK_X (fun i => by
    simp only [twoTrainsPool]
    split
    · next h => rw [h]; rfl
    · rfl)

theorem FindTrainOnPathEnd_first_location_witness :
    ∃ k, (∃ v ∈ platformPool.on_tile
            (FindTrainOnPathEnd.location platformMap (RailPathPos.onTile 12 .TRACKDIR_X_SW) k),
          FindTrainOnPathEnd.qualifies (RailPathPos.onTile 12 .TRACKDIR_X_SW) v = true ∧
            trainUnit 3 3 11 (.onTrack .TRACKDIR_X_NE) = v.First platformPool) ∧
      (∀ w ∈ platformPool.on_tile
          (FindTrainOnPathEnd.location platformMap (RailPathPos.onTile 12 .TRACKDIR_X_SW) k),
        FindTrainOnPathEnd.qualifies (RailPathPos.onTile 12 .TRACKDIR_X_SW) w = true →
          (trainUnit 3 3 11 (.onTrack .TRACKDIR_X_NE)).index ≤ (w.First platformPool).index) ∧
      (∀ j, j < k → ∀ w ∈ platformPool.on_tile
          (FindTrainOnPathEnd.location platformMap (RailPathPos.onTile 12 .TRACKDIR_X_SW) j),
        FindTrainOnPathEnd.qualifies (RailPathPos.onTile 12 .TRACKDIR_X_SW) w = false) ∧
      (k = 0 ∨ ((RailPathPos.onTile 12 .TRACKDIR_X_SW).in_wormhole = true ∧ k = 1) ∨
        ((RailPathPos.onTile 12 .TRACKDIR_X_SW).in_wormhole = false ∧
          IsRailStationTile platformMap (RailPathPos.onTile 12 .TRACKDIR_X_SW).tile = true ∧
          ∀ j, 1 ≤ j → j ≤ k →
            IsCompatibleTrainStationTile platformMap
              (FindTrainOnPathEnd.location platformMap (RailPathPos.onTile 12 .TRACKDIR_X_SW) j)
              (RailPathPos.onTile 12 .TRACKDIR_X_SW).tile = true)) :=
  FindTrainOnPathEnd_first_location platformPool 3 platformMap
    (RailPathPos.onTile 12 .TRACKDIR_X_SW) (trainUnit 3 3 11 (.onTrack .TRACKDIR_X_NE)) (by rfl)

theorem FollowTrainReservation_unreserved_witness :
    FollowTrainReservation lineFollower linePool 0 (mapWith groundTile)
        (trainUnit 1 1 4 (.onTrack .TRACKDIR_X_SW)) true =
      some ((trainUnit 1 1 4 (.onTrack .TRACKDIR_X_SW)).pos, true) :=
  FollowTrainReservation_unreserved lineFollower linePool 0 (mapWith groundTile)
    (trainUnit 1 1 4 (.onTrack .TRACKDIR_X_SW)) true rfl (by rfl)

theorem GetTrainForReservation_release_witness :
    HasReservedTrack lineMap 2 .TRACK_X = true ∧
      (∀ t, true = true → some (trainUnit 1 1 4 (.onTrack .TRACKDIR_X_SW)) = some t →
        [trainUnit 1 1 4 (.onTrack .TRACKDIR_X_SW)] = [t] ∧
          releaseMark lineMap (trainUnit 1 1 4 (.onTrack .TRACKDIR_X_SW)) =
            releaseMark lineMap t) ∧
      ((true = false ∨ some (trainUnit 1 1 4 (.onTrack .TRACKDIR_X_SW)) = none) →
        [trainUnit 1 1 4 (.onTrack .TRACKDIR_X_SW)] = [] ∧
          releaseMark lineMap (trainUnit 1 1 4 (.onTrack .TRACKDIR_X_SW)) = lineMap) :=
  GetTrainForReservation_release axisFollower linePool releaseMark 3 lineMap 2 .TRACK_X true
    (some (trainUnit 1 1 4 (.onTrack .TRACKDIR_X_SW)))
    (releaseMark lineMap (trainUnit 1 1 4 (.onTrack .TRACKDIR_X_SW)))
    [trainUnit 1 1 4 (.onTrack .TRACKDIR_X_SW)] (by rfl)

theorem GetTrainForReservation_depot_mismatch_witness :
    GetTrainForReservation axisFollower depotPool releaseMark 3 depotLineMap 3 .TRACK_X true =
      some (none, depotLineMap, []) :=
  GetTrainForReservation_depot_mismatch axisFollower depotPool releaseMark 3 depotLineMap 3
    .TRACK_X true (trainUnit 1 1 1 (.onTrack .TRACKDIR_X_NE)) (by rfl) (by rfl) (by rfl)
    (by decide) (Or.inl ⟨by rfl, by rfl⟩)

theorem CheckWaitingPosition_depot_entry_busy_witness :
    CheckWaitingPosition axisFollower (mapWith reservedDepotTile)
      (trainUnit 1 1 6 (.onTrack .TRACKDIR_X_NE)) (RailPathPos.onTile 5 .TRACKDIR_X_NE) false
      .PBS_CHECK_SAFE = .ok .PBS_BUSY :=
  CheckWaitingPosition_depot_entry_busy axisFollower (mapWith reservedDepotTile)
    (trainUnit 1 1 6 (.onTrack .TRACKDIR_X_NE)) (RailPathPos.onTile 5 .TRACKDIR_X_NE) false
    .PBS_CHECK_SAFE (by rfl) (by rfl) (by rfl) (by rfl)

theorem CheckWaitingPosition_free_full_consistent_witness :
    CheckWaitingPosition axisFollower (signalLineMap false true true false .SIGTYPE_PBS)
        waitingTrain (RailPathPos.onTile 2 .TRACKDIR_X_SW) false .PBS_CHECK_FREE =
        .ok .PBS_BUSY ∧
      (CheckWaitingPosition axisFollower (signalLineMap false true true false .SIGTYPE_PBS)
          waitingTrain (RailPathPos.onTile 2 .TRACKDIR_X_SW) false .PBS_CHECK_FREE =
          .ok .PBS_FREE ↔
        CheckWaitingPosition axisFollower (signalLineMap false true true false .SIGTYPE_PBS)
          waitingTrain (RailPathPos.onTile 2 .TRACKDIR_X_SW) false .PBS_CHECK_FULL =
          .ok .PBS_FREE) :=
  CheckWaitingPosition_free_full_consistent axisFollower
    (signalLineMap false true true false .SIGTYPE_PBS) waitingTrain
    (RailPathPos.onTile 2 .TRACKDIR_X_SW) false .PBS_BUSY (by rfl) (by decide)

theorem CheckWaitingPosition_before_block_signal_witness :
    CheckWaitingPosition axisFollower (signalLineMap false false true true .SIGTYPE_NORMAL)
        waitingTrain (RailPathPos.onTile 2 .TRACKDIR_X_SW) false .PBS_CHECK_FULL =
        .ok .PBS_UNSAFE ∧
      CheckWaitingPosition axisFollower (signalLineMap false false true true .SIGTYPE_NORMAL)
        waitingTrain (RailPathPos.onTile 2 .TRACKDIR_X_SW) false .PBS_CHECK_SAFE =
        .ok .PBS_UNSAFE ∧
      (PositionOccupied (signalLineMap false false true true .SIGTYPE_NORMAL)
          (RailPathPos.onTile 2 .TRACKDIR_X_SW) = false →
        CheckWaitingPosition axisFollower (signalLineMap false false true true .SIGTYPE_NORMAL)
          waitingTrain (RailPathPos.onTile 2 .TRACKDIR_X_SW) false .PBS_CHECK_SAFE_FREE =
          .ok .PBS_UNSAFE) ∧
      (PositionOccupied (signalLineMap false false true true .SIGTYPE_NORMAL)
          (RailPathPos.onTile 2 .TRACKDIR_X_SW) = true →
        CheckWaitingPosition axisFollower (signalLineMap false false true true .SIGTYPE_NORMAL)
          waitingTrain (RailPathPos.onTile 2 .TRACKDIR_X_SW) false .PBS_CHECK_SAFE_FREE =
          .ok .PBS_BUSY) ∧
      CheckWaitingPosition axisFollower (signalLineMap false false true true .SIGTYPE_NORMAL)
        waitingTrain (RailPathPos.onTile 2 .TRACKDIR_X_SW) false .PBS_CHECK_FREE ≠
        .ok .PBS_UNSAFE :=
  CheckWaitingPosition_before_block_signal axisFollower
    (signalLineMap false false true true .SIGTYPE_NORMAL) waitingTrain
    (RailPathPos.onTile 2 .TRACKDIR_X_SW) false stepFromTwo (by rfl) (by rfl) (by rfl) (by rfl)
    (by rfl) (by rfl) (by rfl)

theorem CheckWaitingPosition_before_pbs_signal_witness :
    CheckWaitingPosition axisFollower (signalLineMap false false true false .SIGTYPE_PBS)
        waitingTrain (RailPathPos.onTile 2 .TRACKDIR_X_SW) false .PBS_CHECK_FULL =
        .ok .PBS_FREE ∧
      CheckWaitingPosition axisFollower (signalLineMap false false true false .SIGTYPE_PBS)
        waitingTrain (RailPathPos.onTile 2 .TRACKDIR_X_SW) false .PBS_CHECK_SAFE_FREE =
        .ok .PBS_FREE :=
  CheckWaitingPosition_before_pbs_signal axisFollower
    (signalLineMap false false true false .SIGTYPE_PBS) waitingTrain
    (RailPathPos.onTile 2 .TRACKDIR_X_SW) false stepFromTwo (by rfl) (by rfl) (by rfl) (by rfl)
    (by rfl) (by rfl) (by rfl) (by rfl)

theorem CheckWaitingPosition_safe_ignores_reservation_witness :
    CheckWaitingPosition axisFollower (signalLineMap true true true false .SIGTYPE_PBS)
        waitingTrain (RailPathPos.onTile 2 .TRACKDIR_X_SW) false .PBS_CHECK_SAFE =
        CheckWaitingPosition axisFollower (signalLineMap false false true false .SIGTYPE_PBS)
          waitingTrain (RailPathPos.onTile 2 .TRACKDIR_X_SW) false .PBS_CHECK_SAFE ∧
      CheckWaitingPosition axisFollower (signalLineMap false false true false .SIGTYPE_PBS)
        waitingTrain (RailPathPos.onTile 2 .TRACKDIR_X_SW) false .PBS_CHECK_SAFE ≠
        .ok .PBS_BUSY :=
  CheckWaitingPosition_safe_ignores_reservation axisFollower
    (signalLineMap false false true false .SIGTYPE_PBS)
    (signalLineMap true true true false .SIGTYPE_PBS) waitingTrain
    (RailPathPos.onTile 2 .TRACKDIR_X_SW) false
    ⟨fun u => by simp only [signalLineMap]; split_ifs <;> rfl,
      rfl, rfl, rfl, rfl, rfl, rfl, rfl, rfl, rfl, rfl⟩
    (by rfl) (by rfl)

theorem CheckWaitingPosition_full_free_iff_witness :
    CheckWaitingPosition axisFollower (signalLineMap false false true false .SIGTYPE_PBS)
      waitingTrain (RailPathPos.onTile 2 .TRACKDIR_X_SW) false .PBS_CHECK_FULL =
      .ok .PBS_FREE :=
  (CheckWaitingPosition_full_free_iff axisFollower
    (signalLineMap false false true false .SIGTYPE_PBS) waitingTrain
    (RailPathPos.onTile 2 .TRACKDIR_X_SW) false stepFromTwo (by rfl) (by rfl) (by rfl) (by rfl)
    (by rfl)).mpr ⟨⟨by rfl, Or.inl ⟨by rfl, by rfl⟩⟩, by rfl, by rfl⟩

theorem CheckWaitingPosition_end_of_track_witness :
    CheckWaitingPosition axisFollower lineMap waitingTrain
      (RailPathPos.onTile 5 .TRACKDIR_X_SW) false .PBS_CHECK_FULL = .ok .PBS_BUSY ∧
    PositionOccupied lineMap (RailPathPos.onTile 5 .TRACKDIR_X_SW) = true :=
  ⟨(CheckWaitingPosition_end_of_track axisFollower lineMap waitingTrain
    (RailPathPos.onTile 5 .TRACKDIR_X_SW) false .PBS_CHECK_FULL (by rfl) (by rfl) (by rfl)
    (by rfl)).1, by rfl⟩

theorem CheckWaitingPosition_rejects_next_witness :
    CheckWaitingPosition axisFollower (signalLineMap false false false false .SIGTYPE_NORMAL)
      waitingTrain (RailPathPos.onTile 2 .TRACKDIR_X_SW) false .PBS_CHECK_SAFE =
      .ok .PBS_UNSAFE :=
  (CheckWaitingPosition_rejects_next axisFollower
    (signalLineMap false false false false .SIGTYPE_NORMAL) waitingTrain
    (RailPathPos.onTile 2 .TRACKDIR_X_SW) false .PBS_CHECK_SAFE stepFromTwo (by decide) (by rfl)
    (by rfl) (by rfl) (Or.inr (Or.inl rfl)) (by rfl) (by rfl)
    (Or.inr (Or.inl ⟨by rfl, by rfl⟩))).1

theorem CheckWaitingPosition_at_block_signal_witness :
    CheckWaitingPosition axisFollower signalJunctionMap waitingTrain
        (RailPathPos.onTile 5 .TRACKDIR_X_NE) false .PBS_CHECK_FULL = .ok .PBS_FREE ∧
      PositionOccupied signalJunctionMap (RailPathPos.onTile 5 .TRACKDIR_X_NE) = true ∧
      OwnTrackReserved signalJunctionMap (RailPathPos.onTile 5 .TRACKDIR_X_NE) = false :=
  ⟨(CheckWaitingPosition_at_block_signal axisFollower signalJunctionMap waitingTrain
    (RailPathPos.onTile 5 .TRACKDIR_X_NE) false .PBS_CHECK_FULL (by rfl) (by rfl) (by rfl)).1,
    by rfl, by rfl⟩

theorem PFNewPos_SetTrackdir_single_witness :
    ((PFNewPos.SetTrackdir { tile := 5, td := .INVALID_TRACKDIR, trackdirs := 8 }).IsTrackdirSet
        = true ↔ ∃ k, (8 : Nat) = 2 ^ k) ∧
      (∀ k, (8 : Nat) = 2 ^ k →
        TrackdirValue
            (PFNewPos.SetTrackdir { tile := 5, td := .INVALID_TRACKDIR, trackdirs := 8 }).td = k ∧
          TrackdirToTrackdirBits
            (PFNewPos.SetTrackdir { tile := 5, td := .INVALID_TRACKDIR, trackdirs := 8 }).td
              = 8) ∧
      ((¬ ∃ k, (8 : Nat) = 2 ^ k) →
        (PFNewPos.SetTrackdir { tile := 5, td := .INVALID_TRACKDIR, trackdirs := 8 }).td =
          .INVALID_TRACKDIR) ∧
      (PFNewPos.SetTrackdir { tile := 5, td := .INVALID_TRACKDIR, trackdirs := 8 }).trackdirs
        = 8 ∧
      (PFNewPos.SetTrackdir { tile := 5, td := .INVALID_TRACKDIR, trackdirs := 8 }).tile = 5 :=
  PFNewPos_SetTrackdir_single { tile := 5, td := .INVALID_TRACKDIR, trackdirs := 8 } (by decide)

theorem stationEndMap_tiles_other (t : TileIndex) (h9 : t ≠ 9) (h10 : t ≠ 10) (h11 : t ≠ 11)
    (h12 : t ≠ 12) (h13 : t ≠ 13) : stationEndMap.tiles t = groundTile := by
  simp [stationEndMap, h9, h10, h11, h12, h13]

theorem stationEndMap_no_overlap : NoOverlappingReservation stationEndMap := by
  intro t
  by_cases h9 : t = 9
  · subst h9; decide
  by_cases h10 : t = 10
  · subst h10; decide
  by_cases h11 : t = 11
  · subst h11; decide
  by_cases h12 : t = 12
  · subst h12; decide
  by_cases h13 : t = 13
  · subst h13; decide
  have ht := stationEndMap_tiles_other t h9 h10 h11 h12 h13
  simp [GetReservedTrackbits, GetTileType, ht, groundTile, TracksOverlap, TRACK_BIT_NONE]

theorem platformFollower_steps_on_track (ft g : CFollowTrackRail)
    (h : platformFollower.FollowNext stationEndMap ft = some g) :
    FollowerStepsOnTrack stationEndMap g := by
  simp only [platformFollower] at h
  generalize ft.m_new.tile + 1 = t at h
  have hplain : ∀ u, g = followerAt ft.m_veh_owner ft.m_allow_90deg ft.m_railtypes
      ft.m_new.toRailPathPos u .TRACKDIR_X_SW .DIAGDIR_SW → FollowerStepsOnTrack stationEndMap g := by
    intro u hu _
    subst hu
    refine ⟨fun _ => ?_, fun hc => by simp [followerAt] at hc⟩
    show TrackdirToTrackdirBits .TRACKDIR_X_SW &&& DiagdirReachesTrackdirs .DIAGDIR_SW =
      TrackdirToTrackdirBits .TRACKDIR_X_SW
    decide
  have hstation : ∀ n, n ≤ 3 →
      g = { followerAt ft.m_veh_owner ft.m_allow_90deg ft.m_railtypes ft.m_new.toRailPathPos
              13 .TRACKDIR_X_SW .DIAGDIR_SW with
            m_flag := .TF_STATION, m_tiles_skipped := ((n : Nat) : Int) } →
      FollowerStepsOnTrack stationEndMap g := by
    intro n hn hg _
    subst hg
    refine ⟨fun hc => absurd rfl hc, fun _ => ⟨.TRACK_X, by rfl, ?_⟩⟩
    intro k hk
    have hk' : k ≤ n := by simpa using hk
    have hk3 : k ≤ 3 := Nat.le_trans hk' hn
    interval_cases k <;> exact ⟨by rfl, by rfl, by rfl⟩
  by_cases h9 : t = 9
  · subst h9
    exact hplain 9 (Option.some.inj h).symm
  by_cases h10 : t = 10
  · subst h10
    exact hstation 3 (by omega) (Option.some.inj h).symm
  by_cases h11 : t = 11
  · subst h11
    exact hstation 2 (by omega) (Option.some.inj h).symm
  by_cases h12 : t = 12
  · subst h12
    exact hstation 1 (by omega) (Option.some.inj h).symm
  by_cases h13 : t = 13
  · subst h13
    exact hstation 0 (by omega) (Option.some.inj h).symm
  have ht := stationEndMap_tiles_other t h9 h10 h11 h12 h13
  simp [IsRailStationTile, IsStationTile, GetTileType, ht, groundTile] at h

theorem FollowReservation_single_reserved_trackdir_witness :
    KillFirstTrackdirBit
        (DiagdirReachesTrackdirs .DIAGDIR_SW &&&
          TrackBitsToTrackdirBits (GetReservedTrackbits (mapWith junctionTile) 5))
          = TRACKDIR_BIT_NONE ∧
      (FollowReservation.reservedNew (mapWith junctionTile)
          { followerAt 0 true 0 RailPathPos.invalid 5 .INVALID_TRACKDIR .DIAGDIR_SW with
            m_new := { tile := 5, td := .INVALID_TRACKDIR, wormhole := INVALID_TILE,
                       trackdirs := DiagdirReachesTrackdirs .DIAGDIR_SW } }).map
        (fun ft => ft.m_new.td) = some .TRACKDIR_UPPER_W :=
  ⟨(FollowReservation_single_reserved_trackdir (mapWith junctionTile)
      { followerAt 0 true 0 RailPathPos.invalid 5 .INVALID_TRACKDIR .DIAGDIR_SW with
        m_new := { tile := 5, td := .INVALID_TRACKDIR, wormhole := INVALID_TILE,
                   trackdirs := DiagdirReachesTrackdirs .DIAGDIR_SW } }
      (by rfl) (by decide) (by decide) (by decide)).1, by decide⟩

theorem FollowReservation_end_reserved_witness :
    FollowReservation platformFollower 4 stationEndMap 0 0
        (RailPathPos.onTile 9 .TRACKDIR_X_SW) false
        = some (RailPathPos.onTile 11 .TRACKDIR_X_SW, false) ∧
      FollowReservation.path platformFollower 4 stationEndMap 0 0
        (RailPathPos.onTile 9 .TRACKDIR_X_SW) false
        = [RailPathPos.onTile 9 .TRACKDIR_X_SW, RailPathPos.onTile 11 .TRACKDIR_X_SW] ∧
      HasReservedPos stationEndMap (RailPathPos.onTile 11 .TRACKDIR_X_SW) = true ∧
      (∀ fuel p, p ∈ FollowReservation.path platformFollower fuel stationEndMap 0 0
          (RailPathPos.onTile 9 .TRACKDIR_X_SW) false →
        HasReservedPos stationEndMap p = true) :=
  ⟨by rfl, by rfl,
    (FollowReservation_end_reserved platformFollower stationEndMap 0 0
      (RailPathPos.onTile 9 .TRACKDIR_X_SW) false stationEndMap_no_overlap
      platformFollower_steps_on_track (by rfl)).1 4 _ _ (by rfl),
    (FollowReservation_end_reserved platformFollower stationEndMap 0 0
      (RailPathPos.onTile 9 .TRACKDIR_X_SW) false stationEndMap_no_overlap
      platformFollower_steps_on_track (by rfl)).2⟩

theorem FollowReservation_ignore_oneway_monotone_witness :
    FollowReservation.path lineFollower 5 blockedLineMap 0 0
        (RailPathPos.onTile 1 .TRACKDIR_X_SW) false <+:
      FollowReservation.path lineFollower 5 blockedLineMap 0 0
        (RailPathPos.onTile 1 .TRACKDIR_X_SW) true ∧
      FollowReservation.path lineFollower 5 blockedLineMap 0 0
        (RailPathPos.onTile 1 .TRACKDIR_X_SW) false =
        [RailPathPos.onTile 1 .TRACKDIR_X_SW, RailPathPos.onTile 2 .TRACKDIR_X_SW,
          RailPathPos.onTile 3 .TRACKDIR_X_SW] ∧
      FollowReservation.path lineFollower 5 blockedLineMap 0 0
        (RailPathPos.onTile 1 .TRACKDIR_X_SW) true =
        [RailPathPos.onTile 1 .TRACKDIR_X_SW, RailPathPos.onTile 2 .TRACKDIR_X_SW,
          RailPathPos.onTile 3 .TRACKDIR_X_SW, RailPathPos.onTile 4 .TRACKDIR_X_SW,
          RailPathPos.onTile 5 .TRACKDIR_X_SW] ∧
      FollowReservation lineFollower 5 blockedLineMap 0 0
        (RailPathPos.onTile 1 .TRACKDIR_X_SW) false
        = some (RailPathPos.onTile 3 .TRACKDIR_X_SW, true) ∧
      FollowReservation lineFollower 5 blockedLineMap 0 0
        (RailPathPos.onTile 1 .TRACKDIR_X_SW) true
        = some (RailPathPos.onTile 5 .TRACKDIR_X_SW, true) :=
  ⟨(FollowReservation_ignore_oneway_monotone lineFollower blockedLineMap 0 0
      (RailPathPos.onTile 1 .TRACKDIR_X_SW) 5 5 (le_refl 5)).1, by rfl, by rfl, by rfl, by rfl⟩

theorem ResizeButtons_adjacent_witness :
    ∃ w', ResizeButtons 4 (buttonRow 0 4 0 100) 0 4 = some w' ∧
      (∀ i, i < 0 ∨ 4 < i → w' i = buttonRow 0 4 0 100 i) ∧
      (w' 0).left = (buttonRow 0 4 0 100 0).left ∧
      (w' 4).right = (buttonRow 0 4 0 100 4).right ∧
      (∀ i, (w' i).top = (buttonRow 0 4 0 100 i).top ∧
        (w' i).bottom = (buttonRow 0 4 0 100 i).bottom) ∧
      (∀ i, 0 ≤ i → i < 4 →
        (w' (i + 1)).left = toInt16 ((w' i).right + 1) ∧
          ((w' i).right ≠ 32767 → (w' (i + 1)).left = (w' i).right + 1)) ∧
      (-32768 ≤ (buttonRow 0 4 0 100 0).left → (buttonRow 0 4 0 100 4).right ≤ 32767 →
        ((4 : Nat) : Int) - ((0 : Nat) : Int) ≤
          (buttonRow 0 4 0 100 4).right - (buttonRow 0 4 0 100 0).left →
        (buttonRow 0 4 0 100 4).right - (buttonRow 0 4 0 100 0).left ≤ 32767 →
        ∀ i, 0 ≤ i → i < 4 → (w' (i + 1)).left = (w' i).right + 1) :=
  ResizeButtons_adjacent 4 (buttonRow 0 4 0 100) 0 4 (by decide) (by decide) (by decide)

theorem NWidget_AssignSizePosition_distributes_witness :
    ((NWidgetHorizontal.AssignSizePosition (NWidgetHorizontal.SetupSmallestSize Nat.lcm spacerRow).1
        0 0 55 60 true true false).map (fun r => r.2.map (fun k => k.given_width))
        = some [12, 20, 13] ∧
      (NWidgetVertical.AssignSizePosition (NWidgetVertical.SetupSmallestSize Nat.lcm spacerRow).1
        0 0 55 60 true true false).map (fun r => r.2.map (fun k => k.given_height))
        = some [19, 12, 19]) ∧
    ((∃ c' calls,
      NWidgetHorizontal.AssignSizePosition (NWidgetHorizontal.SetupSmallestSize Nat.lcm spacerRow).1
        0 0 55 60 true true false = some (c', calls) ∧
      calls.map (fun k => k.child) =
        (if false = true then
            (NWidgetHorizontal.SetupSmallestSize Nat.lcm spacerRow).1.children.reverse
          else (NWidgetHorizontal.SetupSmallestSize Nat.lcm spacerRow).1.children).map
            (fun ch => ch.base) ∧
      AssignCall.widths calls = 55 ∧
      (∀ k ∈ calls, k.child.fill_x = false → k.given_width = k.child.smallest_x) ∧
      (∀ k ∈ calls, k.child.smallest_x ≤ k.given_width) ∧
      (∀ k ∈ calls, ∀ k' ∈ calls, k.child.fill_x = true → k'.child.fill_x = true →
        k.given_width - k.child.smallest_x ≤ k'.given_width - k'.child.smallest_x + 1)) ∧
    (∃ d' calls,
      NWidgetVertical.AssignSizePosition (NWidgetVertical.SetupSmallestSize Nat.lcm spacerRow).1
        0 0 55 60 true true false = some (d', calls) ∧
      calls.map (fun k => k.child) =
        (NWidgetVertical.SetupSmallestSize Nat.lcm spacerRow).1.children.map (fun ch => ch.base) ∧
      AssignCall.heights calls = 60 ∧
      (∀ k ∈ calls, k.child.fill_y = false → k.given_height = k.child.smallest_y) ∧
      (∀ k ∈ calls, k.child.smallest_y ≤ k.given_height) ∧
      (∀ k ∈ calls, ∀ k' ∈ calls, k.child.fill_y = true → k'.child.fill_y = true →
        k.given_height - k.child.smallest_y ≤ k'.given_height - k'.child.smallest_y + 1))) :=
  ⟨⟨by rfl, by rfl⟩,
    NWidget_AssignSizePosition_distributes Nat.lcm spacerRow spacerRow 0 0 55 60 true true false
      0 0 55 60 true true false (by decide) (by decide) (by decide) (by decide)
      ⟨_, List.mem_cons_self _ _, rfl⟩ (by decide) (by decide) (by decide) (by decide)
      ⟨_, List.mem_cons_self _ _, rfl⟩⟩

end PBS
